import Mathlib

/-!
# KallistiOS `libkosfat`: a shallow embedding of the FAT engine

The definitions below follow `addons/libkosfat/{fat.c, fatfs.c, bpb.c}`.

Modelling conventions.

* C unsigned integers are natural numbers; every operation that can leave the
  range of its C type is followed by an explicit reduction (`u32`, `u16`, `u8`).
* A byte buffer (`uint8_t *`) is a function from byte offsets to bytes.  A load of a
  `uint8_t` is `ld8`, which reduces modulo 256, so every loaded value is a byte.
* The cache records (`fat_cache_t`) live in a heap `mem`, indexed by address.  The
  arrays `bcache` / `fcache` of record pointers are functions from indices to
  addresses.  The pointer `cache[i]->data` handed out by the cache is represented by
  the address of the record that owns the buffer.
* `int *err` out-parameters are threaded through as an extra argument and result.
* The block device is a parameter: its contents, and the return code of every
  `read_blocks` / `write_blocks` request.
-/

namespace KosFat

/-! ## Machine integers -/

/-- Reduction to `uint32_t`. -/
def u32 (n : Nat) : Nat := n % 2 ^ 32

/-- Reduction to `uint16_t`. -/
def u16 (n : Nat) : Nat := n % 2 ^ 16

/-- Reduction to `uint8_t`. -/
def u8 (n : Nat) : Nat := n % 2 ^ 8

/-- Load of one `uint8_t` from a buffer. -/
def ld8 (buf : Nat → Nat) (off : Nat) : Nat := buf off % 256

/-- Store of one `uint8_t` into a buffer (`buf[off] = (uint8_t)v`). -/
def st8 (buf : Nat → Nat) (off v : Nat) : Nat → Nat :=
  fun o => if o = off then v % 256 else buf o

/-! ## Constants (`fatfs.h`, `fatinternal.h`, `bpb.h`, `errno.h`) -/

def FAT_CACHE_FLAG_VALID : Nat := 1
def FAT_CACHE_FLAG_DIRTY : Nat := 2

def FAT_MNT_FLAG_RO : Nat := 0
def FAT_MNT_FLAG_RW : Nat := 1
def FAT_MNT_VALID_FLAGS_MASK : Nat := 1

def FAT_FS_FAT12 : Nat := 0
def FAT_FS_FAT16 : Nat := 1
def FAT_FS_FAT32 : Nat := 2

def FAT_FREE_CLUSTER : Nat := 0x00000000
def FAT_INVALID_CLUSTER : Nat := 0xFFFFFFFF

def FAT_EOC_FAT32 : Nat := 0x0FFFFFF8
def FAT_EOC_FAT16 : Nat := 0xFFF8
def FAT_EOC_FAT12 : Nat := 0x0FF8

def FAT_MAX_FAT12_CLUSTERS : Nat := 4084
def FAT_MAX_FAT16_CLUSTERS : Nat := 65524

def FAT32_FSINFO_SIG1 : Nat := 0x41615252
def FAT32_FSINFO_SIG2 : Nat := 0x61417272
def FAT32_FSINFO_SIG3 : Nat := 0xAA550000

def FAT_CACHE_BLOCKS : Nat := 8
def FAT_FCACHE_BLOCKS : Nat := 8

def EIO : Int := 5
def EBADF : Int := 9
def ENOMEM : Int := 12
def EINVAL : Int := 22
def ENOSPC : Int := 28
def EROFS : Int := 30

/-! ## Data model -/

/-- The block device (`kos_blockdev_t`): `dev_data b off` is byte `off` of block `b`;
`read_rc b c` / `write_rc b c` is the return code of a request for `c` blocks at `b`. -/
structure kos_blockdev_t where
  l_block_size : Nat
  dev_data : Nat → Nat → Nat
  init_rc : Int
  read_rc : Nat → Nat → Int
  write_rc : Nat → Nat → Int

/-- The superblock `fat_superblock_t` of `bpb.h`. -/
structure fat_superblock_t where
  num_sectors : Nat
  fat_size : Nat
  root_dir : Nat
  num_clusters : Nat
  first_data_block : Nat
  free_clusters : Nat
  last_alloc_cluster : Nat
  fsinfo_sector : Nat
  backup_bpb : Nat
  volume_id : Nat → Nat
  volume_label : Nat → Nat
  fs_type : Nat
  bytes_per_sector : Nat
  reserved_sectors : Nat
  sectors_per_cluster : Nat
  num_fats : Nat

/-- A cache record `fat_cache_t` of `fatinternal.h`. -/
structure fat_cache_t where
  flags : Nat
  block : Nat
  data : Nat → Nat

/-- The filesystem object `struct fatfs_struct`; `mem` is the heap holding the cache
records that the two pointer arrays refer to. -/
structure fat_fs_t where
  dev : kos_blockdev_t
  sb : fat_superblock_t
  mem : Nat → fat_cache_t
  bcache : Nat → Nat
  cache_size : Nat
  fcache : Nat → Nat
  fcache_size : Nat
  flags : Nat
  mnt_flags : Nat

/-! ## Block device requests -/

/-- The call `bd->read_blocks(bd, block, count, buf)`: on return code 0 the first
`count` blocks' worth of `buf` holds the device contents. -/
def read_blocks (d : kos_blockdev_t) (block count : Nat) (buf : Nat → Nat) :
    Int × (Nat → Nat) :=
  if d.read_rc block count = 0 then
    (0, fun off =>
      if off < count * 2 ^ d.l_block_size then
        d.dev_data (block + off / 2 ^ d.l_block_size) (off % 2 ^ d.l_block_size)
      else buf off)
  else (d.read_rc block count, buf)

/-- The call `bd->write_blocks(bd, block, count, buf)`. -/
def write_blocks (d : kos_blockdev_t) (block count : Nat) (buf : Nat → Nat) :
    Int × kos_blockdev_t :=
  if d.write_rc block count = 0 then
    (0, { d with
          dev_data := fun b off =>
            if block ≤ b ∧ b < block + count ∧ off < 2 ^ d.l_block_size then
              buf ((b - block) * 2 ^ d.l_block_size + off)
            else d.dev_data b off })
  else (d.write_rc block count, d)

/-! ## `fat.c`: the FAT block cache -/

/-- Update of one heap record. -/
def mem_set (mem : Nat → fat_cache_t) (p : Nat) (r : fat_cache_t) : Nat → fat_cache_t :=
  fun q => if q = p then r else mem q

/-- The assignment `cache[i] = v` on a pointer array. -/
def arr_set (cache : Nat → Nat) (i v : Nat) : Nat → Nat :=
  fun j => if j = i then v else cache j

/-- The loop `for(i = block; i < cache_size - 1; ++i) cache[i] = cache[i + 1];` of
`make_mru`, with `n` the number of iterations left. -/
def make_mru_loop (cache : Nat → Nat) : Nat → Nat → (Nat → Nat)
  | _, 0 => cache
  | i, n + 1 => make_mru_loop (arr_set cache i (cache (i + 1))) (i + 1) n

/-- The function `make_mru` of `fat.c` (which reads `fs->cache_size`). -/
def make_mru (fs : fat_fs_t) (cache : Nat → Nat) (block : Nat) : Nat → Nat :=
  if block ≥ fs.cache_size - 1 then cache
  else
    arr_set (make_mru_loop cache block (fs.cache_size - 1 - block))
      (fs.cache_size - 1) (cache block)

/-- The function `fat_fatblock_read_nc`. -/
def fat_fatblock_read_nc (fs : fat_fs_t) (bn : Nat) (rv : Nat → Nat) :
    Int × (Nat → Nat) :=
  if fs.sb.fat_size ≤ bn then (-EINVAL, rv)
  else if (read_blocks fs.dev bn 1 rv).1 ≠ 0 then (- EIO, (read_blocks fs.dev bn 1 rv).2)
  else (0, (read_blocks fs.dev bn 1 rv).2)

/-- The function `fat_fatblock_write_nc`. -/
def fat_fatblock_write_nc (fs : fat_fs_t) (bn : Nat) (blk : Nat → Nat) :
    Int × kos_blockdev_t :=
  if fs.sb.fat_size ≤ bn then (-EINVAL, fs.dev)
  else if (write_blocks fs.dev bn 1 blk).1 ≠ 0 then (- EIO, (write_blocks fs.dev bn 1 blk).2)
  else (0, (write_blocks fs.dev bn 1 blk).2)

/-- The search loop `for(i = fcache_size - 1; i >= 0; --i)` over the FAT cache: the
highest index below the bound whose record is valid and holds `block`. -/
def fcache_scan (fs : fat_fs_t) (block : Nat) : Nat → Option Nat
  | 0 => none
  | i + 1 =>
    if (fs.mem (fs.fcache i)).block = block ∧ (fs.mem (fs.fcache i)).flags ≠ 0 then some i
    else fcache_scan fs block i

/-- The step "if the block is dirty, we write it back out" of `fat_read_fatblock`, on
the record in slot 0: the return code of the write (0 when nothing is written) and the
new state. -/
def evict_writeback (fs : fat_fs_t) : Int × fat_fs_t :=
  if (fs.mem (fs.fcache 0)).flags &&& FAT_CACHE_FLAG_DIRTY ≠ 0 then
    ((fat_fatblock_write_nc fs (fs.mem (fs.fcache 0)).block (fs.mem (fs.fcache 0)).data).1,
      { fs with
        dev := (fat_fatblock_write_nc fs (fs.mem (fs.fcache 0)).block
          (fs.mem (fs.fcache 0)).data).2 })
  else (0, fs)

/-- The step "try to read the block in question" of `fat_read_fatblock`, into the
record in slot 0, with the bookkeeping that follows it. -/
def fcache_fill (fs : fat_fs_t) (block : Nat) (err : Int) : Option Nat × Int × fat_fs_t :=
  if (fat_fatblock_read_nc fs block (fs.mem (fs.fcache 0)).data).1 ≠ 0 then
    (none, EIO,
      { fs with
        mem := mem_set fs.mem (fs.fcache 0)
          { flags := 0, block := (fs.mem (fs.fcache 0)).block,
            data := (fat_fatblock_read_nc fs block (fs.mem (fs.fcache 0)).data).2 } })
  else
    (some (fs.fcache 0), err,
      { fs with
        mem := mem_set fs.mem (fs.fcache 0)
          { flags := FAT_CACHE_FLAG_VALID, block := block,
            data := (fat_fatblock_read_nc fs block (fs.mem (fs.fcache 0)).data).2 }
        fcache := make_mru fs fs.fcache 0 })

/-- The function `fat_read_fatblock`: the result is the address of the record whose
buffer is returned (`none` for `NULL`), the value of `*err`, and the new state. -/
def fat_read_fatblock (fs : fat_fs_t) (block : Nat) (err : Int) :
    Option Nat × Int × fat_fs_t :=
  match fcache_scan fs block fs.fcache_size with
  | some i => (some (fs.fcache i), err, { fs with fcache := make_mru fs fs.fcache i })
  | none =>
    if (evict_writeback fs).1 ≠ 0 then (none, EIO, (evict_writeback fs).2)
    else fcache_fill (evict_writeback fs).2 block err

/-- The function `fat_fatblock_mark_dirty`. -/
def fat_fatblock_mark_dirty (fs : fat_fs_t) (bn : Nat) : Int × fat_fs_t :=
  match fcache_scan fs bn fs.fcache_size with
  | some i =>
    (0, { fs with
      mem := mem_set fs.mem (fs.fcache i)
        { fs.mem (fs.fcache i) with
          flags := (fs.mem (fs.fcache i)).flags ||| FAT_CACHE_FLAG_DIRTY }
      fcache := make_mru fs fs.fcache i })
  | none => (-EINVAL, fs)

/-- The store `blk[off] = (uint8_t)v` through a buffer pointer handed out by the cache. -/
def poke (fs : fat_fs_t) (p off v : Nat) : fat_fs_t :=
  { fs with mem := mem_set fs.mem p { fs.mem p with data := st8 (fs.mem p).data off v } }

/-- The load `blk[off]` through a buffer pointer handed out by the cache. -/
def peek (fs : fat_fs_t) (p off : Nat) : Nat := ld8 (fs.mem p).data off

/-! ## `fat.c`: FAT entries -/

/-- The function `fat_is_eof`. -/
def fat_is_eof (fs : fat_fs_t) (cl : Nat) : Int :=
  if fs.sb.fs_type = FAT_FS_FAT32 then
    if cl &&& 0x0FFFFFFF ≥ FAT_EOC_FAT32 then 1 else 0
  else if fs.sb.fs_type = FAT_FS_FAT16 then
    if cl ≥ FAT_EOC_FAT16 ∧ cl &&& 0x80000000 = 0 then 1 else 0
  else if fs.sb.fs_type = FAT_FS_FAT12 then
    if cl ≥ FAT_EOC_FAT12 ∧ cl &&& 0x80000000 = 0 then 1 else 0
  else -1

/-- The function `fat_read_fat`: the returned value, `*err`, and the new state.
(`bytes_per_sector` is non-zero on every call: the C code divides by it.) -/
def fat_read_fat (fs : fat_fs_t) (cl : Nat) (err : Int) : Nat × Int × fat_fs_t :=
  if fs.sb.fs_type = FAT_FS_FAT32 then
    match fat_read_fatblock fs
        (u32 (fs.sb.reserved_sectors + u32 (cl <<< 2) / fs.sb.bytes_per_sector)) err with
    | (none, e, fs1) => (FAT_INVALID_CLUSTER, e, fs1)
    | (some blk, e, fs1) =>
      (peek fs1 blk (u32 (cl <<< 2) &&& (fs.sb.bytes_per_sector - 1)) |||
        (peek fs1 blk ((u32 (cl <<< 2) &&& (fs.sb.bytes_per_sector - 1)) + 1) <<< 8) |||
        (peek fs1 blk ((u32 (cl <<< 2) &&& (fs.sb.bytes_per_sector - 1)) + 2) <<< 16) |||
        (peek fs1 blk ((u32 (cl <<< 2) &&& (fs.sb.bytes_per_sector - 1)) + 3) <<< 24),
        e, fs1)
  else if fs.sb.fs_type = FAT_FS_FAT16 then
    match fat_read_fatblock fs
        (u32 (fs.sb.reserved_sectors + u32 (cl <<< 1) / fs.sb.bytes_per_sector)) err with
    | (none, e, fs1) => (FAT_INVALID_CLUSTER, e, fs1)
    | (some blk, e, fs1) =>
      (peek fs1 blk (u32 (cl <<< 1) &&& (fs.sb.bytes_per_sector - 1)) |||
        (peek fs1 blk ((u32 (cl <<< 1) &&& (fs.sb.bytes_per_sector - 1)) + 1) <<< 8),
        e, fs1)
  else if fs.sb.fs_type = FAT_FS_FAT12 then
    match fat_read_fatblock fs
        (u32 (fs.sb.reserved_sectors + u32 ((cl >>> 1) + cl) / fs.sb.bytes_per_sector))
        err with
    | (none, e, fs1) => (0xFFFFFFFF, e, fs1)
    | (some blk, e, fs1) =>
      if u32 ((cl >>> 1) + cl) &&& (fs.sb.bytes_per_sector - 1) =
          u16 (fs.sb.bytes_per_sector - 1) then
        match fat_read_fatblock fs1
            (u32 (u32 (fs.sb.reserved_sectors +
              u32 ((cl >>> 1) + cl) / fs.sb.bytes_per_sector) + 1)) e with
        | (none, e2, fs2) => (FAT_INVALID_CLUSTER, e2, fs2)
        | (some blk2, e2, fs2) =>
          ((peek fs2 blk (u32 ((cl >>> 1) + cl) &&& (fs.sb.bytes_per_sector - 1)) |||
            (peek fs2 blk2 0 <<< 8)) >>> 4, e2, fs2)
      else if cl &&& 1 ≠ 0 then
        ((peek fs1 blk (u32 ((cl >>> 1) + cl) &&& (fs.sb.bytes_per_sector - 1)) |||
          (peek fs1 blk ((u32 ((cl >>> 1) + cl) &&& (fs.sb.bytes_per_sector - 1)) + 1)
            <<< 8)) >>> 4, e, fs1)
      else
        ((peek fs1 blk (u32 ((cl >>> 1) + cl) &&& (fs.sb.bytes_per_sector - 1)) |||
          (peek fs1 blk ((u32 ((cl >>> 1) + cl) &&& (fs.sb.bytes_per_sector - 1)) + 1)
            <<< 8)) &&& 0x0FFF, e, fs1)
  else (FAT_INVALID_CLUSTER, EBADF, fs)

/-- The four stores of the FAT32 case of `fat_write_fat` into the buffer `blk`. -/
def write_fat32_entry (fs : fat_fs_t) (blk off val : Nat) : fat_fs_t :=
  let fs1 := poke fs blk off val
  let fs2 := poke fs1 blk (off + 1) (val >>> 8)
  let fs3 := poke fs2 blk (off + 2) (val >>> 16)
  poke fs3 blk (off + 3) ((peek fs3 blk (off + 3) &&& 0xF0) ||| ((val >>> 24) &&& 0x0F))

/-- The two stores of the FAT16 case of `fat_write_fat`. -/
def write_fat16_entry (fs : fat_fs_t) (blk off val : Nat) : fat_fs_t :=
  poke (poke fs blk off val) blk (off + 1) (val >>> 8)

/-- The stores of the FAT12 case of `fat_write_fat` for an odd cluster whose entry
lies in one sector (`val <<= 4` included). -/
def write_fat12_odd (fs : fat_fs_t) (blk off val : Nat) : fat_fs_t :=
  let fs1 := poke fs blk off ((peek fs blk off &&& 0x0F) ||| (u32 (val <<< 4) &&& 0xF0))
  poke fs1 blk (off + 1) (u32 (val <<< 4) >>> 8)

/-- The stores of the FAT12 case of `fat_write_fat` for an even cluster. -/
def write_fat12_even (fs : fat_fs_t) (blk off val : Nat) : fat_fs_t :=
  let fs1 := poke fs blk (off + 1) ((peek fs blk (off + 1) &&& 0xF0) ||| ((val >>> 8) &&& 0x0F))
  poke fs1 blk off val

/-- The stores of the FAT12 case of `fat_write_fat` for an entry spanning two sectors. -/
def write_fat12_span (fs : fat_fs_t) (blk blk2 off val : Nat) : fat_fs_t :=
  let fs1 := poke fs blk off ((peek fs blk off &&& 0x0F) ||| (u32 (val <<< 4) &&& 0xF0))
  poke fs1 blk2 0 (u32 (val <<< 4) >>> 8)

/-- The function `fat_write_fat`: the return value and the new state.  The local `err`
is only read after `fat_read_fatblock` has stored to it. -/
def fat_write_fat (fs : fat_fs_t) (cl val : Nat) : Int × fat_fs_t :=
  if fs.mnt_flags &&& FAT_MNT_FLAG_RW = 0 then (-EROFS, fs)
  else if fs.sb.fs_type = FAT_FS_FAT32 then
    match fat_read_fatblock fs
        (u32 (fs.sb.reserved_sectors + u32 (cl <<< 2) / fs.sb.bytes_per_sector)) 0 with
    | (none, e, fs1) => (e, fs1)
    | (some blk, _, fs1) =>
      (0, (fat_fatblock_mark_dirty
        (write_fat32_entry fs1 blk (u32 (cl <<< 2) &&& (fs.sb.bytes_per_sector - 1)) val)
        (u32 (fs.sb.reserved_sectors + u32 (cl <<< 2) / fs.sb.bytes_per_sector))).2)
  else if fs.sb.fs_type = FAT_FS_FAT16 then
    match fat_read_fatblock fs
        (u32 (fs.sb.reserved_sectors + u32 (cl <<< 1) / fs.sb.bytes_per_sector)) 0 with
    | (none, e, fs1) => (e, fs1)
    | (some blk, _, fs1) =>
      (0, (fat_fatblock_mark_dirty
        (write_fat16_entry fs1 blk (u32 (cl <<< 1) &&& (fs.sb.bytes_per_sector - 1)) val)
        (u32 (fs.sb.reserved_sectors + u32 (cl <<< 1) / fs.sb.bytes_per_sector))).2)
  else if fs.sb.fs_type = FAT_FS_FAT12 then
    match fat_read_fatblock fs
        (u32 (fs.sb.reserved_sectors + u32 ((cl >>> 1) + cl) / fs.sb.bytes_per_sector))
        0 with
    | (none, e, fs1) => (e, fs1)
    | (some blk, e, fs1) =>
      if u32 ((cl >>> 1) + cl) &&& (fs.sb.bytes_per_sector - 1) =
          u16 (fs.sb.bytes_per_sector - 1) then
        match fat_read_fatblock fs1
            (u32 (u32 (fs.sb.reserved_sectors +
              u32 ((cl >>> 1) + cl) / fs.sb.bytes_per_sector) + 1)) e with
        | (none, e2, fs2) => (e2, fs2)
        | (some blk2, _, fs2) =>
          (0, (fat_fatblock_mark_dirty
            (fat_fatblock_mark_dirty
              (write_fat12_span fs2 blk blk2
                (u32 ((cl >>> 1) + cl) &&& (fs.sb.bytes_per_sector - 1)) val)
              (u32 (fs.sb.reserved_sectors +
                u32 ((cl >>> 1) + cl) / fs.sb.bytes_per_sector))).2
            (u32 (u32 (fs.sb.reserved_sectors +
              u32 ((cl >>> 1) + cl) / fs.sb.bytes_per_sector) + 1))).2)
      else if cl &&& 1 ≠ 0 then
        (0, (fat_fatblock_mark_dirty
          (write_fat12_odd fs1 blk (u32 ((cl >>> 1) + cl) &&& (fs.sb.bytes_per_sector - 1)) val)
          (u32 (fs.sb.reserved_sectors +
            u32 ((cl >>> 1) + cl) / fs.sb.bytes_per_sector))).2)
      else
        (0, (fat_fatblock_mark_dirty
          (write_fat12_even fs1 blk (u32 ((cl >>> 1) + cl) &&& (fs.sb.bytes_per_sector - 1)) val)
          (u32 (fs.sb.reserved_sectors +
            u32 ((cl >>> 1) + cl) / fs.sb.bytes_per_sector))).2)
  else (0, fs)

/-! ## `fat.c`: cluster allocation

A loop that can `return` from the function yields `Sum.inl` of the function result;
a loop left through its condition yields `Sum.inr` of the state it leaves behind. -/

/-- The loop `while(i < last)` of the FAT32 case of `fat_allocate_cluster`; the first
argument bounds the number of iterations (`last - i` on entry, `i` grows by one). -/
def alloc_fat32_loop (last : Nat) :
    Nat → fat_fs_t → Int → Nat → Nat → Nat → Nat →
      (Nat × Int × fat_fs_t) ⊕ (Int × fat_fs_t)
  | 0, fs, err, _, _, _, _ => Sum.inr (err, fs)
  | n + 1, fs, err, i, cl, sn, blk =>
    if ¬ i < last then Sum.inr (err, fs)
    else if
        peek fs blk (cl &&& (fs.sb.bytes_per_sector - 1)) |||
          (peek fs blk ((cl &&& (fs.sb.bytes_per_sector - 1)) + 1) <<< 8) |||
          (peek fs blk ((cl &&& (fs.sb.bytes_per_sector - 1)) + 2) <<< 16) |||
          (peek fs blk ((cl &&& (fs.sb.bytes_per_sector - 1)) + 3) <<< 24) = 0 then
      let off := cl &&& (fs.sb.bytes_per_sector - 1)
      let fs1 := poke fs blk off 0xFF
      let fs2 := poke fs1 blk (off + 1) 0xFF
      let fs3 := poke fs2 blk (off + 2) 0xFF
      let fs4 := poke fs3 blk (off + 3) ((peek fs3 blk (off + 3) &&& 0xF0) ||| 0x0F)
      let fs5 := (fat_fatblock_mark_dirty fs4 sn).2
      Sum.inl (i, err,
        { fs5 with
          sb := { fs5.sb with
                  last_alloc_cluster := i
                  free_clusters := u32 (fs5.sb.free_clusters + 2 ^ 32 - 1) } })
    else if u32 (i + 1) &&& u32 ((fs.sb.bytes_per_sector >>> 2) + 2 ^ 32 - 1) = 0 ∧
        u32 (i + 1) < u32 (fs.sb.num_clusters + 2) then
      match fat_read_fatblock fs (u32 (sn + 1)) err with
      | (none, e, fs1) => Sum.inl (FAT_INVALID_CLUSTER, e, fs1)
      | (some blk2, e, fs1) =>
        alloc_fat32_loop last n fs1 e (u32 (i + 1)) (u32 (cl + 4)) (u32 (sn + 1)) blk2
    else alloc_fat32_loop last n fs err (u32 (i + 1)) (u32 (cl + 4)) sn blk

/-- The code from the label `retry_fat32` to the end of the `while` loop. -/
def alloc_fat32_pass (fs : fat_fs_t) (err : Int) (i last : Nat) :
    (Nat × Int × fat_fs_t) ⊕ (Int × fat_fs_t) :=
  match fat_read_fatblock fs
      (u32 (fs.sb.reserved_sectors + u32 (i <<< 2) / fs.sb.bytes_per_sector)) err with
  | (none, e, fs1) => Sum.inl (FAT_INVALID_CLUSTER, e, fs1)
  | (some blk, e, fs1) =>
    alloc_fat32_loop last (last - i) fs1 e i (u32 (i <<< 2))
      (u32 (fs.sb.reserved_sectors + u32 (i <<< 2) / fs.sb.bytes_per_sector)) blk

/-- The loop `while(i < last)` of the FAT16 case of `fat_allocate_cluster`. -/
def alloc_fat16_loop (last : Nat) :
    Nat → fat_fs_t → Int → Nat → Nat → Nat → Nat →
      (Nat × Int × fat_fs_t) ⊕ (Int × fat_fs_t)
  | 0, fs, err, _, _, _, _ => Sum.inr (err, fs)
  | n + 1, fs, err, i, cl, sn, blk =>
    if ¬ i < last then Sum.inr (err, fs)
    else if
        peek fs blk (cl &&& (fs.sb.bytes_per_sector - 1)) |||
          (peek fs blk ((cl &&& (fs.sb.bytes_per_sector - 1)) + 1) <<< 8) = 0 then
      let off := cl &&& (fs.sb.bytes_per_sector - 1)
      let fs1 := poke fs blk off 0xFF
      let fs2 := poke fs1 blk (off + 1) 0xFF
      let fs3 := (fat_fatblock_mark_dirty fs2 sn).2
      Sum.inl (i, err, { fs3 with sb := { fs3.sb with last_alloc_cluster := i } })
    else if u32 (i + 1) &&& u32 ((fs.sb.bytes_per_sector >>> 1) + 2 ^ 32 - 1) = 0 ∧
        u32 (i + 1) < u32 (fs.sb.num_clusters + 2) then
      match fat_read_fatblock fs (u32 (sn + 1)) err with
      | (none, e, fs1) => Sum.inl (FAT_INVALID_CLUSTER, e, fs1)
      | (some blk2, e, fs1) =>
        alloc_fat16_loop last n fs1 e (u32 (i + 1)) (u32 (cl + 2)) (u32 (sn + 1)) blk2
    else alloc_fat16_loop last n fs err (u32 (i + 1)) (u32 (cl + 2)) sn blk

/-- The code from the label `retry_fat16` to the end of the `while` loop. -/
def alloc_fat16_pass (fs : fat_fs_t) (err : Int) (i last : Nat) :
    (Nat × Int × fat_fs_t) ⊕ (Int × fat_fs_t) :=
  match fat_read_fatblock fs
      (u32 (fs.sb.reserved_sectors + u32 (i <<< 1) / fs.sb.bytes_per_sector)) err with
  | (none, e, fs1) => Sum.inl (FAT_INVALID_CLUSTER, e, fs1)
  | (some blk, e, fs1) =>
    alloc_fat16_loop last (last - i) fs1 e i (u32 (i <<< 1))
      (u32 (fs.sb.reserved_sectors + u32 (i <<< 1) / fs.sb.bytes_per_sector)) blk

/-- The body shared by the two `for` loops of the FAT12 case. -/
def alloc_fat12_body (fs : fat_fs_t) (err : Int) (i : Nat) :
    (Nat × Int × fat_fs_t) ⊕ (Int × fat_fs_t) :=
  match fat_read_fat fs i err with
  | (cl, e, fs1) =>
    if cl = 0 then
      if (fat_write_fat fs1 i 0x0FFF).1 < 0 then
        Sum.inl (FAT_INVALID_CLUSTER, (fat_write_fat fs1 i 0x0FFF).1,
          (fat_write_fat fs1 i 0x0FFF).2)
      else
        Sum.inr ((fat_write_fat fs1 i 0x0FFF).1,
          { (fat_write_fat fs1 i 0x0FFF).2 with
            sb := { (fat_write_fat fs1 i 0x0FFF).2.sb with last_alloc_cluster := i } })
    else if cl = FAT_INVALID_CLUSTER then Sum.inl (cl, e, fs1)
    else Sum.inr (e, fs1)

/-- The first FAT12 loop, `for(i = last_alloc_cluster + 1; i < num_clusters + 2; ++i)`. -/
def alloc_fat12_loop1 :
    Nat → fat_fs_t → Int → Nat → (Nat × Int × fat_fs_t) ⊕ (Int × fat_fs_t)
  | 0, fs, err, _ => Sum.inr (err, fs)
  | n + 1, fs, err, i =>
    if ¬ i < u32 (fs.sb.num_clusters + 2) then Sum.inr (err, fs)
    else
      match alloc_fat12_body fs err i with
      | Sum.inl r => Sum.inl r
      | Sum.inr (e, fs1) => alloc_fat12_loop1 n fs1 e (u32 (i + 1))

/-- The second FAT12 loop, `for(i = 2; i < last_alloc_cluster + 1; ++i)`; the bound is
read again before every iteration. -/
def alloc_fat12_loop2 :
    Nat → fat_fs_t → Int → Nat → (Nat × Int × fat_fs_t) ⊕ (Int × fat_fs_t)
  | 0, fs, err, _ => Sum.inr (err, fs)
  | n + 1, fs, err, i =>
    if ¬ i < u32 (fs.sb.last_alloc_cluster + 1) then Sum.inr (err, fs)
    else
      match alloc_fat12_body fs err i with
      | Sum.inl r => Sum.inl r
      | Sum.inr (e, fs1) => alloc_fat12_loop2 n fs1 e (u32 (i + 1))

/-- The function `fat_allocate_cluster`.  The iteration bounds passed to the loops are
the distances to the loop limits on entry (`2 ^ 32` for the loop with a moving limit),
so the loops are always left through their own conditions. -/
def fat_allocate_cluster (fs : fat_fs_t) (err : Int) : Nat × Int × fat_fs_t :=
  if fs.mnt_flags &&& FAT_MNT_FLAG_RW = 0 then (FAT_INVALID_CLUSTER, EROFS, fs)
  else if fs.sb.fs_type = FAT_FS_FAT32 then
    match alloc_fat32_pass fs err (u32 (fs.sb.last_alloc_cluster + 1))
        (u32 (fs.sb.num_clusters + 2)) with
    | Sum.inl r => r
    | Sum.inr (e, fs1) =>
      match alloc_fat32_pass fs1 e 2 fs1.sb.last_alloc_cluster with
      | Sum.inl r => r
      | Sum.inr (_, fs2) => (FAT_INVALID_CLUSTER, ENOSPC, fs2)
  else if fs.sb.fs_type = FAT_FS_FAT16 then
    match alloc_fat16_pass fs err (u32 (fs.sb.last_alloc_cluster + 1))
        (u32 (fs.sb.num_clusters + 2)) with
    | Sum.inl r => r
    | Sum.inr (e, fs1) =>
      match alloc_fat16_pass fs1 e 2 fs1.sb.last_alloc_cluster with
      | Sum.inl r => r
      | Sum.inr (_, fs2) => (FAT_INVALID_CLUSTER, ENOSPC, fs2)
  else if fs.sb.fs_type = FAT_FS_FAT12 then
    match alloc_fat12_loop1
        (u32 (fs.sb.num_clusters + 2) - u32 (fs.sb.last_alloc_cluster + 1)) fs err
        (u32 (fs.sb.last_alloc_cluster + 1)) with
    | Sum.inl r => r
    | Sum.inr (e, fs1) =>
      match alloc_fat12_loop2 (2 ^ 32) fs1 e 2 with
      | Sum.inl r => r
      | Sum.inr (_, fs2) => (FAT_INVALID_CLUSTER, ENOSPC, fs2)
  else (FAT_INVALID_CLUSTER, EBADF, fs)

/-! ## `fat.c`: chain erasure -/

/-- The loop `while(!fat_is_eof(fs, cluster))` of `fat_erase_chain`.  The loop has no
bound of its own, so the first argument limits the number of iterations and `none`
means that the limit was reached.  (`dbglog` only prints.) -/
def fat_erase_chain_loop : Nat → fat_fs_t → Nat → Int → Option (Int × fat_fs_t)
  | 0, _, _, _ => none
  | n + 1, fs, cluster, err =>
    if fat_is_eof fs cluster ≠ 0 then some (0, fs)
    else
      match fat_read_fat fs cluster err with
      | (next, e, fs1) =>
        if next = FAT_INVALID_CLUSTER then some (-e, fs1)
        else
          fat_erase_chain_loop n
            { (fat_write_fat fs1 cluster FAT_FREE_CLUSTER).2 with
              sb := { (fat_write_fat fs1 cluster FAT_FREE_CLUSTER).2.sb with
                      free_clusters :=
                        u32 ((fat_write_fat fs1 cluster FAT_FREE_CLUSTER).2.sb.free_clusters
                          + 1) } }
            next (fat_write_fat fs1 cluster FAT_FREE_CLUSTER).1

/-- The function `fat_erase_chain`, with `fuel` the iteration limit of its loop. -/
def fat_erase_chain (fuel : Nat) (fs : fat_fs_t) (cluster : Nat) : Option (Int × fat_fs_t) :=
  if fs.mnt_flags &&& FAT_MNT_FLAG_RW = 0 then some (-EROFS, fs)
  else fat_erase_chain_loop fuel fs cluster 0

/-! ## `bpb.c`: the boot block

The boot block `fat_bootblock_t` is a packed structure of byte arrays, so it is the
512-byte sector itself; a field is the byte at its offset in the packed layout. -/

def bpb_bytes_per_sector (bb : Nat → Nat) (i : Nat) : Nat := ld8 bb (11 + i)
def bpb_sectors_per_cluster (bb : Nat → Nat) : Nat := ld8 bb 13
def bpb_reserved_sectors (bb : Nat → Nat) (i : Nat) : Nat := ld8 bb (14 + i)
def bpb_num_fats (bb : Nat → Nat) : Nat := ld8 bb 16
def bpb_root_dir_entries (bb : Nat → Nat) (i : Nat) : Nat := ld8 bb (17 + i)
def bpb_num_sectors16 (bb : Nat → Nat) (i : Nat) : Nat := ld8 bb (19 + i)
def bpb_fat_size (bb : Nat → Nat) (i : Nat) : Nat := ld8 bb (22 + i)
def bpb_num_sectors32 (bb : Nat → Nat) (i : Nat) : Nat := ld8 bb (32 + i)
def fat16_ext_boot_sig (bb : Nat → Nat) : Nat := ld8 bb 38
def fat16_volume_id (bb : Nat → Nat) (i : Nat) : Nat := ld8 bb (39 + i)
def fat16_volume_label (bb : Nat → Nat) (i : Nat) : Nat := ld8 bb (43 + i)
def fat16_boot_sig (bb : Nat → Nat) (i : Nat) : Nat := ld8 bb (510 + i)
def fat32_fat_size (bb : Nat → Nat) (i : Nat) : Nat := ld8 bb (36 + i)
def fat32_fs_version (bb : Nat → Nat) (i : Nat) : Nat := ld8 bb (42 + i)
def fat32_rootdir_cluster (bb : Nat → Nat) (i : Nat) : Nat := ld8 bb (44 + i)
def fat32_fsinfo_sector (bb : Nat → Nat) (i : Nat) : Nat := ld8 bb (48 + i)
def fat32_backup_bpb (bb : Nat → Nat) (i : Nat) : Nat := ld8 bb (50 + i)
def fat32_ext_boot_sig (bb : Nat → Nat) : Nat := ld8 bb 66
def fat32_volume_id (bb : Nat → Nat) (i : Nat) : Nat := ld8 bb (67 + i)
def fat32_volume_label (bb : Nat → Nat) (i : Nat) : Nat := ld8 bb (71 + i)

/-- Load of a `uint32_t` structure field from a sector (the target is little-endian). -/
def ld32 (buf : Nat → Nat) (off : Nat) : Nat :=
  ld8 buf off ||| (ld8 buf (off + 1) <<< 8) ||| (ld8 buf (off + 2) <<< 16) |||
    (ld8 buf (off + 3) <<< 24)

def fsinfo_sig1 (fsinfo : Nat → Nat) : Nat := ld32 fsinfo 0
def fsinfo_sig2 (fsinfo : Nat → Nat) : Nat := ld32 fsinfo 484
def fsinfo_free_clusters (fsinfo : Nat → Nat) : Nat := ld32 fsinfo 488
def fsinfo_last_alloc_cluster (fsinfo : Nat → Nat) : Nat := ld32 fsinfo 492
def fsinfo_sig3 (fsinfo : Nat → Nat) : Nat := ld32 fsinfo 508

/-- The result of `memset(sb, 0, sizeof(fat_superblock_t))`. -/
def zero_superblock : fat_superblock_t :=
  { num_sectors := 0, fat_size := 0, root_dir := 0, num_clusters := 0,
    first_data_block := 0, free_clusters := 0, last_alloc_cluster := 0,
    fsinfo_sector := 0, backup_bpb := 0, volume_id := fun _ => 0,
    volume_label := fun _ => 0, fs_type := 0, bytes_per_sector := 0,
    reserved_sectors := 0, sectors_per_cluster := 0, num_fats := 0 }

/-- The function `fat_read_raw_boot` (the `malloc` of the bounce buffer succeeds). -/
def fat_read_raw_boot (sb : Nat → Nat) (bd : kos_blockdev_t) : Int × (Nat → Nat) :=
  if bd.l_block_size > 9 then
    if (read_blocks bd 0 1 (fun _ => 0)).1 ≠ 0 then (- EIO, sb)
    else (0, fun off => if off < 512 then (read_blocks bd 0 1 (fun _ => 0)).2 off else sb off)
  else if bd.l_block_size = 9 then read_blocks bd 0 1 sb
  else read_blocks bd 0 (512 >>> bd.l_block_size) sb

/-- The function `fat_read_fsinfo`. -/
def fat_read_fsinfo (fsinfo : Nat → Nat) (s : Nat) (bd : kos_blockdev_t) :
    Int × (Nat → Nat) :=
  if bd.l_block_size > 9 then (- EIO, fsinfo)
  else if bd.l_block_size = 9 then read_blocks bd s 1 fsinfo
  else (- EIO, fsinfo)

/-- The local `rds` of `fat_parse_boot` after `rds = ((rds << 5) + (bps - 1)) / bps`. -/
def parse_rds (bb : Nat → Nat) : Nat :=
  let rds := bpb_root_dir_entries bb 0 ||| (bpb_root_dir_entries bb 1 <<< 8)
  let bps := bpb_bytes_per_sector bb 0 ||| (bpb_bytes_per_sector bb 1 <<< 8)
  u32 (u32 (rds <<< 5) + u32 (bps + 2 ^ 32 - 1)) / bps

/-- The local `fsz` of `fat_parse_boot`. -/
def parse_fsz (bb : Nat → Nat) : Nat :=
  if bpb_fat_size bb 0 ||| (bpb_fat_size bb 1 <<< 8) = 0 then
    fat32_fat_size bb 0 ||| (fat32_fat_size bb 1 <<< 8) |||
      (fat32_fat_size bb 2 <<< 16) ||| (fat32_fat_size bb 3 <<< 24)
  else bpb_fat_size bb 0 ||| (bpb_fat_size bb 1 <<< 8)

/-- The local `ts` of `fat_parse_boot`. -/
def parse_ts (bb : Nat → Nat) : Nat :=
  if bpb_num_sectors16 bb 0 ||| (bpb_num_sectors16 bb 1 <<< 8) = 0 then
    bpb_num_sectors32 bb 0 ||| (bpb_num_sectors32 bb 1 <<< 8) |||
      (bpb_num_sectors32 bb 2 <<< 16) ||| (bpb_num_sectors32 bb 3 <<< 24)
  else bpb_num_sectors16 bb 0 ||| (bpb_num_sectors16 bb 1 <<< 8)

/-- The local `rs` of `fat_parse_boot`. -/
def parse_rs (bb : Nat → Nat) : Nat :=
  bpb_reserved_sectors bb 0 ||| (bpb_reserved_sectors bb 1 <<< 8)

/-- The local `fds` of `fat_parse_boot`. -/
def parse_fds (bb : Nat → Nat) : Nat :=
  u32 (u32 (parse_rs bb + u32 (bpb_num_fats bb * parse_fsz bb)) + parse_rds bb)

/-- The local `nc` of `fat_parse_boot`: `ds = ts - fds; nc = ds / sectors_per_cluster`. -/
def parse_nc (bb : Nat → Nat) : Nat :=
  u32 (parse_ts bb + 2 ^ 32 - parse_fds bb) / bpb_sectors_per_cluster bb

/-- The superblock after the unconditional assignments of `fat_parse_boot` and the
choice of `fs_type` and `root_dir`. -/
def parse_geometry (bb : Nat → Nat) (sb : fat_superblock_t) : fat_superblock_t :=
  { sb with
    num_sectors := parse_ts bb
    fat_size := parse_fsz bb
    bytes_per_sector := u16 (bpb_bytes_per_sector bb 0 ||| (bpb_bytes_per_sector bb 1 <<< 8))
    reserved_sectors := u16 (parse_rs bb)
    num_clusters := parse_nc bb
    num_fats := bpb_num_fats bb
    sectors_per_cluster := bpb_sectors_per_cluster bb
    first_data_block := parse_fds bb
    fs_type :=
      if parse_nc bb ≤ FAT_MAX_FAT12_CLUSTERS then FAT_FS_FAT12
      else if parse_nc bb ≤ FAT_MAX_FAT16_CLUSTERS then FAT_FS_FAT16
      else FAT_FS_FAT32
    root_dir :=
      if parse_rds bb ≠ 0 then
        bpb_root_dir_entries bb 0 ||| (bpb_root_dir_entries bb 1 <<< 8)
      else
        fat32_rootdir_cluster bb 0 ||| (fat32_rootdir_cluster bb 1 <<< 8) |||
          (fat32_rootdir_cluster bb 2 <<< 16) ||| (fat32_rootdir_cluster bb 3 <<< 24) }

/-- The two conditional `memcpy` calls that fill `volume_id` and `volume_label` from the
extended BPB whose signature byte is `sig`. -/
def parse_volume (sig : Nat) (vid vlabel : Nat → Nat) (sb : fat_superblock_t) :
    fat_superblock_t :=
  { sb with
    volume_id := fun i =>
      if (sig = 0x28 ∨ sig = 0x29) ∧ i < 4 then vid i else sb.volume_id i
    volume_label := fun i =>
      if sig = 0x29 ∧ i < 11 then vlabel i else sb.volume_label i }

/-- The function `fat_parse_boot`. -/
def fat_parse_boot (bb : Nat → Nat) (sb : fat_superblock_t) : Int × fat_superblock_t :=
  if (parse_geometry bb sb).fs_type = FAT_FS_FAT32 then
    if fat32_fs_version bb 0 ≠ 0 ∨ fat32_fs_version bb 1 ≠ 0 then
      (-EINVAL, parse_geometry bb sb)
    else
      (0, parse_volume (fat32_ext_boot_sig bb) (fat32_volume_id bb) (fat32_volume_label bb)
        { parse_geometry bb sb with
          fsinfo_sector := fat32_fsinfo_sector bb 0 ||| fat32_fsinfo_sector bb 1
          backup_bpb := fat32_backup_bpb bb 0 ||| fat32_backup_bpb bb 1 })
  else
    (0, parse_volume (fat16_ext_boot_sig bb) (fat16_volume_id bb) (fat16_volume_label bb)
      (parse_geometry bb sb))

/-- The function `fat_read_boot`. -/
def fat_read_boot (bd : kos_blockdev_t) : Int × fat_superblock_t :=
  let raw := fat_read_raw_boot (fun _ => 0) bd
  if raw.1 < 0 then (raw.1, zero_superblock)
  else if fat16_boot_sig raw.2 0 ≠ 0x55 ∨ fat16_boot_sig raw.2 1 ≠ 0xAA then
    (-EINVAL, zero_superblock)
  else
    let parsed := fat_parse_boot raw.2 zero_superblock
    if parsed.1 < 0 then parsed
    else if parsed.2.bytes_per_sector ≠ 1 <<< bd.l_block_size then (-EINVAL, parsed.2)
    else if parsed.2.fsinfo_sector ≠ 0 then
      let fi := fat_read_fsinfo (fun _ => 0) parsed.2.fsinfo_sector bd
      if fi.1 < 0 then (fi.1, parsed.2)
      else if fsinfo_sig1 fi.2 ≠ FAT32_FSINFO_SIG1 ∨ fsinfo_sig2 fi.2 ≠ FAT32_FSINFO_SIG2 ∨
          fsinfo_sig3 fi.2 ≠ FAT32_FSINFO_SIG3 then
        (0, parsed.2)
      else
        (0, { parsed.2 with
              free_clusters := fsinfo_free_clusters fi.2
              last_alloc_cluster := fsinfo_last_alloc_cluster fi.2 })
    else (0, { parsed.2 with last_alloc_cluster := 2 })

/-! ## `fatfs.c`: mounting -/

/-- The function `fat_fs_init_ex` (every `malloc` succeeds; the cache records get the
fresh addresses `0 .. cache_sz - 1` and `cache_sz .. cache_sz + fcache_sz - 1`). -/
def fat_fs_init_ex (bd : kos_blockdev_t) (flags cache_sz fcache_sz : Nat) : Option fat_fs_t :=
  if bd.init_rc ≠ 0 then none
  else if (fat_read_boot bd).1 ≠ 0 then none
  else
    some
      { dev := bd
        sb := (fat_read_boot bd).2
        mem := fun _ => { flags := 0, block := 0, data := fun _ => 0 }
        bcache := fun j => j
        cache_size := cache_sz
        fcache := fun j => cache_sz + j
        fcache_size := fcache_sz
        flags := 0
        mnt_flags :=
          if flags &&& FAT_MNT_VALID_FLAGS_MASK ≠ flags then 0
          else flags &&& FAT_MNT_VALID_FLAGS_MASK }

/-- The function `fat_fs_init`. -/
def fat_fs_init (bd : kos_blockdev_t) (flags : Nat) : Option fat_fs_t :=
  fat_fs_init_ex bd flags FAT_CACHE_BLOCKS FAT_FCACHE_BLOCKS

/-! ## Reference decodings

Definitions that follow the wording of the specification, for comparison with the
code. -/

/-- The little-endian 16-bit value of two bytes. -/
def le16 (b0 b1 : Nat) : Nat := b0 + 256 * b1

/-- The little-endian 32-bit value of four bytes. -/
def le32 (b0 b1 b2 b3 : Nat) : Nat := b0 + 256 * b1 + 65536 * b2 + 16777216 * b3

/-! ## Concrete volumes

Small device images on which the functions above are evaluated. -/

/-- A sector given by its non-zero bytes, as (offset, byte) pairs. -/
def sector_of (bytes : List (Nat × Nat)) : Nat → Nat :=
  fun off => (bytes.lookup off).getD 0

/-- A 512-byte-sector device without I/O errors. -/
def mk_dev (blocks : Nat → Nat → Nat) : kos_blockdev_t :=
  { l_block_size := 9, dev_data := blocks, init_rc := 0,
    read_rc := fun _ _ => 0, write_rc := fun _ _ => 0 }

/-- The state used when a mount fails (never the case for the volumes below). -/
def no_fs (bd : kos_blockdev_t) : fat_fs_t :=
  { dev := bd, sb := zero_superblock,
    mem := fun _ => { flags := 0, block := 0, data := fun _ => 0 },
    bcache := fun j => j, cache_size := 0, fcache := fun j => j, fcache_size := 0,
    flags := 0, mnt_flags := 0 }

/-- Read-write mount of a device with the default cache sizes. -/
def mount_rw (bd : kos_blockdev_t) : fat_fs_t :=
  (fat_fs_init bd FAT_MNT_FLAG_RW).getD (no_fs bd)

/-- Boot sector of a small FAT12 volume: 512-byte sectors, 1 sector per cluster,
1 reserved sector, 2 FATs of 2 sectors, 16 root entries, 40 sectors. -/
def boot12 : Nat → Nat :=
  sector_of [(11, 0x00), (12, 0x02), (13, 1), (14, 1), (15, 0), (16, 2), (17, 16), (18, 0),
    (19, 40), (20, 0), (21, 0xF8), (22, 2), (23, 0), (510, 0x55), (511, 0xAA)]

/-- First FAT sector of the FAT12 volume: entries 0 and 1 reserved, chain 2 -> 3 -> EOC,
cluster 5 allocated (EOC), every other cluster free. -/
def fat12_sector : Nat → Nat :=
  sector_of [(0, 0xF8), (1, 0xFF), (2, 0xFF), (3, 0x03), (4, 0xF0), (5, 0xFF),
    (6, 0x00), (7, 0xF0), (8, 0xFF)]

def dev12 : kos_blockdev_t :=
  mk_dev (fun b => if b = 0 then boot12 else if b = 1 then fat12_sector else fun _ => 0)

/-- The FAT12 volume, mounted read-write. -/
def vol12 : fat_fs_t := mount_rw dev12

/-- Boot sector of a 1.44 MB floppy: 512-byte sectors, 1 sector per cluster, 1 reserved
sector, 2 FATs of 9 sectors, 224 root entries, 2880 sectors. -/
def boot_floppy : Nat → Nat :=
  sector_of [(11, 0x00), (12, 0x02), (13, 1), (14, 1), (15, 0), (16, 2), (17, 0xE0), (18, 0),
    (19, 0x40), (20, 0x0B), (21, 0xF0), (22, 9), (23, 0), (510, 0x55), (511, 0xAA)]

def dev_floppy : kos_blockdev_t :=
  mk_dev (fun b => if b = 0 then boot_floppy else if b = 1 then fat12_sector else fun _ => 0)

/-- The floppy volume (2847 clusters, FAT12), mounted read-write. -/
def vol_floppy : fat_fs_t := mount_rw dev_floppy

/-- Boot sector of a FAT16 volume: 512-byte sectors, 1 sector per cluster, 1 reserved
sector, 1 FAT of 20 sectors, 16 root entries, 4107 sectors (4085 clusters). -/
def boot16 : Nat → Nat :=
  sector_of [(11, 0x00), (12, 0x02), (13, 1), (14, 1), (15, 0), (16, 1), (17, 16), (18, 0),
    (19, 0x0B), (20, 0x10), (21, 0xF8), (22, 20), (23, 0), (510, 0x55), (511, 0xAA)]

/-- A FAT16 device whose FAT marks every cluster except cluster 2 as allocated: all FAT
bytes are `0xFF` except the two bytes of entry 2. -/
def dev16_full : kos_blockdev_t :=
  mk_dev (fun b =>
    if b = 0 then boot16 else fun off => if b = 1 ∧ (off = 4 ∨ off = 5) then 0 else 0xFF)

/-- The FAT16 volume with cluster 2 as its only free cluster, mounted read-write. -/
def vol16_full : fat_fs_t := mount_rw dev16_full

/-- Boot sector of a FAT32 volume: 512-byte sectors, 1 sector per cluster, 32 reserved
sectors, 1 FAT of 600 sectors, 70000 sectors (69368 clusters), root directory at
cluster 2, FSInfo at sector 1. -/
def boot32 : Nat → Nat :=
  sector_of [(11, 0x00), (12, 0x02), (13, 1), (14, 32), (15, 0), (16, 1), (21, 0xF8),
    (32, 0x70), (33, 0x11), (34, 0x01), (35, 0x00), (36, 0x58), (37, 0x02),
    (44, 2), (48, 1), (49, 0), (50, 6), (510, 0x55), (511, 0xAA)]

/-- An FSInfo sector with valid signatures, free count `0xFFFFFFFF` and the given
allocation hint. -/
def fsinfo32 (hint : Nat) : Nat → Nat :=
  fun off =>
    if 492 ≤ off ∧ off < 496 then (hint >>> (8 * (off - 492))) % 256
    else sector_of [(0, 0x52), (1, 0x52), (2, 0x61), (3, 0x41),
      (484, 0x72), (485, 0x72), (486, 0x41), (487, 0x61),
      (488, 0xFF), (489, 0xFF), (490, 0xFF), (491, 0xFF),
      (510, 0x55), (511, 0xAA)] off

/-- A FAT32 device with the given FSInfo hint and FAT sectors. -/
def dev32 (hint : Nat) (fat : Nat → Nat → Nat) : kos_blockdev_t :=
  mk_dev (fun b => if b = 0 then boot32 else if b = 1 then fsinfo32 hint else fat b)

/-- The FAT32 volume with FSInfo hint `0xFFFFFFFF` ("unknown") and an all-zero FAT,
mounted read-write. -/
def vol32_wiped : fat_fs_t := mount_rw (dev32 0xFFFFFFFF (fun _ _ => 0))


/-! ## Invariant and abstraction of the FAT cache -/

/-- Well-formedness of the FAT block cache on a volume with sectors of `S` bytes, the
block size of the device (a power of two from 4 to 32768): the cache
sizes fit (`make_mru` uses `cache_size` on an array of `fcache_size` pointers, and the
FAT12 code needs two live buffers), the slots point to distinct records, no sector is
cached twice, and every cached sector is one the FAT-block writer accepts. -/
structure fcache_wf (S : Nat) (fs : fat_fs_t) : Prop where
  bps : fs.sb.bytes_per_sector = S
  lbs : 2 ^ fs.dev.l_block_size = S
  lbs_rng : 2 ≤ fs.dev.l_block_size ∧ fs.dev.l_block_size ≤ 15
  fat_size_lt : fs.sb.fat_size < 2 ^ 32
  reserved_lt : fs.sb.reserved_sectors < 2 ^ 16
  size_ge : 2 ≤ fs.cache_size
  size_le : fs.cache_size ≤ fs.fcache_size
  inj : ∀ i j, i < fs.fcache_size → j < fs.fcache_size → fs.fcache i = fs.fcache j → i = j
  uniq : ∀ i j, i < fs.fcache_size → j < fs.fcache_size →
    (fs.mem (fs.fcache i)).flags ≠ 0 → (fs.mem (fs.fcache j)).flags ≠ 0 →
    (fs.mem (fs.fcache i)).block = (fs.mem (fs.fcache j)).block → i = j
  bound : ∀ i, i < fs.fcache_size → (fs.mem (fs.fcache i)).flags ≠ 0 →
    (fs.mem (fs.fcache i)).block < fs.sb.fat_size

/-- Every valid record that is not dirty, other than those at the addresses in `P`
(buffers being modified), agrees with the device. -/
def fcache_clean (S : Nat) (fs : fat_fs_t) (P : Nat → Prop) : Prop :=
  ∀ i, i < fs.fcache_size → (fs.mem (fs.fcache i)).flags ≠ 0 →
    (fs.mem (fs.fcache i)).flags &&& FAT_CACHE_FLAG_DIRTY = 0 → ¬ P (fs.fcache i) →
    ∀ off, off < S →
      ld8 (fs.mem (fs.fcache i)).data off =
        ld8 (fs.dev.dev_data (fs.mem (fs.fcache i)).block) off

/-- The invariant of the FAT block cache between two calls of the FAT functions. -/
def fcache_inv (S : Nat) (fs : fat_fs_t) : Prop :=
  fcache_wf S fs ∧ fcache_clean S fs (fun _ => False)

/-- No request to the block device fails. -/
def dev_ok (fs : fat_fs_t) : Prop :=
  ∀ b c, fs.dev.read_rc b c = 0 ∧ fs.dev.write_rc b c = 0

/-- Byte `off` of FAT sector `b` as the engine sees it: the cached copy when the sector
is in the FAT cache, the device contents otherwise. -/
def fat_view (fs : fat_fs_t) (b off : Nat) : Nat :=
  match fcache_scan fs b fs.fcache_size with
  | some i => ld8 (fs.mem (fs.fcache i)).data off
  | none => ld8 (fs.dev.dev_data b) off

/-- The index map of `make_mru`: slot `j` of the result holds what slot
`mru_src cache_size block j` held before. -/
def mru_src (cache_size block j : Nat) : Nat :=
  if block ≥ cache_size - 1 then j
  else if j < block then j
  else if j < cache_size - 1 then j + 1
  else if j = cache_size - 1 then block
  else j

/-- The state with the buffer of record `p` replaced by `d`. -/
def with_data (fs : fat_fs_t) (p : Nat) (d : Nat → Nat) : fat_fs_t :=
  { fs with mem := mem_set fs.mem p { fs.mem p with data := d } }

/-- The parts of the state that the FAT cache operations leave alone. -/
structure fs_frame (fs fs' : fat_fs_t) : Prop where
  sb : fs'.sb = fs.sb
  mnt_flags : fs'.mnt_flags = fs.mnt_flags
  cache_size : fs'.cache_size = fs.cache_size
  fcache_size : fs'.fcache_size = fs.fcache_size
  lbs : fs'.dev.l_block_size = fs.dev.l_block_size
  read_rc : fs'.dev.read_rc = fs.dev.read_rc
  write_rc : fs'.dev.write_rc = fs.dev.write_rc

/-- What a successful `fat_read_fatblock fs b` guarantees about the buffer `p` it
returns and the state `fs'` it leaves. -/
structure rb_post (S : Nat) (fs : fat_fs_t) (b p : Nat) (fs' : fat_fs_t) : Prop where
  inv : fcache_inv S fs'
  frame : fs_frame fs fs'
  acc : b < fs.sb.fat_size
  view : ∀ b' off, off < S → fat_view fs' b' off = fat_view fs b' off
  pos : ∃ j, 0 < j ∧ j < fs'.fcache_size ∧ fs'.fcache j = p
  blk : (fs'.mem p).block = b
  valid : (fs'.mem p).flags ≠ 0
  mem_frame : ∀ q, q ≠ fs.fcache 0 → fs'.mem q = fs.mem q
  ptrs : ∀ i, i < fs.fcache_size → ∃ k, k < fs.fcache_size ∧ fs'.fcache k = fs.fcache i

/-- Byte `k` of the FAT, counted from the start of the FAT, as the engine sees it. -/
def fat_byte (fs : fat_fs_t) (k : Nat) : Nat :=
  fat_view fs (fs.sb.reserved_sectors + k / fs.sb.bytes_per_sector)
    (k % fs.sb.bytes_per_sector)

/-- The filesystem type is one of the three FAT variants. -/
def fat_type_ok (fs : fat_fs_t) : Prop :=
  fs.sb.fs_type = FAT_FS_FAT12 ∨ fs.sb.fs_type = FAT_FS_FAT16 ∨ fs.sb.fs_type = FAT_FS_FAT32

/-- The FAT byte offset that `fat_read_fat` and `fat_write_fat` compute for cluster `N`,
in 32-bit arithmetic: `N << 2` on FAT32, `N << 1` on FAT16, `(N >> 1) + N` on FAT12. -/
def fat_offset (fs : fat_fs_t) (N : Nat) : Nat :=
  if fs.sb.fs_type = FAT_FS_FAT32 then u32 (N <<< 2)
  else if fs.sb.fs_type = FAT_FS_FAT16 then u32 (N <<< 1)
  else u32 ((N >>> 1) + N)

/-- The FAT byte offset of the last byte of the entry of cluster `N`. -/
def fat_last (fs : fat_fs_t) (N : Nat) : Nat :=
  if fs.sb.fs_type = FAT_FS_FAT32 then u32 (N <<< 2) + 3
  else if fs.sb.fs_type = FAT_FS_FAT16 then u32 (N <<< 1) + 1
  else u32 ((N >>> 1) + N) + 1

/-- The value that the code decodes for cluster `N` from the FAT bytes: the 32-bit or
16-bit little-endian word at the entry offset, or on FAT12 the 16-bit word there, shifted
right by 4 when `N` is odd or the word spans two sectors, masked with `0x0FFF`
otherwise. -/
def fat_entry (fs : fat_fs_t) (N : Nat) : Nat :=
  if fs.sb.fs_type = FAT_FS_FAT32 then
    le32 (fat_byte fs (u32 (N <<< 2))) (fat_byte fs (u32 (N <<< 2) + 1))
      (fat_byte fs (u32 (N <<< 2) + 2)) (fat_byte fs (u32 (N <<< 2) + 3))
  else if fs.sb.fs_type = FAT_FS_FAT16 then
    le16 (fat_byte fs (u32 (N <<< 1))) (fat_byte fs (u32 (N <<< 1) + 1))
  else if u32 ((N >>> 1) + N) % fs.sb.bytes_per_sector = fs.sb.bytes_per_sector - 1 ∨
      N % 2 = 1 then
    le16 (fat_byte fs (u32 ((N >>> 1) + N))) (fat_byte fs (u32 ((N >>> 1) + N) + 1)) >>> 4
  else
    le16 (fat_byte fs (u32 ((N >>> 1) + N))) (fat_byte fs (u32 ((N >>> 1) + N) + 1)) &&& 0x0FFF

/-- Sector `b` is held by a valid record of the FAT cache. -/
def sector_cached (fs : fat_fs_t) (b : Nat) : Prop :=
  ∃ j, j < fs.fcache_size ∧ (fs.mem (fs.fcache j)).flags ≠ 0 ∧ (fs.mem (fs.fcache j)).block = b

/-- The two sectors `b1` and `b2` can be brought into the cache one after the other:
the device works and the reader accepts both, or both are cached already. -/
def sectors_ready (fs : fat_fs_t) (b1 b2 : Nat) : Prop :=
  (dev_ok fs ∧ b1 < fs.sb.fat_size ∧ b2 < fs.sb.fat_size) ∨
  (sector_cached fs b1 ∧ sector_cached fs b2)

/-- The sectors holding the entry of cluster `N` can be brought into the cache. -/
def entry_ready (fs : fat_fs_t) (N : Nat) : Prop :=
  sectors_ready fs (fs.sb.reserved_sectors + fat_offset fs N / fs.sb.bytes_per_sector)
    (fs.sb.reserved_sectors + fat_last fs N / fs.sb.bytes_per_sector)

/-- The buffer after the four stores of the FAT32 case of `fat_write_fat` at offset `o`. -/
def store_fat32 (d : Nat → Nat) (o v : Nat) : Nat → Nat :=
  st8 (st8 (st8 (st8 d o v) (o + 1) (v >>> 8)) (o + 2) (v >>> 16)) (o + 3)
    ((ld8 (st8 (st8 (st8 d o v) (o + 1) (v >>> 8)) (o + 2) (v >>> 16)) (o + 3) &&& 0xF0) |||
      ((v >>> 24) &&& 0x0F))

/-- The buffer after the two stores of the FAT16 case of `fat_write_fat`. -/
def store_fat16 (d : Nat → Nat) (o v : Nat) : Nat → Nat :=
  st8 (st8 d o v) (o + 1) (v >>> 8)

/-- The buffer after the stores of the FAT12 odd-cluster case of `fat_write_fat`. -/
def store_fat12_odd (d : Nat → Nat) (o v : Nat) : Nat → Nat :=
  st8 (st8 d o ((ld8 d o &&& 0x0F) ||| (u32 (v <<< 4) &&& 0xF0))) (o + 1) (u32 (v <<< 4) >>> 8)

/-- The buffer after the stores of the FAT12 even-cluster case of `fat_write_fat`. -/
def store_fat12_even (d : Nat → Nat) (o v : Nat) : Nat → Nat :=
  st8 (st8 d (o + 1) ((ld8 d (o + 1) &&& 0xF0) ||| ((v >>> 8) &&& 0x0F))) o v

/-- The FAT bytes after `fat_write_fat fs N v` in terms of the FAT bytes before it. -/
def fat_written (fs : fat_fs_t) (N v : Nat) (k : Nat) : Nat :=
  if fs.sb.fs_type = FAT_FS_FAT32 then
    if k = u32 (N <<< 2) then v % 256
    else if k = u32 (N <<< 2) + 1 then (v >>> 8) % 256
    else if k = u32 (N <<< 2) + 2 then (v >>> 16) % 256
    else if k = u32 (N <<< 2) + 3 then
      ((fat_byte fs (u32 (N <<< 2) + 3) &&& 0xF0) ||| ((v >>> 24) &&& 0x0F)) % 256
    else fat_byte fs k
  else if fs.sb.fs_type = FAT_FS_FAT16 then
    if k = u32 (N <<< 1) then v % 256
    else if k = u32 (N <<< 1) + 1 then (v >>> 8) % 256
    else fat_byte fs k
  else if u32 ((N >>> 1) + N) % fs.sb.bytes_per_sector = fs.sb.bytes_per_sector - 1 ∨
      N % 2 = 1 then
    if k = u32 ((N >>> 1) + N) then
      ((fat_byte fs (u32 ((N >>> 1) + N)) &&& 0x0F) ||| (u32 (v <<< 4) &&& 0xF0)) % 256
    else if k = u32 ((N >>> 1) + N) + 1 then (u32 (v <<< 4) >>> 8) % 256
    else fat_byte fs k
  else
    if k = u32 ((N >>> 1) + N) then v % 256
    else if k = u32 ((N >>> 1) + N) + 1 then
      ((fat_byte fs (u32 ((N >>> 1) + N) + 1) &&& 0xF0) ||| ((v >>> 8) &&& 0x0F)) % 256
    else fat_byte fs k

/-- What a successful `fat_write_fat fs N v` guarantees about the state `fs'` it leaves. -/
structure write_post (S : Nat) (fs : fat_fs_t) (N v : Nat) (fs' : fat_fs_t) : Prop where
  inv : fcache_inv S fs'
  frame : fs_frame fs fs'
  bytes : ∀ k, fat_byte fs' k = fat_written fs N v k
  cached1 : sector_cached fs'
    (fs.sb.reserved_sectors + fat_offset fs N / fs.sb.bytes_per_sector)
  cached2 : sector_cached fs'
    (fs.sb.reserved_sectors + fat_last fs N / fs.sb.bytes_per_sector)

/-- A FAT12 cluster whose number is even and whose entry spans two sectors. -/
def fat12_even_span (fs : fat_fs_t) (N : Nat) : Prop :=
  fs.sb.fs_type = FAT_FS_FAT12 ∧ N % 2 = 0 ∧
    u32 ((N >>> 1) + N) % fs.sb.bytes_per_sector = fs.sb.bytes_per_sector - 1

/-- The value `fat_read_fat` decodes for cluster `N` once `v` has been written there. -/
def written_entry (fs : fat_fs_t) (N v : Nat) : Nat :=
  if fs.sb.fs_type = FAT_FS_FAT32 then (fat_entry fs N &&& 0xF0000000) ||| (v &&& 0x0FFFFFFF)
  else if fs.sb.fs_type = FAT_FS_FAT16 then v &&& 0xFFFF
  else v &&& 0x0FFF

/-! ### Chains -/

/-- The statement `++fs->sb.free_clusters`. -/
def bump_free (fs : fat_fs_t) : fat_fs_t :=
  { fs with sb := { fs.sb with free_clusters := u32 (fs.sb.free_clusters + 1) } }

/-- The FAT-block reader accepts the sectors that hold the entry of cluster `N`. -/
def fat_accepts (fs : fat_fs_t) (N : Nat) : Prop :=
  fs.sb.reserved_sectors + fat_last fs N / fs.sb.bytes_per_sector < fs.sb.fat_size

/-- Cluster `c` can be a member of a chain that `fat_erase_chain` walks: a 28-bit
cluster number that is not an end-of-chain marker, whose entry the FAT-block reader
accepts and decodes as stored (not a FAT12 entry of an even cluster that spans two
sectors), and whose entry is not the value `0xFFFFFFFF` that `fat_read_fat` returns for
a failure. -/
def chain_link (fs : fat_fs_t) (c : Nat) : Prop :=
  fat_is_eof fs c = 0 ∧ c < 2 ^ 28 ∧ fat_accepts fs c ∧ ¬ fat12_even_span fs c ∧
    fat_entry fs c ≠ FAT_INVALID_CLUSTER

/-- The clusters `l` are the chain that starts at cluster `c`: each entry holds the
number of the next cluster, and the entry of the last one holds an end-of-chain
marker. -/
def chain_from (fs : fat_fs_t) : Nat → List Nat → Prop
  | c, [] => fat_is_eof fs c ≠ 0
  | c, x :: rest => x = c ∧ chain_link fs c ∧ chain_from fs (fat_entry fs c) rest

/-- The parts of the superblock that the FAT functions read. -/
structure sb_same (fs fs' : fat_fs_t) : Prop where
  fs_type : fs'.sb.fs_type = fs.sb.fs_type
  bps : fs'.sb.bytes_per_sector = fs.sb.bytes_per_sector
  reserved : fs'.sb.reserved_sectors = fs.sb.reserved_sectors
  fat_size : fs'.sb.fat_size = fs.sb.fat_size

instance fat_accepts_dec (fs : fat_fs_t) (N : Nat) : Decidable (fat_accepts fs N) :=
  Nat.decLt _ _

instance fat12_even_span_dec (fs : fat_fs_t) (N : Nat) : Decidable (fat12_even_span fs N) :=
  instDecidableAnd

instance chain_link_dec (fs : fat_fs_t) (c : Nat) : Decidable (chain_link fs c) :=
  instDecidableAnd

instance chain_from_dec (fs : fat_fs_t) : ∀ (c : Nat) (l : List Nat),
    Decidable (chain_from fs c l)
  | _, [] => instDecidableNot
  | c, x :: rest =>
    @instDecidableAnd _ _ (Nat.decEq x c)
      (@instDecidableAnd _ _ (chain_link_dec fs c) (chain_from_dec fs (fat_entry fs c) rest))

/-- The on-disk FAT byte `k`, counted from the start of the first FAT. -/
def disk_fat_byte (fs : fat_fs_t) (k : Nat) : Nat :=
  ld8 (fs.dev.dev_data (fs.sb.reserved_sectors + k / fs.sb.bytes_per_sector))
    (k % fs.sb.bytes_per_sector)

/-- The reference decoding of the FAT12 entry of cluster `N`, in the words of the
specification: with `w` the little-endian 16-bit word at FAT byte offset `N + N / 2`,
the low 12 bits of `w` when `N` is even and the high 12 bits when `N` is odd. -/
def fat12_reference (fs : fat_fs_t) (N : Nat) : Nat :=
  if N % 2 = 0 then
    le16 (disk_fat_byte fs (N + N / 2)) (disk_fat_byte fs (N + N / 2 + 1)) &&& 0x0FFF
  else le16 (disk_fat_byte fs (N + N / 2)) (disk_fat_byte fs (N + N / 2 + 1)) >>> 4

/-- The floppy device with the entries of clusters 682 and 683 filled in: FAT bytes
1023, 1024 and 1025 are `0xBC`, `0x3A`, `0x12`, so that the reference decoding gives
`0xABC` for cluster 682 and `0x123` for cluster 683.  Byte 1023 is the last byte of the
second FAT sector. -/
def dev_floppy_span : kos_blockdev_t :=
  mk_dev (fun b =>
    if b = 0 then boot_floppy else if b = 1 then fat12_sector
    else if b = 2 then sector_of [(511, 0xBC)]
    else if b = 3 then sector_of [(0, 0x3A), (1, 0x12)]
    else fun _ => 0)

def vol_floppy_span : fat_fs_t := mount_rw dev_floppy_span

/-- A FAT32 device whose FAT holds the one-cluster chain 3 -> EOC, the end-of-chain
marker stored as `0x1FFFFFFF` (reserved top bits not all zero). -/
def dev32_chain : kos_blockdev_t :=
  dev32 2 (fun b =>
    if b = 32 then sector_of [(12, 0xFF), (13, 0xFF), (14, 0xFF), (15, 0x1F)] else fun _ => 0)

def vol32_chain : fat_fs_t := mount_rw dev32_chain

/-! ## `fatfs.c`: the cluster cache

The cluster cache functions return, next to their results, the list of requests they
issue to the block device, in order.  (`make_mru` of `fatfs.c` has the same text as
`make_mru` of `fat.c`.) -/

/-- A request to the block device: `read_blocks` or `write_blocks` with the first block
and the number of blocks. -/
inductive dev_req
  | read (block count : Nat)
  | write (block count : Nat)
  deriving DecidableEq

/-- The first device block of a data cluster, `cluster * fs_per_block +
first_data_block` after `cluster -= 2`, in 32-bit arithmetic. -/
def cluster_block (fs : fat_fs_t) (cluster : Nat) : Nat :=
  u32 (u32 (cluster - 2) * fs.sb.sectors_per_cluster + fs.sb.first_data_block)

/-- The function `fat_cluster_read_nc`: return code, buffer and device requests.
(`fs_per_block` is the `uint8_t` field `sectors_per_cluster`, never negative.) -/
def fat_cluster_read_nc (fs : fat_fs_t) (cluster : Nat) (rv : Nat → Nat) :
    Int × (Nat → Nat) × List dev_req :=
  if cluster &&& 0x80000000 ≠ 0 ∧ fs.sb.fs_type ≠ FAT_FS_FAT32 then
    if (read_blocks fs.dev (cluster &&& 0x7FFFFFFF) 1 rv).1 ≠ 0 then
      (- EIO, (read_blocks fs.dev (cluster &&& 0x7FFFFFFF) 1 rv).2,
        [dev_req.read (cluster &&& 0x7FFFFFFF) 1])
    else
      (0, (read_blocks fs.dev (cluster &&& 0x7FFFFFFF) 1 rv).2,
        [dev_req.read (cluster &&& 0x7FFFFFFF) 1])
  else if u32 (fs.sb.num_clusters + 2) ≤ cluster ∨ cluster < 2 then (-EINVAL, rv, [])
  else if (read_blocks fs.dev (cluster_block fs cluster) fs.sb.sectors_per_cluster rv).1 ≠ 0
  then
    (- EIO, (read_blocks fs.dev (cluster_block fs cluster) fs.sb.sectors_per_cluster rv).2,
      [dev_req.read (cluster_block fs cluster) fs.sb.sectors_per_cluster])
  else
    (0, (read_blocks fs.dev (cluster_block fs cluster) fs.sb.sectors_per_cluster rv).2,
      [dev_req.read (cluster_block fs cluster) fs.sb.sectors_per_cluster])

/-- The function `fat_cluster_write_nc`: return code, device and device requests. -/
def fat_cluster_write_nc (fs : fat_fs_t) (cluster : Nat) (blk : Nat → Nat) :
    Int × kos_blockdev_t × List dev_req :=
  if cluster &&& 0x80000000 ≠ 0 ∧ fs.sb.fs_type ≠ FAT_FS_FAT32 then
    if (write_blocks fs.dev (cluster &&& 0x7FFFFFFF) 1 blk).1 ≠ 0 then
      (- EIO, (write_blocks fs.dev (cluster &&& 0x7FFFFFFF) 1 blk).2,
        [dev_req.write (cluster &&& 0x7FFFFFFF) 1])
    else
      (0, (write_blocks fs.dev (cluster &&& 0x7FFFFFFF) 1 blk).2,
        [dev_req.write (cluster &&& 0x7FFFFFFF) 1])
  else if u32 (fs.sb.num_clusters + 2) ≤ cluster ∨ cluster < 2 then (-EINVAL, fs.dev, [])
  else if (write_blocks fs.dev (cluster_block fs cluster) fs.sb.sectors_per_cluster blk).1 ≠ 0
  then
    (- EIO, (write_blocks fs.dev (cluster_block fs cluster) fs.sb.sectors_per_cluster blk).2,
      [dev_req.write (cluster_block fs cluster) fs.sb.sectors_per_cluster])
  else
    (0, (write_blocks fs.dev (cluster_block fs cluster) fs.sb.sectors_per_cluster blk).2,
      [dev_req.write (cluster_block fs cluster) fs.sb.sectors_per_cluster])

/-- The search loop `for(i = cache_size - 1; i >= 0; --i)` over the cluster cache: the
highest index below the bound whose record is valid and holds `cl`. -/
def bcache_scan (fs : fat_fs_t) (cl : Nat) : Nat → Option Nat
  | 0 => none
  | i + 1 =>
    if (fs.mem (fs.bcache i)).block = cl ∧ (fs.mem (fs.bcache i)).flags ≠ 0 then some i
    else bcache_scan fs cl i

/-- The step "if the block is dirty, we write it back out" of `fat_cluster_read` and
`fat_cluster_clear`, on the record in slot 0: the return code of the write (0 when
nothing is written), the new state and the device requests. -/
def bcache_evict (fs : fat_fs_t) : Int × fat_fs_t × List dev_req :=
  if (fs.mem (fs.bcache 0)).flags &&& FAT_CACHE_FLAG_DIRTY ≠ 0 then
    ((fat_cluster_write_nc fs (fs.mem (fs.bcache 0)).block (fs.mem (fs.bcache 0)).data).1,
      { fs with
        dev := (fat_cluster_write_nc fs (fs.mem (fs.bcache 0)).block
          (fs.mem (fs.bcache 0)).data).2.1 },
      (fat_cluster_write_nc fs (fs.mem (fs.bcache 0)).block (fs.mem (fs.bcache 0)).data).2.2)
  else (0, fs, [])

/-- The step "try to read the block in question" of `fat_cluster_read`, into the record
in slot 0, with the bookkeeping that follows it. -/
def bcache_fill (fs : fat_fs_t) (cl : Nat) (err : Int) :
    Option Nat × Int × fat_fs_t × List dev_req :=
  if (fat_cluster_read_nc fs cl (fs.mem (fs.bcache 0)).data).1 ≠ 0 then
    (none, EIO,
      { fs with
        mem := mem_set fs.mem (fs.bcache 0)
          { flags := 0, block := (fs.mem (fs.bcache 0)).block,
            data := (fat_cluster_read_nc fs cl (fs.mem (fs.bcache 0)).data).2.1 } },
      (fat_cluster_read_nc fs cl (fs.mem (fs.bcache 0)).data).2.2)
  else
    (some (fs.bcache 0), err,
      { fs with
        mem := mem_set fs.mem (fs.bcache 0)
          { flags := FAT_CACHE_FLAG_VALID, block := cl,
            data := (fat_cluster_read_nc fs cl (fs.mem (fs.bcache 0)).data).2.1 }
        bcache := make_mru fs fs.bcache 0 },
      (fat_cluster_read_nc fs cl (fs.mem (fs.bcache 0)).data).2.2)

/-- The function `fat_cluster_read`: the address of the record whose buffer is returned
(`none` for `NULL`), the value of `*err`, the new state, and the device requests. -/
def fat_cluster_read (fs : fat_fs_t) (cl : Nat) (err : Int) :
    Option Nat × Int × fat_fs_t × List dev_req :=
  match bcache_scan fs cl fs.cache_size with
  | some i => (some (fs.bcache i), err, { fs with bcache := make_mru fs fs.bcache i }, [])
  | none =>
    if (bcache_evict fs).1 ≠ 0 then (none, EIO, (bcache_evict fs).2.1, (bcache_evict fs).2.2)
    else
      ((bcache_fill (bcache_evict fs).2.1 cl err).1,
        (bcache_fill (bcache_evict fs).2.1 cl err).2.1,
        (bcache_fill (bcache_evict fs).2.1 cl err).2.2.1,
        (bcache_evict fs).2.2 ++ (bcache_fill (bcache_evict fs).2.1 cl err).2.2.2)

/-- The call `memset(rv, 0, bytes_per_sector * sectors_per_cluster)` on the buffer of
record `p`. -/
def cluster_memset (fs : fat_fs_t) (p : Nat) : fat_fs_t :=
  { fs with
    mem := mem_set fs.mem p
      { fs.mem p with
        data := fun off =>
          if off < fs.sb.bytes_per_sector * fs.sb.sectors_per_cluster then 0
          else (fs.mem p).data off } }

/-- The function `fat_cluster_clear`. -/
def fat_cluster_clear (fs : fat_fs_t) (cl : Nat) (err : Int) :
    Option Nat × Int × fat_fs_t × List dev_req :=
  match bcache_scan fs cl fs.cache_size with
  | some i =>
    (some (fs.bcache i), err,
      cluster_memset { fs with bcache := make_mru fs fs.bcache i } (fs.bcache i), [])
  | none =>
    if (bcache_evict fs).1 ≠ 0 then (none, EIO, (bcache_evict fs).2.1, (bcache_evict fs).2.2)
    else
      (some (fs.bcache 0), err,
        cluster_memset
          { (bcache_evict fs).2.1 with
            mem := mem_set (bcache_evict fs).2.1.mem (fs.bcache 0)
              { flags := FAT_CACHE_FLAG_VALID ||| FAT_CACHE_FLAG_DIRTY, block := cl,
                data := ((bcache_evict fs).2.1.mem (fs.bcache 0)).data }
            bcache := make_mru fs fs.bcache 0 }
          (fs.bcache 0),
        (bcache_evict fs).2.2)

/-- The function `fat_cluster_mark_dirty` (it issues no device request). -/
def fat_cluster_mark_dirty (fs : fat_fs_t) (cluster : Nat) : Int × fat_fs_t :=
  match bcache_scan fs cluster fs.cache_size with
  | some i =>
    (0, { fs with
      mem := mem_set fs.mem (fs.bcache i)
        { fs.mem (fs.bcache i) with
          flags := (fs.mem (fs.bcache i)).flags ||| FAT_CACHE_FLAG_DIRTY }
      bcache := make_mru fs fs.bcache i })
  | none => (-EINVAL, fs)

/-- The loop `for(i = cache_size - 1; i >= 0; --i)` of `fat_cluster_cache_wb`; the first
argument is `i + 1`. -/
def fat_cluster_cache_wb_loop : Nat → fat_fs_t → Int × fat_fs_t × List dev_req
  | 0, fs => (0, fs, [])
  | i + 1, fs =>
    if (fs.mem (fs.bcache i)).flags &&& FAT_CACHE_FLAG_DIRTY ≠ 0 then
      if (fat_cluster_write_nc fs (fs.mem (fs.bcache i)).block
          (fs.mem (fs.bcache i)).data).1 ≠ 0 then
        ((fat_cluster_write_nc fs (fs.mem (fs.bcache i)).block (fs.mem (fs.bcache i)).data).1,
          { fs with
            dev := (fat_cluster_write_nc fs (fs.mem (fs.bcache i)).block
              (fs.mem (fs.bcache i)).data).2.1 },
          (fat_cluster_write_nc fs (fs.mem (fs.bcache i)).block
            (fs.mem (fs.bcache i)).data).2.2)
      else
        ((fat_cluster_cache_wb_loop i
            { fs with
              dev := (fat_cluster_write_nc fs (fs.mem (fs.bcache i)).block
                (fs.mem (fs.bcache i)).data).2.1
              mem := mem_set fs.mem (fs.bcache i)
                { fs.mem (fs.bcache i) with
                  flags := (fs.mem (fs.bcache i)).flags &&& 0xFFFFFFFD } }).1,
          (fat_cluster_cache_wb_loop i
            { fs with
              dev := (fat_cluster_write_nc fs (fs.mem (fs.bcache i)).block
                (fs.mem (fs.bcache i)).data).2.1
              mem := mem_set fs.mem (fs.bcache i)
                { fs.mem (fs.bcache i) with
                  flags := (fs.mem (fs.bcache i)).flags &&& 0xFFFFFFFD } }).2.1,
          (fat_cluster_write_nc fs (fs.mem (fs.bcache i)).block
            (fs.mem (fs.bcache i)).data).2.2 ++
          (fat_cluster_cache_wb_loop i
            { fs with
              dev := (fat_cluster_write_nc fs (fs.mem (fs.bcache i)).block
                (fs.mem (fs.bcache i)).data).2.1
              mem := mem_set fs.mem (fs.bcache i)
                { fs.mem (fs.bcache i) with
                  flags := (fs.mem (fs.bcache i)).flags &&& 0xFFFFFFFD } }).2.2)
    else fat_cluster_cache_wb_loop i fs

/-- The function `fat_cluster_cache_wb`. -/
def fat_cluster_cache_wb (fs : fat_fs_t) : Int × fat_fs_t × List dev_req :=
  if fs.mnt_flags &&& FAT_MNT_FLAG_RW = 0 then (0, fs, [])
  else fat_cluster_cache_wb_loop fs.cache_size fs

/-! ## `fat.c`: write-back of the FAT block cache -/

/-- The device requests of a call of `fat_fatblock_write_nc`. -/
def fat_fatblock_write_nc_reqs (fs : fat_fs_t) (bn : Nat) : List dev_req :=
  if fs.sb.fat_size ≤ bn then [] else [dev_req.write bn 1]

/-- The loop `for(i = fcache_size - 1; i >= 0; --i)` of `fat_fatblock_cache_wb`; the
first argument is `i + 1`. -/
def fat_fatblock_cache_wb_loop : Nat → fat_fs_t → Int × fat_fs_t × List dev_req
  | 0, fs => (0, fs, [])
  | i + 1, fs =>
    if (fs.mem (fs.fcache i)).flags &&& FAT_CACHE_FLAG_DIRTY ≠ 0 then
      if (fat_fatblock_write_nc fs (fs.mem (fs.fcache i)).block
          (fs.mem (fs.fcache i)).data).1 ≠ 0 then
        ((fat_fatblock_write_nc fs (fs.mem (fs.fcache i)).block (fs.mem (fs.fcache i)).data).1,
          { fs with
            dev := (fat_fatblock_write_nc fs (fs.mem (fs.fcache i)).block
              (fs.mem (fs.fcache i)).data).2 },
          fat_fatblock_write_nc_reqs fs (fs.mem (fs.fcache i)).block)
      else
        ((fat_fatblock_cache_wb_loop i
            { fs with
              dev := (fat_fatblock_write_nc fs (fs.mem (fs.fcache i)).block
                (fs.mem (fs.fcache i)).data).2
              mem := mem_set fs.mem (fs.fcache i)
                { fs.mem (fs.fcache i) with
                  flags := (fs.mem (fs.fcache i)).flags &&& 0xFFFFFFFD } }).1,
          (fat_fatblock_cache_wb_loop i
            { fs with
              dev := (fat_fatblock_write_nc fs (fs.mem (fs.fcache i)).block
                (fs.mem (fs.fcache i)).data).2
              mem := mem_set fs.mem (fs.fcache i)
                { fs.mem (fs.fcache i) with
                  flags := (fs.mem (fs.fcache i)).flags &&& 0xFFFFFFFD } }).2.1,
          fat_fatblock_write_nc_reqs fs (fs.mem (fs.fcache i)).block ++
          (fat_fatblock_cache_wb_loop i
            { fs with
              dev := (fat_fatblock_write_nc fs (fs.mem (fs.fcache i)).block
                (fs.mem (fs.fcache i)).data).2
              mem := mem_set fs.mem (fs.fcache i)
                { fs.mem (fs.fcache i) with
                  flags := (fs.mem (fs.fcache i)).flags &&& 0xFFFFFFFD } }).2.2)
    else fat_fatblock_cache_wb_loop i fs

/-- The function `fat_fatblock_cache_wb`. -/
def fat_fatblock_cache_wb (fs : fat_fs_t) : Int × fat_fs_t × List dev_req :=
  if fs.mnt_flags &&& FAT_MNT_FLAG_RW = 0 then (0, fs, [])
  else fat_fatblock_cache_wb_loop fs.fcache_size fs

/-! ## `fs_fat.c`: mounting on the VFS -/

def FS_FAT_MOUNT_READONLY : Nat := 0
def FS_FAT_MOUNT_READWRITE : Nat := 1

/-- The mount structure `fs_fat_fs_t` (without its list and VFS handler links). -/
structure fs_fat_fs_t where
  fs : fat_fs_t
  mount_flags : Nat

/-- The function `fs_fat_mount` (every `malloc` succeeds): the return value and the mount
structure added to the list of mounts.  `initted` is the module flag set by
`fs_fat_init`, `has_write_blocks` tells whether `dev->write_blocks` is non-null, and
`add_rc` is the return value of `nmmgr_handler_add`. -/
def fs_fat_mount (initted has_write_blocks : Bool) (add_rc : Int) (dev : kos_blockdev_t)
    (flags : Nat) : Int × Option fs_fat_fs_t :=
  if initted = false then (-1, none)
  else if flags &&& FS_FAT_MOUNT_READWRITE ≠ 0 ∧ has_write_blocks = false then (-1, none)
  else
    match fat_fs_init dev flags with
    | none => (-1, none)
    | some fs =>
      if add_rc ≠ 0 then (-1, none)
      else (0, some { fs := fs, mount_flags := flags })

/-! ## Sequences of cache calls -/

/-- A call of `fat_cluster_read` or of `fat_cluster_mark_dirty`, with its record id. -/
inductive cluster_op
  | read (cl : Nat)
  | mark_dirty (cl : Nat)
  deriving DecidableEq

/-- The record id of a call. -/
def cluster_op.id : cluster_op → Nat
  | cluster_op.read cl => cl
  | cluster_op.mark_dirty cl => cl

/-- One call on the cluster cache: the state it leaves and the device requests it
issues. -/
def run_cluster_op (fs : fat_fs_t) : cluster_op → fat_fs_t × List dev_req
  | cluster_op.read cl => ((fat_cluster_read fs cl 0).2.2.1, (fat_cluster_read fs cl 0).2.2.2)
  | cluster_op.mark_dirty cl => ((fat_cluster_mark_dirty fs cl).2, [])

/-- A sequence of calls on the cluster cache: the final state and, for each call in
order, the device requests it issued. -/
def run_cluster_ops : fat_fs_t → List cluster_op → fat_fs_t × List (List dev_req)
  | fs, [] => (fs, [])
  | fs, op :: ops =>
    ((run_cluster_ops (run_cluster_op fs op).1 ops).1,
      (run_cluster_op fs op).2 :: (run_cluster_ops (run_cluster_op fs op).1 ops).2)

/-! ## `directory.c`: the short-name checksum -/

/-- The value of a `char` that holds the byte `b`, as an `int`: the byte itself where
`char` is unsigned, and `b - 256` for `b ≥ 128` where it is signed. -/
def char_val (signed_char : Bool) (b : Nat) : Int :=
  if signed_char = true ∧ 128 ≤ b % 256 then (b % 256 : Int) - 256 else (b % 256 : Int)

/-- One statement `rv = ((rv << 7) | (rv >> 1)) + fn[k]` of `fat_shortname_checksum`:
the right-hand side is computed in `int` and converted to `uint8_t`. -/
def checksum_step (signed_char : Bool) (rv c : Nat) : Nat :=
  Int.toNat ((((rv <<< 7 ||| rv >>> 1 : Nat) : Int) + char_val signed_char c) % 256)

/-- The function `fat_shortname_checksum`; `signed_char` tells whether `char` is a
signed type on the target. -/
def fat_shortname_checksum (signed_char : Bool) (fn : Nat → Nat) : Nat :=
  let rv0 := Int.toNat (char_val signed_char (fn 0) % 256)
  let rv1 := checksum_step signed_char rv0 (fn 1)
  let rv2 := checksum_step signed_char rv1 (fn 2)
  let rv3 := checksum_step signed_char rv2 (fn 3)
  let rv4 := checksum_step signed_char rv3 (fn 4)
  let rv5 := checksum_step signed_char rv4 (fn 5)
  let rv6 := checksum_step signed_char rv5 (fn 6)
  let rv7 := checksum_step signed_char rv6 (fn 7)
  let rv8 := checksum_step signed_char rv7 (fn 8)
  let rv9 := checksum_step signed_char rv8 (fn 9)
  checksum_step signed_char rv9 (fn 10)

/-- Rotation of a byte to the right by one bit. -/
def rotate_right_8 (h : Nat) : Nat := ((h % 256) >>> 1 ||| (h % 256) <<< 7) % 256

/-- The checksum in the words of the specification: start at 0 and, for each of the 11
bytes in order, `h = rotate_right_8 h + byte` modulo 256. -/
def checksum_fold (s : Nat → Nat) : Nat :=
  (List.range 11).foldl (fun h i => (rotate_right_8 h + s i % 256) % 256) 0

/-! ## Further concrete volumes -/

/-- A FAT32 boot sector like `boot32` whose FSInfo sector field holds the bytes
`00 01` (sector 256) and whose backup boot sector field holds `06 01` (sector 262). -/
def boot32_far : Nat → Nat :=
  sector_of [(11, 0x00), (12, 0x02), (13, 1), (14, 32), (15, 0), (16, 1), (21, 0xF8),
    (32, 0x70), (33, 0x11), (34, 0x01), (35, 0x00), (36, 0x58), (37, 0x02),
    (44, 2), (48, 0), (49, 1), (50, 6), (51, 1), (510, 0x55), (511, 0xAA)]

/-- The root directory sector of `dev_file`: one entry, the regular file `F` (attribute
`0x20`) with first cluster 5 and size 5. -/
def root_file_sector : Nat → Nat :=
  sector_of [(0, 0x46), (1, 0x20), (2, 0x20), (3, 0x20), (4, 0x20), (5, 0x20), (6, 0x20),
    (7, 0x20), (8, 0x20), (9, 0x20), (10, 0x20), (11, 0x20), (26, 5), (27, 0), (28, 5)]

/-- The FAT12 device `dev12` with the file `F` in its root directory (sector 5); the
file's only cluster, cluster 5, is device block 9 and holds the bytes of "hello". -/
def dev_file : kos_blockdev_t :=
  mk_dev (fun b =>
    if b = 0 then boot12 else if b = 1 then fat12_sector
    else if b = 5 then root_file_sector
    else if b = 9 then sector_of [(0, 0x68), (1, 0x65), (2, 0x6C), (3, 0x6C), (4, 0x6F)]
    else fun _ => 0)

/-- The volume `dev_file`, mounted read-write. -/
def vol_file : fat_fs_t := mount_rw dev_file

/-- The mount structure that `fs_fat_mount` creates for `dev_file` with mount flags 3
(read-write plus one reserved bit). -/
def mnt_file3 : fs_fat_fs_t :=
  (fs_fat_mount true true 0 dev_file 3).2.getD { fs := no_fs dev_file, mount_flags := 0 }

/-- The engine state after `fs_fat_open` of the file `F` of `mnt_file3` with the mode
`O_WRONLY | O_TRUNC`.  The call passes the read-only guard of `fs_fat_open` because
`mount_flags` has bit 0 set, and then calls, in this order: `fat_cluster_read` of the
root directory sector `0x80000005` (in `fat_search_dir`, which finds `F` in the first
entry), `fat_read_fat` of cluster 5 (an end-of-chain mark: no chain is erased),
`fat_cluster_clear` of cluster 5, and `fat_update_dentry`, which is `fat_cluster_read`
of the root directory sector, the store of the entry with size 0, and
`fat_cluster_mark_dirty`. -/
def file3_truncated : fat_fs_t :=
  (fat_cluster_mark_dirty
    (poke
      (fat_cluster_read
        (fat_cluster_clear
          (fat_read_fat (fat_cluster_read mnt_file3.fs 0x80000005 0).2.2.1 5 0).2.2
          5 0).2.2.1
        0x80000005 0).2.2.1
      ((fat_cluster_read
        (fat_cluster_clear
          (fat_read_fat (fat_cluster_read mnt_file3.fs 0x80000005 0).2.2.1 5 0).2.2
          5 0).2.2.1
        0x80000005 0).1.getD 0)
      28 0)
    0x80000005).2

/-- Reads of seven further clusters after the truncating open. -/
def file3_read_on : fat_fs_t × List (List dev_req) :=
  run_cluster_ops file3_truncated
    [cluster_op.read 6, cluster_op.read 7, cluster_op.read 8, cluster_op.read 9,
      cluster_op.read 10, cluster_op.read 11, cluster_op.read 12]

/-- The FAT12 volume `dev12` mounted with a cluster cache of `cache_sz` and a FAT cache
of `fcache_sz` records. -/
def vol12_sized (cache_sz fcache_sz : Nat) : fat_fs_t :=
  (fat_fs_init_ex dev12 FAT_MNT_FLAG_RW cache_sz fcache_sz).getD (no_fs dev12)

/-! ## Device extents of cluster cache records -/

/-- The device blocks behind a record id of the cluster cache, first block and number
of blocks, as `fat_cluster_read_nc` and `fat_cluster_write_nc` compute them: one raw
block for an id with bit 31 set on FAT12/FAT16, the blocks of the cluster otherwise. -/
def cluster_extent (fs : fat_fs_t) (cluster : Nat) : Nat × Nat :=
  if cluster &&& 0x80000000 ≠ 0 ∧ fs.sb.fs_type ≠ FAT_FS_FAT32 then
    (cluster &&& 0x7FFFFFFF, 1)
  else (cluster_block fs cluster, fs.sb.sectors_per_cluster)

/-- The ids that `fat_cluster_read_nc` and `fat_cluster_write_nc` accept. -/
def cluster_id_ok (fs : fat_fs_t) (cluster : Nat) : Prop :=
  (cluster &&& 0x80000000 ≠ 0 ∧ fs.sb.fs_type ≠ FAT_FS_FAT32) ∨
    ¬ (u32 (fs.sb.num_clusters + 2) ≤ cluster ∨ cluster < 2)

instance cluster_id_ok_dec (fs : fat_fs_t) (cluster : Nat) :
    Decidable (cluster_id_ok fs cluster) := by
  unfold cluster_id_ok; infer_instance

/-- The FAT12 volume `dev12` with a cluster cache of two records, both dirty: clusters 5
and 6 have been cleared, and the record of cluster 5 is in slot 0. -/
def vol_two_dirty : fat_fs_t :=
  (fat_cluster_clear (fat_cluster_clear (vol12_sized 2 2) 5 0).2.2.1 6 0).2.2.1

/-- The volume `vol_two_dirty` on a device that refuses every write. -/
def vol_two_dirty_wfail : fat_fs_t :=
  { vol_two_dirty with dev := { vol_two_dirty.dev with write_rc := fun _ _ => -1 } }

/-! ## Write-back passes -/

/-- The slots below `n` of a pointer array point to distinct records. -/
def slots_distinct (c : Nat → Nat) (n : Nat) : Prop :=
  ∀ i, i < n → ∀ j, j < n → c i = c j → i = j

instance slots_distinct_dec (c : Nat → Nat) (n : Nat) : Decidable (slots_distinct c n) := by
  unfold slots_distinct; infer_instance

/-- The record in slot `i` of the pointer array `c` is dirty. -/
def slot_dirty (fs : fat_fs_t) (c : Nat → Nat) (i : Nat) : Prop :=
  (fs.mem (c i)).flags &&& FAT_CACHE_FLAG_DIRTY ≠ 0

instance slot_dirty_dec (fs : fat_fs_t) (c : Nat → Nat) (i : Nat) :
    Decidable (slot_dirty fs c i) := by
  unfold slot_dirty; infer_instance

/-- The dirty slots below `n`, in the order in which a write-back pass visits them
(from `n - 1` down to 0). -/
def dirty_slots (fs : fat_fs_t) (c : Nat → Nat) : Nat → List Nat
  | 0 => []
  | i + 1 => if slot_dirty fs c i then i :: dirty_slots fs c i else dirty_slots fs c i

/-- The raw writer of the FAT block cache with its device requests, in the shape of
`fat_cluster_write_nc`. -/
def fatblock_writer (fs : fat_fs_t) (bn : Nat) (blk : Nat → Nat) :
    Int × kos_blockdev_t × List dev_req :=
  ((fat_fatblock_write_nc fs bn blk).1, (fat_fatblock_write_nc fs bn blk).2,
    fat_fatblock_write_nc_reqs fs bn)

/-- The device blocks behind a sector number of the FAT block cache. -/
def fatblock_extent (_fs : fat_fs_t) (bn : Nat) : Nat × Nat := (bn, 1)

/-- The common shape of the loops of `fat_cluster_cache_wb` and `fat_fatblock_cache_wb`,
with the raw writer `wr` and the pointer array `c`; the first numeric argument is
`i + 1`. -/
def wb_loop (wr : fat_fs_t → Nat → (Nat → Nat) → Int × kos_blockdev_t × List dev_req)
    (c : Nat → Nat) : Nat → fat_fs_t → Int × fat_fs_t × List dev_req
  | 0, fs => (0, fs, [])
  | i + 1, fs =>
    if (fs.mem (c i)).flags &&& FAT_CACHE_FLAG_DIRTY ≠ 0 then
      if (wr fs (fs.mem (c i)).block (fs.mem (c i)).data).1 ≠ 0 then
        ((wr fs (fs.mem (c i)).block (fs.mem (c i)).data).1,
          { fs with dev := (wr fs (fs.mem (c i)).block (fs.mem (c i)).data).2.1 },
          (wr fs (fs.mem (c i)).block (fs.mem (c i)).data).2.2)
      else
        ((wb_loop wr c i
            { fs with
              dev := (wr fs (fs.mem (c i)).block (fs.mem (c i)).data).2.1
              mem := mem_set fs.mem (c i)
                { fs.mem (c i) with flags := (fs.mem (c i)).flags &&& 0xFFFFFFFD } }).1,
          (wb_loop wr c i
            { fs with
              dev := (wr fs (fs.mem (c i)).block (fs.mem (c i)).data).2.1
              mem := mem_set fs.mem (c i)
                { fs.mem (c i) with flags := (fs.mem (c i)).flags &&& 0xFFFFFFFD } }).2.1,
          (wr fs (fs.mem (c i)).block (fs.mem (c i)).data).2.2 ++
          (wb_loop wr c i
            { fs with
              dev := (wr fs (fs.mem (c i)).block (fs.mem (c i)).data).2.1
              mem := mem_set fs.mem (c i)
                { fs.mem (c i) with flags := (fs.mem (c i)).flags &&& 0xFFFFFFFD } }).2.2)
    else wb_loop wr c i fs

/-- What a write-back pass over the slots below `n` of the pointer array `c` does to the
state `fs`, where `wr` is the raw writer and `ext` gives the device blocks of a record
id; `r` is the result of the pass: return value, new state, device requests. -/
structure wb_post (wr : fat_fs_t → Nat → (Nat → Nat) → Int × kos_blockdev_t × List dev_req)
    (ext : fat_fs_t → Nat → Nat × Nat) (c : Nat → Nat) (n : Nat) (fs : fat_fs_t)
    (r : Int × fat_fs_t × List dev_req) : Prop where
  /-- No record changes its id or its buffer. -/
  bufs : ∀ p, (r.2.1.mem p).block = (fs.mem p).block ∧ (r.2.1.mem p).data = (fs.mem p).data
  /-- Records outside the slots of the pass are untouched. -/
  other : ∀ p, (∀ i, i < n → c i ≠ p) → r.2.1.mem p = fs.mem p
  /-- A record that was not dirty keeps its flags. -/
  clean : ∀ i, i < n → ¬ slot_dirty fs c i → (r.2.1.mem (c i)).flags = (fs.mem (c i)).flags
  /-- When the write of every dirty record succeeds: the pass returns 0, no record is
  dirty any more (only the dirty bit is cleared), and the device requests are one write
  per dirty record, of its extent, in the order of the pass. -/
  ok : (∀ i, i < n → slot_dirty fs c i →
        (wr fs (fs.mem (c i)).block (fs.mem (c i)).data).1 = 0) →
      r.1 = 0 ∧ (∀ i, i < n → ¬ slot_dirty r.2.1 c i) ∧
      (∀ i, i < n → slot_dirty fs c i →
        (r.2.1.mem (c i)).flags = (fs.mem (c i)).flags &&& 0xFFFFFFFD) ∧
      r.2.2 = (dirty_slots fs c n).map
        (fun i => dev_req.write (ext fs (fs.mem (c i)).block).1
          (ext fs (fs.mem (c i)).block).2)
  /-- When the first failing write is that of slot `k`: the pass returns the error of
  that write, the records in the slots up to `k` keep their flags (the failing record
  and the dirty ones not yet visited are still dirty), the dirty records above `k` were
  written once each and are clean, and nothing is requested after the failing write. -/
  fail : ∀ k, k < n → slot_dirty fs c k →
      (wr fs (fs.mem (c k)).block (fs.mem (c k)).data).1 ≠ 0 →
      (∀ j, k < j → j < n → slot_dirty fs c j →
        (wr fs (fs.mem (c j)).block (fs.mem (c j)).data).1 = 0) →
      r.1 = (wr fs (fs.mem (c k)).block (fs.mem (c k)).data).1 ∧
      (∀ j, j ≤ k → (r.2.1.mem (c j)).flags = (fs.mem (c j)).flags) ∧
      (∀ j, k < j → j < n → ¬ slot_dirty r.2.1 c j) ∧
      r.2.2 = ((dirty_slots fs c n).filter (fun j => decide (k < j))).map
          (fun i => dev_req.write (ext fs (fs.mem (c i)).block).1
            (ext fs (fs.mem (c i)).block).2) ++
        (wr fs (fs.mem (c k)).block (fs.mem (c k)).data).2.2
  /-- In every case a flags word stays or loses its dirty bit. -/
  flags_cases : ∀ p, (r.2.1.mem p).flags = (fs.mem p).flags ∨
    (r.2.1.mem p).flags = (fs.mem p).flags &&& 0xFFFFFFFD
  /-- The superblock, the pointer arrays, the sizes and the mount flags stay. -/
  frame : r.2.1.sb = fs.sb ∧ r.2.1.bcache = fs.bcache ∧ r.2.1.cache_size = fs.cache_size ∧
    r.2.1.fcache = fs.fcache ∧ r.2.1.fcache_size = fs.fcache_size ∧
    r.2.1.mnt_flags = fs.mnt_flags

/-- What the proofs about a write-back pass use of its raw writer: return code and
requests depend only on the superblock, the return codes of the device and the record
id; the device keeps its return codes; and a successful call issues exactly the write
request for the extent of the id. -/
structure writer_ok
    (wr : fat_fs_t → Nat → (Nat → Nat) → Int × kos_blockdev_t × List dev_req)
    (ext : fat_fs_t → Nat → Nat × Nat) : Prop where
  rc_congr : ∀ (fs fs' : fat_fs_t) (bn : Nat) (blk blk' : Nat → Nat), fs'.sb = fs.sb →
    fs'.dev.write_rc = fs.dev.write_rc → (wr fs' bn blk').1 = (wr fs bn blk).1
  reqs_congr : ∀ (fs fs' : fat_fs_t) (bn : Nat) (blk blk' : Nat → Nat), fs'.sb = fs.sb →
    fs'.dev.write_rc = fs.dev.write_rc → (wr fs' bn blk').2.2 = (wr fs bn blk).2.2
  keeps_rc : ∀ (fs : fat_fs_t) (bn : Nat) (blk : Nat → Nat),
    (wr fs bn blk).2.1.write_rc = fs.dev.write_rc
  ok_reqs : ∀ (fs : fat_fs_t) (bn : Nat) (blk : Nat → Nat), (wr fs bn blk).1 = 0 →
    (wr fs bn blk).2.2 = [dev_req.write (ext fs bn).1 (ext fs bn).2]
  ext_congr : ∀ (fs fs' : fat_fs_t) (bn : Nat), fs'.sb = fs.sb → ext fs' bn = ext fs bn

/-! ## The cache invariant -/

/-- The record in slot `i` of the pointer array `c` is valid. -/
def slot_valid (fs : fat_fs_t) (c : Nat → Nat) (i : Nat) : Prop :=
  (fs.mem (c i)).flags &&& FAT_CACHE_FLAG_VALID ≠ 0

instance slot_valid_dec (fs : fat_fs_t) (c : Nat → Nat) (i : Nat) :
    Decidable (slot_valid fs c i) := by
  unfold slot_valid; infer_instance

/-- The invariant of one cache in the words of the specification, over the slots below
`n` of the pointer array `c`: every record id appears in at most one valid slot, and
every dirty slot is also valid. -/
def cache_coherent (fs : fat_fs_t) (c : Nat → Nat) (n : Nat) : Prop :=
  (∀ i, i < n → ∀ j, j < n → slot_valid fs c i → slot_valid fs c j →
    (fs.mem (c i)).block = (fs.mem (c j)).block → i = j) ∧
  (∀ i, i < n → slot_dirty fs c i → slot_valid fs c i)

instance cache_coherent_dec (fs : fat_fs_t) (c : Nat → Nat) (n : Nat) :
    Decidable (cache_coherent fs c n) := by
  unfold cache_coherent; infer_instance

/-- No id is held by two slots below `n` whose records have non-zero flags (the test of
the search loops). -/
def slots_uniq (mem : Nat → fat_cache_t) (c : Nat → Nat) (n : Nat) : Prop :=
  ∀ i, i < n → ∀ j, j < n → (mem (c i)).flags ≠ 0 → (mem (c j)).flags ≠ 0 →
    (mem (c i)).block = (mem (c j)).block → i = j

/-- The invariant that the cache functions maintain on both caches: the sizes fit, the
two pointer arrays point to distinct records of two disjoint pools, every flags word is
0, `VALID` or `VALID | DIRTY`, and no id is cached twice. -/
structure caches_wf (fs : fat_fs_t) : Prop where
  size_ge : 1 ≤ fs.cache_size
  size_le : fs.cache_size ≤ fs.fcache_size
  bptr : ∀ i, i < fs.cache_size → fs.bcache i < fs.cache_size
  fptr : ∀ i, i < fs.fcache_size → fs.cache_size ≤ fs.fcache i
  bdistinct : slots_distinct fs.bcache fs.cache_size
  fdistinct : slots_distinct fs.fcache fs.fcache_size
  flags : ∀ p, (fs.mem p).flags = 0 ∨ (fs.mem p).flags = 1 ∨ (fs.mem p).flags = 3
  buniq : slots_uniq fs.mem fs.bcache fs.cache_size
  funiq : slots_uniq fs.mem fs.fcache fs.fcache_size

/-- A call of one of the cache functions, or a store of the caller into a buffer that
the cache handed out. -/
inductive cache_call
  | cluster_read (cl : Nat) (err : Int)
  | cluster_clear (cl : Nat) (err : Int)
  | cluster_mark_dirty (cl : Nat)
  | cluster_cache_wb
  | read_fatblock (b : Nat) (err : Int)
  | fatblock_mark_dirty (b : Nat)
  | fatblock_cache_wb
  | store (p off v : Nat)

/-- The state after a call. -/
def run_call (fs : fat_fs_t) : cache_call → fat_fs_t
  | cache_call.cluster_read cl err => (fat_cluster_read fs cl err).2.2.1
  | cache_call.cluster_clear cl err => (fat_cluster_clear fs cl err).2.2.1
  | cache_call.cluster_mark_dirty cl => (fat_cluster_mark_dirty fs cl).2
  | cache_call.cluster_cache_wb => (fat_cluster_cache_wb fs).2.1
  | cache_call.read_fatblock b err => (fat_read_fatblock fs b err).2.2
  | cache_call.fatblock_mark_dirty b => (fat_fatblock_mark_dirty fs b).2
  | cache_call.fatblock_cache_wb => (fat_fatblock_cache_wb fs).2.1
  | cache_call.store p off v => poke fs p off v

/-- The state after a sequence of calls. -/
def run_calls (fs : fat_fs_t) (calls : List cache_call) : fat_fs_t :=
  calls.foldl run_call fs

/-- How one call changes the caches: the sizes stay, each pointer array stays or is
reordered by `make_mru`, every flags word stays one of 0, `VALID`, `VALID | DIRTY`, and
a record with non-zero flags either had non-zero flags and the same id before, or it is
the record of slot 0, now holding an id that its cache did not hold. -/
structure cache_step (fs fs' : fat_fs_t) : Prop where
  cache_size : fs'.cache_size = fs.cache_size
  fcache_size : fs'.fcache_size = fs.fcache_size
  bcache : fs'.bcache = fs.bcache ∨
    ∃ k, k < fs.cache_size ∧ fs'.bcache = make_mru fs fs.bcache k
  fcache : fs'.fcache = fs.fcache ∨
    ∃ k, k < fs.fcache_size ∧ fs'.fcache = make_mru fs fs.fcache k
  flags : ∀ p, (fs'.mem p).flags = 0 ∨ (fs'.mem p).flags = 1 ∨ (fs'.mem p).flags = 3
  bmem : ∀ i, i < fs.cache_size → (fs'.mem (fs.bcache i)).flags ≠ 0 →
    ((fs.mem (fs.bcache i)).flags ≠ 0 ∧
      (fs'.mem (fs.bcache i)).block = (fs.mem (fs.bcache i)).block) ∨
    (i = 0 ∧ ∀ j, j < fs.cache_size →
      ¬ ((fs.mem (fs.bcache j)).block = (fs'.mem (fs.bcache 0)).block ∧
        (fs.mem (fs.bcache j)).flags ≠ 0))
  fmem : ∀ i, i < fs.fcache_size → (fs'.mem (fs.fcache i)).flags ≠ 0 →
    ((fs.mem (fs.fcache i)).flags ≠ 0 ∧
      (fs'.mem (fs.fcache i)).block = (fs.mem (fs.fcache i)).block) ∨
    (i = 0 ∧ ∀ j, j < fs.fcache_size →
      ¬ ((fs.mem (fs.fcache j)).block = (fs'.mem (fs.fcache 0)).block ∧
        (fs.mem (fs.fcache j)).flags ≠ 0))

/-! ## Working sets -/

/-- The invariant of the cluster cache while it serves a working set `W`, after the
calls `pre`: the slots point to distinct records, no id is cached twice, the records
with non-zero flags fill the slots from some index `k` upwards, their ids lie in `W`,
every id that was read before and that `fat_cluster_read_nc` accepts is still cached,
and no device request fails. -/
structure ws_inv (fs : fat_fs_t) (W : Finset Nat) (pre : List cluster_op) : Prop where
  size_ge : 1 ≤ fs.cache_size
  distinct : slots_distinct fs.bcache fs.cache_size
  uniq : slots_uniq fs.mem fs.bcache fs.cache_size
  upper : ∃ k, k ≤ fs.cache_size ∧
    ∀ i, i < fs.cache_size → ((fs.mem (fs.bcache i)).flags ≠ 0 ↔ k ≤ i)
  ids : ∀ i, i < fs.cache_size → (fs.mem (fs.bcache i)).flags ≠ 0 →
    (fs.mem (fs.bcache i)).block ∈ W
  cached : ∀ cl, cluster_op.read cl ∈ pre → cluster_id_ok fs cl →
    ∃ i, i < fs.cache_size ∧ (fs.mem (fs.bcache i)).flags ≠ 0 ∧
      (fs.mem (fs.bcache i)).block = cl
  dev : dev_ok fs

/-! ## `ucs.c`: UTF-8 and UCS-2 -/

/-- Load of one `uint16_t` from an array of code units. -/
def ld16 (buf : Nat → Nat) (i : Nat) : Nat := buf i % 65536

/-- Store of one `uint16_t` into an array of code units (`out[j] = (uint16_t)v`). -/
def st16 (buf : Nat → Nat) (j v : Nat) : Nat → Nat :=
  fun k => if k = j then v % 65536 else buf k

/-- The loop `for(i = 0, j = 0; i < ilen && j < olen - 1;)` of `fat_utf8_to_ucs2` with
the two statements after it; `olen - 1` is computed in `size_t` (32 bits).  The result
is the return value and the array `out`; `none` when the fuel does not reach the end of
the loop. -/
def fat_utf8_to_ucs2_loop :
    Nat → (Nat → Nat) → (Nat → Nat) → Nat → Nat → Nat → Nat → Option (Int × (Nat → Nat))
  | 0, _, _, _, _, _, _ => none
  | fuel + 1, out, inp, olen, ilen, i, j =>
    if i < ilen ∧ j < u32 (olen + (2 ^ 32 - 1)) then
      if ld8 inp i ≤ 0x7F then
        fat_utf8_to_ucs2_loop fuel (st16 out j (ld8 inp i)) inp olen ilen (i + 1) (j + 1)
      else if ld8 inp i &&& 0xE0 = 0xC0 then
        if ilen < i + 2 then some (-1, out)
        else if ld8 inp (i + 1) &&& 0xC0 ≠ 0x80 then
          some (-1, st16 out j ((ld8 inp i &&& 0x1F) <<< 6))
        else
          fat_utf8_to_ucs2_loop fuel
            (st16 out j (((ld8 inp i &&& 0x1F) <<< 6) ||| (ld8 inp (i + 1) &&& 0x3F)))
            inp olen ilen (i + 2) (j + 1)
      else if ld8 inp i &&& 0xF0 = 0xE0 then
        if ilen < i + 3 then some (-1, out)
        else if ld8 inp (i + 1) &&& 0xC0 ≠ 0x80 then
          some (-1, st16 out j ((ld8 inp i &&& 0x0F) <<< 12))
        else if ld8 inp (i + 2) &&& 0xC0 ≠ 0x80 then
          some (-1, st16 out j
            (((ld8 inp i &&& 0x0F) <<< 12) ||| ((ld8 inp (i + 1) &&& 0x3F) <<< 6)))
        else
          fat_utf8_to_ucs2_loop fuel
            (st16 out j
              (((ld8 inp i &&& 0x0F) <<< 12) ||| ((ld8 inp (i + 1) &&& 0x3F) <<< 6) |||
                (ld8 inp (i + 2) &&& 0x3F)))
            inp olen ilen (i + 3) j
      else some (-1, out)
    else some (0, st16 out j 0)

/-- The function `fat_utf8_to_ucs2`.  Every pass of the loop consumes a byte, so
`ilen + 1` passes reach its end. -/
def fat_utf8_to_ucs2 (out inp : Nat → Nat) (olen ilen : Nat) : Option (Int × (Nat → Nat)) :=
  fat_utf8_to_ucs2_loop (ilen + 1) out inp olen ilen 0 0

/-- The loop `for(i = 0, j = 0; i < ilen; ++i)` of `fat_ucs2_to_utf8` with the two
statements after it; the first argument is `ilen - i`. -/
def fat_ucs2_to_utf8_loop (inp : Nat → Nat) (olen : Nat) :
    Nat → Nat → Nat → (Nat → Nat) → Int × (Nat → Nat)
  | 0, _, j, out => (0, st8 out j 0)
  | n + 1, i, j, out =>
    if ld16 inp i ≤ 0x007F then
      if olen < j + 2 then (-1, out)
      else fat_ucs2_to_utf8_loop inp olen n (i + 1) (j + 1) (st8 out j (ld16 inp i))
    else if ld16 inp i ≤ 0x07FF then
      if olen < j + 3 then (-1, out)
      else
        fat_ucs2_to_utf8_loop inp olen n (i + 1) (j + 2)
          (st8 (st8 out j (0xC0 ||| ((ld16 inp i >>> 6) &&& 0x1F))) (j + 1)
            (0x80 ||| (ld16 inp i &&& 0x3F)))
    else
      if olen < j + 4 then (-1, out)
      else
        fat_ucs2_to_utf8_loop inp olen n (i + 1) (j + 3)
          (st8 (st8 (st8 out j (0xE0 ||| ((ld16 inp i >>> 12) &&& 0x0F))) (j + 1)
            (0x80 ||| ((ld16 inp i >>> 6) &&& 0x3F))) (j + 2)
            (0x80 ||| (ld16 inp i &&& 0x3F)))

/-- The function `fat_ucs2_to_utf8`. -/
def fat_ucs2_to_utf8 (out inp : Nat → Nat) (olen ilen : Nat) : Int × (Nat → Nat) :=
  fat_ucs2_to_utf8_loop inp olen ilen 0 0 out

/-- The loop of `fat_strlen_ucs2`, bounded by the fuel. -/
def fat_strlen_ucs2_loop (inp : Nat → Nat) : Nat → Nat → Nat
  | 0, i => i
  | fuel + 1, i => if ld16 inp i ≠ 0 then fat_strlen_ucs2_loop inp fuel (i + 1) else i

/-- An array holding the elements of a list, zero after them. -/
def arr_of (l : List Nat) : Nat → Nat := fun i => l.getD i 0

/-! ## `fs_ext2.c`: removal and renaming of directories

The functions of `inode.c` and `directory.c` of libkosext2fs that `fs_ext2.c` calls are
parameters of the model: an environment gives, for every call, the value that the callee
returns after the calls made so far.  Every call and every store through an inode
pointer is appended to that history, which the functions of `fs_ext2.c` return next to
their result.  Inode pointers and inode numbers are natural numbers; names and paths are
lists of bytes. -/

/-- The bytes of a C string literal. -/
def cstr (s : String) : List Nat := s.toList.map Char.toNat

def EPERM : Int := 1
def ENOENT : Int := 2
def EBUSY : Int := 16
def ENOTDIR : Int := 20
def EISDIR : Int := 21
def ENOTEMPTY : Int := 90

def EXT2_S_IFDIR : Nat := 0x4000
def FS_EXT2_MOUNT_READWRITE : Nat := 1
def MAX_EXT2_FILES : Nat := 16

/-- A call into the ext2 engine, or a store through an inode pointer. -/
inductive ext2_call
  | inode_by_path (path : List Nat)
  | dir_entry (dir : Nat) (name : List Nat)
  | inode_get (num : Nat)
  | inode_put (inode : Nat)
  | inode_retain (inode : Nat)
  | inode_mark_dirty (inode : Nat)
  | dir_is_empty (dir : Nat)
  | dir_rm_entry (dir : Nat) (name : List Nat)
  | inode_deref (num isdir : Nat)
  | dir_add_entry (dir : Nat) (name : List Nat) (num inode : Nat)
  | dir_redir_entry (dir : Nat) (name : List Nat) (num : Nat)
  | links_count_store (inode v : Nat)
  | times_store (inode : Nat)
  deriving DecidableEq

/-- The calls and stores that change a directory entry, an inode or a link count. -/
def ext2_call.modifies : ext2_call → Bool
  | ext2_call.inode_mark_dirty _ => true
  | ext2_call.dir_rm_entry _ _ => true
  | ext2_call.inode_deref _ _ => true
  | ext2_call.dir_add_entry _ _ _ _ => true
  | ext2_call.dir_redir_entry _ _ _ => true
  | ext2_call.links_count_store _ _ => true
  | ext2_call.times_store _ => true
  | _ => false

/-- The behaviour of the callees: each field gives the result of a call made after the
history in its first argument.  `inode_by_path` gives the return value, `*inode` and
`*inode_num`; `dir_entry` gives the field `inode` of the entry found (`none` for
`NULL`); `inode_get` gives the inode pointer (`none` for `NULL`) and `*err`;
`dir_rm_entry` gives the return value and `*inode`; `i_mode` and `i_links_count` are the
fields read through an inode pointer. -/
structure ext2_env where
  inode_by_path : List ext2_call → List Nat → Int × Nat × Nat
  dir_entry : List ext2_call → Nat → List Nat → Option Nat
  inode_get : List ext2_call → Nat → Option Nat × Int
  dir_is_empty : List ext2_call → Nat → Int
  dir_rm_entry : List ext2_call → Nat → List Nat → Int × Nat
  inode_deref : List ext2_call → Nat → Nat → Int
  dir_add_entry : List ext2_call → Nat → List Nat → Nat → Nat → Int
  dir_redir_entry : List ext2_call → Nat → List Nat → Nat → Int
  i_mode : List ext2_call → Nat → Nat
  i_links_count : List ext2_call → Nat → Nat

/-- The split of a copy of `s` at `strrchr(s, c)`: the bytes before the last `c` and the
bytes after it; `none` when `c` does not occur. -/
def strrchr_split (c : Nat) : List Nat → Option (List Nat × List Nat)
  | [] => none
  | x :: xs =>
    match strrchr_split c xs with
    | some (a, b) => some (x :: a, b)
    | none => if x = c then some ([], xs) else none

/-- The loop `for(irv = 0; irv < MAX_EXT2_FILES; ++irv)` over the table of open files:
whether some `fh[irv].inode_num` below the bound equals `num`. -/
def ext2_fh_scan (fh_inode_num : Nat → Nat) (num : Nat) : Nat → Bool
  | 0 => false
  | n + 1 => ext2_fh_scan fh_inode_num num n || decide (fh_inode_num n = num)

/-- The calls `ext2_inode_put(dpinode); if(dinode) ext2_inode_put(dinode);`. -/
def int_rename_puts (dpinode : Nat) (dinode : Option Nat) : List ext2_call :=
  match dinode with
  | some d => [ext2_call.inode_put dpinode, ext2_call.inode_put d]
  | none => [ext2_call.inode_put dpinode]

/-- The part "if the entry exists, we have a bit more error checking to do" of
`int_rename`, from the lookup of the destination entry on.  `Sum.inl` is a return from
`int_rename`; `Sum.inr` carries `dent->inode` (`none` when `dent` is `NULL`), `dinode`
and `isdir`. -/
def int_rename_dest (E : ext2_env) (fh_inode_num : Nat → Nat) (isfile dpinode : Nat)
    (ent : List Nat) (h : List ext2_call) :
    Sum Int (Option Nat × Option Nat × Nat) × List ext2_call :=
  let h1 := h ++ [ext2_call.dir_entry dpinode ent]
  match E.dir_entry h dpinode ent with
  | none => (Sum.inr (none, none, 0), h1)
  | some n =>
    let h2 := h1 ++ [ext2_call.inode_get n]
    match (E.inode_get h1 n).1 with
    | none => (Sum.inl (- EIO), h2 ++ [ext2_call.inode_put dpinode])
    | some dinode =>
      if E.i_mode h2 dinode &&& 0xF000 = EXT2_S_IFDIR then
        if isfile ≠ 0 then
          (Sum.inl (-EISDIR), h2 ++ [ext2_call.inode_put dinode, ext2_call.inode_put dpinode])
        else
          let h3 := h2 ++ [ext2_call.dir_is_empty dinode]
          if E.dir_is_empty h2 dinode = 0 then
            (Sum.inl (-ENOTEMPTY),
              h3 ++ [ext2_call.inode_put dinode, ext2_call.inode_put dpinode])
          else if E.dir_is_empty h2 dinode = -1 then
            (Sum.inl (- EIO), h3 ++ [ext2_call.inode_put dinode, ext2_call.inode_put dpinode])
          else if ext2_fh_scan fh_inode_num n MAX_EXT2_FILES then
            (Sum.inl (-EBUSY), h3 ++ [ext2_call.inode_put dinode, ext2_call.inode_put dpinode])
          else (Sum.inr (some n, some dinode, 1), h3)
      else if ext2_fh_scan fh_inode_num n MAX_EXT2_FILES then
        (Sum.inl (-EBUSY), h2 ++ [ext2_call.inode_put dinode, ext2_call.inode_put dpinode])
      else (Sum.inr (some n, some dinode, 0), h2)

/-- The loop `for(;;)` of `int_rename` that walks from the destination's parent towards
the root.  The last arguments are the history and `sinode`; `sinode_num` is assigned
once before the loop and stays `dpinode_num`.  `Sum.inl` is a return from `int_rename`,
`Sum.inr` the `break`; `none` when the fuel does not reach the end of the loop. -/
def int_rename_walk (E : ext2_env) (finode dpinode dpinode_num : Nat)
    (dinode : Option Nat) : Nat → List ext2_call → Nat → Option (Sum Int Unit × List ext2_call)
  | 0, _, _ => none
  | fuel + 1, h, sinode =>
    if sinode = finode then
      some (Sum.inl (-EINVAL),
        h ++ ext2_call.inode_put sinode :: int_rename_puts dpinode dinode)
    else
      match E.dir_entry h sinode (cstr "..") with
      | none =>
        some (Sum.inl (-EINVAL),
          h ++ ext2_call.dir_entry sinode (cstr "..") :: ext2_call.inode_put sinode ::
            int_rename_puts dpinode dinode)
      | some n =>
        if n = dpinode_num then
          some (Sum.inr (),
            h ++ [ext2_call.dir_entry sinode (cstr ".."), ext2_call.inode_put sinode])
        else
          match (E.inode_get
            (h ++ [ext2_call.dir_entry sinode (cstr ".."), ext2_call.inode_put sinode]) n).1
          with
          | none =>
            some (Sum.inl (E.inode_get
                (h ++ [ext2_call.dir_entry sinode (cstr ".."),
                  ext2_call.inode_put sinode]) n).2,
              h ++ ext2_call.dir_entry sinode (cstr "..") :: ext2_call.inode_put sinode ::
                ext2_call.inode_get n :: int_rename_puts dpinode dinode)
          | some p =>
            int_rename_walk E finode dpinode dpinode_num dinode fuel
              (h ++ [ext2_call.dir_entry sinode (cstr ".."), ext2_call.inode_put sinode,
                ext2_call.inode_get n]) p

/-- The part "if(dent)" of the real work of `int_rename`: removal of the object that is
overwritten.  `Sum.inl` is a return from `int_rename`. -/
def int_rename_overwrite (E : ext2_env) (dpinode : Nat) (ent : List Nat)
    (dent dinode : Option Nat) (isdir : Nat) (h : List ext2_call) :
    Sum Int Unit × List ext2_call :=
  match dent, dinode with
  | some _, some d =>
    let h1 := h ++ [ext2_call.dir_rm_entry dpinode ent]
    if (E.dir_rm_entry h dpinode ent).1 ≠ 0 then
      (Sum.inl (- EIO), h1 ++ [ext2_call.inode_put dpinode, ext2_call.inode_put d])
    else
      let h2 := h1 ++ [ext2_call.inode_put d]
      let h3 := h2 ++ [ext2_call.inode_deref (E.dir_rm_entry h dpinode ent).2 isdir]
      if E.inode_deref h2 (E.dir_rm_entry h dpinode ent).2 isdir ≠ 0 then
        (Sum.inl (- EIO), h3 ++ [ext2_call.inode_put dpinode])
      else if isdir ≠ 0 then
        (Sum.inr (),
          h3 ++ [ext2_call.links_count_store dpinode (u16 (E.i_links_count h3 dpinode + 65535)),
            ext2_call.inode_mark_dirty dpinode])
      else (Sum.inr (), h3)
  | _, _ => (Sum.inr (), h)

/-- The end of `int_rename`, from "add the new entry to the directory" on. -/
def int_rename_move (E : ext2_env) (fn1 ent : List Nat)
    (pinode finode finode_num isfile dpinode dpinode_num : Nat) (h : List ext2_call) :
    Int × List ext2_call :=
  let h1 := h ++ [ext2_call.dir_add_entry dpinode ent finode_num finode]
  if E.dir_add_entry h dpinode ent finode_num finode ≠ 0 then
    (- EIO, h1 ++ [ext2_call.inode_put dpinode])
  else
    let h2 := h1 ++ [ext2_call.dir_rm_entry pinode fn1]
    if (E.dir_rm_entry h1 pinode fn1).1 ≠ 0 then
      (- EIO, h2 ++ [ext2_call.inode_put dpinode])
    else if isfile = 0 then
      let h3 := h2 ++ [ext2_call.dir_redir_entry finode (cstr "..") dpinode_num]
      if E.dir_redir_entry h2 finode (cstr "..") dpinode_num ≠ 0 then (- EIO, h3)
      else
        let h4 := h3 ++
          [ext2_call.links_count_store pinode (u16 (E.i_links_count h3 pinode + 65535))]
        (0, h4 ++
          [ext2_call.links_count_store dpinode (u16 (E.i_links_count h4 dpinode + 1)),
            ext2_call.inode_mark_dirty dpinode, ext2_call.inode_mark_dirty pinode,
            ext2_call.inode_put dpinode])
    else (0, h2 ++ [ext2_call.inode_put dpinode])

/-- The part of `int_rename` after the destination's parent has been found to be a
directory. -/
def int_rename_checked (fuel : Nat) (E : ext2_env) (fh_inode_num : Nat → Nat)
    (fn1 ent : List Nat) (pinode finode finode_num isfile dpinode dpinode_num : Nat)
    (h : List ext2_call) : Option (Int × List ext2_call) :=
  match int_rename_dest E fh_inode_num isfile dpinode ent h with
  | (Sum.inl e, h2) => some (e, h2)
  | (Sum.inr (dent, dinode, isdir), h2) =>
    match (if isfile = 0 ∧ dpinode ≠ pinode then
        int_rename_walk E finode dpinode dpinode_num dinode fuel
          (h2 ++ [ext2_call.inode_retain dpinode]) dpinode
      else some (Sum.inr (), h2)) with
    | none => none
    | some (Sum.inl e, h3) => some (e, h3)
    | some (Sum.inr _, h3) =>
      match int_rename_overwrite E dpinode ent dent dinode isdir h3 with
      | (Sum.inl e, h4) => some (e, h4)
      | (Sum.inr _, h4) =>
        some (int_rename_move E fn1 ent pinode finode finode_num isfile dpinode
          dpinode_num h4)

/-- The function `int_rename` (the copy of `fn2` is allocated successfully): the return
value and the history; `none` when the fuel does not reach the end of the walk towards
the root. -/
def int_rename (fuel : Nat) (E : ext2_env) (fh_inode_num : Nat → Nat) (fn1 fn2 : List Nat)
    (pinode finode finode_num isfile : Nat) (h : List ext2_call) :
    Option (Int × List ext2_call) :=
  match strrchr_split 47 fn2 with
  | none => some (-EINVAL, h)
  | some (cp, ent) =>
    let h1 := h ++ [ext2_call.inode_by_path cp]
    if (E.inode_by_path h cp).1 ≠ 0 then some ((E.inode_by_path h cp).1, h1)
    else if E.i_mode h1 (E.inode_by_path h cp).2.1 &&& 0xF000 ≠ EXT2_S_IFDIR then
      some (-ENOTDIR, h1 ++ [ext2_call.inode_put (E.inode_by_path h cp).2.1])
    else
      int_rename_checked fuel E fh_inode_num fn1 ent pinode finode finode_num isfile
        (E.inode_by_path h cp).2.1 (E.inode_by_path h cp).2.2 h1

/-- The function `fs_ext2_rename` for non-`NULL` names (the copy of `fn1` is allocated
successfully): the return value, `errno`, the history, and whether `ext2_mutex` is held
at the return of a call that is entered with the mutex not held.  The returns before
`mutex_lock` leave the mutex alone, the error returns after it call `mutex_unlock`, and
the return after `int_rename` follows a second `mutex_lock`. -/
def fs_ext2_rename (fuel : Nat) (E : ext2_env) (mount_flags : Nat)
    (fh_inode_num : Nat → Nat) (fn1 fn2 : List Nat) (errno : Int) (h : List ext2_call) :
    Option (Int × Int × List ext2_call × Bool) :=
  if fn1 = [] then some (-1, EINVAL, h, false)
  else if mount_flags &&& FS_EXT2_MOUNT_READWRITE = 0 then some (-1, EROFS, h, false)
  else
    match strrchr_split 47 fn1 with
    | none => some (-1, EINVAL, h, false)
    | some (cp, ent) =>
      let pinode := (E.inode_by_path h cp).2.1
      let h1 := h ++ [ext2_call.inode_by_path cp]
      if (E.inode_by_path h cp).1 ≠ 0 then some (-1, -(E.inode_by_path h cp).1, h1, false)
      else if E.i_mode h1 pinode &&& 0xF000 ≠ EXT2_S_IFDIR then
        some (-1, ENOTDIR, h1 ++ [ext2_call.inode_put pinode], false)
      else
        let h2 := h1 ++ [ext2_call.dir_entry pinode ent]
        match E.dir_entry h1 pinode ent with
        | none => some (-1, ENOENT, h2 ++ [ext2_call.inode_put pinode], false)
        | some n =>
          let h3 := h2 ++ [ext2_call.inode_get n]
          match (E.inode_get h2 n).1 with
          | none => some (-1, EIO, h3, false)
          | some inode =>
            match int_rename fuel E fh_inode_num ent fn2 pinode inode n
              (if E.i_mode h3 inode &&& 0xF000 = EXT2_S_IFDIR then 0 else 1) h3 with
            | none => none
            | some (irv, h4) =>
              if irv < 0 then
                some (-1, -irv,
                  h4 ++ [ext2_call.inode_put pinode, ext2_call.inode_put inode], true)
              else
                some (irv, errno,
                  h4 ++ [ext2_call.inode_put pinode, ext2_call.inode_put inode], true)

/-- The function `fs_ext2_rmdir` for a non-`NULL` name (the copy of `fn` is allocated
successfully): the return value, `errno` and the history. -/
def fs_ext2_rmdir (E : ext2_env) (mount_flags : Nat) (fh_inode_num : Nat → Nat)
    (fn : List Nat) (errno : Int) (h : List ext2_call) : Int × Int × List ext2_call :=
  if fn = [] ∨ fn = [47] then (-1, EPERM, h)
  else if mount_flags &&& FS_EXT2_MOUNT_READWRITE = 0 then (-1, EROFS, h)
  else
    match strrchr_split 47 fn with
    | none => (-1, EPERM, h)
    | some (cp, ent) =>
      let pinode := (E.inode_by_path h cp).2.1
      let h1 := h ++ [ext2_call.inode_by_path cp]
      if (E.inode_by_path h cp).1 ≠ 0 then (-1, -(E.inode_by_path h cp).1, h1)
      else if E.i_mode h1 pinode &&& 0xF000 ≠ EXT2_S_IFDIR then
        (-1, ENOTDIR, h1 ++ [ext2_call.inode_put pinode])
      else
        let h2 := h1 ++ [ext2_call.dir_entry pinode ent]
        match E.dir_entry h1 pinode ent with
        | none => (-1, ENOENT, h2 ++ [ext2_call.inode_put pinode])
        | some n =>
          let h3 := h2 ++ [ext2_call.inode_get n]
          match (E.inode_get h2 n).1 with
          | none => (-1, EIO, h3 ++ [ext2_call.inode_put pinode])
          | some inode =>
            if E.i_mode h3 inode &&& 0xF000 ≠ EXT2_S_IFDIR then
              (-1, EPERM, h3 ++ [ext2_call.inode_put pinode, ext2_call.inode_put inode])
            else if ext2_fh_scan fh_inode_num n MAX_EXT2_FILES then
              (-1, EBUSY, h3 ++ [ext2_call.inode_put pinode, ext2_call.inode_put inode])
            else
              let h4 := h3 ++ [ext2_call.dir_rm_entry pinode ent]
              if (E.dir_rm_entry h3 pinode ent).1 ≠ 0 then
                (-1, -(E.dir_rm_entry h3 pinode ent).1,
                  h4 ++ [ext2_call.inode_put pinode, ext2_call.inode_put inode])
              else
                let h5 := h4 ++ [ext2_call.inode_put inode]
                let h6 := h5 ++ [ext2_call.inode_deref (E.dir_rm_entry h3 pinode ent).2 1]
                if E.inode_deref h5 (E.dir_rm_entry h3 pinode ent).2 1 ≠ 0 then
                  (-1, -(E.inode_deref h5 (E.dir_rm_entry h3 pinode ent).2 1), h6)
                else
                  let h7 := h6 ++ [ext2_call.times_store pinode]
                  (0, errno,
                    h7 ++ [ext2_call.links_count_store pinode
                        (u16 (E.i_links_count h7 pinode + 65535)),
                      ext2_call.inode_mark_dirty pinode, ext2_call.inode_put pinode])

/-- The ancestors reached by the walk of `int_rename`: `walk_reaches E finode num k p`
says that `k` steps from the directory `p` through the entries ".." arrive at the inode
object `finode`, where every lookup on the way succeeds whatever has been called before,
and no ".." on the way holds the inode number `num`. -/
def walk_reaches (E : ext2_env) (finode num : Nat) : Nat → Nat → Prop
  | 0, p => p = finode
  | k + 1, p =>
    p ≠ finode ∧ ∃ n q, (∀ h, E.dir_entry h p (cstr "..") = some n) ∧ n ≠ num ∧
      (∀ h, (E.inode_get h n).1 = some q) ∧ walk_reaches E finode num k q

/-! ### A concrete directory tree

The root directory (inode 2) holds the directory `a` (inode 12) and the regular file `f`
(inode 14); `a` holds the empty directory `b` (inode 13). -/

/-- The inode number of the entry `name` of the directory with inode number `dir`. -/
def tree_child (dir : Nat) (name : List Nat) : Option Nat :=
  if dir = 2 then
    if name = cstr "." ∨ name = cstr ".." then some 2
    else if name = cstr "a" then some 12
    else if name = cstr "f" then some 14
    else none
  else if dir = 12 then
    if name = cstr "." then some 12
    else if name = cstr ".." then some 2
    else if name = cstr "b" then some 13
    else none
  else if dir = 13 then
    if name = cstr "." then some 13
    else if name = cstr ".." then some 12
    else none
  else none

/-- The field `i_mode` of the inodes of the tree (0 for an inode that is not in use). -/
def tree_mode (n : Nat) : Nat :=
  if n = 2 ∨ n = 12 ∨ n = 13 then 0x41ED else if n = 14 then 0x81A4 else 0

/-- The inode number of a path of the tree. -/
def tree_path (p : List Nat) : Option Nat :=
  if p = [] then some 2
  else if p = cstr "/a" then some 12
  else if p = cstr "/a/b" then some 13
  else if p = cstr "/f" then some 14
  else none

/-- The inode object handed out for inode `n` after the history `h`: with `dedup` every
lookup of `n` gives the same object, without it every lookup gives a new object. -/
def tree_ptr (dedup : Bool) (h : List ext2_call) (n : Nat) : Nat :=
  if dedup then n else n + 100 * (h.length + 1)

/-- An ext2 engine on the tree in which every modification succeeds. -/
def tree_env (dedup : Bool) : ext2_env where
  inode_by_path := fun h p =>
    match tree_path p with
    | some n => (0, tree_ptr dedup h n, n)
    | none => (-ENOENT, 0, 0)
  dir_entry := fun _ p name => tree_child (p % 100) name
  inode_get := fun h n => if tree_mode n ≠ 0 then (some (tree_ptr dedup h n), 0) else (none, EIO)
  dir_is_empty := fun _ p => if p % 100 = 13 then 1 else 0
  dir_rm_entry := fun _ p name =>
    match tree_child (p % 100) name with
    | some n => (0, n)
    | none => (-ENOENT, 0)
  inode_deref := fun _ _ _ => 0
  dir_add_entry := fun _ _ _ _ _ => 0
  dir_redir_entry := fun _ _ _ _ => 0
  i_mode := fun _ p => tree_mode (p % 100)
  i_links_count := fun _ p => if p % 100 = 2 then 3 else if p % 100 = 12 then 3 else 2

/-! ## `directory.c`: directory entries

A directory entry is read and written through a pointer into a buffer of the cluster
cache; such a pointer is the address `p` of the cache record and a byte offset.  Names
are lists of bytes.  The functions of the C library are the fields of `libc_t`.  The
static arrays `longname_buf` and `longname_buf2` of `directory.c` are carried next to
the filesystem object in `fat_dir_t`; they are indexed without the bound 256 of the C
arrays.  Loops that follow a FAT chain take fuel, and `none` is the result of a call
whose fuel does not reach the end of a loop. -/

def FAT_ENTRY_EOD : Nat := 0x00
def FAT_ENTRY_FREE : Nat := 0xE5

def FAT_ATTR_READ_ONLY : Nat := 0x01
def FAT_ATTR_HIDDEN : Nat := 0x02
def FAT_ATTR_SYSTEM : Nat := 0x04
def FAT_ATTR_VOLUME_ID : Nat := 0x08
def FAT_ATTR_DIRECTORY : Nat := 0x10
def FAT_ATTR_ARCHIVE : Nat := 0x20
def FAT_ATTR_LONG_NAME : Nat := 0x0F
def FAT_ATTR_LONG_NAME_MASK : Nat := 0x3F
def FAT_ORDER_LAST : Nat := 0x40

def EEXIST : Int := 17
def ENFILE : Int := 23
def EDOM : Int := 33
def ENAMETOOLONG : Int := 91
def EILSEQ : Int := 138

/-- The fields of `struct tm` that the code reads or writes. -/
structure tm_t where
  tm_year : Nat
  tm_mon : Nat
  tm_mday : Nat
  tm_hour : Nat
  tm_min : Nat
  tm_sec : Nat
  deriving DecidableEq

/-- The C library as far as the code depends on it: whether `char` is signed, the
function `towlower`, the value of `localtime` of `time(NULL)`, and `mktime`. -/
structure libc_t where
  signed_char : Bool
  towlower : Nat → Nat
  now : tm_t
  mktime : tm_t → Int

/-- The function `toupper` of the "C" locale on the value of a byte. -/
def toupper (c : Nat) : Nat := if 0x61 ≤ c ∧ c ≤ 0x7A then c - 0x20 else c

/-- Reduction to `int32_t`. -/
def i32 (z : Int) : Int := (z + 2 ^ 31) % 2 ^ 32 - 2 ^ 31

/-- The structure `fat_dentry_t` of `directory.h`; `name` holds 11 bytes. -/
structure fat_dentry_t where
  name : List Nat
  attr : Nat
  reserved : Nat
  ctenth : Nat
  ctime : Nat
  cdate : Nat
  adate : Nat
  cluster_high : Nat
  mtime : Nat
  mdate : Nat
  cluster_low : Nat
  size : Nat
  deriving DecidableEq

/-- The 32 bytes of a `fat_dentry_t` (packed, little-endian). -/
def dentry_bytes (e : fat_dentry_t) : List Nat :=
  (List.range 11).map (fun k => e.name.getD k 0 % 256) ++
  [e.attr % 256, e.reserved % 256, e.ctenth % 256,
    e.ctime % 256, e.ctime / 256 % 256, e.cdate % 256, e.cdate / 256 % 256,
    e.adate % 256, e.adate / 256 % 256, e.cluster_high % 256, e.cluster_high / 256 % 256,
    e.mtime % 256, e.mtime / 256 % 256, e.mdate % 256, e.mdate / 256 % 256,
    e.cluster_low % 256, e.cluster_low / 256 % 256,
    e.size % 256, e.size / 256 % 256, e.size / 65536 % 256, e.size / 16777216 % 256]

/-- The `fat_dentry_t` that a pointer into the buffer of record `p` at byte offset `off`
refers to. -/
def dentry_at (fs : fat_fs_t) (p off : Nat) : fat_dentry_t :=
  { name := (List.range 11).map (fun k => peek fs p (off + k)),
    attr := peek fs p (off + 11),
    reserved := peek fs p (off + 12),
    ctenth := peek fs p (off + 13),
    ctime := le16 (peek fs p (off + 14)) (peek fs p (off + 15)),
    cdate := le16 (peek fs p (off + 16)) (peek fs p (off + 17)),
    adate := le16 (peek fs p (off + 18)) (peek fs p (off + 19)),
    cluster_high := le16 (peek fs p (off + 20)) (peek fs p (off + 21)),
    mtime := le16 (peek fs p (off + 22)) (peek fs p (off + 23)),
    mdate := le16 (peek fs p (off + 24)) (peek fs p (off + 25)),
    cluster_low := le16 (peek fs p (off + 26)) (peek fs p (off + 27)),
    size := le32 (peek fs p (off + 28)) (peek fs p (off + 29)) (peek fs p (off + 30))
      (peek fs p (off + 31)) }

/-- The call `memcpy(buf + off, bytes, n)` on the buffer of record `p`. -/
def poke_bytes (fs : fat_fs_t) (p off : Nat) (bytes : List Nat) : fat_fs_t :=
  { fs with
    mem := mem_set fs.mem p
      { fs.mem p with
        data := fun o =>
          if off ≤ o ∧ o < off + bytes.length then bytes.getD (o - off) 0 % 256
          else (fs.mem p).data o } }

/-- The test `FAT_IS_LONG_NAME(ent)` on the entry at offset `off` of record `p`. -/
def FAT_IS_LONG_NAME (fs : fat_fs_t) (p off : Nat) : Prop :=
  peek fs p (off + 11) &&& FAT_ATTR_LONG_NAME_MASK = FAT_ATTR_LONG_NAME

instance FAT_IS_LONG_NAME_dec (fs : fat_fs_t) (p off : Nat) :
    Decidable (FAT_IS_LONG_NAME fs p off) := by
  unfold FAT_IS_LONG_NAME; infer_instance

/-- The number `max` of directory entries in a cluster, or in a sector of the root
directory of FAT12 and FAT16. -/
def dir_max (fs : fat_fs_t) (cluster : Nat) : Nat :=
  if fs.sb.fs_type = FAT_FS_FAT32 ∨ cluster &&& 0x80000000 = 0 then
    u32 (fs.sb.bytes_per_sector * fs.sb.sectors_per_cluster) >>> 5
  else fs.sb.bytes_per_sector >>> 5

/-- The cluster `cluster_low | (cluster_high << 16)` of a directory entry. -/
def dentry_cluster (e : fat_dentry_t) : Nat := u32 (e.cluster_low ||| (e.cluster_high <<< 16))

/-- The loop `for(i = 0; i < max && !done; ++i, ++j)` of `fat_search_dir`; the first
argument is `max - i`.  `some` is a return from the function, with the values stored
through `rv`, `rcl` and `roff` on success; `none` is the end of the loop. -/
def fat_search_dir_scan (fs : fat_fs_t) (fn : List Nat) (p cluster : Nat) :
    Nat → Nat → Option (Int × Option (fat_dentry_t × Nat × Nat))
  | 0, _ => none
  | n + 1, i =>
    if peek fs p (i <<< 5) = FAT_ENTRY_EOD then some (-ENOENT, none)
    else if peek fs p (i <<< 5) = FAT_ENTRY_FREE then
      fat_search_dir_scan fs fn p cluster n (i + 1)
    else if FAT_IS_LONG_NAME fs p (i <<< 5) then
      fat_search_dir_scan fs fn p cluster n (i + 1)
    else if fn = (dentry_at fs p (i <<< 5)).name then
      some (0, some (dentry_at fs p (i <<< 5), cluster, i <<< 5))
    else fat_search_dir_scan fs fn p cluster n (i + 1)

/-- The loop `while(!done)` of `fat_search_dir` with the return after it. -/
def fat_search_dir_loop (fn : List Nat) (max : Nat) :
    Nat → fat_fs_t → Nat → Nat → Int →
      Option (Int × Option (fat_dentry_t × Nat × Nat) × fat_fs_t)
  | 0, _, _, _, _ => none
  | fuel + 1, fs, cluster, j, err =>
    match fat_cluster_read fs cluster err with
    | (none, _, fs1, _) => some (- EIO, none, fs1)
    | (some p, err1, fs1, _) =>
      match fat_search_dir_scan fs1 fn p cluster max 0 with
      | some r => some (r.1, r.2, fs1)
      | none =>
        if cluster &&& 0x80000000 = 0 then
          match fat_read_fat fs1 cluster err1 with
          | (c2, err2, fs2) =>
            if c2 = 0xFFFFFFFF then some (-err2, none, fs2)
            else if fat_is_eof fs2 c2 ≠ 0 then some (-ENOENT, none, fs2)
            else fat_search_dir_loop fn max fuel fs2 c2 (u32 (j + max)) err2
        else if u32 (j + max) ≥ fs1.sb.root_dir then some (-ENOENT, none, fs1)
        else fat_search_dir_loop fn max fuel fs1 (u32 (cluster + 1)) (u32 (j + max)) err1

/-- The function `fat_search_dir`: the return value, the values stored through `rv`,
`rcl` and `roff` (`none` when nothing is stored), and the new state.  `fn` holds 11
bytes; `err` is the initial value of the local variable `err`. -/
def fat_search_dir (fuel : Nat) (fs : fat_fs_t) (fn : List Nat) (cluster : Nat) (err : Int) :
    Option (Int × Option (fat_dentry_t × Nat × Nat) × fat_fs_t) :=
  fat_search_dir_loop fn (dir_max fs cluster) fuel fs cluster 0 err

/-- The filesystem object with the static arrays `longname_buf` and `longname_buf2` of
`directory.c`. -/
structure fat_dir_t where
  fs : fat_fs_t
  longname_buf : Nat → Nat
  longname_buf2 : Nat → Nat

/-- The three calls of `memcpy` that copy the 13 code units of the long name entry at
offset `off` of record `p` to `longname_buf[fnlen]` and the 12 elements after it. -/
def longname_copy (lb : Nat → Nat) (fnlen : Nat) (fs : fat_fs_t) (p off : Nat) : Nat → Nat :=
  fun k =>
    if fnlen ≤ k ∧ k < fnlen + 5 then
      le16 (peek fs p (off + 1 + 2 * (k - fnlen))) (peek fs p (off + 2 + 2 * (k - fnlen)))
    else if fnlen + 5 ≤ k ∧ k < fnlen + 11 then
      le16 (peek fs p (off + 14 + 2 * (k - (fnlen + 5))))
        (peek fs p (off + 15 + 2 * (k - (fnlen + 5))))
    else if fnlen + 11 ≤ k ∧ k < fnlen + 13 then
      le16 (peek fs p (off + 28 + 2 * (k - (fnlen + 11))))
        (peek fs p (off + 29 + 2 * (k - (fnlen + 11))))
    else lb k

/-- The function `fat_strlen_ucs2` on the array that starts at element `start` of `inp`;
`none` when no terminator is found within the fuel. -/
def fat_strlen_ucs2 (inp : Nat → Nat) (start : Nat) : Nat → Nat → Option Nat
  | 0, _ => none
  | fuel + 1, i => if ld16 inp (start + i) ≠ 0 then fat_strlen_ucs2 inp start fuel (i + 1) else some i

/-- The function `fat_ucs2_tolower` (the variant with `towlower`) on the first `len`
elements of `buf`. -/
def fat_ucs2_tolower (L : libc_t) (buf : Nat → Nat) (len : Nat) : Nat → Nat :=
  fun k => if k < len then u16 (L.towlower (ld16 buf k)) else buf k

/-- The loop `for(i = *offset; i < max; ++i)` of `read_longname`; the first argument is
`max - i`.  `Sum.inl` is a return from the function with its value and `*offset`,
`Sum.inr` the end of the loop; the second component is `longname_buf`. -/
def read_longname_scan (fs : fat_fs_t) (p offset : Nat) :
    Nat → Nat → (Nat → Nat) → Sum (Int × Nat) Unit × (Nat → Nat)
  | 0, _, lb => (Sum.inr (), lb)
  | n + 1, i, lb =>
    if peek fs p (i <<< 5) = FAT_ENTRY_EOD then (Sum.inl (- EIO, offset), lb)
    else if peek fs p (i <<< 5) = FAT_ENTRY_FREE then (Sum.inl (- EIO, offset), lb)
    else if ¬ FAT_IS_LONG_NAME fs p (i <<< 5) then (Sum.inl (- EIO, offset), lb)
    else if peek fs p (i <<< 5) &&& 0x3F = 1 then
      (Sum.inl (0, i),
        longname_copy lb (((peek fs p (i <<< 5) + (2 ^ 32 - 1)) % 2 ^ 32 &&& 0x3F) * 13)
          fs p (i <<< 5))
    else
      read_longname_scan fs p offset n (i + 1)
        (longname_copy lb (((peek fs p (i <<< 5) + (2 ^ 32 - 1)) % 2 ^ 32 &&& 0x3F) * 13)
          fs p (i <<< 5))

/-- The loop `while(!done)` of `read_longname` with the return after it: the return
value, `*cluster`, `*offset`, `*max2`, and the new state. -/
def read_longname_loop (max : Nat) :
    Nat → fat_dir_t → Nat → Nat → Int → Int → Option (Int × Nat × Nat × Int × fat_dir_t)
  | 0, _, _, _, _, _ => none
  | fuel + 1, d, cluster, offset, max2, err =>
    match fat_cluster_read d.fs cluster err with
    | (none, _, fs1, _) => some (- EIO, cluster, offset, max2, { d with fs := fs1 })
    | (some p, err1, fs1, _) =>
      match read_longname_scan fs1 p offset (max - offset) offset d.longname_buf with
      | (Sum.inl (rc, off1), lb1) =>
        some (rc, cluster, off1, max2, { d with fs := fs1, longname_buf := lb1 })
      | (Sum.inr _, lb1) =>
        if cluster &&& 0x80000000 = 0 then
          match fat_read_fat fs1 cluster err1 with
          | (c2, err2, fs2) =>
            if c2 = 0xFFFFFFFF then
              some (- EIO, c2, offset, max2, { d with fs := fs2, longname_buf := lb1 })
            else if fat_is_eof fs2 c2 ≠ 0 then
              some (- EIO, c2, 0, max2, { d with fs := fs2, longname_buf := lb1 })
            else
              read_longname_loop max fuel { d with fs := fs2, longname_buf := lb1 } c2 0 max2
                err2
        else if i32 (max2 - max) ≤ 0 then
          some (- EIO, u32 (cluster + 1), offset, i32 (max2 - max),
            { d with fs := fs1, longname_buf := lb1 })
        else
          read_longname_loop max fuel { d with fs := fs1, longname_buf := lb1 }
            (u32 (cluster + 1)) 0 (i32 (max2 - max)) err1

/-- The function `read_longname`. -/
def read_longname (fuel : Nat) (d : fat_dir_t) (cluster offset max : Nat) (max2 : Int)
    (err : Int) : Option (Int × Nat × Nat × Int × fat_dir_t) :=
  read_longname_loop max fuel d cluster (u32 (offset + 1)) max2 err

/-- The values that a directory lookup stores through `rv`, `rcl`, `roff`, `rlcl` and
`rloff`. -/
structure lookup_t where
  rv : fat_dentry_t
  rcl : Nat
  roff : Nat
  rlcl : Nat
  rloff : Nat
  deriving DecidableEq

/-- The part of `fat_search_long` that fetches the short entry after a long name has
matched: `cluster2` is the cluster the scan is in, `lcl` and `loff` the place of the
first long name entry, `cluster` and `i` the place where the long name ends. -/
def fat_search_long_found (d : fat_dir_t) (p max cluster2 lcl loff cluster i : Nat)
    (max2 : Int) (err : Int) : Int × Option lookup_t × fat_dir_t :=
  if i < max then
    match (if cluster ≠ cluster2 then fat_cluster_read d.fs cluster err
      else (some p, err, d.fs, [])) with
    | (none, _, fs1, _) => (- EIO, none, { d with fs := fs1 })
    | (some q, _, fs1, _) =>
      if peek fs1 q (u32 ((i + 1) <<< 5)) = FAT_ENTRY_EOD ∨
          peek fs1 q (u32 ((i + 1) <<< 5)) = FAT_ENTRY_FREE then
        (-ENOENT, none, { d with fs := fs1 })
      else
        (0, some (lookup_t.mk (dentry_at fs1 q (u32 ((i + 1) <<< 5))) cluster
          (u32 ((i + 1) <<< 5)) lcl loff), { d with fs := fs1 })
  else if cluster &&& 0x80000000 = 0 then
    match fat_read_fat d.fs cluster err with
    | (c2, err2, fs2) =>
      if c2 = 0xFFFFFFFF then (-err2, none, { d with fs := fs2 })
      else if fat_is_eof fs2 c2 ≠ 0 then (- EIO, none, { d with fs := fs2 })
      else
        match fat_cluster_read fs2 c2 err2 with
        | (none, _, fs3, _) => (- EIO, none, { d with fs := fs3 })
        | (some q, _, fs3, _) =>
          if peek fs3 q 0 = FAT_ENTRY_EOD ∨ peek fs3 q 0 = FAT_ENTRY_FREE then
            (-ENOENT, none, { d with fs := fs3 })
          else
            (0, some (lookup_t.mk (dentry_at fs3 q 0) c2 0 lcl loff), { d with fs := fs3 })
  else if i32 (max2 - max) ≤ 0 then (- EIO, none, d)
  else
    match fat_cluster_read d.fs (u32 (cluster + 1)) err with
    | (none, _, fs3, _) => (- EIO, none, { d with fs := fs3 })
    | (some q, _, fs3, _) =>
      if peek fs3 q 0 = FAT_ENTRY_EOD ∨ peek fs3 q 0 = FAT_ENTRY_FREE then
        (-ENOENT, none, { d with fs := fs3 })
      else
        (0, some (lookup_t.mk (dentry_at fs3 q 0) (u32 (cluster + 1)) 0 lcl loff),
          { d with fs := fs3 })

/-- The loop `for(; i < max && !done; ++i)` of `fat_search_long`, on the buffer of
record `p`; `l` is `strlen(fn)`.  `Sum.inl` is a return from the function; `Sum.inr` is
the end of the loop or its `break`, with `i`, `skip`, `cluster`, `max2` and the state. -/
def fat_search_long_for (L : libc_t) (l max p : Nat) :
    Nat → fat_dir_t → Nat → Nat → Nat → Int → Int →
      Option (Sum (Int × Option lookup_t × fat_dir_t) (Nat × Nat × Nat × Int × fat_dir_t))
  | 0, _, _, _, _, _, _ => none
  | fuel + 1, d, i, skip, cluster, max2, err =>
    if ¬ i < max then some (Sum.inr (i, skip, cluster, max2, d))
    else if skip ≠ 0 then
      fat_search_long_for L l max p fuel d (i + 1) (skip - 1) cluster max2 err
    else if peek d.fs p (i <<< 5) = FAT_ENTRY_EOD then some (Sum.inl (-ENOENT, none, d))
    else if peek d.fs p (i <<< 5) = FAT_ENTRY_FREE then
      fat_search_long_for L l max p fuel d (i + 1) skip cluster max2 err
    else if ¬ FAT_IS_LONG_NAME d.fs p (i <<< 5) then
      fat_search_long_for L l max p fuel d (i + 1) skip cluster max2 err
    else if peek d.fs p (i <<< 5) &&& FAT_ORDER_LAST = 0 then
      fat_search_long_for L l max p fuel d (i + 1) skip cluster max2 err
    else if l > (peek d.fs p (i <<< 5) &&& 0x3F) * 13 then
      fat_search_long_for L l max p fuel d (i + 1) (peek d.fs p (i <<< 5) &&& 0x3F) cluster
        max2 err
    else
      match fat_strlen_ucs2
        (st16 (longname_copy d.longname_buf
            (u32 ((peek d.fs p (i <<< 5) &&& 0x3F) * 13 + (2 ^ 32 - 13))) d.fs p (i <<< 5))
          (u32 ((peek d.fs p (i <<< 5) &&& 0x3F) * 13 + (2 ^ 32 - 13)) + 14) 0)
        (u32 ((peek d.fs p (i <<< 5) &&& 0x3F) * 13 + (2 ^ 32 - 13))) fuel 0 with
      | none => none
      | some n =>
        if l ≠ u32 (u32 ((peek d.fs p (i <<< 5) &&& 0x3F) * 13 + (2 ^ 32 - 13)) + n) then
          fat_search_long_for L l max p fuel
            { d with
              longname_buf :=
                st16 (longname_copy d.longname_buf
                    (u32 ((peek d.fs p (i <<< 5) &&& 0x3F) * 13 + (2 ^ 32 - 13))) d.fs p
                    (i <<< 5))
                  (u32 ((peek d.fs p (i <<< 5) &&& 0x3F) * 13 + (2 ^ 32 - 13)) + 14) 0 }
            (i + 1) (peek d.fs p (i <<< 5) &&& 0x3F) cluster max2 err
        else
          match (if peek d.fs p (i <<< 5) ≠ 0x41 then
              read_longname fuel
                { d with
                  longname_buf :=
                    st16 (longname_copy d.longname_buf
                        (u32 ((peek d.fs p (i <<< 5) &&& 0x3F) * 13 + (2 ^ 32 - 13))) d.fs p
                        (i <<< 5))
                      (u32 ((peek d.fs p (i <<< 5) &&& 0x3F) * 13 + (2 ^ 32 - 13)) + 14) 0 }
                cluster i max max2 err
            else
              some (0, cluster, i, max2,
                { d with
                  longname_buf :=
                    st16 (longname_copy d.longname_buf
                        (u32 ((peek d.fs p (i <<< 5) &&& 0x3F) * 13 + (2 ^ 32 - 13))) d.fs p
                        (i <<< 5))
                      (u32 ((peek d.fs p (i <<< 5) &&& 0x3F) * 13 + (2 ^ 32 - 13)) + 14)
                      0 })) with
          | none => none
          | some (rc, cluster1, i1, max21, d1) =>
            if rc ≠ 0 then some (Sum.inl (- EIO, none, d1))
            else if ∀ k, k < l →
                ld16 (fat_ucs2_tolower L d1.longname_buf l) k =
                  ld16 (fat_ucs2_tolower L d1.longname_buf2 l) k then
              some (Sum.inl
                (fat_search_long_found
                  { d1 with
                    longname_buf := fat_ucs2_tolower L d1.longname_buf l
                    longname_buf2 := fat_ucs2_tolower L d1.longname_buf2 l }
                  p max cluster cluster (i <<< 5) cluster1 i1 max21 err))
            else if cluster ≠ cluster1 then
              some (Sum.inr (i1, 1, cluster1, max21,
                { d1 with
                  longname_buf := fat_ucs2_tolower L d1.longname_buf l
                  longname_buf2 := fat_ucs2_tolower L d1.longname_buf2 l }))
            else
              fat_search_long_for L l max p fuel
                { d1 with
                  longname_buf := fat_ucs2_tolower L d1.longname_buf l
                  longname_buf2 := fat_ucs2_tolower L d1.longname_buf2 l }
                (i1 + 1) 1 cluster1 max21 err

/-- The loop `while(!done)` of `fat_search_long` with the return after it.  The index
`i` is initialised once, before the loop. -/
def fat_search_long_while (L : libc_t) (l max : Nat) :
    Nat → fat_dir_t → Nat → Nat → Nat → Int → Int →
      Option (Int × Option lookup_t × fat_dir_t)
  | 0, _, _, _, _, _, _ => none
  | fuel + 1, d, i, skip, cluster, max2, err =>
    match fat_cluster_read d.fs cluster err with
    | (none, _, fs1, _) => some (- EIO, none, { d with fs := fs1 })
    | (some p, err1, fs1, _) =>
      match fat_search_long_for L l max p fuel { d with fs := fs1 } i skip cluster max2 err1
      with
      | none => none
      | some (Sum.inl r) => some r
      | some (Sum.inr (i1, skip1, cluster1, max21, d1)) =>
        if cluster1 &&& 0x80000000 = 0 then
          match fat_read_fat d1.fs cluster1 err1 with
          | (c2, err2, fs2) =>
            if c2 = 0xFFFFFFFF then some (-err2, none, { d1 with fs := fs2 })
            else if fat_is_eof fs2 c2 ≠ 0 then some (-ENOENT, none, { d1 with fs := fs2 })
            else fat_search_long_while L l max fuel { d1 with fs := fs2 } i1 skip1 c2 max21 err2
        else if i32 (max21 - max) ≤ 0 then some (-ENOENT, none, d1)
        else
          fat_search_long_while L l max fuel d1 i1 skip1 (u32 (cluster1 + 1))
            (i32 (max21 - max)) err1

/-- The function `fat_search_long`. -/
def fat_search_long (fuel : Nat) (L : libc_t) (d : fat_dir_t) (fn : List Nat) (cluster : Nat)
    (err : Int) : Option (Int × Option lookup_t × fat_dir_t) :=
  match fat_utf8_to_ucs2 d.longname_buf2 (arr_of fn) 256 fn.length with
  | none => none
  | some r =>
    fat_search_long_while L fn.length (dir_max d.fs cluster) fuel
      { d with longname_buf2 := r.2 } 0 0 cluster
      (if d.fs.sb.fs_type = FAT_FS_FAT32 ∨ cluster &&& 0x80000000 = 0 then -1
        else i32 d.fs.sb.root_dir) err

/-- The index of the last occurrence of the byte `c` in a string (`strrchr`). -/
def strrchr_idx (c : Nat) : List Nat → Option Nat
  | [] => none
  | x :: xs =>
    match strrchr_idx c xs with
    | some k => some (k + 1)
    | none => if x = c then some 0 else none

/-- The function `normalize_shortname`: the 11 bytes stored in `out`. -/
def normalize_shortname (fn : List Nat) : List Nat :=
  match strrchr_idx 46 fn with
  | some dot =>
    (List.range 8).map (fun i =>
      if i < fn.length ∧ i < dot then toupper (fn.getD i 0) else 0x20) ++
    (List.range 3).map (fun i =>
      if i < fn.length - dot - 1 then toupper (fn.getD (dot + 1 + i) 0) else 0x20)
  | none =>
    (List.range 8).map (fun i => if i < fn.length then toupper (fn.getD i 0) else 0x20) ++
      [0x20, 0x20, 0x20]

/-- The characters that `is_component_short` rejects. -/
def shortname_bad_char (c : Nat) : Bool :=
  c = 0x2B || c = 0x2C || c = 0x3B || c = 0x5B || c = 0x5D || c = 0x20 || c = 0x3D ||
  c = 0x2A || c = 0x3A || c = 0x2F || c = 0x5C || c = 0x7C || c = 0x22 || c = 0x3F ||
  c = 0x3C || c = 0x3E

/-- The function `is_component_short`. -/
def is_component_short (fn : List Nat) : Bool :=
  if fn.length > 12 then false
  else if strrchr_idx 46 fn = some 0 then false
  else if (match strrchr_idx 46 fn with | some dot => decide (dot > 8) | none => false) then
    false
  else if (match strrchr_idx 46 fn with
      | some dot => decide (fn.length - dot > 4)
      | none => decide (fn.length > 8)) then false
  else if fn.any shortname_bad_char then false
  else if fn.count 46 > 1 then false
  else true

/-- The function `fat_find_child2`. -/
def fat_find_child2 (fuel : Nat) (fs : fat_fs_t) (fn : List Nat) (parent : fat_dentry_t)
    (err : Int) : Option (Int × fat_fs_t) :=
  match fat_search_dir fuel fs fn (dentry_cluster parent) err with
  | none => none
  | some r => some (r.1, r.2.2)

/-- The lookup of one path component in the directory that starts at cluster `cl`, as
`fat_find_child` and `fat_find_dentry` do it: `fat_search_dir` of the normalised name
for a short component, with `*rlcl = *rloff = 0`, and `fat_search_long` otherwise. -/
def fat_find_component (fuel : Nat) (L : libc_t) (d : fat_dir_t) (fn : List Nat) (cl : Nat)
    (err : Int) : Option (Int × Option lookup_t × fat_dir_t) :=
  if is_component_short fn then
    match fat_search_dir fuel d.fs (normalize_shortname fn) cl err with
    | none => none
    | some (rc, some (rv, rcl, roff), fs1) =>
      some (rc, some (lookup_t.mk rv rcl roff 0 0), { d with fs := fs1 })
    | some (rc, none, fs1) => some (rc, none, { d with fs := fs1 })
  else fat_search_long fuel L d fn cl err

/-- The function `fat_find_child` (the copy of `fn` is allocated successfully). -/
def fat_find_child (fuel : Nat) (L : libc_t) (d : fat_dir_t) (fn : List Nat)
    (parent : fat_dentry_t) (err : Int) : Option (Int × Option lookup_t × fat_dir_t) :=
  fat_find_component fuel L d fn (dentry_cluster parent) err

/-- The tokens that `strtok_r` with the delimiter "/" finds in a path; `cur` is the
token read so far. -/
def path_tokens_from (cur : List Nat) : List Nat → List (List Nat)
  | [] => if cur = [] then [] else [cur]
  | x :: xs =>
    if x = 47 then
      if cur = [] then path_tokens_from [] xs else cur :: path_tokens_from [] xs
    else path_tokens_from (cur ++ [x]) xs

/-- The tokens of a path. -/
def path_tokens (fn : List Nat) : List (List Nat) := path_tokens_from [] fn

/-- The directory entry that `fat_find_dentry` makes up for the root directory. -/
def root_dentry (fs : fat_fs_t) : fat_dentry_t :=
  { name := [0, 0, 0, 0, 0, 0, 0, 0, 0, 0, 0], attr := FAT_ATTR_DIRECTORY, reserved := 0,
    ctenth := 0, ctime := 0, cdate := 0, adate := 0,
    cluster_high := if fs.sb.fs_type = FAT_FS_FAT32 then u16 (fs.sb.root_dir >>> 16) else 0x8000,
    mtime := 0, mdate := 0,
    cluster_low :=
      if fs.sb.fs_type = FAT_FS_FAT32 then u16 fs.sb.root_dir
      else u16 (fs.sb.reserved_sectors + fs.sb.num_fats * fs.sb.fat_size),
    size := 0 }

/-- The cluster at which `fat_find_dentry` starts: the root directory. -/
def root_cluster (fs : fat_fs_t) : Nat :=
  if fs.sb.fs_type = FAT_FS_FAT32 then fs.sb.root_dir
  else u32 (0x80000000 ||| u32 (fs.sb.reserved_sectors + fs.sb.num_fats * fs.sb.fat_size))

/-- The loop `while(tok)` of `fat_find_dentry` over the tokens after the first one:
`cur`, `cl`, `off`, `lcl` and `loff` are the local variables.  `Sum.inl` is the value of
`err` at a `goto out`. -/
def fat_find_dentry_walk (fuel : Nat) (L : libc_t) (err : Int) :
    List (List Nat) → fat_dir_t → fat_dentry_t → Nat → Nat → Nat → Nat →
      Option (Sum Int (fat_dentry_t × Nat × Nat × Nat × Nat) × fat_dir_t)
  | [], d, cur, cl, off, lcl, loff => some (Sum.inr (cur, cl, off, lcl, loff), d)
  | tok :: rest, d, cur, _, off, lcl, loff =>
    if cur.attr &&& FAT_ATTR_DIRECTORY = 0 then some (Sum.inl (-ENOTDIR), d)
    else
      match fat_find_component fuel L d tok (dentry_cluster cur) err with
      | none => none
      | some (rc, none, d1) =>
        if rc < 0 then some (Sum.inl rc, d1)
        else
          fat_find_dentry_walk fuel L err rest d1 cur (dentry_cluster cur) off
            (if is_component_short tok then 0 else lcl)
            (if is_component_short tok then 0 else loff)
      | some (rc, some r, d1) =>
        if rc < 0 then some (Sum.inl rc, d1)
        else
          fat_find_dentry_walk fuel L err rest d1 r.rv (dentry_cluster r.rv) r.roff r.rlcl
            r.rloff

/-- The function `fat_find_dentry` (the copy of `fn` is allocated successfully): the
return value, the values stored through the result pointers (`none` when nothing is
stored), and the new state.  A first search that returns a non-negative value without a
result (it takes a FAT entry that reads `0xFFFFFFFF` while `err` is not negative) ends
the call of the model with that value; the C code goes on with the uninitialised
`cur`. -/
def fat_find_dentry (fuel : Nat) (L : libc_t) (d : fat_dir_t) (fn : List Nat) (err : Int) :
    Option (Int × Option lookup_t × fat_dir_t) :=
  match path_tokens fn with
  | [] => some (0, some (lookup_t.mk (root_dentry d.fs) 0 0 0 0), d)
  | tok :: rest =>
    match fat_find_component fuel L d tok (root_cluster d.fs) err with
    | none => none
    | some (rc, none, d1) => some (rc, none, d1)
    | some (rc, some r, d1) =>
      if rc < 0 then some (rc, none, d1)
      else
        match fat_find_dentry_walk fuel L err rest d1 r.rv r.rcl r.roff r.rlcl r.rloff with
        | none => none
        | some (Sum.inl e, d2) => some (e, none, d2)
        | some (Sum.inr (cur, cl, off, lcl, loff), d2) =>
          if fn.getLast? = some 47 ∧ cur.attr &&& FAT_ATTR_DIRECTORY = 0 then
            some (-ENOTDIR, none, d2)
          else some (0, some (lookup_t.mk cur cl off lcl loff), d2)

/-- The loop `for(; i < max; ++i)` of `fat_erase_dentry` on the buffer of record `p`;
the first argument is `max - i`.  `Sum.inl` is a return from the function, `Sum.inr`
the end of the loop with the value of `done`. -/
def fat_erase_dentry_scan (p : Nat) : Nat → Nat → fat_fs_t → Sum Int Bool × fat_fs_t
  | 0, _, fs => (Sum.inr false, fs)
  | n + 1, i, fs =>
    if peek fs p (i <<< 5) = FAT_ENTRY_EOD then (Sum.inl (- EIO), fs)
    else if peek fs p (i <<< 5) = FAT_ENTRY_FREE then (Sum.inr true, fs)
    else if ¬ FAT_IS_LONG_NAME fs p (i <<< 5) then (Sum.inl (- EIO), fs)
    else fat_erase_dentry_scan p n (i + 1) (poke fs p (i <<< 5) FAT_ENTRY_FREE)

/-- The loop `while(!done)` of `fat_erase_dentry` with the return after it.  The code
that moves on to the next cluster also runs after the pass that has set `done`. -/
def fat_erase_dentry_loop (max : Nat) :
    Nat → fat_fs_t → Nat → Nat → Nat → Int → Option (Int × fat_fs_t)
  | 0, _, _, _, _, _ => none
  | fuel + 1, fs, lcl, i, max2, err =>
    match fat_cluster_read fs lcl err with
    | (none, _, fs1, _) => some (- EIO, fs1)
    | (some p, err1, fs1, _) =>
      match fat_erase_dentry_scan p (max - i) i (fat_cluster_mark_dirty fs1 lcl).2 with
      | (Sum.inl rc, fs2) => some (rc, fs2)
      | (Sum.inr done, fs2) =>
        if lcl &&& 0x80000000 = 0 then
          match fat_read_fat fs2 lcl err1 with
          | (c2, err2, fs3) =>
            if c2 = 0xFFFFFFFF then some (-err2, fs3)
            else if fat_is_eof fs3 c2 ≠ 0 then some (- EIO, fs3)
            else if done then some (0, fs3)
            else fat_erase_dentry_loop max fuel fs3 c2 0 max2 err2
        else if u32 (max2 + (2 ^ 32 - max % 2 ^ 32)) = 0 then some (- EIO, fs2)
        else if done then some (0, fs2)
        else
          fat_erase_dentry_loop max fuel fs2 (u32 (lcl + 1)) 0
            (u32 (max2 + (2 ^ 32 - max % 2 ^ 32))) err1

/-- The function `fat_erase_dentry`. -/
def fat_erase_dentry (fuel : Nat) (fs : fat_fs_t) (cl off lcl loff : Nat) (err : Int) :
    Option (Int × fat_fs_t) :=
  match fat_cluster_read fs cl err with
  | (none, _, fs1, _) => some (- EIO, fs1)
  | (some p, err1, fs1, _) =>
    if lcl ≠ 0 then
      fat_erase_dentry_loop (dir_max fs lcl) fuel
        (fat_cluster_mark_dirty (poke fs1 p off FAT_ENTRY_FREE) cl).2 lcl (loff >>> 5)
        (if fs.sb.fs_type = FAT_FS_FAT32 ∨ lcl &&& 0x80000000 = 0 then 0xFFFFFFFF
          else u32 fs.sb.root_dir) err1
    else some (0, (fat_cluster_mark_dirty (poke fs1 p off FAT_ENTRY_FREE) cl).2)

/-- The local variables `ct`, `sent`, `scl` and `soff` of `fat_get_free_dentry`; the
pointer `sent` is a record address and a byte offset. -/
structure free_run_t where
  ct : Nat
  sent : Option (Nat × Nat)
  scl : Nat
  soff : Nat

/-- The ways in which the loop `for(i = 0; i < max && !done; ++i, ++j)` of
`fat_get_free_dentry` ends: a return from the function with the values stored through
`rcl`, `roff` and `rv`, the jump to `alloc_another`, or the end of the loop. -/
inductive free_scan_t
  | ret (rc : Int) (out : Option (Nat × Nat × Option (Nat × Nat)))
  | alloc (r : free_run_t)
  | next (j : Nat) (r : free_run_t)

/-- The loop `for(i = 0; i < max && !done; ++i, ++j)` of `fat_get_free_dentry`; the
first argument is `max - i`. -/
def fat_get_free_dentry_scan (fs : fat_fs_t) (p cluster num max : Nat) :
    Nat → Nat → Nat → free_run_t → free_scan_t
  | 0, _, j, r => free_scan_t.next j r
  | n + 1, i, j, r =>
    if peek fs p (i <<< 5) = FAT_ENTRY_EOD then
      if cluster &&& 0x80000000 ≠ 0 ∧ u32 (j + num + (2 ^ 32 - (r.ct + 1))) ≥ fs.sb.root_dir then
        free_scan_t.ret (-ENOSPC) none
      else if u32 (max + (2 ^ 32 - i) + (2 ^ 32 - (r.ct + 1))) ≥ num ∨
          cluster &&& 0x80000000 ≠ 0 then
        if r.ct + 1 = 1 then free_scan_t.ret 0 (some (cluster, i <<< 5, some (p, i <<< 5)))
        else free_scan_t.ret 0 (some (r.scl, r.soff, r.sent))
      else if r.ct + 1 = 1 then
        free_scan_t.alloc { ct := 1, sent := some (p, i <<< 5), scl := cluster, soff := i <<< 5 }
      else free_scan_t.alloc { r with ct := r.ct + 1 }
    else if peek fs p (i <<< 5) = FAT_ENTRY_FREE then
      if r.ct + 1 = 1 then
        if 1 = num then free_scan_t.ret 0 (some (cluster, i <<< 5, some (p, i <<< 5)))
        else
          fat_get_free_dentry_scan fs p cluster num max n (i + 1) (u32 (j + 1))
            { ct := 1, sent := some (p, i <<< 5), scl := cluster, soff := i <<< 5 }
      else if r.ct + 1 = num then free_scan_t.ret 0 (some (r.scl, r.soff, r.sent))
      else
        fat_get_free_dentry_scan fs p cluster num max n (i + 1) (u32 (j + 1))
          { r with ct := r.ct + 1 }
    else
      fat_get_free_dentry_scan fs p cluster num max n (i + 1) (u32 (j + 1)) { r with ct := 0 }

/-- The part of `fat_get_free_dentry` after the label `alloc_another`. -/
def fat_get_free_dentry_alloc (fs : fat_fs_t) (old : Nat) (r : free_run_t) (err : Int) :
    Int × Option (Nat × Nat × Option (Nat × Nat)) × fat_fs_t :=
  match fat_allocate_cluster fs err with
  | (j, err1, fs1) =>
    if j = FAT_INVALID_CLUSTER then (err1, none, fs1)
    else if (fat_write_fat fs1 old j).1 < 0 then
      (-(fat_write_fat fs1 old j).1, none, (fat_write_fat (fat_write_fat fs1 old j).2 j 0).2)
    else
      match fat_cluster_clear (fat_write_fat fs1 old j).2 j (fat_write_fat fs1 old j).1 with
      | (none, err2, fs2, _) =>
        (err2, none, (fat_write_fat (fat_write_fat fs2 j 0).2 old 0x0FFFFFFF).2)
      | (some q, _, fs2, _) =>
        if r.ct = 0 then (0, some (j, 0, some (q, 0)), fs2)
        else (0, some (r.scl, r.soff, r.sent), fs2)

/-- The loop `while(!done)` of `fat_get_free_dentry` with the code after it. -/
def fat_get_free_dentry_loop (num max : Nat) :
    Nat → fat_fs_t → Nat → Nat → Nat → free_run_t → Int →
      Option (Int × Option (Nat × Nat × Option (Nat × Nat)) × fat_fs_t)
  | 0, _, _, _, _, _, _ => none
  | fuel + 1, fs, cluster, old, j, r, err =>
    match fat_cluster_read fs cluster err with
    | (none, _, fs1, _) => some (- EIO, none, fs1)
    | (some p, err1, fs1, _) =>
      match fat_get_free_dentry_scan fs1 p cluster num max max 0 j r with
      | free_scan_t.ret rc out => some (rc, out, fs1)
      | free_scan_t.alloc r1 => some (fat_get_free_dentry_alloc fs1 old r1 err1)
      | free_scan_t.next j1 r1 =>
        if cluster &&& 0x80000000 = 0 then
          match fat_read_fat fs1 cluster err1 with
          | (c2, err2, fs2) =>
            if c2 = 0xFFFFFFFF then some (-err2, none, fs2)
            else if fat_is_eof fs2 c2 ≠ 0 then
              some (fat_get_free_dentry_alloc fs2 cluster r1 err2)
            else fat_get_free_dentry_loop num max fuel fs2 c2 cluster j1 r1 err2
        else if j1 ≥ fs1.sb.root_dir then some (-ENOSPC, none, fs1)
        else fat_get_free_dentry_loop num max fuel fs1 (u32 (cluster + 1)) old j1 r1 err1

/-- The function `fat_get_free_dentry`: the return value, the values stored through
`rcl`, `roff` and `rv` (`none` when `rcl` and `roff` are not written; the pointer is
`none` for `NULL`), and the new state. -/
def fat_get_free_dentry (fuel : Nat) (fs : fat_fs_t) (cluster num : Nat) (err : Int) :
    Option (Int × Option (Nat × Nat × Option (Nat × Nat)) × fat_fs_t) :=
  fat_get_free_dentry_loop num (dir_max fs cluster) fuel fs cluster cluster 0
    { ct := 0, sent := none, scl := cluster, soff := 0 } err

/-- The date that `fill_timestamp` stores. -/
def fill_timestamp_date (now : tm_t) : Nat :=
  u16 (u16 (u16 ((u32 (now.tm_year + (2 ^ 32 - 80)) &&& 0x7f) <<< 9) |||
    ((now.tm_mon + 1) <<< 5)) ||| now.tm_mday)

/-- The time that `fill_timestamp` stores. -/
def fill_timestamp_ts (now : tm_t) : Nat :=
  u16 (u16 (u16 (now.tm_hour <<< 11) ||| (now.tm_min <<< 5)) ||| (now.tm_sec >>> 1))

/-- The directory entry that `fat_add_raw_dentry` stores. -/
def fat_add_raw_dentry (L : libc_t) (shortname : List Nat) (attr cluster : Nat) :
    fat_dentry_t :=
  { name := (List.range 11).map (fun k => shortname.getD k 0), attr := attr % 256,
    reserved := 0, ctenth := (L.now.tm_sec &&& 1) * 100 % 256,
    ctime := fill_timestamp_ts L.now, cdate := fill_timestamp_date L.now,
    adate := fill_timestamp_date L.now, cluster_high := u16 (cluster >>> 16),
    mtime := fill_timestamp_ts L.now, mdate := fill_timestamp_date L.now,
    cluster_low := u16 cluster, size := 0 }

/-- The state of the loop `for(i = 0; i < fn_len;)` of `create_shortname`: the copy
`fnc` and the flags. -/
structure basis_t where
  fnc : List Nat
  has_ext : Nat
  last_period : Int
  found_char : Bool

/-- The loop `for(i = 0; i < fn_len;)` of `create_shortname` on the bytes from `fn[i]`
on; `none` is the return of `-EILSEQ`. -/
def create_shortname_chars (signed_char : Bool) : Nat → List Nat → basis_t → Option basis_t
  | 0, _, b => some b
  | _ + 1, [], b => some b
  | n + 1, c :: cs, b =>
    if char_val signed_char c ≤ 0x20 then create_shortname_chars signed_char n cs b
    else if c = 0x2A ∨ c = 0x3A ∨ c = 0x2F ∨ c = 0x5C ∨ c = 0x7C ∨ c = 0x22 ∨ c = 0x3F ∨
        c = 0x3C ∨ c = 0x3E then none
    else if c = 0x2B ∨ c = 0x2C ∨ c = 0x3B ∨ c = 0x5B ∨ c = 0x5D ∨ c = 0x3D then
      create_shortname_chars signed_char n cs
        { b with fnc := b.fnc ++ [0x5F], found_char := true,
                 has_ext := if b.has_ext = 1 then 2 else b.has_ext }
    else if c = 0x2E then
      if b.found_char then
        create_shortname_chars signed_char n cs
          { b with has_ext := 1, last_period := b.fnc.length, fnc := b.fnc ++ [0x2E] }
      else create_shortname_chars signed_char n cs b
    else if c % 256 ≤ 0x7F then
      create_shortname_chars signed_char n cs
        { b with fnc := b.fnc ++ [toupper c], found_char := true,
                 has_ext := if b.has_ext = 1 then 2 else b.has_ext }
    else if c &&& 0xE0 = 0xC0 then
      create_shortname_chars signed_char n (cs.drop 1)
        { b with fnc := b.fnc ++ [0x5F], found_char := true,
                 has_ext := if b.has_ext = 1 then 2 else b.has_ext }
    else if c &&& 0xF0 = 0xE0 then
      create_shortname_chars signed_char n (cs.drop 2)
        { b with fnc := b.fnc ++ [0x5F], found_char := true,
                 has_ext := if b.has_ext = 1 then 2 else b.has_ext }
    else none

/-- The string `denorm` that `create_shortname` builds from `fnc`. -/
def create_shortname_denorm (b : basis_t) : List Nat :=
  (((if b.last_period < 0 then b.fnc else b.fnc.take b.last_period.toNat).filter
      (fun c => c ≠ 0x2E)).take 8) ++
    (if b.has_ext ≠ 0 then 0x2E :: (b.fnc.drop (b.last_period.toNat + 1)).take 3 else [])

/-- The stores into `out` of one pass of the loop `while(!done)` of `create_shortname`,
for the value of `tail` after `++tail` (below 1000000). -/
def create_shortname_tail (out : List Nat) (tail : Nat) : List Nat :=
  if tail < 10 then (out.set 6 0x7E).set 7 (0x30 + tail)
  else if tail < 100 then ((out.set 5 0x7E).set 6 (0x30 + tail / 10)).set 7 (0x30 + tail % 10)
  else if tail < 1000 then
    (((out.set 4 0x7E).set 5 (0x30 + tail / 100)).set 6 (0x30 + tail / 10 % 10)).set 7
      (0x30 + tail % 10)
  else if tail < 10000 then
    ((((out.set 3 0x7E).set 4 (0x30 + tail / 1000)).set 5 (0x30 + tail / 100 % 10)).set 6
      (0x30 + tail / 10 % 10)).set 7 (0x30 + tail % 10)
  else if tail < 100000 then
    (((((out.set 2 0x7E).set 3 (0x30 + tail / 10000)).set 4 (0x30 + tail / 1000 % 10)).set 5
      (0x30 + tail / 100 % 10)).set 6 (0x30 + tail / 10 % 10)).set 7 (0x30 + tail % 10)
  else
    ((((((out.set 1 0x7E).set 2 (0x30 + tail / 100000)).set 3
      (0x30 + tail / 10000 % 10)).set 4 (0x30 + tail / 1000 % 10)).set 5
      (0x30 + tail / 100 % 10)).set 6 (0x30 + tail / 10 % 10)).set 7 (0x30 + tail % 10)

/-- The loop `while(!done)` of `create_shortname` with the return after it; the first
argument bounds the number of passes, `tail` is the value before `++tail`.  The result
is the return value, `out` and the new state. -/
def create_shortname_loop (fuel : Nat) (parent : fat_dentry_t) (err : Int) :
    Nat → fat_fs_t → List Nat → Nat → Option (Int × List Nat × fat_fs_t)
  | 0, _, _, _ => none
  | n + 1, fs, out, tail =>
    if ¬ tail + 1 < 1000000 then some (-ENOSPC, out, fs)
    else
      match fat_find_child2 fuel fs (create_shortname_tail out (tail + 1)) parent err with
      | none => none
      | some (rc, fs1) =>
        if rc = -ENOENT then some (0, create_shortname_tail out (tail + 1), fs1)
        else
          create_shortname_loop fuel parent err n fs1 (create_shortname_tail out (tail + 1))
            (tail + 1)

/-- The function `create_shortname` with `fn_len = strlen(fn)` (the copy `fnc` is
allocated successfully): the return value, `out` (`none` when it is not written), and
the new state. -/
def create_shortname (fuel : Nat) (L : libc_t) (fs : fat_fs_t) (fn : List Nat)
    (parent : fat_dentry_t) (err : Int) : Option (Int × Option (List Nat) × fat_fs_t) :=
  match create_shortname_chars L.signed_char fn.length fn
    { fnc := [], has_ext := 0, last_period := -1, found_char := false } with
  | none => some (-EILSEQ, none, fs)
  | some b =>
    match create_shortname_loop fuel parent err 1000000 fs
      (normalize_shortname (create_shortname_denorm b)) 0 with
    | none => none
    | some (rc, out, fs1) => some (rc, some out, fs1)

/-- The bytes of `n` elements of an array of code units from element `pos` on. -/
def ucs2_bytes (buf : Nat → Nat) (pos : Nat) : Nat → List Nat
  | 0 => []
  | n + 1 => ld16 buf pos % 256 :: ld16 buf pos / 256 :: ucs2_bytes buf (pos + 1) n

/-- The 32 bytes of the long name entry that `fat_add_long_entry` stores when `j`
entries are still to be written. -/
def longname_bytes (lb2 : Nat → Nat) (dents j cs : Nat) : List Nat :=
  [(if j = dents then FAT_ORDER_LAST ||| dents else j) % 256] ++
    ucs2_bytes lb2 ((j - 1) * 13) 5 ++ [FAT_ATTR_LONG_NAME, 0, cs % 256] ++
    ucs2_bytes lb2 ((j - 1) * 13 + 5) 6 ++ [0, 0] ++ ucs2_bytes lb2 ((j - 1) * 13 + 11) 2

/-- The loop `for(i = rloff; i < max && j; i += 32, --j, pos -= 13)` of
`fat_add_long_entry` on the buffer of record `p`; the first argument is `j`.  The result
is `i`, `j` and the new state. -/
def fat_add_long_entry_for (lb2 : Nat → Nat) (p dents cs max : Nat) :
    Nat → Nat → fat_fs_t → Nat × Nat × fat_fs_t
  | 0, i, fs => (i, 0, fs)
  | j + 1, i, fs =>
    if i < max then
      fat_add_long_entry_for lb2 p dents cs max j (u32 (i + 32))
        (poke_bytes fs p i (longname_bytes lb2 dents (j + 1) cs))
    else (i, j + 1, fs)

/-- The loop `while(!done)` of `fat_add_long_entry` with the return after it: the return
value, the values stored through `rcl` and `roff`, and the new state.  The pass that
stores the short entry still runs `++rlcl; if(j >= fs->sb.root_dir) return -ENOSPC;`
with `j = 0`. -/
def fat_add_long_entry_loop (L : libc_t) (lb2 : Nat → Nat) (sn : List Nat)
    (dents attr cluster cs max : Nat) :
    Nat → fat_fs_t → Nat → Nat → Nat → Option (Nat × Nat) → Int →
      Option (Int × Option (Nat × Nat) × fat_fs_t)
  | 0, _, _, _, _, _, _ => none
  | fuel + 1, fs, rlcl, rloff, j, out, err =>
    match fat_cluster_read fs rlcl err with
    | (none, _, fs1, _) => some (- EIO, out, fs1)
    | (some p, err1, fs1, _) =>
      match fat_add_long_entry_for lb2 p dents cs max j rloff
        (fat_cluster_mark_dirty fs1 rlcl).2 with
      | (i, j1, fs2) =>
        if j1 = 0 ∧ i < max then
          if 0 ≥ fs2.sb.root_dir then
            some (-ENOSPC, some (rlcl, i),
              poke_bytes fs2 p i (dentry_bytes (fat_add_raw_dentry L sn attr cluster)))
          else
            some (0, some (rlcl, i),
              poke_bytes fs2 p i (dentry_bytes (fat_add_raw_dentry L sn attr cluster)))
        else if rlcl &&& 0x80000000 = 0 then
          match fat_read_fat fs2 rlcl err1 with
          | (c2, err2, fs3) =>
            if c2 = 0xFFFFFFFF then some (-err2, out, fs3)
            else if fat_is_eof fs3 c2 ≠ 0 then some (0, out, fs3)
            else
              fat_add_long_entry_loop L lb2 sn dents attr cluster cs max fuel fs3 c2 0 j1 out
                err2
        else if j1 ≥ fs2.sb.root_dir then some (-ENOSPC, out, fs2)
        else
          fat_add_long_entry_loop L lb2 sn dents attr cluster cs max fuel fs2
            (u32 (rlcl + 1)) 0 j1 out err1

/-- The function `fat_add_long_entry`; the local variable `err` starts as 0. -/
def fat_add_long_entry (fuel : Nat) (L : libc_t) (d : fat_dir_t) (sn : List Nat)
    (dents attr cluster rlcl rloff cs : Nat) :
    Option (Int × Option (Nat × Nat) × fat_fs_t) :=
  fat_add_long_entry_loop L d.longname_buf2 sn dents attr cluster cs
    (if d.fs.sb.fs_type = FAT_FS_FAT32 ∨ rlcl &&& 0x80000000 = 0 then
      d.fs.sb.bytes_per_sector * d.fs.sb.sectors_per_cluster
    else d.fs.sb.bytes_per_sector)
    fuel d.fs rlcl rloff dents none 0

/-- The values that `fat_add_dentry` stores through `rcl`, `roff`, `rlcl` and `rloff`;
`none` for a value that is not written. -/
structure added_t where
  rcl : Option Nat
  roff : Option Nat
  rlcl : Option Nat
  rloff : Option Nat
  deriving DecidableEq

/-- The function `fat_add_dentry`: the return value, the values stored through the
result pointers, and the new state.  A call that goes on with a `NULL` pointer or an
unset position from `fat_get_free_dentry` has no result. -/
def fat_add_dentry (fuel : Nat) (L : libc_t) (d : fat_dir_t) (fn : List Nat)
    (parent : fat_dentry_t) (attr cluster : Nat) (err : Int) :
    Option (Int × added_t × fat_dir_t) :=
  if is_component_short fn then
    match fat_get_free_dentry fuel d.fs (dentry_cluster parent) 1 err with
    | none => none
    | some (rc, none, fs1) =>
      if rc < 0 then some (rc, added_t.mk none none none none, { d with fs := fs1 }) else none
    | some (rc, some (rcl, roff, none), fs1) =>
      if rc < 0 then
        some (rc, added_t.mk (some rcl) (some roff) none none, { d with fs := fs1 })
      else none
    | some (rc, some (rcl, roff, some (p, off)), fs1) =>
      if rc < 0 then
        some (rc, added_t.mk (some rcl) (some roff) none none, { d with fs := fs1 })
      else
        some (0, added_t.mk (some rcl) (some roff) (some 0) (some 0),
          { d with
            fs := (fat_cluster_mark_dirty
              (poke_bytes fs1 p off
                (dentry_bytes (fat_add_raw_dentry L (normalize_shortname fn) attr cluster)))
              rcl).2 })
  else if fn.length > 255 then some (-ENAMETOOLONG, added_t.mk none none none none, d)
  else
    match fat_utf8_to_ucs2 d.longname_buf2 (arr_of fn) 256 fn.length with
    | none => none
    | some (rc, lb2) =>
      if rc < 0 then
        some (-EILSEQ, added_t.mk none none none none, { d with longname_buf2 := lb2 })
      else
        match fat_strlen_ucs2 lb2 0 257 0 with
        | none => none
        | some len =>
          match create_shortname fuel L d.fs fn parent err with
          | none => none
          | some (rc1, none, fs1) =>
            some (rc1, added_t.mk none none none none,
              { d with
                fs := fs1
                longname_buf2 :=
                  if len % 13 ≠ 0 then
                    fun k => if len ≤ k ∧ k < len + 13 then 0 else lb2 k
                  else lb2 })
          | some (rc1, some comp, fs1) =>
            if rc1 < 0 then
              some (rc1, added_t.mk none none none none,
                { d with
                  fs := fs1
                  longname_buf2 :=
                    if len % 13 ≠ 0 then
                      fun k => if len ≤ k ∧ k < len + 13 then 0 else lb2 k
                    else lb2 })
            else
              match fat_get_free_dentry fuel fs1 (dentry_cluster parent)
                ((if len % 13 ≠ 0 then len / 13 + 1 else len / 13) + 1) err with
              | none => none
              | some (rc2, none, fs2) =>
                if rc2 < 0 then
                  some (rc2, added_t.mk none none none none,
                    { d with
                      fs := fs2
                      longname_buf2 :=
                        if len % 13 ≠ 0 then
                          fun k => if len ≤ k ∧ k < len + 13 then 0 else lb2 k
                        else lb2 })
                else none
              | some (rc2, some (rlcl, rloff, _), fs2) =>
                if rc2 < 0 then
                  some (rc2, added_t.mk none none (some rlcl) (some rloff),
                    { d with
                      fs := fs2
                      longname_buf2 :=
                        if len % 13 ≠ 0 then
                          fun k => if len ≤ k ∧ k < len + 13 then 0 else lb2 k
                        else lb2 })
                else
                  match fat_add_long_entry fuel L
                    { d with
                      fs := fs2
                      longname_buf2 :=
                        if len % 13 ≠ 0 then
                          fun k => if len ≤ k ∧ k < len + 13 then 0 else lb2 k
                        else lb2 }
                    comp (if len % 13 ≠ 0 then len / 13 + 1 else len / 13) attr cluster rlcl
                    rloff (fat_shortname_checksum L.signed_char (arr_of comp)) with
                  | none => none
                  | some (rc3, out, fs3) =>
                    some (rc3,
                      added_t.mk (out.map Prod.fst) (out.map Prod.snd) (some rlcl)
                        (some rloff),
                      { d with
                        fs := fs3
                        longname_buf2 :=
                          if len % 13 ≠ 0 then
                            fun k => if len ≤ k ∧ k < len + 13 then 0 else lb2 k
                          else lb2 })

/-- The function `fat_get_dentry`. -/
def fat_get_dentry (fs : fat_fs_t) (cluster off : Nat) (err : Int) :
    Int × Option fat_dentry_t × fat_fs_t :=
  match fat_cluster_read fs cluster err with
  | (none, _, fs1, _) => (- EIO, none, fs1)
  | (some p, _, fs1, _) => (0, some (dentry_at fs1 p off), fs1)

/-- The function `fat_update_mtime`. -/
def fat_update_mtime (L : libc_t) (ent : fat_dentry_t) : fat_dentry_t :=
  { ent with mdate := fill_timestamp_date L.now, mtime := fill_timestamp_ts L.now }

/-- The function `fat_update_dentry`. -/
def fat_update_dentry (fs : fat_fs_t) (ent : fat_dentry_t) (cluster off : Nat) (err : Int) :
    Int × fat_fs_t :=
  match fat_cluster_read fs cluster err with
  | (none, _, fs1, _) => (- EIO, fs1)
  | (some p, _, fs1, _) =>
    (0, (fat_cluster_mark_dirty (poke_bytes fs1 p off (dentry_bytes ent)) cluster).2)

/-! ## `fs_fat.c`: files and directories on the VFS

The open modes are those of `kos/fs.h` and of the C library's `fcntl.h`.  A call passes 0
for the initial value of the local variable `err` of its callees. -/

def O_RDONLY : Nat := 0
def O_WRONLY : Nat := 1
def O_RDWR : Nat := 2
def O_MODE_MASK : Nat := 0x0f
def O_CREAT : Nat := 0x0200
def O_TRUNC : Nat := 0x0400
def O_DIR : Nat := 0x1000

def MAX_FAT_FILES : Nat := 16

/-- The structure `dirent_t`; `name` is the array of characters. -/
structure dirent_t where
  size : Nat
  name : Nat → Nat
  time : Int
  attr : Nat

/-- An element of the table `fh` of open files. -/
structure fat_fh_t where
  opened : Nat
  dentry : fat_dentry_t
  dentry_cluster : Nat
  dentry_offset : Nat
  dentry_lcl : Nat
  dentry_loff : Nat
  cluster : Nat
  cluster_order : Nat
  mode : Nat
  ptr : Nat
  dent : dirent_t

/-- The state of a mounted volume: the mount structure, the table `fh`, the static array
`longname_buf` of `fs_fat.c`, and `errno`. -/
structure fat_vfs_t where
  d : fat_dir_t
  mount_flags : Nat
  fh : Nat → fat_fh_t
  longname_buf : Nat → Nat
  errno : Int

/-- The assignment to `fh[fd]`. -/
def fh_set (fh : Nat → fat_fh_t) (fd : Nat) (h : fat_fh_t) : Nat → fat_fh_t :=
  fun k => if k = fd then h else fh k

/-- The loop `for(fd = 0; fd < MAX_FAT_FILES; ++fd)` of `fs_fat_open`: the first index
from `fd` on with `opened == 0`; the first argument is `MAX_FAT_FILES - fd`. -/
def fh_find_free (fh : Nat → fat_fh_t) : Nat → Nat → Option Nat
  | 0, _ => none
  | n + 1, fd => if (fh fd).opened = 0 then some fd else fh_find_free fh n (fd + 1)

/-- The function `fat_create_entry` (the copy of `fn` is allocated successfully): the
return value, the values stored through `cl2`, `off`, `lcl` and `loff` at a return of 0
(at an error return the targets of the pointers are not part of the result), and the
new state. -/
def fat_create_entry (fuel : Nat) (L : libc_t) (d : fat_dir_t) (fn : List Nat) (attr : Nat)
    (err : Int) : Option (Int × added_t × fat_dir_t) :=
  match strrchr_split 47 fn with
  | none => some (-EEXIST, added_t.mk none none none none, d)
  | some (parent_fn, newdir_fn) =>
    match fat_find_dentry fuel L d parent_fn err with
    | none => none
    | some (rc, none, d1) => some (rc, added_t.mk none none none none, d1)
    | some (rc, some p, d1) =>
      if rc < 0 then some (rc, added_t.mk none none none none, d1)
      else if p.rv.attr &&& FAT_ATTR_DIRECTORY = 0 then
        some (-ENOTDIR, added_t.mk none none none none, d1)
      else
        match fat_find_child fuel L d1 newdir_fn p.rv err with
        | none => none
        | some (rc2, _, d2) =>
          if rc2 ≠ -ENOENT then
            some (if rc2 = 0 then -EEXIST else rc2, added_t.mk none none none none, d2)
          else
            match fat_allocate_cluster d2.fs rc2 with
            | (cl, err3, fs3) =>
              if cl = FAT_INVALID_CLUSTER then
                some (-err3, added_t.mk none none none none, { d2 with fs := fs3 })
              else
                match fat_cluster_clear fs3 cl err3 with
                | (none, err4, fs4, _) =>
                  match fat_erase_chain fuel fs4 cl with
                  | none => none
                  | some (_, fs5) =>
                    some (-err4, added_t.mk none none none none, { d2 with fs := fs5 })
                | (some _, err4, fs4, _) =>
                  match fat_add_dentry fuel L { d2 with fs := fs4 } newdir_fn p.rv attr cl err4
                  with
                  | none => none
                  | some (rc5, out, d5) =>
                    if rc5 < 0 then
                      match fat_erase_chain fuel d5.fs cl with
                      | none => none
                      | some (_, fs6) =>
                        some (rc5, added_t.mk none none none none, { d5 with fs := fs6 })
                    else some (0, out, d5)

/-- The loop `while(clo < order)` of `advance_cluster` with the statements after it; the
first argument is `order - clo`.  The result is the return value and the new values of
`fh[fd].cluster`, `fh[fd].cluster_order` and `fh[fd].mode` (`none` when they are not
written), and the new state. -/
def advance_cluster_loop (write : Bool) (mode : Nat) :
    Nat → fat_fs_t → Nat → Nat → Int → Int × Option (Nat × Nat × Nat) × fat_fs_t
  | 0, fs, cl, clo, _ => (0, some (cl, clo, mode &&& 0x7FFFFFFF), fs)
  | n + 1, fs, cl, clo, err =>
    match fat_read_fat fs cl err with
    | (cl2, err1, fs1) =>
      if cl2 = FAT_INVALID_CLUSTER then (-err1, none, fs1)
      else if fat_is_eof fs1 cl2 ≠ 0 then
        if ¬ write then (-EDOM, some (cl2, clo, mode &&& 0x7FFFFFFF), fs1)
        else
          match fat_allocate_cluster fs1 err1 with
          | (cl3, err2, fs2) =>
            if cl3 = FAT_INVALID_CLUSTER then (-err2, none, fs2)
            else
              match fat_cluster_clear fs2 cl3 err2 with
              | (none, err3, fs3, _) => (-err3, none, (fat_write_fat fs3 cl3 0).2)
              | (some _, _, fs3, _) =>
                if (fat_write_fat fs3 cl cl3).1 < 0 then
                  ((fat_write_fat fs3 cl cl3).1, none,
                    (fat_write_fat (fat_write_fat fs3 cl cl3).2 cl3 0).2)
                else
                  advance_cluster_loop write mode n (fat_write_fat fs3 cl cl3).2 cl3 (clo + 1)
                    (fat_write_fat fs3 cl cl3).1
      else advance_cluster_loop write mode n fs1 cl2 (clo + 1) err1

/-- The function `advance_cluster`: the return value, the new element `fh[fd]`, and the
new state. -/
def advance_cluster (fs : fat_fs_t) (h : fat_fh_t) (order : Nat) (write : Bool) (err : Int) :
    Int × fat_fh_t × fat_fs_t :=
  if h.cluster_order > order then
    match advance_cluster_loop write h.mode order fs (dentry_cluster h.dentry) 0 err with
    | (rc, some (cl, clo, m), fs1) =>
      (rc, { h with cluster := cl, cluster_order := clo, mode := m }, fs1)
    | (rc, none, fs1) =>
      (rc, { h with cluster := dentry_cluster h.dentry, cluster_order := 0 }, fs1)
  else
    match advance_cluster_loop write h.mode (order - h.cluster_order) fs h.cluster
      h.cluster_order err with
    | (rc, some (cl, clo, m), fs1) =>
      (rc, { h with cluster := cl, cluster_order := clo, mode := m }, fs1)
    | (rc, none, fs1) => (rc, h, fs1)

/-- The part "handle truncating the file" of `fs_fat_open`: `Sum.inl` is the value of
`errno` at a return of `NULL`; on `Sum.inr` the handle has the size 0. -/
def fs_fat_open_trunc (fuel : Nat) (fs : fat_fs_t) (h : fat_fh_t) (err : Int) :
    Option (Sum Int Unit × fat_fh_t × fat_fs_t) :=
  match fat_read_fat fs (dentry_cluster h.dentry) err with
  | (cl2, rv1, fs1) =>
    if cl2 = FAT_INVALID_CLUSTER then
      some (Sum.inl rv1,
        { h with dentry_cluster := 0, dentry_offset := 0, dentry_lcl := 0, dentry_loff := 0 },
        fs1)
    else
      match (if fat_is_eof fs1 cl2 = 0 then
          match fat_erase_chain fuel fs1 cl2 with
          | none => none
          | some (rv2, fs2) =>
            if rv2 < 0 then some (Sum.inl (-rv2), fs2)
            else if (fat_write_fat fs2 (dentry_cluster h.dentry) 0x0FFFFFFF).1 < 0 then
              some (Sum.inl (-(fat_write_fat fs2 (dentry_cluster h.dentry) 0x0FFFFFFF).1),
                (fat_write_fat fs2 (dentry_cluster h.dentry) 0x0FFFFFFF).2)
            else
              some (Sum.inr (fat_write_fat fs2 (dentry_cluster h.dentry) 0x0FFFFFFF).1,
                (fat_write_fat fs2 (dentry_cluster h.dentry) 0x0FFFFFFF).2)
        else some (Sum.inr rv1, fs1)) with
      | none => none
      | some (Sum.inl e, fs3) =>
        some (Sum.inl e,
          { h with dentry_cluster := 0, dentry_offset := 0, dentry_lcl := 0,
                   dentry_loff := 0 }, fs3)
      | some (Sum.inr rv3, fs3) =>
        match fat_update_dentry (fat_cluster_clear fs3 (dentry_cluster h.dentry) rv3).2.2.1
          { h.dentry with size := 0 } h.dentry_cluster h.dentry_offset
          (fat_cluster_clear fs3 (dentry_cluster h.dentry) rv3).2.1 with
        | (rv4, fs4) =>
          if rv4 < 0 then
            some (Sum.inl (-rv4), { h with dentry := { h.dentry with size := 0 } }, fs4)
          else some (Sum.inr (), { h with dentry := { h.dentry with size := 0 } }, fs4)

/-- The statements after the label `created` of `fs_fat_open`. -/
def fs_fat_open_created (h : fat_fh_t) (mode : Nat) : fat_fh_t :=
  { h with mode := mode, ptr := 0, cluster := dentry_cluster h.dentry, cluster_order := 0,
           opened := 1 }

/-- The function `fs_fat_open`: the handle (`none` for `NULL`) and the new state.  The
local variable `rv` is the `err` of the calls that take one. -/
def fs_fat_open (fuel : Nat) (L : libc_t) (v : fat_vfs_t) (fn : List Nat) (mode : Nat) :
    Option (Option Nat × fat_vfs_t) :=
  if mode &&& (O_TRUNC ||| O_WRONLY ||| O_RDWR) ≠ 0 ∧
      v.mount_flags &&& FS_FAT_MOUNT_READWRITE = 0 then
    some (none, { v with errno := EROFS })
  else
    match fh_find_free v.fh MAX_FAT_FILES 0 with
    | none => some (none, { v with errno := ENFILE })
    | some fd =>
      match fat_find_dentry fuel L v.d fn 0 with
      | none => none
      | some (rv, r, d1) =>
        if rv ≠ 0 then
          if rv = -ENOENT ∧ mode &&& O_CREAT ≠ 0 then
            match fat_create_entry fuel L d1 fn FAT_ATTR_ARCHIVE rv with
            | none => none
            | some (rv2, out, d2) =>
              if rv2 < 0 then some (none, { v with d := d2, errno := -rv2 })
              else
                match out.rcl, out.roff, out.rlcl, out.rloff with
                | some cl, some off, some lcl, some loff =>
                  some (some (fd + 1),
                    { v with
                      d := { d2 with fs := (fat_get_dentry d2.fs cl off rv2).2.2 }
                      fh := fh_set v.fh fd
                        (fs_fat_open_created
                          { v.fh fd with
                            dentry :=
                              ((fat_get_dentry d2.fs cl off rv2).2.1).getD (v.fh fd).dentry
                            dentry_cluster := cl
                            dentry_offset := off
                            dentry_lcl := lcl
                            dentry_loff := loff } mode) })
                | _, _, _, _ => none
          else some (none, { v with d := d1, errno := -rv })
        else
          match r with
          | none => none
          | some r =>
            if r.rv.attr &&& FAT_ATTR_DIRECTORY ≠ 0 ∧
                (mode &&& O_WRONLY ≠ 0 ∨ mode &&& O_DIR = 0) then
              some (none,
                { v with
                  d := d1
                  errno := EISDIR
                  fh := fh_set v.fh fd
                    { v.fh fd with
                      dentry := r.rv
                      dentry_cluster := 0
                      dentry_offset := 0
                      dentry_lcl := r.rlcl
                      dentry_loff := r.rloff } })
            else if mode &&& O_DIR ≠ 0 ∧ r.rv.attr &&& FAT_ATTR_DIRECTORY = 0 then
              some (none,
                { v with
                  d := d1
                  errno := ENOTDIR
                  fh := fh_set v.fh fd
                    { v.fh fd with
                      dentry := r.rv
                      dentry_cluster := 0
                      dentry_offset := 0
                      dentry_lcl := 0
                      dentry_loff := 0 } })
            else if mode &&& (O_WRONLY ||| O_RDWR) ≠ 0 ∧ mode &&& O_TRUNC ≠ 0 then
              match fs_fat_open_trunc fuel d1.fs
                { v.fh fd with
                  dentry := r.rv
                  dentry_cluster := r.rcl
                  dentry_offset := r.roff
                  dentry_lcl := r.rlcl
                  dentry_loff := r.rloff } rv with
              | none => none
              | some (Sum.inl e, h1, fs1) =>
                some (none,
                  { v with d := { d1 with fs := fs1 }, errno := e, fh := fh_set v.fh fd h1 })
              | some (Sum.inr _, h1, fs1) =>
                some (some (fd + 1),
                  { v with
                    d := { d1 with fs := fs1 }
                    fh := fh_set v.fh fd (fs_fat_open_created h1 mode) })
            else
              some (some (fd + 1),
                { v with
                  d := d1
                  fh := fh_set v.fh fd
                    (fs_fat_open_created
                      { v.fh fd with
                        dentry := r.rv
                        dentry_cluster := r.rcl
                        dentry_offset := r.roff
                        dentry_lcl := r.rlcl
                        dentry_loff := r.rloff } mode) })

/-- The call `memcpy(block + off, bbuf + boff, n)` into the buffer of record `p`. -/
def poke_buf (fs : fat_fs_t) (p off : Nat) (bbuf : Nat → Nat) (boff n : Nat) : fat_fs_t :=
  { fs with
    mem := mem_set fs.mem p
      { fs.mem p with
        data := fun o =>
          if off ≤ o ∧ o < off + n then bbuf (boff + (o - off)) % 256
          else (fs.mem p).data o } }

/-- The loop `while(cnt)` of `fs_fat_write`; `boff` is the distance of `bbuf` from
`buf`.  `Sum.inl` is the value of `errno` at a return of -1. -/
def fs_fat_write_loop (bs : Nat) (bbuf : Nat → Nat) :
    Nat → fat_fs_t → fat_fh_t → Nat → Nat → Option (Sum Int Unit × fat_fh_t × fat_fs_t)
  | 0, _, _, _, _ => none
  | fuel + 1, fs, h, boff, cnt =>
    if cnt = 0 then some (Sum.inr (), h, fs)
    else
      match fat_cluster_read fs h.cluster 0 with
      | (none, err, fs1, _) => some (Sum.inl err, h, fs1)
      | (some block, err, fs1, _) =>
        if cnt > bs then
          match advance_cluster
            (fat_cluster_mark_dirty (poke_buf fs1 block 0 bbuf boff bs) h.cluster).2
            { h with ptr := u32 (h.ptr + bs) } (u32 (h.cluster_order + 1)) true err with
          | (e, h1, fs2) =>
            if e < 0 then some (Sum.inl (-e), h1, fs2)
            else fs_fat_write_loop bs bbuf fuel fs2 h1 (boff + bs) (cnt - bs)
        else
          some (Sum.inr (),
            { h with ptr := u32 (h.ptr + cnt), mode := u32 (h.mode ||| 0x80000000) },
            (fat_cluster_mark_dirty (poke_buf fs1 block 0 bbuf boff cnt) h.cluster).2)

/-- The part "are we starting our write in the middle of a block" of `fs_fat_write`: the
element `fh[fd]`, the state, `boff` and `cnt` after it. -/
def fs_fat_write_first (bs bo : Nat) (bbuf : Nat → Nat) (fs : fat_fs_t) (h : fat_fh_t)
    (cnt : Nat) (err : Int) : Sum Int (Nat × Nat) × fat_fh_t × fat_fs_t :=
  if bo ≠ 0 then
    match fat_cluster_read fs h.cluster err with
    | (none, err1, fs1, _) => (Sum.inl err1, h, fs1)
    | (some block, err1, fs1, _) =>
      if cnt > bs - bo then
        match advance_cluster
          (fat_cluster_mark_dirty (poke_buf fs1 block bo bbuf 0 (bs - bo)) h.cluster).2
          { h with ptr := u32 (h.ptr + (bs - bo)) } (u32 (h.cluster_order + 1)) true err1 with
        | (e, h1, fs2) =>
          if e < 0 then (Sum.inl (-e), h1, fs2)
          else (Sum.inr (bs - bo, cnt - (bs - bo)), h1, fs2)
      else
        (Sum.inr (cnt, 0),
          { h with ptr := u32 (h.ptr + cnt), mode := u32 (h.mode ||| 0x80000000) },
          (fat_cluster_mark_dirty (poke_buf fs1 block bo bbuf 0 cnt) h.cluster).2)
  else (Sum.inr (0, cnt), h, fs)

/-- The end of `fs_fat_write`, from the update of the size in the directory entry on:
the return value, `errno`, the element `fh[fd]` and the state. -/
def fs_fat_write_size (L : libc_t) (rv : Int) (mode : Nat) (errno : Int) (fs : fat_fs_t)
    (h : fat_fh_t) : Int × Int × fat_fh_t × fat_fs_t :=
  if h.ptr > h.dentry.size ∨ mode = O_WRONLY then
    match fat_update_dentry fs { h.dentry with size := h.ptr } h.dentry_cluster
      h.dentry_offset 0 with
    | (err, fs1) =>
      if err < 0 then
        (-1, -err, { h with dentry := fat_update_mtime L { h.dentry with size := h.ptr } }, fs1)
      else
        (rv, errno, { h with dentry := fat_update_mtime L { h.dentry with size := h.ptr } },
          fs1)
  else (rv, errno, { h with dentry := fat_update_mtime L h.dentry }, fs)

/-- The function `fs_fat_write` on the handle `fd + 1`: the return value and the new
state. -/
def fs_fat_write (fuel : Nat) (L : libc_t) (v : fat_vfs_t) (fd : Nat) (buf : Nat → Nat)
    (cnt : Nat) : Option (Int × fat_vfs_t) :=
  if fd ≥ MAX_FAT_FILES ∨ (v.fh fd).opened = 0 then some (-1, { v with errno := EBADF })
  else if (v.fh fd).mode &&& O_MODE_MASK ≠ O_WRONLY ∧
      (v.fh fd).mode &&& O_MODE_MASK ≠ O_RDWR then
    some (-1, { v with errno := EBADF })
  else if cnt = 0 then some (0, v)
  else
    match (if (v.fh fd).mode &&& 0x80000000 ≠ 0 then
        advance_cluster v.d.fs (v.fh fd)
          ((v.fh fd).ptr / u32 (v.d.fs.sb.bytes_per_sector * v.d.fs.sb.sectors_per_cluster))
          true 0
      else (0, v.fh fd, v.d.fs)) with
    | (e, h1, fs1) =>
      if e < 0 then
        some (-1, { v with d := { v.d with fs := fs1 }, fh := fh_set v.fh fd h1, errno := -e })
      else
        match fs_fat_write_first
          (u32 (v.d.fs.sb.bytes_per_sector * v.d.fs.sb.sectors_per_cluster))
          ((v.fh fd).ptr &&&
            (u32 (v.d.fs.sb.bytes_per_sector * v.d.fs.sb.sectors_per_cluster) - 1))
          buf fs1 h1 cnt e with
        | (Sum.inl e2, h2, fs2) =>
          some (-1, { v with d := { v.d with fs := fs2 }, fh := fh_set v.fh fd h2, errno := e2 })
        | (Sum.inr (boff, cnt2), h2, fs2) =>
          match fs_fat_write_loop
            (u32 (v.d.fs.sb.bytes_per_sector * v.d.fs.sb.sectors_per_cluster)) buf fuel fs2
            h2 boff cnt2 with
          | none => none
          | some (Sum.inl e3, h3, fs3) =>
            some (-1,
              { v with d := { v.d with fs := fs3 }, fh := fh_set v.fh fd h3, errno := e3 })
          | some (Sum.inr _, h3, fs3) =>
            match fs_fat_write_size L cnt ((v.fh fd).mode &&& O_MODE_MASK) v.errno fs3 h3 with
            | (rv, errno, h4, fs4) =>
              some (rv,
                { v with d := { v.d with fs := fs4 }, fh := fh_set v.fh fd h4, errno := errno })

/-- The function `fs_fat_unlink`: the return value and the new state.  The table `fh`
is not consulted. -/
def fs_fat_unlink (fuel : Nat) (L : libc_t) (v : fat_vfs_t) (fn : List Nat) :
    Option (Int × fat_vfs_t) :=
  if v.mount_flags &&& FS_FAT_MOUNT_READWRITE = 0 then some (-1, { v with errno := EROFS })
  else
    match fat_find_dentry fuel L v.d fn 0 with
    | none => none
    | some (irv, none, d1) => some (-1, { v with d := d1, errno := -irv })
    | some (irv, some r, d1) =>
      if irv < 0 then some (-1, { v with d := d1, errno := -irv })
      else if r.rv.attr &&& FAT_ATTR_DIRECTORY ≠ 0 then
        some (-1, { v with d := d1, errno := EISDIR })
      else if r.rv.attr &&& FAT_ATTR_VOLUME_ID ≠ 0 then
        some (-1, { v with d := d1, errno := ENOENT })
      else
        match fat_erase_chain fuel d1.fs (dentry_cluster r.rv) with
        | none => none
        | some (err, fs2) =>
          match fat_erase_dentry fuel fs2 r.rcl r.roff r.rlcl r.rloff err with
          | none => none
          | some (irv2, fs3) =>
            if irv2 < 0 then some (-1, { v with d := { d1 with fs := fs3 }, errno := -err })
            else
              some (irv2,
                { v with
                  d := { d1 with fs := fs3 }
                  errno := if err ≠ 0 then -err else v.errno })

/-- The function `fat_time_to_stat`. -/
def fat_time_to_stat (L : libc_t) (date time : Nat) : Int :=
  L.mktime
    { tm_year := (date >>> 9) + 80, tm_mon := u32 (((date >>> 5) &&& 0x0F) + (2 ^ 32 - 1)),
      tm_mday := date &&& 0x1F, tm_hour := (time >>> 11) &&& 0x1F,
      tm_min := (time >>> 5) &&& 0x3F, tm_sec := (time &&& 0x1F) <<< 1 }

/-- The bytes that `copy_shortname` stores in `fn`, with the terminator. -/
def copy_shortname (dent : fat_dentry_t) : List Nat :=
  (dent.name.take 8).takeWhile (fun c => c ≠ 0x20) ++
    (if dent.name.getD 8 0 ≠ 0x20 then
      0x2E :: ((dent.name.drop 8).take 3).takeWhile (fun c => c ≠ 0x20)
    else []) ++ [0]

/-- The function `copy_longname` of `fs_fat.c` on the entry at offset `off` of record
`p`: the new contents of `longname_buf`. -/
def copy_longname (lb : Nat → Nat) (fs : fat_fs_t) (p off : Nat) : Nat → Nat :=
  longname_copy lb (((peek fs p off + (2 ^ 32 - 1)) % 2 ^ 32 &&& 0x3F) * 13) fs p off

/-- The function `fat_rootdir_length`. -/
def fat_rootdir_length (fs : fat_fs_t) : Nat :=
  if fs.sb.fs_type = FAT_FS_FAT32 then 0xFFFFFFFF else fs.sb.root_dir

/-- The loop `do ... while(...)` of `fs_fat_readdir` on the buffer `block` of record
`p`.  `Sum.inl` is a return of `NULL` with the value of `errno`; `Sum.inr` carries the
offset of the entry `dent` in the buffer and `has_longname`.  The other components are
the element `fh[fd]`, `longname_buf` and the state. -/
def fs_fat_readdir_loop (bs p : Nat) :
    Nat → fat_fs_t → fat_fh_t → (Nat → Nat) → Bool → Int →
      Option (Sum Int (Nat × Bool) × fat_fh_t × (Nat → Nat) × fat_fs_t)
  | 0, _, _, _, _, _ => none
  | fuel + 1, fs, h, lb, has_longname, errno =>
    if peek fs p (h.ptr &&& (bs - 1)) = FAT_ENTRY_EOD then
      some (Sum.inl errno, { h with ptr := u32 (h.ptr + 32), cluster := 0x0FFFFFF8 },
        if FAT_IS_LONG_NAME fs p (h.ptr &&& (bs - 1)) then
          copy_longname lb fs p (h.ptr &&& (bs - 1))
        else lb, fs)
    else if peek fs p (h.ptr &&& (bs - 1)) = FAT_ENTRY_FREE ∨
        FAT_IS_LONG_NAME fs p (h.ptr &&& (bs - 1)) then
      if u32 (h.ptr + 32) &&& (bs - 1) = 0 then
        if fs.sb.fs_type = FAT_FS_FAT32 ∨ h.dentry_cluster ≠ 0 then
          match fat_read_fat fs h.cluster errno with
          | (cl, err, fs1) =>
            if cl = FAT_INVALID_CLUSTER then
              some (Sum.inl err, { h with ptr := u32 (h.ptr + 32) },
                if FAT_IS_LONG_NAME fs p (h.ptr &&& (bs - 1)) then
                  copy_longname lb fs p (h.ptr &&& (bs - 1))
                else lb, fs1)
            else if fat_is_eof fs1 cl ≠ 0 then
              some (Sum.inl errno, { h with ptr := u32 (h.ptr + 32) },
                if FAT_IS_LONG_NAME fs p (h.ptr &&& (bs - 1)) then
                  copy_longname lb fs p (h.ptr &&& (bs - 1))
                else lb, fs1)
            else
              fs_fat_readdir_loop bs p fuel fs1
                { h with ptr := u32 (h.ptr + 32), cluster := cl,
                         cluster_order := u32 (h.cluster_order + 1) }
                (if FAT_IS_LONG_NAME fs p (h.ptr &&& (bs - 1)) then
                  copy_longname lb fs p (h.ptr &&& (bs - 1))
                else lb)
                (has_longname || decide (FAT_IS_LONG_NAME fs p (h.ptr &&& (bs - 1)))) errno
        else if u32 (h.ptr + 32) >>> 5 ≥ fat_rootdir_length fs then
          some (Sum.inl errno, { h with ptr := u32 (h.ptr + 32), cluster := 0x0FFFFFFF },
            if FAT_IS_LONG_NAME fs p (h.ptr &&& (bs - 1)) then
              copy_longname lb fs p (h.ptr &&& (bs - 1))
            else lb, fs)
        else
          fs_fat_readdir_loop bs p fuel fs
            { h with ptr := u32 (h.ptr + 32), cluster := u32 (h.cluster + 1),
                     cluster_order := u32 (h.cluster_order + 1) }
            (if FAT_IS_LONG_NAME fs p (h.ptr &&& (bs - 1)) then
              copy_longname lb fs p (h.ptr &&& (bs - 1))
            else lb)
            (has_longname || decide (FAT_IS_LONG_NAME fs p (h.ptr &&& (bs - 1)))) errno
      else
        fs_fat_readdir_loop bs p fuel fs { h with ptr := u32 (h.ptr + 32) }
          (if FAT_IS_LONG_NAME fs p (h.ptr &&& (bs - 1)) then
            copy_longname lb fs p (h.ptr &&& (bs - 1))
          else lb)
          (has_longname || decide (FAT_IS_LONG_NAME fs p (h.ptr &&& (bs - 1)))) errno
    else
      some (Sum.inr (h.ptr &&& (bs - 1), has_longname), { h with ptr := u32 (h.ptr + 32) }, lb,
        fs)

/-- The array of characters that holds the bytes of a list from element 0 on. -/
def store_chars (buf : Nat → Nat) (bytes : List Nat) : Nat → Nat :=
  fun k => if k < bytes.length then bytes.getD k 0 % 256 else buf k

/-- The function `fs_fat_readdir` on the handle `fd + 1`: whether `&fh[fd].dent` is
returned (`false` for `NULL`), and the new state. -/
def fs_fat_readdir (fuel : Nat) (L : libc_t) (v : fat_vfs_t) (fd : Nat) :
    Option (Bool × fat_vfs_t) :=
  if fd ≥ MAX_FAT_FILES ∨ (v.fh fd).opened = 0 ∨ (v.fh fd).mode &&& O_DIR = 0 then
    some (false, { v with errno := EBADF })
  else if fat_is_eof v.d.fs (v.fh fd).cluster ≠ 0 then some (false, v)
  else
    match fat_cluster_read v.d.fs (v.fh fd).cluster 0 with
    | (none, err, fs1, _) => some (false, { v with d := { v.d with fs := fs1 }, errno := err })
    | (some block, _, fs1, _) =>
      match fs_fat_readdir_loop
        (if fs1.sb.fs_type = FAT_FS_FAT32 ∨ (v.fh fd).dentry_cluster ≠ 0 then
          u32 (fs1.sb.bytes_per_sector * fs1.sb.sectors_per_cluster)
        else fs1.sb.bytes_per_sector)
        block fuel fs1
        { v.fh fd with dent := { size := 0, name := fun _ => 0, time := 0, attr := 0 } }
        (fun k => if k < 256 then 0 else v.longname_buf k) false v.errno with
      | none => none
      | some (Sum.inl e, h1, lb1, fs2) =>
        some (false,
          { v with
            d := { v.d with fs := fs2 }
            fh := fh_set v.fh fd h1
            longname_buf := lb1
            errno := e })
      | some (Sum.inr (off, has_longname), h1, lb1, fs2) =>
        match (if has_longname then
            match fat_strlen_ucs2 lb1 0 fuel 0 with
            | none => none
            | some len => some (fat_ucs2_to_utf8 h1.dent.name lb1 256 len).2
          else some (store_chars h1.dent.name (copy_shortname (dentry_at fs2 block off)))) with
        | none => none
        | some name =>
          some (true,
            { v with
              d := { v.d with fs := fs2 }
              fh := fh_set v.fh fd
                { h1 with
                  dent :=
                    { size := (dentry_at fs2 block off).size
                      name := name
                      time := fat_time_to_stat L (dentry_at fs2 block off).mdate
                        (dentry_at fs2 block off).mtime
                      attr :=
                        if (dentry_at fs2 block off).attr &&& FAT_ATTR_DIRECTORY ≠ 0 then O_DIR
                        else 0 } }
              longname_buf := lb1 })

/-! ### Concrete states of a mounted volume -/

/-- The function `towlower` on ASCII letters. -/
def ascii_tolower (c : Nat) : Nat := if 0x41 ≤ c ∧ c ≤ 0x5A then c + 0x20 else c

/-- A C library with signed `char`, at 12:00:00 on 1 January 2020. -/
def libc_signed : libc_t :=
  { signed_char := true, towlower := ascii_tolower,
    now := { tm_year := 120, tm_mon := 0, tm_mday := 1, tm_hour := 12, tm_min := 0, tm_sec := 0 },
    mktime := fun _ => 0 }

/-- An element of `fh` that is not open. -/
def fh_closed : fat_fh_t :=
  { opened := 0,
    dentry := { name := [], attr := 0, reserved := 0, ctenth := 0, ctime := 0, cdate := 0,
                adate := 0, cluster_high := 0, mtime := 0, mdate := 0, cluster_low := 0,
                size := 0 },
    dentry_cluster := 0, dentry_offset := 0, dentry_lcl := 0, dentry_loff := 0, cluster := 0,
    cluster_order := 0, mode := 0, ptr := 0,
    dent := { size := 0, name := fun _ => 0, time := 0, attr := 0 } }

/-- The state after a read-write mount: no open file, the static arrays zeroed. -/
def vfs_of (fs : fat_fs_t) : fat_vfs_t :=
  { d := { fs := fs, longname_buf := fun _ => 0, longname_buf2 := fun _ => 0 },
    mount_flags := FS_FAT_MOUNT_READWRITE, fh := fun _ => fh_closed,
    longname_buf := fun _ => 0, errno := 0 }

/-- The state after `fs_fat_open` of `/F` on `vol_file` with the given mode. -/
def vfs_file_open (mode : Nat) : fat_vfs_t :=
  ((fs_fat_open 8 libc_signed (vfs_of vol_file) (cstr "/F") mode).map Prod.snd).getD
    (vfs_of vol_file)

/-- The state after `fs_fat_unlink` of `/F` while the file is open for reading. -/
def vfs_file_unlinked : fat_vfs_t :=
  ((fs_fat_unlink 8 libc_signed (vfs_file_open O_RDONLY) (cstr "/F")).map Prod.snd).getD
    (vfs_of vol_file)

/-- The state after `fs_fat_write` of the byte "X" at the start of `/F`, opened with the
given mode. -/
def vfs_file_written (mode : Nat) : fat_vfs_t :=
  ((fs_fat_write 8 libc_signed (vfs_file_open mode) 0 (arr_of [0x58]) 1).map Prod.snd).getD
    (vfs_of vol_file)

/-- A directory sector of 16 deleted entries: every entry has `name[0] = 0xE5`, the rest
of the name "DELETED    ", and the attribute `0x20`. -/
def deleted_sector : Nat → Nat :=
  fun off =>
    if off % 32 = 0 then 0xE5
    else if off % 32 < 11 then (cstr "DELETED    ").getD (off % 32) 0
    else if off % 32 = 11 then 0x20
    else 0

/-- The floppy `dev_floppy` with a root directory whose first sector (sector 19) holds 16
deleted entries and whose second sector (sector 20) starts with the entry of the file
`F`. -/
def dev_floppy_dir : kos_blockdev_t :=
  mk_dev (fun b =>
    if b = 0 then boot_floppy else if b = 1 then fat12_sector
    else if b = 19 then deleted_sector
    else if b = 20 then root_file_sector
    else fun _ => 0)

/-- The state after `fs_fat_open` of the root directory of `dev_floppy_dir`. -/
def vfs_floppy_dir : fat_vfs_t :=
  ((fs_fat_open 8 libc_signed (vfs_of (mount_rw dev_floppy_dir)) (cstr "/")
    (O_RDONLY ||| O_DIR)).map Prod.snd).getD (vfs_of (mount_rw dev_floppy_dir))

/-- The name "café au lait" in UTF-8. -/
def name_cafe : List Nat := cstr "caf" ++ [0xC3, 0xA9] ++ cstr " au lait"

/-- The empty root directory of `vol12` with the static arrays zeroed. -/
def dir12 : fat_dir_t :=
  { fs := vol12, longname_buf := fun _ => 0, longname_buf2 := fun _ => 0 }

/-- The state after `fat_add_dentry` of `fn` to the root directory in the state `d`. -/
def dir_added (d : fat_dir_t) (fn : List Nat) : fat_dir_t :=
  ((fat_add_dentry 8 libc_signed d fn (root_dentry d.fs) FAT_ATTR_ARCHIVE 5 0).map
    (fun r => r.2.2)).getD d

/-- The state after the first `fs_fat_readdir` on the root directory of
`dev_floppy_dir`. -/
def vfs_floppy_dir_read : fat_vfs_t :=
  ((fs_fat_readdir 300 libc_signed vfs_floppy_dir 0).map Prod.snd).getD vfs_floppy_dir

/-- The root directory of `vol12` after `fat_add_dentry` of "A very long filename.txt"
and then of "abcdefghi.txt", a name of 13 characters. -/
def dir12_two_names : fat_dir_t :=
  dir_added (dir_added dir12 (cstr "A very long filename.txt")) (cstr "abcdefghi.txt")

/-! ### The numeric tail of a short name, after the specification -/

/-- The basis name `basis` of 11 bytes with the numeric tail for `N`: the basename ends
in '~' followed by the decimal digits of `N`, the last digit in byte 7. -/
def shortname_numeric_tail (basis : List Nat) (N : Nat) : List Nat :=
  basis.take (7 - (Nat.digits 10 N).length) ++
    0x7E :: (Nat.digits 10 N).reverse.map (fun d => 0x30 + d) ++ basis.drop 8

/-- The search for the smallest `N` from `N` on, below 1000000, for which the directory
search for the name with the numeric tail for `N` reports that there is no such entry:
the result is 0 with that name, or `-ENOSPC` when there is no such `N`.  The first
argument bounds the number of candidates that are tried. -/
def first_free_tail (fuel : Nat) (parent : fat_dentry_t) (err : Int) (basis : List Nat) :
    Nat → Nat → fat_fs_t → Option (Int × Option (List Nat) × fat_fs_t)
  | 0, _, _ => none
  | n + 1, N, fs =>
    if ¬ N < 1000000 then some (-ENOSPC, none, fs)
    else
      match fat_find_child2 fuel fs (shortname_numeric_tail basis N) parent err with
      | none => none
      | some (rc, fs1) =>
        if rc = -ENOENT then some (0, some (shortname_numeric_tail basis N), fs1)
        else first_free_tail fuel parent err basis n (N + 1) fs1

/-- The state of the mount `mnt_file3` (mount flags 3) with no open file. -/
def vfs_mnt3 : fat_vfs_t := { vfs_of mnt_file3.fs with mount_flags := mnt_file3.mount_flags }

/-- The state after `fs_fat_open` of `/F` on `mnt_file3` with `O_WRONLY | O_TRUNC`. -/
def vfs_mnt3_open : fat_vfs_t :=
  ((fs_fat_open 8 libc_signed vfs_mnt3 (cstr "/F") (O_WRONLY ||| O_TRUNC)).map Prod.snd).getD
    vfs_mnt3

/-! ## `dirname.c`

A path is the list of the bytes of the C string before its terminator; the bytes after
the end of the list read as the terminator 0.  The results `"."` and `"/"` are string
literals, the third result is the C string left in the buffer `path`. -/

/-- The loop `while((ch = *i))` of `dirname`: the value of `last` at the end of the loop,
as an index into `path`.  The first argument bounds the number of iterations; the loop
stops at the terminator, so `path.length + 1` is enough. -/
def dirname_scan (path : List Nat) : Nat → Nat → Nat → Nat
  | 0, _, last => last
  | n + 1, i, last =>
    if path.getD i 0 = 0 then last
    else if path.getD i 0 = 47 then
      if path.getD (i + 1) 0 = 0 then last
      else if path.getD (i + 1) 0 ≠ 47 then dirname_scan path n (i + 1) (i + 1)
      else dirname_scan path n (i + 1) last
    else dirname_scan path n (i + 1) last

/-- The loop `while(i != path && *i == '/') *i-- = 0;` of `dirname`, started at the index
`i`: the buffer after it. -/
def dirname_strip (buf : List Nat) : Nat → List Nat
  | 0 => buf
  | i + 1 => if buf.getD (i + 1) 0 = 47 then dirname_strip (buf.set (i + 1) 0) i else buf

/-- The C string at the start of a buffer. -/
def c_string (buf : List Nat) : List Nat := buf.takeWhile (fun b => b ≠ 0)

/-- The function `dirname`; `none` is the argument `NULL`. -/
def dirname (path : Option (List Nat)) : List Nat :=
  match path with
  | none => cstr "."
  | some p =>
    if p.getD 0 0 = 0 then cstr "."
    else if dirname_scan p (p.length + 1) 0 0 = 0 then
      if p.getD 1 0 = 47 then cstr "/" else cstr "."
    else if dirname_scan p (p.length + 1) 0 0 = 1 then cstr "/"
    else c_string (dirname_strip p (dirname_scan p (p.length + 1) 0 0 - 1))

/-! ## A volume with a subdirectory -/

/-- A short directory entry with the given name, attribute, first cluster and size, and
zero in the other fields. -/
def mk_dentry (name : List Nat) (attr cluster size : Nat) : fat_dentry_t :=
  { name := name, attr := attr, reserved := 0, ctenth := 0, ctime := 0, cdate := 0, adate := 0,
    cluster_high := cluster / 65536, mtime := 0, mdate := 0, cluster_low := cluster % 65536,
    size := size }

/-- A directory sector or cluster that holds the given entries from offset 0 on and zero
bytes after them. -/
def sector_of_entries (es : List fat_dentry_t) : Nat → Nat :=
  fun off => ((es.map dentry_bytes).getD (off / 32) []).getD (off % 32) 0

/-- The FAT12 device `dev12` with the directory `D` in its root directory (sector 5).
The directory occupies the chain 2 -> 3; its first cluster (sector 6) holds the entries
".", ".." and, at offset 64, the regular file `F` with first cluster 5 and size 5.
Cluster 5 (sector 9) holds the bytes of "hello". -/
def dev_subdir : kos_blockdev_t :=
  mk_dev (fun b =>
    if b = 0 then boot12 else if b = 1 then fat12_sector
    else if b = 5 then sector_of_entries [mk_dentry (cstr "D          ") FAT_ATTR_DIRECTORY 2 0]
    else if b = 6 then
      sector_of_entries [mk_dentry (cstr ".          ") FAT_ATTR_DIRECTORY 2 0,
        mk_dentry (cstr "..         ") FAT_ATTR_DIRECTORY 0 0,
        mk_dentry (cstr "F          ") FAT_ATTR_ARCHIVE 5 5]
    else if b = 9 then sector_of [(0, 0x68), (1, 0x65), (2, 0x6C), (3, 0x6C), (4, 0x6F)]
    else fun _ => 0)

/-- The volume `dev_subdir`, mounted read-write, with the static arrays zeroed. -/
def dir_subdir : fat_dir_t :=
  { fs := mount_rw dev_subdir, longname_buf := fun _ => 0, longname_buf2 := fun _ => 0 }

/-- The byte at offset `off` of cluster `cl` as `fat_cluster_read` hands it out (`none`
when the read fails). -/
def cluster_byte (fs : fat_fs_t) (cl off : Nat) : Option Nat :=
  match fat_cluster_read fs cl 0 with
  | (some p, _, fs1, _) => some (peek fs1 p off)
  | (none, _, _, _) => none

/-- The cluster `cl` is in the cluster cache with the flag `DIRTY` set. -/
def cluster_dirty (fs : fat_fs_t) (cl : Nat) : Bool :=
  match bcache_scan fs cl fs.cache_size with
  | some i => decide ((fs.mem (fs.bcache i)).flags &&& FAT_CACHE_FLAG_DIRTY ≠ 0)
  | none => false

/-- The state after `fat_find_dentry` of `fn` followed by `fat_erase_dentry` at the
position that it reports, with the return value of `fat_erase_dentry` (`none` when the
search fails or the fuel runs out). -/
def find_and_erase (fuel : Nat) (L : libc_t) (d : fat_dir_t) (fn : List Nat) :
    Option (Int × fat_fs_t) :=
  match fat_find_dentry fuel L d fn 0 with
  | some (0, some r, d1) => fat_erase_dentry fuel d1.fs r.rcl r.roff r.rlcl r.rloff 0
  | _ => none

/-! ## A FAT16 volume with a directory of two clusters -/

/-- A directory cluster whose first `n` entries are the live short entry
"X          " (attribute `0x20`) and whose other bytes are zero. -/
def live_entries (n : Nat) : Nat → Nat :=
  fun off =>
    if off / 32 < n then (dentry_bytes (mk_dentry (cstr "X          ") FAT_ATTR_ARCHIVE 0 0)).getD
      (off % 32) 0
    else 0

/-- A FAT16 device with the geometry of `boot16` (one sector per cluster, 16 entries per
cluster, first data sector 22).  Its FAT holds the chain 2 -> 3 -> EOC and marks every
other cluster as free.  The chain is a directory: cluster 2 (sector 22) holds 16 live
entries, cluster 3 (sector 23) holds 15 live entries and then the end-of-directory
marker at offset 480. -/
def dev16_dir : kos_blockdev_t :=
  mk_dev (fun b =>
    if b = 0 then boot16
    else if b = 1 then
      sector_of [(0, 0xF8), (1, 0xFF), (2, 0xFF), (3, 0xFF), (4, 3), (5, 0), (6, 0xFF), (7, 0xFF)]
    else if b = 22 then live_entries 16
    else if b = 23 then live_entries 15
    else fun _ => 0)

/-- The volume `dev16_dir`, mounted read-write. -/
def vol16_dir : fat_fs_t := mount_rw dev16_dir

/-! ## `fs_fat.c`: reading and seeking -/

def SEEK_SET : Int := 0
def SEEK_CUR : Int := 1
def SEEK_END : Int := 2

/-- The call `memcpy(bbuf, block + off, n)` from the buffer of record `block`; `boff` is
the distance of `bbuf` from `buf`. -/
def copy_out (fs : fat_fs_t) (block off : Nat) (buf : Nat → Nat) (boff n : Nat) : Nat → Nat :=
  fun k => if boff ≤ k ∧ k < boff + n then peek fs block (off + (k - boff)) else buf k

/-- The step "read the FAT, fail or move on to the next cluster" that follows a copy in
`fs_fat_read`.  With `check_eof` the step is the one of the branches `cnt > bs - bo` and
`cnt > bs`, which fails with `EIO` on an end-of-chain value; without it the step is
the one of the branches that end the read.  `Sum.inl` is the value of `errno` at a
return of -1. -/
def fs_fat_read_next (check_eof : Bool) (fs : fat_fs_t) (h : fat_fh_t) (errno : Int) :
    Sum Int Int × fat_fh_t × fat_fs_t :=
  match fat_read_fat fs h.cluster errno with
  | (cl, e, fs1) =>
    if cl = FAT_INVALID_CLUSTER then (Sum.inl e, h, fs1)
    else if check_eof ∧ fat_is_eof fs1 cl ≠ 0 then (Sum.inl EIO, h, fs1)
    else (Sum.inr e, { h with cluster := cl, cluster_order := u32 (h.cluster_order + 1) }, fs1)

/-- The part "handle the first block specially if we are offset within it" of
`fs_fat_read`: `Sum.inl` is the value of `errno` at a return of -1, `Sum.inr` holds
`errno`, the distance of `bbuf` from `buf`, and `cnt`. -/
def fs_fat_read_first (bs bo : Nat) (fs : fat_fs_t) (h : fat_fh_t) (buf : Nat → Nat)
    (errno : Int) (cnt : Nat) : Sum Int (Int × Nat × Nat) × fat_fh_t × fat_fs_t × (Nat → Nat) :=
  if bo ≠ 0 then
    match fat_cluster_read fs h.cluster errno with
    | (none, e, fs1, _) => (Sum.inl e, h, fs1, buf)
    | (some block, e, fs1, _) =>
      if cnt > bs - bo then
        match fs_fat_read_next true fs1 { h with ptr := u32 (h.ptr + (bs - bo)) } e with
        | (Sum.inl e2, h2, fs2) => (Sum.inl e2, h2, fs2, copy_out fs1 block bo buf 0 (bs - bo))
        | (Sum.inr e2, h2, fs2) =>
          (Sum.inr (e2, bs - bo, cnt - (bs - bo)), h2, fs2,
            copy_out fs1 block bo buf 0 (bs - bo))
      else if u32 (cnt + bo) = bs then
        match fs_fat_read_next false fs1 { h with ptr := u32 (h.ptr + cnt) } e with
        | (Sum.inl e2, h2, fs2) => (Sum.inl e2, h2, fs2, copy_out fs1 block bo buf 0 cnt)
        | (Sum.inr e2, h2, fs2) => (Sum.inr (e2, cnt, 0), h2, fs2, copy_out fs1 block bo buf 0 cnt)
      else
        (Sum.inr (e, cnt, 0), { h with ptr := u32 (h.ptr + cnt) }, fs1,
          copy_out fs1 block bo buf 0 cnt)
  else (Sum.inr (errno, 0, cnt), h, fs, buf)

/-- The loop `while(cnt)` of `fs_fat_read`; `boff` is the distance of `bbuf` from `buf`.
`Sum.inl` is the value of `errno` at a return of -1, `Sum.inr` the value of `errno` at
the end of the loop. -/
def fs_fat_read_loop (bs : Nat) :
    Nat → fat_fs_t → fat_fh_t → (Nat → Nat) → Int → Nat → Nat →
      Option (Sum Int Int × fat_fh_t × fat_fs_t × (Nat → Nat))
  | 0, _, _, _, _, _, _ => none
  | fuel + 1, fs, h, buf, errno, boff, cnt =>
    if cnt = 0 then some (Sum.inr errno, h, fs, buf)
    else
      match fat_cluster_read fs h.cluster errno with
      | (none, e, fs1, _) => some (Sum.inl e, h, fs1, buf)
      | (some block, e, fs1, _) =>
        if cnt > bs then
          match fs_fat_read_next true fs1 { h with ptr := u32 (h.ptr + bs) } e with
          | (Sum.inl e2, h2, fs2) => some (Sum.inl e2, h2, fs2, copy_out fs1 block 0 buf boff bs)
          | (Sum.inr e2, h2, fs2) =>
            fs_fat_read_loop bs fuel fs2 h2 (copy_out fs1 block 0 buf boff bs) e2 (boff + bs)
              (cnt - bs)
        else if cnt = bs then
          match fs_fat_read_next false fs1 { h with ptr := u32 (h.ptr + cnt) } e with
          | (Sum.inl e2, h2, fs2) => some (Sum.inl e2, h2, fs2, copy_out fs1 block 0 buf boff cnt)
          | (Sum.inr e2, h2, fs2) => some (Sum.inr e2, h2, fs2, copy_out fs1 block 0 buf boff cnt)
        else
          some (Sum.inr e, { h with ptr := u32 (h.ptr + cnt) }, fs1,
            copy_out fs1 block 0 buf boff cnt)

/-- The function `fs_fat_read` on the handle `fd + 1`: the return value, the buffer
`buf` and the new state.  `size_t` and `ssize_t` have 32 bits. -/
def fs_fat_read (fuel : Nat) (v : fat_vfs_t) (fd : Nat) (buf : Nat → Nat) (cnt : Nat) :
    Option (Int × (Nat → Nat) × fat_vfs_t) :=
  if fd ≥ MAX_FAT_FILES ∨ (v.fh fd).opened = 0 then some (-1, buf, { v with errno := EBADF })
  else if (v.fh fd).mode &&& O_MODE_MASK ≠ O_RDONLY ∧
      (v.fh fd).mode &&& O_MODE_MASK ≠ O_RDWR then
    some (-1, buf, { v with errno := EBADF })
  else if (v.fh fd).mode &&& O_DIR ≠ 0 then some (-1, buf, { v with errno := EISDIR })
  else if fat_is_eof v.d.fs (v.fh fd).cluster ≠ 0 ∨ (v.fh fd).ptr ≥ (v.fh fd).dentry.size then
    some (0, buf, v)
  else
    match (if (v.fh fd).mode &&& 0x80000000 ≠ 0 then
        advance_cluster v.d.fs (v.fh fd)
          ((v.fh fd).ptr / u32 (v.d.fs.sb.bytes_per_sector * v.d.fs.sb.sectors_per_cluster))
          false 0
      else (0, v.fh fd, v.d.fs)) with
    | (e, h1, fs1) =>
      if e = -EDOM then
        some (0, buf, { v with d := { v.d with fs := fs1 }, fh := fh_set v.fh fd h1 })
      else if e < 0 then
        some (-1, buf,
          { v with d := { v.d with fs := fs1 }, fh := fh_set v.fh fd h1, errno := -e })
      else
        match fs_fat_read_first
          (u32 (v.d.fs.sb.bytes_per_sector * v.d.fs.sb.sectors_per_cluster))
          ((v.fh fd).ptr &&&
            (u32 (v.d.fs.sb.bytes_per_sector * v.d.fs.sb.sectors_per_cluster) - 1))
          fs1 h1 buf v.errno
          (if u32 ((v.fh fd).ptr + cnt) > (v.fh fd).dentry.size then
            u32 ((v.fh fd).dentry.size - (v.fh fd).ptr)
          else cnt) with
        | (Sum.inl e2, h2, fs2, buf2) =>
          some (-1, buf2,
            { v with d := { v.d with fs := fs2 }, fh := fh_set v.fh fd h2, errno := e2 })
        | (Sum.inr (e2, boff, cnt2), h2, fs2, buf2) =>
          match fs_fat_read_loop
            (u32 (v.d.fs.sb.bytes_per_sector * v.d.fs.sb.sectors_per_cluster)) fuel fs2 h2
            buf2 e2 boff cnt2 with
          | none => none
          | some (Sum.inl e3, h3, fs3, buf3) =>
            some (-1, buf3,
              { v with d := { v.d with fs := fs3 }, fh := fh_set v.fh fd h3, errno := e3 })
          | some (Sum.inr e3, h3, fs3, buf3) =>
            some (i32 (if u32 ((v.fh fd).ptr + cnt) > (v.fh fd).dentry.size then
                  u32 ((v.fh fd).dentry.size - (v.fh fd).ptr)
                else cnt),
              buf3,
              { v with d := { v.d with fs := fs3 }, fh := fh_set v.fh fd h3, errno := e3 })

/-- The end of `fs_fat_seek64`: the stores of `pos`, a `uint32_t`, and of the seek flag,
and the return value, which passes through an `off_t` of 32 bits. -/
def fs_fat_seek64_to (v : fat_vfs_t) (fd : Nat) (pos : Int) : Int × fat_vfs_t :=
  (i32 (pos % 2 ^ 32),
    { v with
      fh := fh_set v.fh fd
        { v.fh fd with
          ptr := (pos % 2 ^ 32).toNat
          mode := u32 ((v.fh fd).mode ||| 0x80000000) } })

/-- The function `fs_fat_seek64` on the handle `fd + 1`: the return value and the new
state. -/
def fs_fat_seek64 (v : fat_vfs_t) (fd : Nat) (offset whence : Int) : Int × fat_vfs_t :=
  if fd ≥ MAX_FAT_FILES ∨ (v.fh fd).opened = 0 ∨ (v.fh fd).mode &&& O_DIR ≠ 0 then
    (-1, { v with errno := EINVAL })
  else if whence = SEEK_SET then fs_fat_seek64_to v fd offset
  else if whence = SEEK_CUR then fs_fat_seek64_to v fd ((v.fh fd).ptr + offset)
  else if whence = SEEK_END then fs_fat_seek64_to v fd ((v.fh fd).dentry.size + offset)
  else (-1, { v with errno := EINVAL })

/-! ### A file of exactly one cluster -/

/-- The FAT12 device `dev12` with the file `F` of 512 bytes, one cluster, in its root
directory (sector 5); the file's cluster 5 is device block 9 and starts with the bytes
of "hello". -/
def dev_file512 : kos_blockdev_t :=
  mk_dev (fun b =>
    if b = 0 then boot12 else if b = 1 then fat12_sector
    else if b = 5 then sector_of_entries [mk_dentry (cstr "F          ") FAT_ATTR_ARCHIVE 5 512]
    else if b = 9 then sector_of [(0, 0x68), (1, 0x65), (2, 0x6C), (3, 0x6C), (4, 0x6F)]
    else fun _ => 0)

/-- The state after `fs_fat_open` of `/F` on `dev_file512` for reading; the handle is
`fh[0]`. -/
def vfs_file512 : fat_vfs_t :=
  ((fs_fat_open 8 libc_signed (vfs_of (mount_rw dev_file512)) (cstr "/F") O_RDONLY).map
    Prod.snd).getD (vfs_of (mount_rw dev_file512))

/-- The state after a read of `cnt` bytes through `fh[0]` (the state itself when the fuel
runs out). -/
def after_read (v : fat_vfs_t) (cnt : Nat) : fat_vfs_t :=
  ((fs_fat_read 8 v 0 (fun _ => 0) cnt).map (fun r => r.2.2)).getD v

/-! ## `fs_ext2.c`: symbolic links, status, reading and writing

The functions of this part are modelled like `fs_ext2_rename` above, over a second kind
of history that also records the operations on `ext2_mutex`, the stores through inode
pointers, and the copies into and out of the blocks that the engine hands out.  The
results of the callees, which are not part of `fs_ext2.c`, are the fields of
`ext2_io_env`; each is a function of the history before the call.  `size_t` and
`ssize_t` have 32 bits, `fh[fd].ptr` and the sizes of files have 64.  The constants are
those of the C library's `fcntl.h`, `errno.h` and `limits.h` and of `inode.h`. -/

def EFAULT : Int := 14
def EOVERFLOW : Int := 139
def O_APPEND : Nat := 0x0008
def AT_SYMLINK_NOFOLLOW : Nat := 2
def LONG_MAX : Nat := 2 ^ 31 - 1

def EXT2_S_IFIFO : Nat := 0x1000
def EXT2_S_IFCHR : Nat := 0x2000
def EXT2_S_IFBLK : Nat := 0x6000
def EXT2_S_IFREG : Nat := 0x8000
def EXT2_S_IFLNK : Nat := 0xA000
def EXT2_S_IFSOCK : Nat := 0xC000

/-- Reduction to `uint64_t`. -/
def u64 (n : Nat) : Nat := n % 2 ^ 64

/-- The difference `a - b` of two `uint32_t`. -/
def sub32 (a b : Nat) : Nat := u32 (a + (2 ^ 32 - b % 2 ^ 32))

/-- The difference `a - b` of two `uint64_t`. -/
def sub64 (a b : Nat) : Nat := u64 (a + (2 ^ 64 - b % 2 ^ 64))

/-- An operation on the mutex, a call into the engine, a store through an inode pointer,
or a copy into or out of a block.  `memcpy_block block off bytes` is
`memcpy(block + off, src, n)` with the `n` bytes copied, `memset_block block off n` is
`memset(block + off, 0, n)`, and `memcpy_out boff block off n` is
`memcpy(buf + boff, block + off, n)` into the buffer of the caller.  `owner_store` is
the copy of `i_uid`, `i_gid`, `l_i_uid_high` and `l_i_gid_high` from another inode,
`times_store` the store of the three times, `mtime_store` the store of `i_ctime` and
`i_mtime` or of `i_mtime` alone. -/
inductive ext2_op
  | mutex_lock
  | mutex_unlock
  | inode_by_path (path : List Nat) (rlink : Nat)
  | dir_entry (dir : Nat) (name : List Nat)
  | inode_alloc (parent : Nat)
  | inode_put (inode : Nat)
  | inode_deref (num isdir : Nat)
  | inode_mark_dirty (inode : Nat)
  | dir_add_entry (dir : Nat) (name : List Nat) (num inode : Nat)
  | resolve_symlink (inode len : Nat)
  | inode_alloc_block (inode blk : Nat)
  | inode_read_block (inode blk : Nat)
  | block_mark_dirty (bn : Nat)
  | inode_set_size (inode size : Nat)
  | i_mode_store (inode v : Nat)
  | owner_store (inode src : Nat)
  | times_store (inode : Nat) (now : Int)
  | mtime_store (inode : Nat) (now : Int)
  | links_count_store (inode v : Nat)
  | i_block_store (inode : Nat) (bytes : List Nat)
  | i_size_store (inode v : Nat)
  | memcpy_block (block off : Nat) (bytes : List Nat)
  | memset_block (block off n : Nat)
  | memcpy_out (boff block off n : Nat)
  deriving DecidableEq

/-- The state of `ext2_mutex` as a flag, after the operations of a history that starts
with the flag `b`. -/
def mutex_held : List ext2_op → Bool → Bool
  | [], b => b
  | ext2_op.mutex_lock :: t, _ => mutex_held t true
  | ext2_op.mutex_unlock :: t, _ => mutex_held t false
  | _ :: t, b => mutex_held t b

/-- The behaviour of the callees.  `block_size` and `log_block_size` are the results of
`ext2_block_size` and `ext2_log_block_size`.  `inode_by_path` gives the return value,
`*inode` and `*inode_num`; `inode_alloc` gives the inode pointer (`none` for `NULL`),
the value stored through `err` (`none` when nothing is stored) and `*ninode`;
`inode_alloc_block` gives the block pointer and the value stored through `err`;
`inode_read_block` gives the block pointer, `*r_block` and the value stored through
`err`; `resolve_symlink` gives the return value and `*len`; `inode_size` is the result
of `ext2_inode_size`; the fields `i_*` are read through an inode pointer. -/
structure ext2_io_env where
  block_size : Nat
  log_block_size : Nat
  inode_by_path : List ext2_op → List Nat → Nat → Int × Nat × Nat
  dir_entry : List ext2_op → Nat → List Nat → Option Nat
  inode_alloc : List ext2_op → Nat → Option Nat × Option Int × Nat
  dir_add_entry : List ext2_op → Nat → List Nat → Nat → Nat → Int
  resolve_symlink : List ext2_op → Nat → Nat → Int × Nat
  inode_alloc_block : List ext2_op → Nat → Nat → Option Nat × Option Int
  inode_read_block : List ext2_op → Nat → Nat → Option Nat × Nat × Option Int
  inode_size : List ext2_op → Nat → Nat
  i_mode : List ext2_op → Nat → Nat
  i_size : List ext2_op → Nat → Nat
  i_links_count : List ext2_op → Nat → Nat
  i_blocks : List ext2_op → Nat → Nat

/-- An element of the table `fh` of `fs_ext2.c`, without the directory entry and the
mount. -/
structure ext2_fh_t where
  inode_num : Nat
  mode : Nat
  ptr : Nat
  inode : Nat
  deriving DecidableEq

/-! ### `fs_ext2_symlink` -/

/-- The loop `while(len)` of `fs_ext2_symlink`.  The list `rest` holds the bytes from the
pointer `path1` on, so `len` is its length; `rv` is the local variable of that name.
`Sum.inl` is the value of `errno` at the return of -1 from the loop, `Sum.inr` the end of
the loop.  The first argument bounds the number of iterations. -/
def fs_ext2_symlink_loop (E : ext2_io_env) (pinode inode inode_num : Nat) :
    Nat → List Nat → Int → List ext2_op → Option (Sum Int Unit × List ext2_op)
  | 0, _, _, _ => none
  | fuel + 1, rest, rv, h =>
    if rest.length = 0 then some (Sum.inr (), h)
    else
      match E.inode_alloc_block h inode (u32 (E.i_size h inode >>> E.log_block_size)) with
      | (none, w) =>
        some (Sum.inl (w.getD rv),
          h ++ [ext2_op.inode_alloc_block inode (u32 (E.i_size h inode >>> E.log_block_size)),
            ext2_op.inode_put pinode, ext2_op.inode_deref inode_num 1])
      | (some block, w) =>
        if rest.length ≥ E.block_size then
          fs_ext2_symlink_loop E pinode inode inode_num fuel (rest.drop E.block_size)
            (w.getD rv)
            (h ++ [ext2_op.inode_alloc_block inode
                (u32 (E.i_size h inode >>> E.log_block_size)),
              ext2_op.memcpy_block block 0 (rest.take E.block_size),
              ext2_op.i_size_store inode
                (u32 (E.i_size
                  (h ++ [ext2_op.inode_alloc_block inode
                      (u32 (E.i_size h inode >>> E.log_block_size)),
                    ext2_op.memcpy_block block 0 (rest.take E.block_size)]) inode +
                  E.block_size))])
        else
          some (Sum.inr (),
            h ++ [ext2_op.inode_alloc_block inode
                (u32 (E.i_size h inode >>> E.log_block_size)),
              ext2_op.memcpy_block block 0 rest,
              ext2_op.memset_block block rest.length (E.block_size - rest.length),
              ext2_op.i_size_store inode
                (u32 (E.i_size
                  (h ++ [ext2_op.inode_alloc_block inode
                      (u32 (E.i_size h inode >>> E.log_block_size)),
                    ext2_op.memcpy_block block 0 rest,
                    ext2_op.memset_block block rest.length (E.block_size - rest.length)])
                  inode + rest.length))])

/-- The part "will the link fit in the inode" of `fs_ext2_symlink`. -/
def fs_ext2_symlink_store (E : ext2_io_env) (pinode inode inode_num : Nat)
    (path1 : List Nat) (rv : Int) (h : List ext2_op) :
    Option (Sum Int Unit × List ext2_op) :=
  if path1.length < 60 then
    some (Sum.inr (),
      h ++ [ext2_op.i_block_store inode (path1 ++ List.replicate (60 - path1.length) 0),
        ext2_op.i_size_store inode (u32 path1.length)])
  else fs_ext2_symlink_loop E pinode inode inode_num (path1.length + 1) path1 rv h

/-- The stores "fill in the inode" of `fs_ext2_symlink`. -/
def fs_ext2_symlink_fill (E : ext2_io_env) (pinode inode : Nat) (now : Int)
    (h : List ext2_op) : List ext2_op :=
  [ext2_op.i_mode_store inode
      (u16 ((E.i_mode h pinode &&& (0xFFFFFFFF ^^^ EXT2_S_IFDIR)) ||| EXT2_S_IFLNK)),
    ext2_op.owner_store inode pinode, ext2_op.times_store inode now,
    ext2_op.links_count_store inode 1]

/-- The function `fs_ext2_symlink` (the copy of `path2` is allocated successfully; `none`
is the argument `NULL`): the return value, `errno` and the history.  `now` is the result
of `time(NULL)`. -/
def fs_ext2_symlink (E : ext2_io_env) (mount_flags : Nat) (now : Int)
    (path1 path2 : Option (List Nat)) (errno : Int) (h : List ext2_op) :
    Option (Int × Int × List ext2_op) :=
  if mount_flags &&& FS_EXT2_MOUNT_READWRITE = 0 then some (-1, EROFS, h)
  else
    match path1, path2 with
    | none, _ => some (-1, EFAULT, h)
    | some p1, none => some (if p1.length ≥ 4096 then (-1, ENAMETOOLONG, h) else (-1, EFAULT, h))
    | some p1, some p2 =>
      if p1.length ≥ 4096 then some (-1, ENAMETOOLONG, h)
      else if p2 = [] then some (-1, EEXIST, h)
      else
        match strrchr_split 47 p2 with
        | none => some (-1, ENOENT, h)
        | some (cp, nd) =>
          let pinode := (E.inode_by_path (h ++ [ext2_op.mutex_lock]) cp 1).2.1
          let pinode_num := (E.inode_by_path (h ++ [ext2_op.mutex_lock]) cp 1).2.2
          let h1 := h ++ [ext2_op.mutex_lock, ext2_op.inode_by_path cp 1]
          if (E.inode_by_path (h ++ [ext2_op.mutex_lock]) cp 1).1 ≠ 0 then
            some (-1, -(E.inode_by_path (h ++ [ext2_op.mutex_lock]) cp 1).1,
              h1 ++ [ext2_op.mutex_unlock])
          else if E.i_mode h1 pinode &&& 0xF000 ≠ EXT2_S_IFDIR then
            some (-1, ENOTDIR, h1 ++ [ext2_op.inode_put pinode, ext2_op.mutex_unlock])
          else if (E.dir_entry h1 pinode nd).isSome then
            some (-1, EEXIST,
              h1 ++ [ext2_op.dir_entry pinode nd, ext2_op.inode_put pinode,
                ext2_op.mutex_unlock])
          else
            let h2 := h1 ++ [ext2_op.dir_entry pinode nd]
            let h3 := h2 ++ [ext2_op.inode_alloc pinode_num]
            match E.inode_alloc h2 pinode_num with
            | (none, w, _) =>
              some (-1, w.getD 0, h3 ++ [ext2_op.inode_put pinode, ext2_op.mutex_unlock])
            | (some inode, w, inode_num) =>
              match fs_ext2_symlink_store E pinode inode inode_num p1 (w.getD 0)
                (h3 ++ fs_ext2_symlink_fill E pinode inode now h3) with
              | none => none
              | some (Sum.inl e, h4) => some (-1, e, h4)
              | some (Sum.inr _, h4) =>
                if E.dir_add_entry h4 pinode nd inode_num inode ≠ 0 then
                  some (-1, E.dir_add_entry h4 pinode nd inode_num inode,
                    h4 ++ [ext2_op.dir_add_entry pinode nd inode_num inode,
                      ext2_op.inode_put pinode, ext2_op.inode_deref inode_num 1])
                else
                  some (0, errno,
                    h4 ++ [ext2_op.dir_add_entry pinode nd inode_num inode,
                      ext2_op.mtime_store pinode now, ext2_op.inode_mark_dirty pinode,
                      ext2_op.inode_mark_dirty inode, ext2_op.inode_put pinode,
                      ext2_op.inode_put inode, ext2_op.mutex_unlock])

/-! ### `fs_ext2_stat` and `fs_ext2_readlink` -/

/-- The fields of `struct stat` that `fs_ext2_stat` computes.  The fields `st_dev`,
`st_uid`, `st_gid` and the three times, which are plain copies, are left out. -/
structure ext2_stat_t where
  st_ino : Nat
  st_mode : Nat
  st_nlink : Nat
  st_size : Int
  st_blksize : Nat
  st_blocks : Nat
  deriving DecidableEq

/-- The statement `switch(inode->i_mode & 0xF000)` of `fs_ext2_stat`: the bits that are
or-ed into `st_mode` (the constants `S_IF*` of the C library have the values of the
constants `EXT2_S_IF*`), `st_size` as an `off_t` of 32 bits, and whether the size of a
regular file is above `LONG_MAX`. -/
def fs_ext2_stat_type (E : ext2_io_env) (h : List ext2_op) (inode : Nat) : Nat × Int × Bool :=
  if E.i_mode h inode &&& 0xF000 = EXT2_S_IFLNK then
    (EXT2_S_IFLNK, i32 (E.i_size h inode), false)
  else if E.i_mode h inode &&& 0xF000 = EXT2_S_IFREG then
    (EXT2_S_IFREG, i32 (E.inode_size h inode), decide (E.inode_size h inode > LONG_MAX))
  else if E.i_mode h inode &&& 0xF000 = EXT2_S_IFDIR then
    (EXT2_S_IFDIR, i32 (E.i_size h inode), false)
  else if E.i_mode h inode &&& 0xF000 = EXT2_S_IFSOCK then (EXT2_S_IFSOCK, 0, false)
  else if E.i_mode h inode &&& 0xF000 = EXT2_S_IFIFO then (EXT2_S_IFIFO, 0, false)
  else if E.i_mode h inode &&& 0xF000 = EXT2_S_IFBLK then (EXT2_S_IFBLK, 0, false)
  else if E.i_mode h inode &&& 0xF000 = EXT2_S_IFCHR then (EXT2_S_IFCHR, 0, false)
  else (0, 0, false)

/-- The function `fs_ext2_stat`: the return value, `errno`, the structure stored through
`buf` (`none` when nothing is stored) and the history. -/
def fs_ext2_stat (E : ext2_io_env) (path : List Nat) (flag : Nat) (errno : Int)
    (h : List ext2_op) : Int × Int × Option ext2_stat_t × List ext2_op :=
  let rl := if flag &&& AT_SYMLINK_NOFOLLOW ≠ 0 then 2 else 1
  let inode := (E.inode_by_path (h ++ [ext2_op.mutex_lock]) path rl).2.1
  let h1 := h ++ [ext2_op.mutex_lock, ext2_op.inode_by_path path rl]
  if (E.inode_by_path (h ++ [ext2_op.mutex_lock]) path rl).1 ≠ 0 then
    (-1, -(E.inode_by_path (h ++ [ext2_op.mutex_lock]) path rl).1, none,
      h1 ++ [ext2_op.mutex_unlock])
  else
    (if (fs_ext2_stat_type E h1 inode).2.2 then -1 else 0,
      if (fs_ext2_stat_type E h1 inode).2.2 then EOVERFLOW else errno,
      some
        { st_ino := (E.inode_by_path (h ++ [ext2_op.mutex_lock]) path rl).2.2
          st_mode := (E.i_mode h1 inode &&& 0x0FFF) ||| (fs_ext2_stat_type E h1 inode).1
          st_nlink := E.i_links_count h1 inode
          st_size := (fs_ext2_stat_type E h1 inode).2.1
          st_blksize := 512
          st_blocks := E.i_blocks h1 inode },
      h1 ++ [ext2_op.inode_put inode, ext2_op.mutex_unlock])

/-- The function `fs_ext2_readlink`: the return value, `errno` and the history; the bytes
that `ext2_resolve_symlink` stores in `buf` are not part of the model. -/
def fs_ext2_readlink (E : ext2_io_env) (path : List Nat) (bufsize : Nat) (errno : Int)
    (h : List ext2_op) : Int × Int × List ext2_op :=
  let inode := (E.inode_by_path (h ++ [ext2_op.mutex_lock]) path 2).2.1
  let h1 := h ++ [ext2_op.mutex_lock, ext2_op.inode_by_path path 2]
  if (E.inode_by_path (h ++ [ext2_op.mutex_lock]) path 2).1 ≠ 0 then
    (-1, -(E.inode_by_path (h ++ [ext2_op.mutex_lock]) path 2).1, h1 ++ [ext2_op.mutex_unlock])
  else if (E.resolve_symlink h1 inode bufsize).1 ≠ 0 then
    (-1, -(E.resolve_symlink h1 inode bufsize).1,
      h1 ++ [ext2_op.resolve_symlink inode bufsize, ext2_op.inode_put inode,
        ext2_op.mutex_unlock])
  else
    (i32 (if (E.resolve_symlink h1 inode bufsize).2 > bufsize then bufsize
        else (E.resolve_symlink h1 inode bufsize).2),
      errno,
      h1 ++ [ext2_op.resolve_symlink inode bufsize, ext2_op.inode_put inode,
        ext2_op.mutex_unlock])

/-! ### `fs_ext2_read` -/

/-- The loop `while(cnt)` of `fs_ext2_read`; `boff` is the distance of `bbuf` from `buf`.
The result is whether the loop ended (`false` is the return of -1 from the loop), the
new `fh[fd].ptr`, `errno` and the history.  The first argument bounds the number of
iterations. -/
def fs_ext2_read_loop (E : ext2_io_env) (inode : Nat) :
    Nat → Nat → Nat → Nat → Int → List ext2_op → Option (Bool × Nat × Int × List ext2_op)
  | 0, _, _, _, _, _ => none
  | fuel + 1, ptr, boff, cnt, errno, h =>
    if cnt = 0 then some (true, ptr, errno, h)
    else
      match E.inode_read_block h inode (u32 (ptr >>> E.log_block_size)) with
      | (none, _, w) =>
        some (false, ptr, w.getD errno,
          h ++ [ext2_op.inode_read_block inode (u32 (ptr >>> E.log_block_size)),
            ext2_op.mutex_unlock])
      | (some block, _, w) =>
        if cnt > E.block_size then
          fs_ext2_read_loop E inode fuel (u64 (ptr + E.block_size)) (boff + E.block_size)
            (cnt - E.block_size) (w.getD errno)
            (h ++ [ext2_op.inode_read_block inode (u32 (ptr >>> E.log_block_size)),
              ext2_op.memcpy_out boff block 0 E.block_size])
        else
          some (true, u64 (ptr + cnt), w.getD errno,
            h ++ [ext2_op.inode_read_block inode (u32 (ptr >>> E.log_block_size)),
              ext2_op.memcpy_out boff block 0 cnt])

/-- The count of `fs_ext2_read` after the step "do we have enough left". -/
def fs_ext2_read_cnt (sz ptr cnt : Nat) : Nat :=
  if u64 (ptr + cnt) > sz then u32 (sub64 sz ptr) else cnt

/-- The function `fs_ext2_read` on the handle `fd + 1` with `f` the element `fh[fd]`: the
return value, `errno`, the new element and the history. -/
def fs_ext2_read (E : ext2_io_env) (f : ext2_fh_t) (fd cnt : Nat) (errno : Int)
    (h : List ext2_op) : Option (Int × Int × ext2_fh_t × List ext2_op) :=
  if fd ≥ MAX_EXT2_FILES ∨ f.inode_num = 0 then
    some (-1, EBADF, f, h ++ [ext2_op.mutex_lock, ext2_op.mutex_unlock])
  else if f.mode &&& O_MODE_MASK ≠ O_RDONLY ∧ f.mode &&& O_MODE_MASK ≠ O_RDWR then
    some (-1, EBADF, f, h ++ [ext2_op.mutex_lock, ext2_op.mutex_unlock])
  else if f.mode &&& O_DIR ≠ 0 then
    some (-1, EISDIR, f, h ++ [ext2_op.mutex_lock, ext2_op.mutex_unlock])
  else
    let h0 := h ++ [ext2_op.mutex_lock]
    let cnt1 := fs_ext2_read_cnt (E.inode_size h0 f.inode) f.ptr cnt
    let bo := u32 (f.ptr &&& ((1 <<< E.log_block_size) - 1))
    match (if bo ≠ 0 then
        match E.inode_read_block h0 f.inode (u32 (f.ptr >>> E.log_block_size)) with
        | (none, _, w) =>
          (false, f.ptr, 0, 0, w.getD errno,
            h0 ++ [ext2_op.inode_read_block f.inode (u32 (f.ptr >>> E.log_block_size)),
              ext2_op.mutex_unlock])
        | (some block, _, w) =>
          if cnt1 > sub32 E.block_size bo then
            (true, u64 (f.ptr + sub32 E.block_size bo), sub32 E.block_size bo,
              cnt1 - sub32 E.block_size bo, w.getD errno,
              h0 ++ [ext2_op.inode_read_block f.inode (u32 (f.ptr >>> E.log_block_size)),
                ext2_op.memcpy_out 0 block bo (sub32 E.block_size bo)])
          else
            (true, u64 (f.ptr + cnt1), cnt1, 0, w.getD errno,
              h0 ++ [ext2_op.inode_read_block f.inode (u32 (f.ptr >>> E.log_block_size)),
                ext2_op.memcpy_out 0 block bo cnt1])
      else (true, f.ptr, 0, cnt1, errno, h0)) with
    | (false, ptr1, _, _, e1, h1) => some (-1, e1, { f with ptr := ptr1 }, h1)
    | (true, ptr1, boff, cnt2, e1, h1) =>
      match fs_ext2_read_loop E f.inode (cnt2 + 1) ptr1 boff cnt2 e1 h1 with
      | none => none
      | some (false, ptr2, e2, h2) => some (-1, e2, { f with ptr := ptr2 }, h2)
      | some (true, ptr2, e2, h2) =>
        some (i32 cnt1, e2, { f with ptr := ptr2 }, h2 ++ [ext2_op.mutex_unlock])

/-! ### `fs_ext2_write` -/

/-- The loop `while(sz < fh[fd].ptr)` of `fs_ext2_write`: whether the loop ended (`false`
is the return of -1 from the loop), `errno` and the history.  The first argument bounds
the number of iterations. -/
def fs_ext2_write_fill (E : ext2_io_env) (inode ptr : Nat) :
    Nat → Nat → Int → List ext2_op → Option (Bool × Int × List ext2_op)
  | 0, _, _, _ => none
  | fuel + 1, sz, errno, h =>
    if ¬ sz < ptr then some (true, errno, h)
    else
      match E.inode_alloc_block h inode (u32 (sz >>> E.log_block_size)) with
      | (none, w) =>
        some (false, w.getD errno,
          h ++ [ext2_op.inode_alloc_block inode (u32 (sz >>> E.log_block_size)),
            ext2_op.mutex_unlock])
      | (some _, w) =>
        fs_ext2_write_fill E inode ptr fuel (u64 (sz + E.block_size)) (w.getD errno)
          (h ++ [ext2_op.inode_alloc_block inode (u32 (sz >>> E.log_block_size))])

/-- The part "do we need to clear the end of the current last block" of `fs_ext2_write`:
whether the code goes on, the new value of `sz`, `errno` and the history. -/
def fs_ext2_write_tail (E : ext2_io_env) (inode sz : Nat) (errno : Int) (h : List ext2_op) :
    Bool × Nat × Int × List ext2_op :=
  if sz &&& sub32 E.block_size 1 ≠ 0 then
    match E.inode_read_block h inode (u32 (sub64 sz 1 >>> E.log_block_size)) with
    | (none, _, w) =>
      (false, sz, w.getD errno,
        h ++ [ext2_op.inode_read_block inode (u32 (sub64 sz 1 >>> E.log_block_size)),
          ext2_op.mutex_unlock])
    | (some block, bn, w) =>
      (true, u64 ((sz &&& sub32 E.block_size 1) + E.block_size), w.getD errno,
        h ++ [ext2_op.inode_read_block inode (u32 (sub64 sz 1 >>> E.log_block_size)),
          ext2_op.memset_block block (sz &&& sub32 E.block_size 1)
            (u32 (sub64 E.block_size (sz &&& sub32 E.block_size 1))),
          ext2_op.block_mark_dirty bn])
  else (true, sz, errno, h)

/-- The part "if we have already moved beyond the end of the file with a seek operation"
of `fs_ext2_write` for `fh[fd].ptr > sz`: whether the code goes on (`false` is a return
of -1), `errno` and the history. -/
def fs_ext2_write_hole (E : ext2_io_env) (inode ptr sz : Nat) (errno : Int)
    (h : List ext2_op) : Option (Bool × Int × List ext2_op) :=
  if sub64 sz 1 >>> E.log_block_size = sub64 ptr 1 >>> E.log_block_size then
    match E.inode_read_block h inode (u32 (sub64 ptr 1 >>> E.log_block_size)) with
    | (none, _, w) =>
      some (false, w.getD errno,
        h ++ [ext2_op.inode_read_block inode (u32 (sub64 ptr 1 >>> E.log_block_size)),
          ext2_op.mutex_unlock])
    | (some block, bn, w) =>
      some (true, w.getD errno,
        h ++ [ext2_op.inode_read_block inode (u32 (sub64 ptr 1 >>> E.log_block_size)),
          ext2_op.memset_block block (sz &&& sub32 E.block_size 1) (u32 (sub64 ptr sz)),
          ext2_op.block_mark_dirty bn, ext2_op.inode_set_size inode ptr])
  else
    match fs_ext2_write_tail E inode sz errno h with
    | (false, _, e1, h1) => some (false, e1, h1)
    | (true, sz1, e1, h1) =>
      match fs_ext2_write_fill E inode ptr (ptr + 1) sz1 e1 h1 with
      | none => none
      | some (false, e2, h2) => some (false, e2, h2)
      | some (true, e2, h2) => some (true, e2, h2 ++ [ext2_op.inode_set_size inode ptr])

/-- The part "handle the first block specially if we are offset within it" of
`fs_ext2_write`: whether the code goes on, the new `fh[fd].ptr`, the distance of `bbuf`
from `buf`, `cnt`, `errno` and the history. -/
def fs_ext2_write_first (E : ext2_io_env) (inode ptr cnt : Nat) (buf : Nat → Nat)
    (errno : Int) (h : List ext2_op) : Bool × Nat × Nat × Nat × Int × List ext2_op :=
  if u32 (ptr &&& ((1 <<< E.log_block_size) - 1)) ≠ 0 then
    match E.inode_read_block h inode (u32 (ptr >>> E.log_block_size)) with
    | (none, _, w) =>
      (false, ptr, 0, cnt, w.getD errno,
        h ++ [ext2_op.inode_read_block inode (u32 (ptr >>> E.log_block_size)),
          ext2_op.mutex_unlock])
    | (some block, bn, w) =>
      if cnt > sub32 E.block_size (u32 (ptr &&& ((1 <<< E.log_block_size) - 1))) then
        (true, u64 (ptr + sub32 E.block_size (u32 (ptr &&& ((1 <<< E.log_block_size) - 1)))),
          sub32 E.block_size (u32 (ptr &&& ((1 <<< E.log_block_size) - 1))),
          cnt - sub32 E.block_size (u32 (ptr &&& ((1 <<< E.log_block_size) - 1))),
          w.getD errno,
          h ++ [ext2_op.inode_read_block inode (u32 (ptr >>> E.log_block_size)),
            ext2_op.memcpy_block block (u32 (ptr &&& ((1 <<< E.log_block_size) - 1)))
              ((List.range
                (sub32 E.block_size (u32 (ptr &&& ((1 <<< E.log_block_size) - 1))))).map buf),
            ext2_op.block_mark_dirty bn])
      else
        (true, u64 (ptr + cnt), cnt, 0, w.getD errno,
          h ++ [ext2_op.inode_read_block inode (u32 (ptr >>> E.log_block_size)),
            ext2_op.memcpy_block block (u32 (ptr &&& ((1 <<< E.log_block_size) - 1)))
              ((List.range cnt).map buf),
            ext2_op.block_mark_dirty bn])
  else (true, ptr, 0, cnt, errno, h)

/-- The loop `while(cnt)` of `fs_ext2_write`; `err` is the local variable of that name.
The result is whether the loop ended (`false` is the return of -1 from the loop), the
new `fh[fd].ptr`, `errno` and the history.  The first argument bounds the number of
iterations. -/
def fs_ext2_write_loop (E : ext2_io_env) (inode : Nat) (buf : Nat → Nat) :
    Nat → Nat → Nat → Nat → Int → Int → List ext2_op →
      Option (Bool × Nat × Int × List ext2_op)
  | 0, _, _, _, _, _, _ => none
  | fuel + 1, ptr, boff, cnt, err, errno, h =>
    if cnt = 0 then some (true, ptr, errno, h)
    else
      match (match E.inode_read_block h inode (u32 (ptr >>> E.log_block_size)) with
        | (none, _, w) =>
          if w.getD err ≠ EINVAL then
            (none, w.getD err, w.getD err,
              h ++ [ext2_op.inode_read_block inode (u32 (ptr >>> E.log_block_size)),
                ext2_op.mutex_unlock])
          else
            ((E.inode_alloc_block
                (h ++ [ext2_op.inode_read_block inode (u32 (ptr >>> E.log_block_size))]) inode
                (u32 (ptr >>> E.log_block_size))).1,
              w.getD err,
              (E.inode_alloc_block
                (h ++ [ext2_op.inode_read_block inode (u32 (ptr >>> E.log_block_size))]) inode
                (u32 (ptr >>> E.log_block_size))).2.getD errno,
              h ++ [ext2_op.inode_read_block inode (u32 (ptr >>> E.log_block_size)),
                ext2_op.inode_alloc_block inode (u32 (ptr >>> E.log_block_size))] ++
                (if (E.inode_alloc_block
                    (h ++ [ext2_op.inode_read_block inode (u32 (ptr >>> E.log_block_size))])
                    inode (u32 (ptr >>> E.log_block_size))).1.isSome then []
                  else [ext2_op.mutex_unlock]))
        | (some block, bn, w) =>
          (some block, w.getD err, errno,
            h ++ [ext2_op.inode_read_block inode (u32 (ptr >>> E.log_block_size)),
              ext2_op.block_mark_dirty bn])) with
      | (none, _, e1, h1) => some (false, ptr, e1, h1)
      | (some block, err1, e1, h1) =>
        if cnt > E.block_size then
          fs_ext2_write_loop E inode buf fuel (u64 (ptr + E.block_size)) (boff + E.block_size)
            (cnt - E.block_size) err1 e1
            (h1 ++ [ext2_op.memcpy_block block 0
              ((List.range E.block_size).map (fun k => buf (boff + k)))])
        else
          some (true, u64 (ptr + cnt), e1,
            h1 ++ [ext2_op.memcpy_block block 0
              ((List.range cnt).map (fun k => buf (boff + k)))])

/-- The function `fs_ext2_write` on the handle `fd + 1` with `f` the element `fh[fd]`:
the return value, `errno`, the new element and the history.  `now` is the result of
`time(NULL)`, `err` the initial value of the local variable of that name. -/
def fs_ext2_write (E : ext2_io_env) (f : ext2_fh_t) (fd : Nat) (buf : Nat → Nat) (cnt : Nat)
    (now err errno : Int) (h : List ext2_op) :
    Option (Int × Int × ext2_fh_t × List ext2_op) :=
  if fd ≥ MAX_EXT2_FILES ∨ f.inode_num = 0 then
    some (-1, EBADF, f, h ++ [ext2_op.mutex_lock, ext2_op.mutex_unlock])
  else if f.mode &&& O_MODE_MASK ≠ O_WRONLY ∧ f.mode &&& O_MODE_MASK ≠ O_RDWR then
    some (-1, EBADF, f, h ++ [ext2_op.mutex_lock, ext2_op.mutex_unlock])
  else
    let h0 := h ++ [ext2_op.mutex_lock]
    let sz := E.inode_size h0 f.inode
    let ptr0 := if f.mode &&& O_APPEND ≠ 0 then sz else f.ptr
    match (if ptr0 > sz then
        (fs_ext2_write_hole E f.inode ptr0 sz errno h0).map (fun r => (r.1, ptr0, r.2.1, r.2.2))
      else some (true, sz, errno, h0)) with
    | none => none
    | some (false, _, e1, h1) => some (-1, e1, { f with ptr := ptr0 }, h1)
    | some (true, sz1, e1, h1) =>
      match fs_ext2_write_first E f.inode ptr0 cnt buf e1 h1 with
      | (false, ptr2, _, _, e2, h2) => some (-1, e2, { f with ptr := ptr2 }, h2)
      | (true, ptr2, boff, cnt2, e2, h2) =>
        match fs_ext2_write_loop E f.inode buf (cnt2 + 1) ptr2 boff cnt2 err e2 h2 with
        | none => none
        | some (false, ptr3, e3, h3) => some (-1, e3, { f with ptr := ptr3 }, h3)
        | some (true, ptr3, e3, h3) =>
          some (i32 cnt, e3, { f with ptr := ptr3 },
            h3 ++ (if ptr3 > sz1 then [ext2_op.inode_set_size f.inode ptr3] else []) ++
              [ext2_op.mtime_store f.inode now, ext2_op.inode_mark_dirty f.inode,
                ext2_op.mutex_unlock])

/-! ### Readings of a history -/

/-- The value of `i_size` of `inode` after an operation, given the value before it. -/
def i_size_step (inode : Nat) (v : Nat) : ext2_op → Nat
  | ext2_op.i_size_store i v2 => if i = inode then v2 else v
  | _ => v

/-- The last value stored in `i_size` of `inode` by the stores of a history, and 0 when
there is none. -/
def last_i_size (inode : Nat) (h : List ext2_op) : Nat := h.foldl (i_size_step inode) 0

/-- The logical block indices of the calls of `ext2_inode_alloc_block` in a history, in
the order of the calls. -/
def alloc_indices : List ext2_op → List Nat
  | [] => []
  | ext2_op.inode_alloc_block _ blk :: t => blk :: alloc_indices t
  | _ :: t => alloc_indices t

/-- The bytes that the `memcpy` calls of a history copy into blocks, in the order of the
calls. -/
def block_bytes : List ext2_op → List Nat
  | [] => []
  | ext2_op.memcpy_block _ _ bytes :: t => bytes ++ block_bytes t
  | _ :: t => block_bytes t

/-- The number of bytes that the `memcpy` calls of a history copy into the buffer of the
caller. -/
def bytes_out : List ext2_op → Nat
  | [] => 0
  | ext2_op.memcpy_out _ _ _ n :: t => n + bytes_out t
  | _ :: t => bytes_out t

/-! ### A concrete engine -/

/-- An engine with blocks of 1024 bytes whose root directory, the inode object 100 with
the number 2, is the result of every path lookup and has no entries.  A new inode is the
object 200 with the number 12, and `i_size` of an inode reads as the last value stored in
it.  The file behind every handle has `size` bytes.  `ext2_inode_read_block` succeeds for
the logical blocks below `nread` and fails with `EINVAL` for the others,
`ext2_inode_alloc_block` succeeds for the logical blocks below `nalloc` and fails with
`ENOSPC` for the others; logical block `k` is handed out as the block object `1000 + k`
with the block number `500 + k`. -/
def io_env (size nread nalloc : Nat) : ext2_io_env where
  block_size := 1024
  log_block_size := 10
  inode_by_path := fun _ _ _ => (0, 100, 2)
  dir_entry := fun _ _ _ => none
  inode_alloc := fun _ _ => (some 200, none, 12)
  dir_add_entry := fun _ _ _ _ _ => 0
  resolve_symlink := fun _ _ len => (0, len)
  inode_alloc_block := fun _ _ blk =>
    if blk < nalloc then (some (1000 + blk), none) else (none, some ENOSPC)
  inode_read_block := fun _ _ blk =>
    if blk < nread then (some (1000 + blk), 500 + blk, none) else (none, 0, some EINVAL)
  inode_size := fun _ _ => size
  i_mode := fun _ inode => if inode = 100 then 0x41ED else 0x81A4
  i_size := fun h inode => last_i_size inode h
  i_links_count := fun _ _ => 1
  i_blocks := fun _ _ => 0

/-! ### UTF-8 sequences, after the specification -/

/-- Device block `b` lies in the extent `e` (first block and number of blocks). -/
def in_extent (e : Nat × Nat) (b : Nat) : Prop := e.1 ≤ b ∧ b < e.1 + e.2

instance in_extent_dec (e : Nat × Nat) (b : Nat) : Decidable (in_extent e b) :=
  instDecidableAnd

/-- The device `d` after a write-back pass over the slots below `n` of the pointer array
`c` in the state `fs`, when the dirty records in the slots `lo ≤ i < n` are the ones that
were written (`lo = 0` for a pass without a failing write, `lo = k + 1` when the write
of slot `k` is the first to fail); `ext` gives the device blocks of a record id. -/
structure wb_dev_post (ext : fat_fs_t → Nat → Nat × Nat) (c : Nat → Nat) (n : Nat)
    (fs : fat_fs_t) (lo : Nat) (d : kos_blockdev_t) : Prop where
  /-- The block size and the behaviour of the device on later requests stay. -/
  geom : d.l_block_size = fs.dev.l_block_size ∧ d.read_rc = fs.dev.read_rc ∧
    d.write_rc = fs.dev.write_rc
  /-- The blocks of the extent of a written record hold the bytes of its buffer, in
  order, unless a record written later in the pass covers the block. -/
  stored : ∀ i, lo ≤ i → i < n → slot_dirty fs c i →
    ∀ b off, in_extent (ext fs (fs.mem (c i)).block) b → off < 2 ^ fs.dev.l_block_size →
      (∀ j, lo ≤ j → j < i → slot_dirty fs c j →
        ¬ in_extent (ext fs (fs.mem (c j)).block) b) →
      d.dev_data b off =
        (fs.mem (c i)).data
          ((b - (ext fs (fs.mem (c i)).block).1) * 2 ^ fs.dev.l_block_size + off)
  /-- Every other byte of the device is the one from before the pass. -/
  kept : ∀ b off,
    (∀ i, lo ≤ i → i < n → slot_dirty fs c i →
      ¬ (in_extent (ext fs (fs.mem (c i)).block) b ∧ off < 2 ^ fs.dev.l_block_size)) →
    d.dev_data b off = fs.dev.dev_data b off

/-- What the proofs about the device after a write-back pass use of its raw writer: a
call that returns 0 is a successful `write_blocks` of the buffer to the extent of the id,
and a call that does not return 0 leaves the device as it was. -/
structure writer_dev
    (wr : fat_fs_t → Nat → (Nat → Nat) → Int × kos_blockdev_t × List dev_req)
    (ext : fat_fs_t → Nat → Nat × Nat) : Prop where
  dev_ok : ∀ (fs : fat_fs_t) (bn : Nat) (blk : Nat → Nat), (wr fs bn blk).1 = 0 →
    (wr fs bn blk).2.1 = (write_blocks fs.dev (ext fs bn).1 (ext fs bn).2 blk).2 ∧
    fs.dev.write_rc (ext fs bn).1 (ext fs bn).2 = 0
  dev_fail : ∀ (fs : fat_fs_t) (bn : Nat) (blk : Nat → Nat), (wr fs bn blk).1 ≠ 0 →
    (wr fs bn blk).2.1 = fs.dev

/-- The device part of the contract of a write-back pass with the result `r`: when the
write of every dirty record succeeds, every dirty record is on the device; when the
write of slot `k` is the first to fail, the dirty records in the slots above `k` are on
the device and the failing call has left it alone. -/
structure wb_dev (wr : fat_fs_t → Nat → (Nat → Nat) → Int × kos_blockdev_t × List dev_req)
    (ext : fat_fs_t → Nat → Nat × Nat) (c : Nat → Nat) (n : Nat) (fs : fat_fs_t)
    (r : Int × fat_fs_t × List dev_req) : Prop where
  ok : (∀ i, i < n → slot_dirty fs c i →
        (wr fs (fs.mem (c i)).block (fs.mem (c i)).data).1 = 0) →
      wb_dev_post ext c n fs 0 r.2.1.dev
  fail : ∀ k, k < n → slot_dirty fs c k →
      (wr fs (fs.mem (c k)).block (fs.mem (c k)).data).1 ≠ 0 →
      (∀ j, k < j → j < n → slot_dirty fs c j →
        (wr fs (fs.mem (c j)).block (fs.mem (c j)).data).1 = 0) →
      wb_dev_post ext c n fs (k + 1) r.2.1.dev

/-- The FAT12 volume `dev12` with a cluster cache of two records after cluster 5 has
been read, its byte 3 set to `0xAB`, and the cluster marked dirty: the record of
cluster 5 is dirty and differs from the device, which holds 0 in that byte (block 9,
the fourth data block after the first data block 6). -/
def vol_poked : fat_fs_t :=
  (fat_cluster_mark_dirty
    (poke (fat_cluster_read (vol12_sized 2 2) 5 0).2.2.1
      ((fat_cluster_read (vol12_sized 2 2) 5 0).1.getD 0) 3 0xAB) 5).2

/-! ## A write-protected FAT16 volume with a root directory of deleted entries -/

/-- Boot sector of a FAT16 volume: 512-byte sectors, 1 sector per cluster, 1 reserved
sector, 1 FAT of 20 sectors, 128 root entries (the 8 sectors 21 to 28), 4114 sectors
(4085 clusters, first data sector 29). -/
def boot16_root : Nat → Nat :=
  sector_of [(11, 0x00), (12, 0x02), (13, 1), (14, 1), (15, 0), (16, 1), (17, 0x80), (18, 0x00),
    (19, 0x12), (20, 0x10), (21, 0xF8), (22, 20), (23, 0), (510, 0x55), (511, 0xAA)]

/-- A directory sector of 16 deleted entries: each entry starts with `0xE5` and has the
attribute `0x20`. -/
def deleted_entries : Nat → Nat :=
  fun off => if off % 32 = 0 then 0xE5 else if off % 32 = 11 then 0x20 else 0

/-- A FAT16 device with the geometry of `boot16_root` that rejects every write (a
write-protected card).  Its FAT marks every cluster as free; the first seven sectors of
the root directory (21 to 27) hold deleted entries only, and the eighth (28) starts with
the end-of-directory marker. -/
def dev16_deleted : kos_blockdev_t :=
  { l_block_size := 9,
    dev_data := fun b =>
      if b = 0 then boot16_root
      else if b = 1 then sector_of [(0, 0xF8), (1, 0xFF), (2, 0xFF), (3, 0xFF)]
      else if 21 ≤ b ∧ b ≤ 27 then deleted_entries
      else fun _ => 0,
    init_rc := 0, read_rc := fun _ _ => 0, write_rc := fun _ _ => -1 }

/-- The volume `dev16_deleted` after `fs_fat_mount` with `FS_FAT_MOUNT_READWRITE`. -/
def vfs_deleted : fat_vfs_t := vfs_of (mount_rw dev16_deleted)

/-- The entries `i` to `i + n - 1` of record `p` are deleted entries or long name
entries, which the scan of `fat_search_dir` passes over without looking at the name it
searches for. -/
def scan_skips (fs : fat_fs_t) (p : Nat) : Nat → Nat → Bool
  | 0, _ => true
  | n + 1, i =>
    if peek fs p (i <<< 5) = FAT_ENTRY_EOD then false
    else if peek fs p (i <<< 5) = FAT_ENTRY_FREE then scan_skips fs p n (i + 1)
    else if FAT_IS_LONG_NAME fs p (i <<< 5) then scan_skips fs p n (i + 1)
    else false

/-- A run of `fat_search_dir` over the root directory of a FAT12 or FAT16 volume in the
state `t`, from sector `cl` on: `k` sectors are read and passed over entry by entry, and
`fat_cluster_read` of the sector after them returns `NULL`. -/
def root_reads_fail (max : Nat) : Nat → fat_fs_t → Nat → Nat → Bool
  | 0, t, cl, _ => decide ((fat_cluster_read t cl 0).1 = none)
  | k + 1, t, cl, j =>
    match (fat_cluster_read t cl 0).1 with
    | none => false
    | some p =>
      scan_skips (fat_cluster_read t cl 0).2.2.1 p max 0 &&
      decide (cl &&& 0x80000000 ≠ 0) &&
      decide (¬ u32 (j + max) ≥ (fat_cluster_read t cl 0).2.2.1.sb.root_dir) &&
      root_reads_fail max k (fat_cluster_read t cl 0).2.2.1 (u32 (cl + 1)) (u32 (j + max))

/-- The state after `fat_cluster_read` of the `k + 1` sectors from `cl` on. -/
def root_reads_state : Nat → fat_fs_t → Nat → fat_fs_t
  | 0, t, cl => (fat_cluster_read t cl 0).2.2.1
  | k + 1, t, cl => root_reads_state k (fat_cluster_read t cl 0).2.2.1 (u32 (cl + 1))

/-- The name "A very long filename.txt". -/
def long_name : List Nat := cstr "A very long filename.txt"

/-- The state of `vfs_deleted` after the call `fat_find_dentry(fs, fn, ...)` at the start
of `fs_fat_open` of "/A very long filename.txt", which returns `-ENOENT`. -/
def deleted_lookup : fat_dir_t :=
  ((fat_find_dentry 40 libc_signed vfs_deleted.d (cstr "/A very long filename.txt") 0).map
    (fun r => r.2.2)).getD vfs_deleted.d

/-- The state after the call of `fat_find_child` in `fat_create_entry`, which returns
`-ENOENT` as well. -/
def deleted_lookup2 : fat_dir_t :=
  ((fat_find_child 40 libc_signed deleted_lookup long_name (root_dentry deleted_lookup.fs)
    (-ENOENT)).map (fun r => r.2.2)).getD deleted_lookup

/-- The state in which `fat_create_entry` calls `fat_add_dentry`, and `fat_add_dentry`
calls `create_shortname`: after `fat_allocate_cluster`, which returns cluster 3, and
`fat_cluster_clear` of that cluster.  The cluster cache holds the root directory sectors
22 to 28 and, in its most recently used slot, the dirty record of cluster 3. -/
def deleted_at_create : fat_fs_t :=
  (fat_cluster_clear (fat_allocate_cluster deleted_lookup2.fs (-ENOENT)).2.2 3
    (fat_allocate_cluster deleted_lookup2.fs (-ENOENT)).2.1).2.2.1

/-- The state after the first search of `create_shortname`: `fat_cluster_read` of the
root directory sectors 21 to 27, and the failed one of sector 28.  The dirty record of
cluster 3 is in slot 0 of the cluster cache, the sectors 21 to 27 are in the slots 1 to
7. -/
def deleted_stuck : fat_fs_t := root_reads_state 7 deleted_at_create 0x80000015

/-- The state `t` after a hit of `fat_cluster_read` in slot 1. -/
def mru1 (t : fat_fs_t) : fat_fs_t := { t with bcache := make_mru t t.bcache 1 }

/-- The state `fs` on a device that accepts every write. -/
def writable (fs : fat_fs_t) : fat_fs_t :=
  { fs with dev := { fs.dev with write_rc := fun _ _ => 0 } }

/-- The ids and the flags of the records in the eight slots of the cluster cache. -/
def bcache_ids (fs : fat_fs_t) : List (Nat × Nat) :=
  (List.range 8).map (fun i => ((fs.mem (fs.bcache i)).block, (fs.mem (fs.bcache i)).flags))

end KosFat

/-! # Theorems -/

namespace KosFat

/-! ## Arithmetic of bytes and words -/

theorem lor_shl (a b k : Nat) (ha : a < 2 ^ k) : a ||| (b <<< k) = a + 2 ^ k * b := by
  rw [Nat.shiftLeft_eq, Nat.lor_comm, Nat.mul_comm, ← Nat.mul_add_lt_is_or ha b, Nat.add_comm]

theorem ld8_lt (buf : Nat → Nat) (off : Nat) : ld8 buf off < 256 := Nat.mod_lt _ (by decide)

theorem le16_eq (a b : Nat) (ha : a < 256) : a ||| (b <<< 8) = le16 a b := by
  have := lor_shl a b 8 (by simpa using ha)
  simpa [le16] using this

theorem le32_eq (a b c d : Nat) (ha : a < 256) (hb : b < 256) (hc : c < 256) :
    a ||| (b <<< 8) ||| (c <<< 16) ||| (d <<< 24) = le32 a b c d := by
  have h1 := lor_shl a b 8 (by simpa using ha)
  have h3 := lor_shl (a + 2 ^ 8 * b) c 16 (by omega)
  have h5 := lor_shl (a + 2 ^ 8 * b + 2 ^ 16 * c) d 24 (by omega)
  rw [h1, h3, h5]; simp [le32]

/-! ## C8: `fat_is_eof` -/

theorem and_bit31_eq_zero_iff (v : Nat) (hv : v < 2 ^ 32) :
    v &&& 0x80000000 = 0 ↔ v < 0x80000000 := by
  have h := Nat.and_two_pow v 31
  norm_num at h
  rw [h, Nat.testBit_to_div_mod]
  by_cases h1 : v / 2 ^ 31 % 2 = 1 <;> simp [h1] <;> omega

/-- C8, as stated, fails: on the FAT12 volume `vol12` the value `0x80000000` is at least
`0x0FF8`, yet `fat_is_eof` does not report end-of-chain for it. -/
theorem fat_is_eof_bit31_counterexample :
    ¬ (fat_is_eof vol12 0x80000000 ≠ 0 ↔ 0x80000000 ≥ 0x0FF8) := by
  decide

/-- C8, amended: for every 32-bit value `v`, `fat_is_eof` reports end-of-chain exactly
when `0x0FF8 ≤ v < 0x80000000` on FAT12, `0xFFF8 ≤ v < 0x80000000` on FAT16, and
`(v & 0x0FFFFFFF) ≥ 0x0FFFFFF8` on FAT32. -/
theorem fat_is_eof_iff (fs : fat_fs_t) (v : Nat) (hv : v < 2 ^ 32) :
    (fs.sb.fs_type = FAT_FS_FAT12 →
      (fat_is_eof fs v ≠ 0 ↔ 0x0FF8 ≤ v ∧ v < 0x80000000)) ∧
    (fs.sb.fs_type = FAT_FS_FAT16 →
      (fat_is_eof fs v ≠ 0 ↔ 0xFFF8 ≤ v ∧ v < 0x80000000)) ∧
    (fs.sb.fs_type = FAT_FS_FAT32 →
      (fat_is_eof fs v ≠ 0 ↔ v &&& 0x0FFFFFFF ≥ 0x0FFFFFF8)) := by
  have hb := and_bit31_eq_zero_iff v hv
  refine ⟨fun h => ?_, fun h => ?_, fun h => ?_⟩
  · simp only [fat_is_eof, h, FAT_FS_FAT12, FAT_FS_FAT16, FAT_FS_FAT32, FAT_EOC_FAT12]
    simp only [hb]
    split_ifs <;> simp_all
  · simp only [fat_is_eof, h, FAT_FS_FAT12, FAT_FS_FAT16, FAT_FS_FAT32, FAT_EOC_FAT16]
    simp only [hb]
    split_ifs <;> simp_all
  · simp only [fat_is_eof, h, FAT_FS_FAT12, FAT_FS_FAT16, FAT_FS_FAT32, FAT_EOC_FAT32]
    split_ifs <;> simp_all

/-- Witness for `fat_is_eof_iff` on the FAT12 volume at `v = 0x0FFF`. -/
theorem fat_is_eof_iff_witness :
    (fat_is_eof vol12 0x0FFF ≠ 0 ↔ 0x0FF8 ≤ 0x0FFF ∧ 0x0FFF < 0x80000000) :=
  (fat_is_eof_iff vol12 0x0FFF (by decide)).1 (by decide)

/-! ## Boot sector parsing -/

theorem ceil_div_eq (a b : Nat) (hb : 0 < b) : ⌈((a : ℚ) / b)⌉₊ = (a + (b - 1)) / b := by
  have hbq : (0 : ℚ) < b := by exact_mod_cast hb
  apply le_antisymm
  · rw [Nat.ceil_le, div_le_iff₀ hbq]
    have h : a ≤ (a + (b - 1)) / b * b := by
      have h1 := Nat.div_add_mod (a + (b - 1)) b
      have h2 := Nat.mod_lt (a + (b - 1)) hb
      rw [Nat.mul_comm] at h1
      omega
    exact_mod_cast h
  · have h1 : (a : ℚ) / b ≤ ⌈((a : ℚ) / b)⌉₊ := Nat.le_ceil _
    rw [div_le_iff₀ hbq] at h1
    have h2 : a ≤ ⌈((a : ℚ) / b)⌉₊ * b := by exact_mod_cast h1
    have h3 : (a + (b - 1)) / b < ⌈((a : ℚ) / b)⌉₊ + 1 := by
      rw [Nat.div_lt_iff_lt_mul hb, Nat.add_mul]
      omega
    omega

theorem fat_parse_boot_fields (bb : Nat → Nat) (sb : fat_superblock_t) :
    (fat_parse_boot bb sb).2.num_clusters = parse_nc bb ∧
    (fat_parse_boot bb sb).2.fat_size = parse_fsz bb ∧
    (fat_parse_boot bb sb).2.num_sectors = parse_ts bb ∧
    (fat_parse_boot bb sb).2.first_data_block = parse_fds bb ∧
    (fat_parse_boot bb sb).2.fs_type = (parse_geometry bb sb).fs_type := by
  by_cases h1 : (parse_geometry bb sb).fs_type = FAT_FS_FAT32
  · by_cases h2 : fat32_fs_version bb 0 ≠ 0 ∨ fat32_fs_version bb 1 ≠ 0
    · unfold fat_parse_boot; rw [if_pos h1, if_pos h2]
      exact ⟨rfl, rfl, rfl, rfl, rfl⟩
    · unfold fat_parse_boot; rw [if_pos h1, if_neg h2]
      exact ⟨rfl, rfl, rfl, rfl, rfl⟩
  · unfold fat_parse_boot; rw [if_neg h1]
    exact ⟨rfl, rfl, rfl, rfl, rfl⟩

/-! ## C9: choice of the filesystem type -/

/-- C9: `fat_parse_boot` selects the filesystem type from the cluster count it stores
in `num_clusters` alone: FAT12 when it is at most 4084, FAT16 when it is at most 65524,
FAT32 otherwise, for every boot sector (and every path through the function). -/
theorem fat_parse_boot_fs_type (bb : Nat → Nat) (sb : fat_superblock_t) :
    (fat_parse_boot bb sb).2.fs_type =
      if (fat_parse_boot bb sb).2.num_clusters ≤ 4084 then FAT_FS_FAT12
      else if (fat_parse_boot bb sb).2.num_clusters ≤ 65524 then FAT_FS_FAT16
      else FAT_FS_FAT32 := by
  obtain ⟨h1, -, -, -, h5⟩ := fat_parse_boot_fields bb sb
  rw [h5, h1]; rfl

/-! ## C10: geometry computed by `fat_parse_boot` -/

/-- C10: for a boot sector with non-zero `bytes_per_sector` and `sectors_per_cluster`,
`fat_parse_boot` computes `root_dir_sectors = ceil(root_dir_entries * 32 /
bytes_per_sector)`, takes `fat_size` and the sector count from the 16-bit fields or,
when those are zero, from the 32-bit fields, and stores
`first_data_block = reserved + num_fats * fat_size + root_dir_sectors` and
`num_clusters = (total_sectors - first_data_block) / sectors_per_cluster`, both in
arithmetic modulo `2 ^ 32`. -/
theorem fat_parse_boot_geometry (bb : Nat → Nat) (sb : fat_superblock_t)
    (hbps : le16 (bpb_bytes_per_sector bb 0) (bpb_bytes_per_sector bb 1) ≠ 0)
    (_hspc : bpb_sectors_per_cluster bb ≠ 0) :
    parse_rds bb =
      ⌈((le16 (bpb_root_dir_entries bb 0) (bpb_root_dir_entries bb 1) * 32 : ℕ) : ℚ) /
        (le16 (bpb_bytes_per_sector bb 0) (bpb_bytes_per_sector bb 1) : ℕ)⌉₊ ∧
    (fat_parse_boot bb sb).2.fat_size =
      (if le16 (bpb_fat_size bb 0) (bpb_fat_size bb 1) = 0 then
        le32 (fat32_fat_size bb 0) (fat32_fat_size bb 1) (fat32_fat_size bb 2)
          (fat32_fat_size bb 3)
      else le16 (bpb_fat_size bb 0) (bpb_fat_size bb 1)) ∧
    (fat_parse_boot bb sb).2.num_sectors =
      (if le16 (bpb_num_sectors16 bb 0) (bpb_num_sectors16 bb 1) = 0 then
        le32 (bpb_num_sectors32 bb 0) (bpb_num_sectors32 bb 1) (bpb_num_sectors32 bb 2)
          (bpb_num_sectors32 bb 3)
      else le16 (bpb_num_sectors16 bb 0) (bpb_num_sectors16 bb 1)) ∧
    (fat_parse_boot bb sb).2.first_data_block =
      (le16 (bpb_reserved_sectors bb 0) (bpb_reserved_sectors bb 1) +
        bpb_num_fats bb * (fat_parse_boot bb sb).2.fat_size + parse_rds bb) % 2 ^ 32 ∧
    ((fat_parse_boot bb sb).2.num_clusters : Int) =
      (((fat_parse_boot bb sb).2.num_sectors : Int) -
        (fat_parse_boot bb sb).2.first_data_block) % 2 ^ 32 / bpb_sectors_per_cluster bb := by
  obtain ⟨h1, h2, h3, h4, -⟩ := fat_parse_boot_fields bb sb
  have hl := fun b i => ld8_lt b i
  have e16 : ∀ a b : Nat → Nat, ∀ i j, ld8 a i ||| (ld8 b j <<< 8) = le16 (ld8 a i) (ld8 b j) :=
    fun a b i j => le16_eq _ _ (hl a i)
  have hfds : parse_fds bb < 2 ^ 32 := Nat.mod_lt _ (by norm_num)
  refine ⟨?_, ?_, ?_, ?_, ?_⟩
  · rw [ceil_div_eq _ _ (Nat.pos_of_ne_zero hbps)]
    simp only [parse_rds, bpb_root_dir_entries, bpb_bytes_per_sector, e16, u32] at hbps ⊢
    simp only [Nat.shiftLeft_eq]
    have ha := hl bb (17 + 0); have hb := hl bb (17 + 1)
    have hc := hl bb (11 + 0); have hd := hl bb (11 + 1)
    simp only [le16] at hbps ⊢
    generalize ld8 bb (17 + 0) = a at *
    generalize ld8 bb (17 + 1) = b at *
    generalize ld8 bb (11 + 0) = c at *
    generalize ld8 bb (11 + 1) = d at *
    have e1 : (a + 256 * b) * 2 ^ 5 % 2 ^ 32 = (a + 256 * b) * 32 := by omega
    have e2 : (c + 256 * d + 2 ^ 32 - 1) % 2 ^ 32 = c + 256 * d - 1 := by omega
    have e3 : ((a + 256 * b) * 32 + (c + 256 * d - 1)) % 2 ^ 32 = (a + 256 * b) * 32 + (c + 256 * d - 1) := by omega
    rw [e1, e2, e3]
  · rw [h2]; simp only [parse_fsz, bpb_fat_size, fat32_fat_size]
    rw [le32_eq _ _ _ _ (hl _ _) (hl _ _) (hl _ _)]
    simp only [e16]
  · rw [h3]; simp only [parse_ts, bpb_num_sectors16, bpb_num_sectors32]
    rw [le32_eq _ _ _ _ (hl _ _) (hl _ _) (hl _ _)]
    simp only [e16]
  · rw [h4, h2]; simp only [parse_fds, parse_rs, bpb_reserved_sectors, e16, u32]
    generalize bpb_num_fats bb * parse_fsz bb = x
    generalize parse_rds bb = y
    generalize le16 _ _ = z
    omega
  · have key : ∀ x y : Nat, y < 2 ^ 32 →
        (((x + 2 ^ 32 - y) % 2 ^ 32 : Nat) : Int) = ((x : Int) - y) % 2 ^ 32 := by
      intro x y hy; omega
    rw [h1, h3, h4]
    simp only [parse_nc, u32]
    rw [Int.natCast_div, key _ _ hfds]

/-- Witness for `fat_parse_boot_geometry` on the boot sector `boot12`. -/
theorem fat_parse_boot_geometry_witness :
    le16 (bpb_bytes_per_sector boot12 0) (bpb_bytes_per_sector boot12 1) ≠ 0 ∧
    bpb_sectors_per_cluster boot12 ≠ 0 ∧
    parse_rds boot12 =
      ⌈((le16 (bpb_root_dir_entries boot12 0) (bpb_root_dir_entries boot12 1) * 32 : ℕ) : ℚ) /
        (le16 (bpb_bytes_per_sector boot12 0) (bpb_bytes_per_sector boot12 1) : ℕ)⌉₊ ∧
    (fat_parse_boot boot12 zero_superblock).2.first_data_block =
      (le16 (bpb_reserved_sectors boot12 0) (bpb_reserved_sectors boot12 1) +
        bpb_num_fats boot12 * (fat_parse_boot boot12 zero_superblock).2.fat_size +
        parse_rds boot12) % 2 ^ 32 :=
  ⟨by decide, by decide,
    (fat_parse_boot_geometry boot12 zero_superblock (by decide) (by decide)).1,
    (fat_parse_boot_geometry boot12 zero_superblock (by decide) (by decide)).2.2.2.1⟩

/-! ## C3: the FAT-block reader and valid clusters -/

/-- C3 fails on the code: on the mounted floppy volume (FAT12, 2847 clusters, FAT of 9
sectors after 1 reserved sector) cluster 2848 is a valid data cluster and no device read
fails, yet the sector holding its entry, `reserved_sectors + offset / bytes_per_sector
= 9`, is refused by `fat_fatblock_read_nc` (which compares it with `fat_size = 9`), and
`fat_read_fat` returns `FAT_INVALID_CLUSTER`. -/
theorem fat_read_fat_refuses_valid_cluster :
    vol_floppy.sb.fs_type = FAT_FS_FAT12 ∧ vol_floppy.sb.num_clusters = 2847 ∧
    vol_floppy.sb.reserved_sectors = 1 ∧ vol_floppy.sb.fat_size = 9 ∧
    (2 ≤ 2848 ∧ 2848 < vol_floppy.sb.num_clusters + 2) ∧
    (∀ b c, vol_floppy.dev.read_rc b c = 0) ∧
    vol_floppy.sb.reserved_sectors + (2848 + 2848 / 2) / vol_floppy.sb.bytes_per_sector = 9 ∧
    (fat_fatblock_read_nc vol_floppy 9 (fun _ => 0)).1 = -EINVAL ∧
    (fat_read_fat vol_floppy 2848 0).1 = FAT_INVALID_CLUSTER := by
  refine ⟨by decide, by decide, by decide, by decide, by decide, fun _ _ => rfl,
    by decide, by decide, by decide⟩

/-! ## C4: allocation on FAT12 -/

/-- C4 fails on the code: on the read-write FAT12 volume `vol12` clusters 4, 6, ...,
35 are free, yet `fat_allocate_cluster` returns `FAT_INVALID_CLUSTER` with `ENOSPC`,
and afterwards the entries 4, 6 and 35 all read as end-of-chain and the hint is 35: the
FAT12 loops mark every free entry and never return a cluster. -/
theorem fat_allocate_cluster_fat12_marks_all :
    vol12.sb.fs_type = FAT_FS_FAT12 ∧ vol12.mnt_flags = FAT_MNT_FLAG_RW ∧
    vol12.sb.num_clusters = 34 ∧ vol12.sb.last_alloc_cluster = 2 ∧
    (fat_read_fat vol12 3 0).1 = 0xFFF ∧ (fat_read_fat vol12 4 0).1 = FAT_FREE_CLUSTER ∧
    (fat_allocate_cluster vol12 0).1 = FAT_INVALID_CLUSTER ∧
    (fat_allocate_cluster vol12 0).2.1 = ENOSPC ∧
    (fat_read_fat (fat_allocate_cluster vol12 0).2.2 4 0).1 = 0xFFF ∧
    (fat_read_fat (fat_allocate_cluster vol12 0).2.2 6 0).1 = 0xFFF ∧
    (fat_read_fat (fat_allocate_cluster vol12 0).2.2 35 0).1 = 0xFFF ∧
    (fat_allocate_cluster vol12 0).2.2.sb.last_alloc_cluster = 35 := by
  decide!

/-! ## C5: allocation and the reserved clusters -/

/-- C5 fails on the code: on the FAT32 volume `vol32_wiped`, whose FSInfo sector gives
the hint `0xFFFFFFFF` and whose FAT entry 0 is zero, `fat_allocate_cluster` returns
cluster 0 and marks it allocated (entry 0 then reads as end-of-chain). -/
theorem fat_allocate_cluster_returns_cluster_zero :
    vol32_wiped.sb.fs_type = FAT_FS_FAT32 ∧ vol32_wiped.mnt_flags = FAT_MNT_FLAG_RW ∧
    vol32_wiped.sb.num_clusters = 69368 ∧
    vol32_wiped.sb.last_alloc_cluster = 0xFFFFFFFF ∧
    (fat_read_fat vol32_wiped 0 0).1 = 0 ∧
    (fat_allocate_cluster vol32_wiped 0).1 = 0 ∧
    (fat_read_fat (fat_allocate_cluster vol32_wiped 0).2.2 0 0).1 = 0x0FFFFFFF ∧
    fat_is_eof vol32_wiped (fat_read_fat (fat_allocate_cluster vol32_wiped 0).2.2 0 0).1 = 1 := by
  decide

/-! ## C6: exhaustion -/

set_option maxRecDepth 100000 in
/-- C6 fails on the code: on the freshly mounted read-write FAT16 volume `vol16_full`
(4085 clusters, no device errors) the hint `last_alloc_cluster` is 2 and cluster 2 is
free (it is the only free cluster), yet `fat_allocate_cluster` fails with `ENOSPC`: the
second pass scans `[2, last_alloc_cluster)` and so never looks at the hinted cluster. -/
theorem fat_allocate_cluster_misses_hinted_cluster :
    vol16_full.sb.fs_type = FAT_FS_FAT16 ∧ vol16_full.mnt_flags = FAT_MNT_FLAG_RW ∧
    vol16_full.sb.num_clusters = 4085 ∧ vol16_full.sb.last_alloc_cluster = 2 ∧
    (∀ b c, vol16_full.dev.read_rc b c = 0 ∧ vol16_full.dev.write_rc b c = 0) ∧
    (fat_read_fat vol16_full 2 0).1 = FAT_FREE_CLUSTER ∧
    (fat_allocate_cluster vol16_full 0).1 = FAT_INVALID_CLUSTER ∧
    (fat_allocate_cluster vol16_full 0).2.1 = ENOSPC := by
  refine ⟨by decide, by decide, by decide, by decide, fun _ _ => ⟨rfl, rfl⟩, by decide,
    by decide!, by decide!⟩


/-! ### Masks and shifts as arithmetic -/

theorem and_mask_split (x hi k n : Nat) (h1 : hi ||| (2 ^ k - 1) = 2 ^ n - 1)
    (h2 : hi &&& (2 ^ k - 1) = 0) : (x &&& hi) + x % 2 ^ k = x % 2 ^ n := by
  have e1 : x % 2 ^ n = (x &&& hi) ||| (x &&& (2 ^ k - 1)) := by
    rw [← Nat.and_pow_two_sub_one_eq_mod, ← h1, Nat.and_or_distrib_left]
  have e2 : (x &&& hi) % 2 ^ k = 0 := by
    rw [← Nat.and_pow_two_sub_one_eq_mod, Nat.and_assoc, h2, Nat.and_zero]
  have e3 : x &&& hi = 2 ^ k * ((x &&& hi) / 2 ^ k) := by
    have := Nat.div_add_mod (x &&& hi) (2 ^ k)
    rw [e2] at this
    omega
  rw [e1, Nat.and_pow_two_sub_one_eq_mod, e3,
    ← Nat.mul_add_lt_is_or (Nat.mod_lt _ (Nat.two_pow_pos k)), ← e3]

theorem and_511 (x : Nat) : x &&& 511 = x % 512 := Nat.and_pow_two_sub_one_eq_mod x 9
theorem and_15 (x : Nat) : x &&& 0x0F = x % 16 := Nat.and_pow_two_sub_one_eq_mod x 4
theorem and_4095 (x : Nat) : x &&& 0x0FFF = x % 4096 := Nat.and_pow_two_sub_one_eq_mod x 12
theorem and_65535 (x : Nat) : x &&& 0xFFFF = x % 65536 := Nat.and_pow_two_sub_one_eq_mod x 16
theorem and_low28 (x : Nat) : x &&& 0x0FFFFFFF = x % 268435456 :=
  Nat.and_pow_two_sub_one_eq_mod x 28

theorem and_240 (x : Nat) : x &&& 0xF0 = x % 256 - x % 16 := by
  have := and_mask_split x 0xF0 4 8 (by decide) (by decide)
  norm_num at this
  omega

theorem and_high4 (x : Nat) : x &&& 0xF0000000 = x % 4294967296 - x % 268435456 := by
  have := and_mask_split x 0xF0000000 28 32 (by decide) (by decide)
  norm_num at this
  omega

theorem lor_eq_add (a b k : Nat) (ha : a < 2 ^ k) (hb : b % 2 ^ k = 0) : a ||| b = a + b := by
  have e : b = 2 ^ k * (b / 2 ^ k) := by
    have := Nat.div_add_mod b (2 ^ k)
    omega
  rw [e, Nat.lor_comm, ← Nat.mul_add_lt_is_or ha, Nat.add_comm]

theorem lor_eq_add' (a b k : Nat) (ha : a % 2 ^ k = 0) (hb : b < 2 ^ k) : a ||| b = a + b := by
  rw [Nat.lor_comm, lor_eq_add b a k hb ha, Nat.add_comm]

/-! ### Offsets within sectors -/

theorem sec_add {S o i : Nat} (h : o % S + i < S) :
    (o + i) / S = o / S ∧ (o + i) % S = o % S + i := by
  have hpos : 0 < S := by omega
  have e : o + i = (o % S + i) + S * (o / S) := by
    have := Nat.div_add_mod o S
    omega
  rw [e, Nat.add_mul_div_left _ _ hpos, Nat.add_mul_mod_self_left, Nat.div_eq_of_lt h,
    Nat.mod_eq_of_lt h, Nat.zero_add]
  exact ⟨rfl, rfl⟩

theorem sec_next {S o : Nat} (hpos : 0 < S) (h : o % S = S - 1) :
    (o + 1) / S = o / S + 1 ∧ (o + 1) % S = 0 := by
  have e : o + 1 = S * (o / S + 1) := by
    have := Nat.div_add_mod o S
    rw [Nat.mul_add, Nat.mul_one]
    omega
  rw [e, Nat.mul_div_cancel_left _ hpos, Nat.mul_mod_right]
  exact ⟨rfl, rfl⟩

theorem sec_al4 {S o : Nat} (hpos : 0 < S) (hS : S % 4 = 0) (ho : o % 4 = 0) :
    o % S + 3 < S := by
  have h1 : o % S % 4 = o % 4 := Nat.mod_mod_of_dvd o (Nat.dvd_of_mod_eq_zero hS)
  have h2 := Nat.mod_lt o hpos
  omega

theorem sec_al2 {S o : Nat} (hpos : 0 < S) (hS : S % 4 = 0) (ho : o % 2 = 0) :
    o % S + 1 < S := by
  have h1 : o % S % 2 = o % 2 :=
    Nat.mod_mod_of_dvd o (Nat.dvd_of_mod_eq_zero (by omega : S % 2 = 0))
  have h2 := Nat.mod_lt o hpos
  omega

/-- Two FAT bytes lie in the same sector at the same offset only when they are equal. -/
theorem sec_inj {S k k' : Nat} (h1 : k / S = k' / S) (h2 : k % S = k' % S) : k = k' := by
  have a := Nat.div_add_mod k S
  have b := Nat.div_add_mod k' S
  rw [h1, h2] at a
  omega


theorem sec_div_le {S : Nat} (o : Nat) (hpos : 0 < S) (hS : S % 4 = 0) : o / S ≤ o / 4 :=
  Nat.div_le_div_left (by omega) (by decide)

/-! ## The FAT block cache: invariant and abstraction -/

theorem fcache_scan_some {fs : fat_fs_t} {b n i : Nat} (h : fcache_scan fs b n = some i) :
    i < n ∧ (fs.mem (fs.fcache i)).block = b ∧ (fs.mem (fs.fcache i)).flags ≠ 0 := by
  induction n with
  | zero => simp [fcache_scan] at h
  | succ n ih =>
    simp only [fcache_scan] at h
    split_ifs at h with hc
    · cases h
      exact ⟨Nat.lt_succ_self _, hc.1, hc.2⟩
    · obtain ⟨h1, h2⟩ := ih h
      exact ⟨Nat.lt_succ_of_lt h1, h2⟩

theorem fcache_scan_none {fs : fat_fs_t} {b n : Nat} (h : fcache_scan fs b n = none) :
    ∀ i, i < n → ¬ ((fs.mem (fs.fcache i)).block = b ∧ (fs.mem (fs.fcache i)).flags ≠ 0) := by
  induction n with
  | zero => intro i hi; omega
  | succ n ih =>
    simp only [fcache_scan] at h
    split_ifs at h with hc
    intro i hi
    rcases Nat.lt_succ_iff_lt_or_eq.mp hi with hlt | rfl
    · exact ih h i hlt
    · exact hc

theorem fcache_scan_of_record {fs : fat_fs_t} {b j : Nat}
    (huniq : ∀ i j, i < fs.fcache_size → j < fs.fcache_size →
      (fs.mem (fs.fcache i)).flags ≠ 0 → (fs.mem (fs.fcache j)).flags ≠ 0 →
      (fs.mem (fs.fcache i)).block = (fs.mem (fs.fcache j)).block → i = j)
    (hj : j < fs.fcache_size) (hv : (fs.mem (fs.fcache j)).flags ≠ 0)
    (hb : (fs.mem (fs.fcache j)).block = b) :
    fcache_scan fs b fs.fcache_size = some j := by
  cases h : fcache_scan fs b fs.fcache_size with
  | none => exact absurd ⟨hb, hv⟩ (fcache_scan_none h j hj)
  | some i =>
    obtain ⟨hi, hib, hiv⟩ := fcache_scan_some h
    rw [huniq i j hi hj hiv hv (hib.trans hb.symm)]

theorem make_mru_loop_apply (n : Nat) : ∀ (cache : Nat → Nat) (i j : Nat),
    make_mru_loop cache i n j = if i ≤ j ∧ j < i + n then cache (j + 1) else cache j := by
  induction n with
  | zero => intro cache i j; rw [if_neg (by omega)]; rfl
  | succ n ih =>
    intro cache i j
    simp only [make_mru_loop, ih, arr_set]
    by_cases h1 : i + 1 ≤ j ∧ j < i + 1 + n
    · rw [if_pos h1, if_neg (by omega), if_pos (by omega)]
    · rw [if_neg h1]
      by_cases h2 : j = i
      · rw [if_pos h2, if_pos (by omega), h2]
      · rw [if_neg h2, if_neg (by omega)]

theorem make_mru_apply (fs : fat_fs_t) (cache : Nat → Nat) (block j : Nat) :
    make_mru fs cache block j = cache (mru_src fs.cache_size block j) := by
  unfold make_mru mru_src
  by_cases h : block ≥ fs.cache_size - 1
  · rw [if_pos h, if_pos h]
  · rw [if_neg h, if_neg h]
    simp only [arr_set, make_mru_loop_apply]
    by_cases h1 : j = fs.cache_size - 1
    · rw [if_pos h1, if_neg (by omega), if_neg (by omega), if_pos h1]
    · rw [if_neg h1]
      by_cases h2 : j < block
      · rw [if_neg (by omega), if_pos h2]
      · rw [if_neg h2]
        by_cases h3 : j < fs.cache_size - 1
        · rw [if_pos (by omega), if_pos h3]
        · rw [if_neg (by omega), if_neg h3, if_neg h1]

theorem mru_src_lt {cs k n j : Nat} (hcs : cs ≤ n) (hk : k < n) (hj : j < n) :
    mru_src cs k j < n := by
  unfold mru_src; split_ifs <;> omega

theorem mru_src_inj {cs k i j : Nat} (h : mru_src cs k i = mru_src cs k j) : i = j := by
  unfold mru_src at h; split_ifs at h <;> omega

theorem mru_src_surj {cs k n i : Nat} (hcs : cs ≤ n) (hk : k < n) (hi : i < n) :
    ∃ j, j < n ∧ mru_src cs k j = i := by
  by_cases h : k ≥ cs - 1
  · exact ⟨i, hi, by unfold mru_src; rw [if_pos h]⟩
  · by_cases h1 : i < k
    · exact ⟨i, hi, by unfold mru_src; rw [if_neg h, if_pos h1]⟩
    · by_cases h2 : i = k
      · exact ⟨cs - 1, by omega, by unfold mru_src; rw [if_neg h, if_neg (by omega),
          if_neg (by omega), if_pos rfl, h2]⟩
      · by_cases h3 : i ≤ cs - 1
        · refine ⟨i - 1, by omega, ?_⟩
          unfold mru_src
          rw [if_neg h, if_neg (by omega), if_pos (by omega)]
          omega
        · exact ⟨i, hi, by unfold mru_src; rw [if_neg h, if_neg (by omega),
            if_neg (by omega), if_neg (by omega)]⟩

/-- After `make_mru` the moved record sits at a slot other than slot 0. -/
theorem mru_src_pos {cs k n : Nat} (hcs2 : 2 ≤ cs) (hcs : cs ≤ n) (hk : k < n) :
    ∃ j, 0 < j ∧ j < n ∧ mru_src cs k j = k := by
  by_cases h : k ≥ cs - 1
  · exact ⟨k, by omega, hk, by unfold mru_src; rw [if_pos h]⟩
  · exact ⟨cs - 1, by omega, by omega, by unfold mru_src; rw [if_neg h, if_neg (by omega),
      if_neg (by omega), if_pos rfl]⟩

/-! ### Reordering the slots -/

theorem reorder_wf {S : Nat} {fs : fat_fs_t} (h : fcache_wf S fs) (c : Nat → Nat)
    (hsrc : ∀ j, j < fs.fcache_size → ∃ i, i < fs.fcache_size ∧ c j = fs.fcache i)
    (hinj : ∀ i j, i < fs.fcache_size → j < fs.fcache_size → c i = c j → i = j) :
    fcache_wf S { fs with fcache := c } where
  bps := h.bps
  lbs := h.lbs
  lbs_rng := h.lbs_rng
  fat_size_lt := h.fat_size_lt
  reserved_lt := h.reserved_lt
  size_ge := h.size_ge
  size_le := h.size_le
  inj := hinj
  uniq := by
    intro i j hi hj hvi hvj hb
    obtain ⟨i0, hi0, ei⟩ := hsrc i hi
    obtain ⟨j0, hj0, ej⟩ := hsrc j hj
    simp only [ei, ej] at hvi hvj hb
    have := h.uniq i0 j0 hi0 hj0 hvi hvj hb
    exact hinj i j hi hj (by rw [ei, ej, this])
  bound := by
    intro i hi hv
    obtain ⟨i0, hi0, ei⟩ := hsrc i hi
    simp only [ei] at hv ⊢
    exact h.bound i0 hi0 hv

theorem reorder_clean {S : Nat} {fs : fat_fs_t} {P : Nat → Prop} (h : fcache_clean S fs P) (c : Nat → Nat)
    (hsrc : ∀ j, j < fs.fcache_size → ∃ i, i < fs.fcache_size ∧ c j = fs.fcache i) :
    fcache_clean S { fs with fcache := c } P := by
  intro i hi hv hd hP off hoff
  obtain ⟨i0, hi0, ei⟩ := hsrc i hi
  simp only [ei] at hv hd hP ⊢
  exact h i0 hi0 hv hd hP off hoff

theorem fat_view_of_record {S : Nat} {fs : fat_fs_t} (h : fcache_wf S fs) {j b : Nat}
    (hj : j < fs.fcache_size) (hv : (fs.mem (fs.fcache j)).flags ≠ 0)
    (hb : (fs.mem (fs.fcache j)).block = b) (off : Nat) :
    fat_view fs b off = ld8 (fs.mem (fs.fcache j)).data off := by
  unfold fat_view
  rw [fcache_scan_of_record h.uniq hj hv hb]

theorem fat_view_of_miss {fs : fat_fs_t} {b : Nat}
    (hm : ∀ i, i < fs.fcache_size →
      ¬ ((fs.mem (fs.fcache i)).block = b ∧ (fs.mem (fs.fcache i)).flags ≠ 0)) (off : Nat) :
    fat_view fs b off = ld8 (fs.dev.dev_data b) off := by
  unfold fat_view
  cases hs : fcache_scan fs b fs.fcache_size with
  | none => rfl
  | some i =>
    obtain ⟨hi, hib, hiv⟩ := fcache_scan_some hs
    exact absurd ⟨hib, hiv⟩ (hm i hi)

theorem reorder_view {S : Nat} {fs : fat_fs_t} (h : fcache_wf S fs) (c : Nat → Nat)
    (hsrc : ∀ j, j < fs.fcache_size → ∃ i, i < fs.fcache_size ∧ c j = fs.fcache i)
    (hsurj : ∀ i, i < fs.fcache_size → ∃ j, j < fs.fcache_size ∧ c j = fs.fcache i)
    (hinj : ∀ i j, i < fs.fcache_size → j < fs.fcache_size → c i = c j → i = j)
    (b off : Nat) :
    fat_view { fs with fcache := c } b off = fat_view fs b off := by
  have h' := reorder_wf h c hsrc hinj
  cases hs : fcache_scan fs b fs.fcache_size with
  | some i =>
    obtain ⟨hi, hib, hiv⟩ := fcache_scan_some hs
    obtain ⟨j, hj, ej⟩ := hsurj i hi
    rw [fat_view_of_record h hi hiv hib]
    have := @fat_view_of_record S { fs with fcache := c } h' j b hj
      (by simpa only [ej] using hiv) (by simpa only [ej] using hib) off
    rw [this]
    simp only [ej]
  | none =>
    have hm := fcache_scan_none hs
    rw [fat_view_of_miss hm]
    apply fat_view_of_miss
    intro j hj
    obtain ⟨i0, hi0, ei⟩ := hsrc j hj
    simp only [ei]
    exact hm i0 hi0

theorem make_mru_src {S : Nat} (fs fs0 : fat_fs_t) (h : fcache_wf S fs) (hcs : fs0.cache_size = fs.cache_size)
    {k : Nat} (hk : k < fs.fcache_size) :
    (∀ j, j < fs.fcache_size →
      ∃ i, i < fs.fcache_size ∧ make_mru fs0 fs.fcache k j = fs.fcache i) ∧
    (∀ i, i < fs.fcache_size →
      ∃ j, j < fs.fcache_size ∧ make_mru fs0 fs.fcache k j = fs.fcache i) ∧
    (∀ i j, i < fs.fcache_size → j < fs.fcache_size →
      make_mru fs0 fs.fcache k i = make_mru fs0 fs.fcache k j → i = j) ∧
    (∃ j, 0 < j ∧ j < fs.fcache_size ∧ make_mru fs0 fs.fcache k j = fs.fcache k) := by
  refine ⟨?_, ?_, ?_, ?_⟩
  · intro j hj
    exact ⟨_, mru_src_lt (hcs ▸ h.size_le) hk hj, make_mru_apply _ _ _ _⟩
  · intro i hi
    obtain ⟨j, hj, e⟩ := @mru_src_surj fs0.cache_size k _ _ (hcs ▸ h.size_le) hk hi
    exact ⟨j, hj, by rw [make_mru_apply, e]⟩
  · intro i j hi hj e
    rw [make_mru_apply, make_mru_apply] at e
    exact mru_src_inj (h.inj _ _ (mru_src_lt (hcs ▸ h.size_le) hk hi)
      (mru_src_lt (hcs ▸ h.size_le) hk hj) e)
  · obtain ⟨j, hj0, hj, e⟩ := @mru_src_pos fs0.cache_size k _
      (hcs ▸ h.size_ge) (hcs ▸ h.size_le) hk
    exact ⟨j, hj0, hj, by rw [make_mru_apply, e]⟩

/-- The sector size of a well-formed volume: a multiple of 4 that fits 16 bits, and a
power of two, so that masking with `S - 1` is the remainder. -/
theorem wf_sector {S : Nat} {fs : fat_fs_t} (h : fcache_wf S fs) :
    0 < S ∧ S % 4 = 0 ∧ S ≤ 32768 ∧ (∀ x, x &&& (S - 1) = x % S) ∧ u16 (S - 1) = S - 1 := by
  obtain ⟨h2, h15⟩ := h.lbs_rng
  have hS := h.lbs
  have hle : 2 ^ fs.dev.l_block_size ≤ 2 ^ 15 := Nat.pow_le_pow_right (by decide) h15
  have h4 : 2 ^ fs.dev.l_block_size = 4 * 2 ^ (fs.dev.l_block_size - 2) := by
    rw [show (4 : Nat) = 2 ^ 2 from rfl, ← Nat.pow_add]
    congr 1
    omega
  have hpos : 0 < 2 ^ fs.dev.l_block_size := Nat.two_pow_pos _
  refine ⟨by omega, by omega, by omega, ?_, ?_⟩
  · intro x
    rw [← hS]
    exact Nat.and_pow_two_sub_one_eq_mod x _
  · unfold u16
    omega

/-! ### Frames -/

theorem fs_frame_refl (fs : fat_fs_t) : fs_frame fs fs :=
  ⟨rfl, rfl, rfl, rfl, rfl, rfl, rfl⟩

theorem fs_frame_trans {a b c : fat_fs_t} (h1 : fs_frame a b) (h2 : fs_frame b c) :
    fs_frame a c :=
  ⟨h2.sb.trans h1.sb, h2.mnt_flags.trans h1.mnt_flags, h2.cache_size.trans h1.cache_size,
    h2.fcache_size.trans h1.fcache_size, h2.lbs.trans h1.lbs, h2.read_rc.trans h1.read_rc,
    h2.write_rc.trans h1.write_rc⟩

theorem dev_ok_of_frame {fs fs' : fat_fs_t} (hf : fs_frame fs fs') (h : dev_ok fs) :
    dev_ok fs' := by
  intro b c
  rw [hf.read_rc, hf.write_rc]
  exact h b c

/-! ### Records with unchanged flags and sector numbers -/

theorem fcache_scan_congr {fs fs' : fat_fs_t} (hc : fs'.fcache = fs.fcache)
    (hm : ∀ q, (fs'.mem q).flags = (fs.mem q).flags ∧ (fs'.mem q).block = (fs.mem q).block)
    (b n : Nat) : fcache_scan fs' b n = fcache_scan fs b n := by
  induction n with
  | zero => rfl
  | succ n ih => simp only [fcache_scan, hc, (hm _).1, (hm _).2, ih]

theorem with_data_mem (fs : fat_fs_t) (p : Nat) (d : Nat → Nat) (q : Nat) :
    (with_data fs p d).mem q = if q = p then { fs.mem p with data := d } else fs.mem q := rfl

theorem with_data_flags (fs : fat_fs_t) (p : Nat) (d : Nat → Nat) (q : Nat) :
    ((with_data fs p d).mem q).flags = (fs.mem q).flags ∧
    ((with_data fs p d).mem q).block = (fs.mem q).block := by
  rw [with_data_mem]
  by_cases h : q = p
  · rw [if_pos h, h]; exact ⟨rfl, rfl⟩
  · rw [if_neg h]; exact ⟨rfl, rfl⟩

theorem with_data_data_self (fs : fat_fs_t) (p : Nat) (d : Nat → Nat) :
    ((with_data fs p d).mem p).data = d := by
  rw [with_data_mem, if_pos rfl]

theorem with_data_data_ne (fs : fat_fs_t) {p q : Nat} (d : Nat → Nat) (h : q ≠ p) :
    (with_data fs p d).mem q = fs.mem q := by
  rw [with_data_mem, if_neg h]

theorem with_data_frame (fs : fat_fs_t) (p : Nat) (d : Nat → Nat) :
    fs_frame fs (with_data fs p d) :=
  ⟨rfl, rfl, rfl, rfl, rfl, rfl, rfl⟩

theorem with_data_wf {S : Nat} {fs : fat_fs_t} (h : fcache_wf S fs) (p : Nat) (d : Nat → Nat) :
    fcache_wf S (with_data fs p d) where
  bps := h.bps
  lbs := h.lbs
  lbs_rng := h.lbs_rng
  fat_size_lt := h.fat_size_lt
  reserved_lt := h.reserved_lt
  size_ge := h.size_ge
  size_le := h.size_le
  inj := h.inj
  uniq := by
    intro i j hi hj hvi hvj hb
    rw [(with_data_flags fs p d _).1] at hvi hvj
    rw [(with_data_flags fs p d _).2, (with_data_flags fs p d _).2] at hb
    exact h.uniq i j hi hj hvi hvj hb
  bound := by
    intro i hi hv
    rw [(with_data_flags fs p d _).1] at hv
    rw [(with_data_flags fs p d _).2]
    exact h.bound i hi hv

theorem with_data_clean {S : Nat} {fs : fat_fs_t} {P : Nat → Prop} (h : fcache_clean S fs P) {p : Nat}
    (hp : P p) (d : Nat → Nat) : fcache_clean S (with_data fs p d) P := by
  intro i hi hv hd hP off hoff
  have hne : fs.fcache i ≠ p := fun e => hP (by rw [show (with_data fs p d).fcache i = p from e]; exact hp)
  have e : (with_data fs p d).mem ((with_data fs p d).fcache i) = fs.mem (fs.fcache i) :=
    with_data_data_ne fs d hne
  rw [e] at hv hd ⊢
  exact h i hi hv hd hP off hoff

theorem fcache_clean_mono {S : Nat} {fs : fat_fs_t} {P Q : Nat → Prop} (h : fcache_clean S fs P)
    (hPQ : ∀ q, P q → Q q) : fcache_clean S fs Q :=
  fun i hi hv hd hQ off hoff => h i hi hv hd (fun hp => hQ (hPQ _ hp)) off hoff

theorem with_data_view {S : Nat} {fs : fat_fs_t} (h : fcache_wf S fs) {j b : Nat}
    (hj : j < fs.fcache_size) (hv : (fs.mem (fs.fcache j)).flags ≠ 0)
    (hb : (fs.mem (fs.fcache j)).block = b) (d : Nat → Nat) (b' off : Nat) :
    fat_view (with_data fs (fs.fcache j) d) b' off =
      if b' = b then ld8 d off else fat_view fs b' off := by
  have h' := with_data_wf h (fs.fcache j) d
  by_cases hbb : b' = b
  · rw [if_pos hbb, hbb]
    have := fat_view_of_record h' (j := j) (b := b) hj
      (by rw [(with_data_flags _ _ _ _).1]; exact hv)
      (by rw [(with_data_flags _ _ _ _).2]; exact hb) off
    rw [this]
    show ld8 ((with_data fs (fs.fcache j) d).mem (fs.fcache j)).data off = _
    rw [with_data_data_self]
  · rw [if_neg hbb]
    unfold fat_view
    rw [show (with_data fs (fs.fcache j) d).fcache_size = fs.fcache_size from rfl,
      @fcache_scan_congr fs (with_data fs (fs.fcache j) d) rfl
        (with_data_flags fs _ d)]
    cases hs : fcache_scan fs b' fs.fcache_size with
    | none => rfl
    | some i =>
      obtain ⟨hi, hib, hiv⟩ := fcache_scan_some hs
      have hne : fs.fcache i ≠ fs.fcache j := by
        intro e
        rw [e] at hib
        exact hbb (hib.symm.trans hb)
      show ld8 ((with_data fs (fs.fcache j) d).mem (fs.fcache i)).data off = _
      rw [with_data_data_ne fs d hne]

theorem with_data_twice (fs : fat_fs_t) (p : Nat) (d1 d2 : Nat → Nat) :
    with_data (with_data fs p d1) p d2 = with_data fs p d2 := by
  unfold with_data
  congr 1
  funext q
  simp only [mem_set]
  split <;> rfl

theorem poke_eq (fs : fat_fs_t) (p off v : Nat) :
    poke fs p off v = with_data fs p (st8 (fs.mem p).data off v) := rfl

theorem peek_with_data (fs : fat_fs_t) (p : Nat) (d : Nat → Nat) (off : Nat) :
    peek (with_data fs p d) p off = ld8 d off := by
  unfold peek
  rw [with_data_data_self]

theorem ld8_st8 (d : Nat → Nat) (o v k : Nat) :
    ld8 (st8 d o v) k = if k = o then v % 256 else ld8 d k := by
  unfold ld8 st8
  split
  · exact Nat.mod_mod _ _
  · rfl

/-! ### States with the same valid records -/

theorem fcache_scan_congr_valid {fs fs' : fat_fs_t} (hc : fs'.fcache = fs.fcache)
    (hm : ∀ q, ((fs'.mem q).flags ≠ 0 ↔ (fs.mem q).flags ≠ 0) ∧
      (fs'.mem q).block = (fs.mem q).block)
    (b n : Nat) : fcache_scan fs' b n = fcache_scan fs b n := by
  induction n with
  | zero => rfl
  | succ n ih =>
    simp only [fcache_scan, hc, (hm _).2, ih]
    by_cases hv : (fs.mem (fs.fcache n)).flags ≠ 0
    · rw [if_congr (and_congr_right fun _ => (hm (fs.fcache n)).1) rfl rfl]
    · rw [if_congr (and_congr_right fun _ => (hm (fs.fcache n)).1) rfl rfl]

theorem wf_congr {S : Nat} {fs fs' : fat_fs_t} (h : fcache_wf S fs) (hf : fs_frame fs fs')
    (hc : fs'.fcache = fs.fcache)
    (hm : ∀ q, ((fs'.mem q).flags ≠ 0 ↔ (fs.mem q).flags ≠ 0) ∧
      (fs'.mem q).block = (fs.mem q).block) : fcache_wf S fs' where
  bps := by rw [hf.sb]; exact h.bps
  lbs := by rw [hf.lbs]; exact h.lbs
  lbs_rng := by rw [hf.lbs]; exact h.lbs_rng
  fat_size_lt := by rw [hf.sb]; exact h.fat_size_lt
  reserved_lt := by rw [hf.sb]; exact h.reserved_lt
  size_ge := by rw [hf.cache_size]; exact h.size_ge
  size_le := by rw [hf.cache_size, hf.fcache_size]; exact h.size_le
  inj := by
    intro i j hi hj e
    rw [hf.fcache_size] at hi hj
    rw [hc] at e
    exact h.inj i j hi hj e
  uniq := by
    intro i j hi hj hvi hvj hb
    rw [hf.fcache_size] at hi hj
    rw [hc] at hvi hvj hb
    rw [(hm _).2, (hm _).2] at hb
    exact h.uniq i j hi hj ((hm _).1.mp hvi) ((hm _).1.mp hvj) hb
  bound := by
    intro i hi hv
    rw [hf.fcache_size] at hi
    rw [hc] at hv ⊢
    rw [(hm _).2, hf.sb]
    exact h.bound i hi ((hm _).1.mp hv)

theorem view_congr {fs fs' : fat_fs_t} (hf : fs_frame fs fs') (hc : fs'.fcache = fs.fcache)
    (hm : ∀ q, ((fs'.mem q).flags ≠ 0 ↔ (fs.mem q).flags ≠ 0) ∧
      (fs'.mem q).block = (fs.mem q).block)
    (hd : ∀ q, (fs'.mem q).data = (fs.mem q).data)
    (hdev : fs'.dev.dev_data = fs.dev.dev_data) (b off : Nat) :
    fat_view fs' b off = fat_view fs b off := by
  unfold fat_view
  rw [hf.fcache_size, fcache_scan_congr_valid hc hm, hc, hdev]
  cases fcache_scan fs b fs.fcache_size with
  | none => rfl
  | some i => simp only [hd]

/-! ### `fat_fatblock_mark_dirty` -/

theorem or_dirty_and (x : Nat) : (x ||| 2) &&& 2 ≠ 0 := by
  have h : (x ||| 2) &&& 2 = 2 := by
    apply Nat.eq_of_testBit_eq
    intro i
    simp only [Nat.testBit_and, Nat.testBit_or]
    cases Nat.testBit x i <;> cases Nat.testBit 2 i <;> rfl
  rw [h]; decide

theorem or_dirty_ne_zero (x : Nat) : x ||| 2 ≠ 0 := by
  intro h
  have := or_dirty_and x
  rw [h] at this
  exact this (by decide)

theorem mark_dirty_eq {S : Nat} {fs : fat_fs_t} (h : fcache_wf S fs) {j b : Nat}
    (hj : j < fs.fcache_size) (hv : (fs.mem (fs.fcache j)).flags ≠ 0)
    (hb : (fs.mem (fs.fcache j)).block = b) :
    fat_fatblock_mark_dirty fs b =
      (0, { fs with
            mem := mem_set fs.mem (fs.fcache j)
              { fs.mem (fs.fcache j) with
                flags := (fs.mem (fs.fcache j)).flags ||| FAT_CACHE_FLAG_DIRTY }
            fcache := make_mru fs fs.fcache j }) := by
  unfold fat_fatblock_mark_dirty
  rw [fcache_scan_of_record h.uniq hj hv hb]

theorem mark_dirty_spec {S : Nat} {fs : fat_fs_t} {P : Nat → Prop} (h : fcache_wf S fs)
    (hc : fcache_clean S fs P) {j b : Nat}
    (hj : j < fs.fcache_size) (hv : (fs.mem (fs.fcache j)).flags ≠ 0)
    (hb : (fs.mem (fs.fcache j)).block = b) :
    fcache_wf S (fat_fatblock_mark_dirty fs b).2 ∧
    fcache_clean S (fat_fatblock_mark_dirty fs b).2 (fun q => P q ∧ q ≠ fs.fcache j) ∧
    fs_frame fs (fat_fatblock_mark_dirty fs b).2 ∧
    (∀ b' off, fat_view (fat_fatblock_mark_dirty fs b).2 b' off = fat_view fs b' off) ∧
    (∀ q, ((fat_fatblock_mark_dirty fs b).2.mem q).data = (fs.mem q).data ∧
      ((fat_fatblock_mark_dirty fs b).2.mem q).block = (fs.mem q).block ∧
      (((fat_fatblock_mark_dirty fs b).2.mem q).flags ≠ 0 ↔ (fs.mem q).flags ≠ 0)) ∧
    (∀ i, i < fs.fcache_size →
      ∃ k, k < fs.fcache_size ∧ (fat_fatblock_mark_dirty fs b).2.fcache k = fs.fcache i) := by
  rw [mark_dirty_eq h hj hv hb]
  -- the state after setting the flag, before the reordering
  let fsD : fat_fs_t :=
    { fs with
      mem := mem_set fs.mem (fs.fcache j)
        { fs.mem (fs.fcache j) with
          flags := (fs.mem (fs.fcache j)).flags ||| FAT_CACHE_FLAG_DIRTY } }
  have hmem : ∀ q, (fsD.mem q).data = (fs.mem q).data ∧ (fsD.mem q).block = (fs.mem q).block ∧
      ((fsD.mem q).flags ≠ 0 ↔ (fs.mem q).flags ≠ 0) := by
    intro q
    show (mem_set _ _ _ q).data = _ ∧ (mem_set _ _ _ q).block = _ ∧ ((mem_set _ _ _ q).flags ≠ 0 ↔ _)
    unfold mem_set
    by_cases hq : q = fs.fcache j
    · rw [if_pos hq, hq]
      exact ⟨rfl, rfl, ⟨fun _ => hv, fun _ => or_dirty_ne_zero _⟩⟩
    · rw [if_neg hq]
      exact ⟨rfl, rfl, Iff.rfl⟩
  have hfD : fs_frame fs fsD := ⟨rfl, rfl, rfl, rfl, rfl, rfl, rfl⟩
  have hwfD : fcache_wf S fsD := wf_congr h hfD rfl (fun q => ⟨(hmem q).2.2, (hmem q).2.1⟩)
  have hcD : fcache_clean S fsD (fun q => P q ∧ q ≠ fs.fcache j) := by
    intro i hi hvi hdi hP off hoff
    by_cases hq : fs.fcache i = fs.fcache j
    · exfalso
      have e : fsD.mem (fsD.fcache i) =
          { fs.mem (fs.fcache j) with
            flags := (fs.mem (fs.fcache j)).flags ||| FAT_CACHE_FLAG_DIRTY } := by
        show mem_set _ _ _ (fs.fcache i) = _
        unfold mem_set; rw [if_pos hq]
      rw [e] at hdi
      exact or_dirty_and _ hdi
    · have e : fsD.mem (fsD.fcache i) = fs.mem (fs.fcache i) := by
        show mem_set _ _ _ (fs.fcache i) = _
        unfold mem_set; rw [if_neg hq]
      rw [e] at hvi hdi ⊢
      exact hc i hi hvi hdi (fun hp => hP ⟨hp, hq⟩) off hoff
  have hvD : ∀ b' off, fat_view fsD b' off = fat_view fs b' off :=
    view_congr hfD rfl (fun q => ⟨(hmem q).2.2, (hmem q).2.1⟩) (fun q => (hmem q).1) rfl
  obtain ⟨hsrc, hsurj, hinj, -⟩ := make_mru_src fsD fs hwfD rfl (k := j) hj
  refine ⟨reorder_wf hwfD _ hsrc hinj, reorder_clean hcD _ hsrc,
    ⟨rfl, rfl, rfl, rfl, rfl, rfl, rfl⟩, ?_, hmem, hsurj⟩
  intro b' off
  rw [← hvD b' off]
  exact reorder_view hwfD _ hsrc hsurj hinj b' off

/-! ### The raw sector reader and writer -/

theorem dirty_valid {x : Nat} (h : x &&& FAT_CACHE_FLAG_DIRTY ≠ 0) : x ≠ 0 := by
  intro e
  rw [e] at h
  exact h (Nat.zero_and _)

theorem write_nc_ok {fs : fat_fs_t} {bn : Nat} {blk : Nat → Nat}
    (h : (fat_fatblock_write_nc fs bn blk).1 = 0) :
    bn < fs.sb.fat_size ∧
    (fat_fatblock_write_nc fs bn blk).2.l_block_size = fs.dev.l_block_size ∧
    (fat_fatblock_write_nc fs bn blk).2.read_rc = fs.dev.read_rc ∧
    (fat_fatblock_write_nc fs bn blk).2.write_rc = fs.dev.write_rc ∧
    ∀ b off, (fat_fatblock_write_nc fs bn blk).2.dev_data b off =
      if b = bn ∧ off < 2 ^ fs.dev.l_block_size then blk off else fs.dev.dev_data b off := by
  unfold fat_fatblock_write_nc at h ⊢
  by_cases h1 : fs.sb.fat_size ≤ bn
  · rw [if_pos h1] at h; simp [EINVAL] at h
  · rw [if_neg h1] at h ⊢
    by_cases h2 : (write_blocks fs.dev bn 1 blk).1 ≠ 0
    · rw [if_pos h2] at h; simp [ EIO] at h
    · rw [if_neg h2]
      unfold write_blocks at h2 ⊢
      by_cases h3 : fs.dev.write_rc bn 1 = 0
      · rw [if_pos h3]
        refine ⟨by omega, rfl, rfl, rfl, ?_⟩
        intro b off
        show (if bn ≤ b ∧ b < bn + 1 ∧ off < 2 ^ fs.dev.l_block_size then
          blk ((b - bn) * 2 ^ fs.dev.l_block_size + off) else fs.dev.dev_data b off) = _
        by_cases hb : b = bn ∧ off < 2 ^ fs.dev.l_block_size
        · rw [if_pos hb, if_pos ⟨by omega, by omega, hb.2⟩, hb.1]
          simp
        · rw [if_neg hb, if_neg (by
            intro hh; exact hb ⟨by omega, hh.2.2⟩)]
      · rw [if_neg h3] at h2
        exact absurd h3 (by simpa using h2)

theorem read_nc_ok {fs : fat_fs_t} {bn : Nat} {rv : Nat → Nat}
    (h : (fat_fatblock_read_nc fs bn rv).1 = 0) :
    bn < fs.sb.fat_size ∧
    ∀ off, off < 2 ^ fs.dev.l_block_size →
      (fat_fatblock_read_nc fs bn rv).2 off = fs.dev.dev_data bn off := by
  unfold fat_fatblock_read_nc at h ⊢
  by_cases h1 : fs.sb.fat_size ≤ bn
  · rw [if_pos h1] at h; simp [EINVAL] at h
  · rw [if_neg h1] at h ⊢
    by_cases h2 : (read_blocks fs.dev bn 1 rv).1 ≠ 0
    · rw [if_pos h2] at h; simp [ EIO] at h
    · rw [if_neg h2]
      unfold read_blocks at h2 ⊢
      by_cases h3 : fs.dev.read_rc bn 1 = 0
      · rw [if_pos h3]
        refine ⟨by omega, ?_⟩
        intro off hoff
        show (if off < 1 * 2 ^ fs.dev.l_block_size then
          fs.dev.dev_data (bn + off / 2 ^ fs.dev.l_block_size) (off % 2 ^ fs.dev.l_block_size)
          else rv off) = _
        rw [if_pos (by omega), Nat.div_eq_of_lt hoff, Nat.mod_eq_of_lt hoff, Nat.add_zero]
      · rw [if_neg h3] at h2
        exact absurd h3 (by simpa using h2)

theorem read_nc_progress {fs : fat_fs_t} {bn : Nat} (rv : Nat → Nat)
    (hb : bn < fs.sb.fat_size) (hd : dev_ok fs) :
    (fat_fatblock_read_nc fs bn rv).1 = 0 := by
  unfold fat_fatblock_read_nc read_blocks
  rw [if_neg (by omega), if_pos (hd bn 1).1]
  simp

theorem write_nc_progress {fs : fat_fs_t} {bn : Nat} (blk : Nat → Nat)
    (hb : bn < fs.sb.fat_size) (hd : dev_ok fs) :
    (fat_fatblock_write_nc fs bn blk).1 = 0 := by
  unfold fat_fatblock_write_nc write_blocks
  rw [if_neg (by omega), if_pos (hd bn 1).2]
  simp

/-! ### Eviction -/

theorem evict_writeback_ok {S : Nat} {fs : fat_fs_t} (h : fcache_inv S fs)
    (hw : (evict_writeback fs).1 = 0) :
    fcache_inv S (evict_writeback fs).2 ∧ fs_frame fs (evict_writeback fs).2 ∧
    (evict_writeback fs).2.mem = fs.mem ∧ (evict_writeback fs).2.fcache = fs.fcache ∧
    (∀ b off, off < S → fat_view (evict_writeback fs).2 b off = fat_view fs b off) ∧
    ((fs.mem (fs.fcache 0)).flags ≠ 0 → ∀ off, off < S →
      ld8 (fs.mem (fs.fcache 0)).data off =
        ld8 ((evict_writeback fs).2.dev.dev_data (fs.mem (fs.fcache 0)).block) off) := by
  have h0 : 0 < fs.fcache_size := by have := h.1.size_ge; have := h.1.size_le; omega
  unfold evict_writeback at hw ⊢
  by_cases hd : (fs.mem (fs.fcache 0)).flags &&& FAT_CACHE_FLAG_DIRTY ≠ 0
  · rw [if_pos hd] at hw ⊢
    obtain ⟨hacc, hl, hr, hwr, hdata⟩ := write_nc_ok hw
    rw [h.1.lbs] at hdata
    have hv0 := dirty_valid hd
    set fs1 : fat_fs_t := { fs with dev := (fat_fatblock_write_nc fs (fs.mem (fs.fcache 0)).block
        (fs.mem (fs.fcache 0)).data).2 } with hfs1
    have hf : fs_frame fs fs1 := ⟨rfl, rfl, rfl, rfl, hl, hr, hwr⟩
    have hwf : fcache_wf S fs1 := wf_congr h.1 hf rfl (fun q => ⟨Iff.rfl, rfl⟩)
    have hother : ∀ i, i < fs.fcache_size → (fs.mem (fs.fcache i)).flags ≠ 0 → i ≠ 0 →
        ∀ off, fs1.dev.dev_data (fs.mem (fs.fcache i)).block off =
          fs.dev.dev_data (fs.mem (fs.fcache i)).block off := by
      intro i hi hvi hne off
      show (fat_fatblock_write_nc fs _ _).2.dev_data _ _ = _
      rw [hdata, if_neg]
      intro hh
      exact hne (h.1.uniq i 0 hi h0 hvi hv0 hh.1)
    refine ⟨⟨hwf, ?_⟩, hf, rfl, rfl, ?_, ?_⟩
    · intro i hi hvi hdi _ off hoff
      have hne : i ≠ 0 := by
        intro e; rw [e] at hdi; exact hd hdi
      show ld8 (fs.mem (fs.fcache i)).data off = ld8 (fs1.dev.dev_data _) off
      unfold ld8
      rw [hother i hi hvi hne off]
      exact h.2 i hi hvi hdi (fun hf => hf) off hoff
    · intro b off hoff
      cases hs : fcache_scan fs b fs.fcache_size with
      | some i =>
        obtain ⟨hi, hib, hiv⟩ := fcache_scan_some hs
        rw [fat_view_of_record h.1 hi hiv hib, fat_view_of_record hwf (j := i) hi hiv hib]
      | none =>
        have hm := fcache_scan_none hs
        rw [fat_view_of_miss hm, @fat_view_of_miss fs1 _ hm]
        unfold ld8
        show (fat_fatblock_write_nc fs _ _).2.dev_data _ _ % 256 = _
        rw [hdata, if_neg]
        intro hh
        exact hm 0 h0 ⟨hh.1.symm, hv0⟩
    · intro _ off hoff
      unfold ld8
      show _ = (fat_fatblock_write_nc fs _ _).2.dev_data _ _ % 256
      rw [hdata, if_pos ⟨rfl, by omega⟩]
  · rw [if_neg hd]
    refine ⟨h, fs_frame_refl fs, rfl, rfl, fun _ _ _ => rfl, ?_⟩
    intro hv off hoff
    exact h.2 0 h0 hv (by simpa using hd) (fun hf => hf) off hoff

/-! ### Filling slot 0 -/

theorem flag_valid_clean : FAT_CACHE_FLAG_VALID ≠ 0 ∧
    FAT_CACHE_FLAG_VALID &&& FAT_CACHE_FLAG_DIRTY = 0 := by decide

theorem fcache_fill_ok {S : Nat} {fs : fat_fs_t} {b : Nat} {err : Int} {p : Nat} {e : Int}
    {fs' : fat_fs_t} (h : fcache_inv S fs)
    (hmiss : fcache_scan fs b fs.fcache_size = none)
    (hagree : (fs.mem (fs.fcache 0)).flags ≠ 0 → ∀ off, off < S →
      ld8 (fs.mem (fs.fcache 0)).data off =
        ld8 (fs.dev.dev_data (fs.mem (fs.fcache 0)).block) off)
    (hr : fcache_fill fs b err = (some p, e, fs')) :
    rb_post S fs b p fs' ∧ e = err := by
  have h0 : 0 < fs.fcache_size := by have := h.1.size_ge; have := h.1.size_le; omega
  have hm := fcache_scan_none hmiss
  unfold fcache_fill at hr
  by_cases hrd : (fat_fatblock_read_nc fs b (fs.mem (fs.fcache 0)).data).1 ≠ 0
  · rw [if_pos hrd] at hr; simp at hr
  · rw [if_neg hrd] at hr
    simp only [Prod.mk.injEq, Option.some.injEq] at hr
    obtain ⟨hp, he, hfs⟩ := hr
    obtain ⟨hacc, hdata⟩ := read_nc_ok (not_not.mp hrd)
    rw [h.1.lbs] at hdata
    generalize (fat_fatblock_read_nc fs b (fs.mem (fs.fcache 0)).data).2 = d at hdata hfs
    -- the state after the fill, before the reordering
    set fsF : fat_fs_t :=
      { fs with
        mem := mem_set fs.mem (fs.fcache 0)
          { flags := FAT_CACHE_FLAG_VALID, block := b, data := d } } with hfsF
    have hF0 : fsF.mem (fs.fcache 0) = { flags := FAT_CACHE_FLAG_VALID, block := b, data := d } := by
      show mem_set _ _ _ _ = _
      unfold mem_set; rw [if_pos rfl]
    have hFne : ∀ q, q ≠ fs.fcache 0 → fsF.mem q = fs.mem q := by
      intro q hq
      show mem_set _ _ _ _ = _
      unfold mem_set; rw [if_neg hq]
    have hidx : ∀ i, i < fs.fcache_size → i ≠ 0 → fs.fcache i ≠ fs.fcache 0 :=
      fun i hi hne e => hne (h.1.inj i 0 hi h0 e)
    have hfF : fs_frame fs fsF := ⟨rfl, rfl, rfl, rfl, rfl, rfl, rfl⟩
    -- a valid record of the new state other than slot 0 is an old valid record
    have hold : ∀ i, i < fs.fcache_size → i ≠ 0 → fsF.mem (fs.fcache i) = fs.mem (fs.fcache i) :=
      fun i hi hne => hFne _ (hidx i hi hne)
    have hwfF : fcache_wf S fsF := by
      refine ⟨h.1.bps, h.1.lbs, h.1.lbs_rng, h.1.fat_size_lt, h.1.reserved_lt, h.1.size_ge, h.1.size_le, h.1.inj, ?_, ?_⟩
      · intro i j hi hj hvi hvj hb
        show i = j
        change (fsF.mem (fs.fcache i)).flags ≠ 0 at hvi
        change (fsF.mem (fs.fcache j)).flags ≠ 0 at hvj
        change (fsF.mem (fs.fcache i)).block = (fsF.mem (fs.fcache j)).block at hb
        by_cases hi0 : i = 0 <;> by_cases hj0 : j = 0
        · omega
        · exfalso
          rw [hi0, hF0] at hb
          rw [hold j hj hj0] at hvj hb
          exact hm j hj ⟨hb.symm, hvj⟩
        · exfalso
          rw [hj0, hF0] at hb
          rw [hold i hi hi0] at hvi hb
          exact hm i hi ⟨hb, hvi⟩
        · rw [hold i hi hi0] at hvi hb
          rw [hold j hj hj0] at hvj hb
          exact h.1.uniq i j hi hj hvi hvj hb
      · intro i hi hvi
        change (fsF.mem (fs.fcache i)).flags ≠ 0 at hvi
        show (fsF.mem (fs.fcache i)).block < fs.sb.fat_size
        by_cases hi0 : i = 0
        · rw [hi0, hF0]; exact hacc
        · rw [hold i hi hi0] at hvi ⊢
          exact h.1.bound i hi hvi
    have hcF : fcache_clean S fsF (fun _ => False) := by
      intro i hi hvi hdi _ off hoff
      change (fsF.mem (fs.fcache i)).flags ≠ 0 at hvi
      change (fsF.mem (fs.fcache i)).flags &&& FAT_CACHE_FLAG_DIRTY = 0 at hdi
      show ld8 (fsF.mem (fs.fcache i)).data off =
        ld8 (fs.dev.dev_data (fsF.mem (fs.fcache i)).block) off
      by_cases hi0 : i = 0
      · rw [hi0, hF0]
        show ld8 d off = ld8 (fs.dev.dev_data b) off
        unfold ld8
        rw [hdata off hoff]
      · rw [hold i hi hi0] at hvi hdi ⊢
        exact h.2 i hi hvi hdi (fun hf => hf) off hoff
    have hvF : ∀ b' off, off < S → fat_view fsF b' off = fat_view fs b' off := by
      intro b' off hoff
      by_cases hbb : b' = b
      · rw [hbb, fat_view_of_miss hm,
          fat_view_of_record hwfF (j := 0) (b := b) h0 (by
            show (fsF.mem (fs.fcache 0)).flags ≠ 0
            rw [hF0]; exact flag_valid_clean.1) (by
            show (fsF.mem (fs.fcache 0)).block = b
            rw [hF0])]
        show ld8 (fsF.mem (fs.fcache 0)).data off = _
        rw [hF0]
        show ld8 d off = ld8 (fs.dev.dev_data b) off
        unfold ld8
        rw [hdata off hoff]
      · -- a sector other than `b`
        have hmissF : (∀ i, i < fs.fcache_size → i ≠ 0 →
            ¬ ((fs.mem (fs.fcache i)).block = b' ∧ (fs.mem (fs.fcache i)).flags ≠ 0)) →
            fat_view fsF b' off = ld8 (fs.dev.dev_data b') off := by
          intro hno
          apply @fat_view_of_miss fsF
          intro i hi
          change ¬ ((fsF.mem (fs.fcache i)).block = b' ∧ (fsF.mem (fs.fcache i)).flags ≠ 0)
          by_cases hi0 : i = 0
          · rw [hi0, hF0]
            exact fun hh => hbb hh.1.symm
          · rw [hold i hi hi0]
            exact hno i hi hi0
        cases hs : fcache_scan fs b' fs.fcache_size with
        | some i =>
          obtain ⟨hi, hib, hiv⟩ := fcache_scan_some hs
          rw [fat_view_of_record h.1 hi hiv hib]
          by_cases hi0 : i = 0
          · rw [hi0] at hib hiv ⊢
            rw [hmissF (fun k hk hk0 hh => hk0 (by
              have := h.1.uniq k 0 hk h0 hh.2 hiv (hh.1.trans hib.symm)
              exact this)), hagree hiv off hoff, hib]
          · rw [fat_view_of_record hwfF (j := i) (b := b') hi (by
              show (fsF.mem (fs.fcache i)).flags ≠ 0
              rw [hold i hi hi0]; exact hiv) (by
              show (fsF.mem (fs.fcache i)).block = b'
              rw [hold i hi hi0]; exact hib)]
            show ld8 (fsF.mem (fs.fcache i)).data off = _
            rw [hold i hi hi0]
        | none =>
          have hm' := fcache_scan_none hs
          rw [fat_view_of_miss hm', hmissF (fun k hk _ => hm' k hk)]
    obtain ⟨hsrc, hsurj, hinj, hpos⟩ := make_mru_src fsF fs hwfF rfl (k := 0) h0
    have hfs' : fs' = { fsF with fcache := make_mru fs fsF.fcache 0 } := hfs.symm
    subst hfs'
    subst hp
    refine ⟨⟨⟨reorder_wf hwfF _ hsrc hinj, reorder_clean hcF _ hsrc⟩,
      ⟨rfl, rfl, rfl, rfl, rfl, rfl, rfl⟩, hacc, ?_, hpos, ?_, ?_, hFne, hsurj⟩, he.symm⟩
    · intro b' off hoff
      rw [← hvF b' off hoff]
      exact reorder_view hwfF _ hsrc hsurj hinj b' off
    · show (fsF.mem (fs.fcache 0)).block = b
      rw [hF0]
    · show (fsF.mem (fs.fcache 0)).flags ≠ 0
      rw [hF0]; exact flag_valid_clean.1

/-! ### `fat_read_fatblock` -/

theorem fat_read_fatblock_spec {S : Nat} {fs : fat_fs_t} {b : Nat} {err : Int} {p : Nat} {e : Int}
    {fs' : fat_fs_t} (h : fcache_inv S fs)
    (hr : fat_read_fatblock fs b err = (some p, e, fs')) :
    rb_post S fs b p fs' ∧ e = err := by
  unfold fat_read_fatblock at hr
  cases hs : fcache_scan fs b fs.fcache_size with
  | some i =>
    rw [hs] at hr
    simp only [Prod.mk.injEq, Option.some.injEq] at hr
    obtain ⟨hp, he, hfs⟩ := hr
    obtain ⟨hi, hib, hiv⟩ := fcache_scan_some hs
    obtain ⟨hsrc, hsurj, hinj, hpos⟩ := make_mru_src fs fs h.1 rfl (k := i) hi
    subst hfs; subst hp
    refine ⟨⟨⟨reorder_wf h.1 _ hsrc hinj, reorder_clean h.2 _ hsrc⟩,
      ⟨rfl, rfl, rfl, rfl, rfl, rfl, rfl⟩, ?_, ?_, hpos, hib, hiv, fun _ _ => rfl, hsurj⟩,
      he.symm⟩
    · rw [← hib]; exact h.1.bound i hi hiv
    · intro b' off _
      exact reorder_view h.1 _ hsrc hsurj hinj b' off
  | none =>
    rw [hs] at hr
    simp only at hr
    by_cases hw : (evict_writeback fs).1 ≠ 0
    · rw [if_pos hw] at hr; simp at hr
    · rw [if_neg hw] at hr
      obtain ⟨hinv1, hf1, hmem1, hfc1, hview1, hagree1⟩ :=
        evict_writeback_ok h (not_not.mp hw)
      have hmiss1 : fcache_scan (evict_writeback fs).2 b (evict_writeback fs).2.fcache_size
          = none := by
        rw [hf1.fcache_size, fcache_scan_congr hfc1 (fun q => by rw [hmem1]; exact ⟨rfl, rfl⟩), hs]
      obtain ⟨hpost, he⟩ := fcache_fill_ok hinv1 hmiss1 (by
        rw [hmem1, hfc1]; exact hagree1) hr
      refine ⟨⟨hpost.inv, fs_frame_trans hf1 hpost.frame, ?_, ?_, hpost.pos, hpost.blk,
        hpost.valid, ?_, ?_⟩, he⟩
      · have := hpost.acc; rwa [hf1.sb] at this
      · intro b' off hoff
        rw [hpost.view b' off hoff, hview1 b' off hoff]
      · intro q hq
        rw [hpost.mem_frame q (by rw [hfc1]; exact hq), hmem1]
      · intro i hi
        obtain ⟨k, hk, ek⟩ := hpost.ptrs i (by rw [hf1.fcache_size]; exact hi)
        exact ⟨k, by rw [hf1.fcache_size] at hk; exact hk, by rw [ek, hfc1]⟩

theorem fat_read_fatblock_hit {S : Nat} {fs : fat_fs_t} (h : fcache_wf S fs) {j b : Nat}
    (hj : j < fs.fcache_size) (hv : (fs.mem (fs.fcache j)).flags ≠ 0)
    (hb : (fs.mem (fs.fcache j)).block = b) (err : Int) :
    fat_read_fatblock fs b err =
      (some (fs.fcache j), err, { fs with fcache := make_mru fs fs.fcache j }) := by
  unfold fat_read_fatblock
  rw [fcache_scan_of_record h.uniq hj hv hb]

theorem fat_read_fatblock_progress {S : Nat} {fs : fat_fs_t} (h : fcache_inv S fs) (hd : dev_ok fs)
    {b : Nat} (hb : b < fs.sb.fat_size) (err : Int) :
    ∃ p fs', fat_read_fatblock fs b err = (some p, err, fs') := by
  have h0 : 0 < fs.fcache_size := by have := h.1.size_ge; have := h.1.size_le; omega
  unfold fat_read_fatblock
  cases hs : fcache_scan fs b fs.fcache_size with
  | some i => exact ⟨_, _, rfl⟩
  | none =>
    simp only
    have hw : (evict_writeback fs).1 = 0 := by
      unfold evict_writeback
      by_cases hdirty : (fs.mem (fs.fcache 0)).flags &&& FAT_CACHE_FLAG_DIRTY ≠ 0
      · rw [if_pos hdirty]
        exact write_nc_progress _ (h.1.bound 0 h0 (dirty_valid hdirty)) hd
      · rw [if_neg hdirty]
    obtain ⟨-, hf1, -, -, -, -⟩ := evict_writeback_ok h hw
    rw [if_neg (by rw [hw]; simp)]
    unfold fcache_fill
    rw [if_neg (by
      rw [read_nc_progress _ (by rw [hf1.sb]; exact hb) (dev_ok_of_frame hf1 hd)]; simp)]
    exact ⟨_, _, rfl⟩

theorem fat_read_fatblock_err (fs : fat_fs_t) (b : Nat) (e1 e2 : Int) :
    (fat_read_fatblock fs b e1).1 = (fat_read_fatblock fs b e2).1 ∧
    (fat_read_fatblock fs b e1).2.2 = (fat_read_fatblock fs b e2).2.2 := by
  unfold fat_read_fatblock
  cases fcache_scan fs b fs.fcache_size with
  | some i => exact ⟨rfl, rfl⟩
  | none =>
    simp only
    by_cases hw : (evict_writeback fs).1 ≠ 0
    · rw [if_pos hw, if_pos hw]; exact ⟨rfl, rfl⟩
    · rw [if_neg hw, if_neg hw]
      unfold fcache_fill
      split <;> exact ⟨rfl, rfl⟩

/-- The bytes of the returned buffer are those of the sector as seen before the call. -/
theorem rb_post_peek {S : Nat} {fs : fat_fs_t} {b p : Nat} {fs' : fat_fs_t} (h : rb_post S fs b p fs')
    {off : Nat} (hoff : off < S) : peek fs' p off = fat_view fs b off := by
  obtain ⟨j, -, hj, ej⟩ := h.pos
  have := fat_view_of_record h.inv.1 (j := j) (b := b) hj (by rw [ej]; exact h.valid)
    (by rw [ej]; exact h.blk) off
  rw [← h.view b off hoff, this, ej]
  rfl

/-! ### Reading an entry -/

theorem u32_id {x : Nat} (h : x < 2 ^ 32) : u32 x = x := Nat.mod_eq_of_lt h

theorem fat_view_lt (fs : fat_fs_t) (b off : Nat) : fat_view fs b off < 256 := by
  unfold fat_view
  cases fcache_scan fs b fs.fcache_size <;> exact ld8_lt _ _

theorem fat_byte_lt (fs : fat_fs_t) (k : Nat) : fat_byte fs k < 256 := fat_view_lt _ _ _

/-- Byte `k` of the FAT in terms of its sector `b` and offset `o`. -/
theorem fat_byte_at (fs : fat_fs_t) {k b o : Nat}
    (hb : b = fs.sb.reserved_sectors + k / fs.sb.bytes_per_sector)
    (ho : o = k % fs.sb.bytes_per_sector) : fat_view fs b o = fat_byte fs k := by
  rw [hb, ho]; rfl

/-- Byte `o + i` of the FAT, when it lies in the sector of byte `o`. -/
theorem fat_byte_in (fs : fat_fs_t) {o i : Nat}
    (h : o % fs.sb.bytes_per_sector + i < fs.sb.bytes_per_sector) :
    fat_view fs (fs.sb.reserved_sectors + o / fs.sb.bytes_per_sector)
      (o % fs.sb.bytes_per_sector + i) = fat_byte fs (o + i) := by
  obtain ⟨hd, hm⟩ := sec_add h
  exact fat_byte_at fs (by rw [hd]) (by rw [hm])

theorem off32 (N : Nat) : u32 (N <<< 2) < 2 ^ 32 ∧ u32 (N <<< 2) % 4 = 0 := by
  rw [Nat.shiftLeft_eq]; unfold u32; omega

theorem off16 (N : Nat) : u32 (N <<< 1) < 2 ^ 32 ∧ u32 (N <<< 1) % 2 = 0 := by
  rw [Nat.shiftLeft_eq]; unfold u32; omega

theorem off12 (N : Nat) : u32 ((N >>> 1) + N) < 2 ^ 32 := Nat.mod_lt _ (by decide)

theorem fat_read_fat_fat32 {S : Nat} {fs : fat_fs_t} (h : fcache_inv S fs)
    (ht : fs.sb.fs_type = FAT_FS_FAT32)
    {N : Nat} {err : Int} {p : Nat} {e : Int} {fs1 : fat_fs_t}
    (hr : fat_read_fatblock fs
      (fs.sb.reserved_sectors + u32 (N <<< 2) / fs.sb.bytes_per_sector) err
      = (some p, e, fs1)) :
    fat_read_fat fs N err = (fat_entry fs N, err, fs1) := by
  obtain ⟨hp, he⟩ := fat_read_fatblock_spec h hr
  have hres := h.1.reserved_lt
  obtain ⟨hpos, h4, hle, hmask, -⟩ := wf_sector h.1
  have hS := h.1.bps
  subst hS
  obtain ⟨ho, ha⟩ := off32 N
  unfold fat_read_fat fat_entry
  generalize u32 (N <<< 2) = o at *
  have hdiv := sec_div_le o hpos h4
  have hoff := sec_al4 hpos h4 ha
  have e2 : u32 (fs.sb.reserved_sectors + o / fs.sb.bytes_per_sector)
      = fs.sb.reserved_sectors + o / fs.sb.bytes_per_sector := by apply u32_id; omega
  rw [if_pos ht, if_pos ht, e2, hr]
  simp only [hmask]
  rw [rb_post_peek hp (by omega), rb_post_peek hp (by omega), rb_post_peek hp (by omega),
    rb_post_peek hp (by omega)]
  rw [fat_byte_at fs (k := o) rfl rfl, fat_byte_in fs (i := 1) (by omega),
    fat_byte_in fs (i := 2) (by omega), fat_byte_in fs (i := 3) (by omega),
    le32_eq _ _ _ _ (fat_byte_lt _ _) (fat_byte_lt _ _) (fat_byte_lt _ _), he]

theorem fat_read_fat_fat16 {S : Nat} {fs : fat_fs_t} (h : fcache_inv S fs)
    (ht : fs.sb.fs_type = FAT_FS_FAT16)
    {N : Nat} {err : Int} {p : Nat} {e : Int} {fs1 : fat_fs_t}
    (hr : fat_read_fatblock fs
      (fs.sb.reserved_sectors + u32 (N <<< 1) / fs.sb.bytes_per_sector) err
      = (some p, e, fs1)) :
    fat_read_fat fs N err = (fat_entry fs N, err, fs1) := by
  obtain ⟨hp, he⟩ := fat_read_fatblock_spec h hr
  have hres := h.1.reserved_lt
  have ht32 : fs.sb.fs_type ≠ FAT_FS_FAT32 := by rw [ht]; decide
  obtain ⟨hpos, h4, hle, hmask, -⟩ := wf_sector h.1
  have hS := h.1.bps
  subst hS
  obtain ⟨ho, ha⟩ := off16 N
  unfold fat_read_fat fat_entry
  generalize u32 (N <<< 1) = o at *
  have hdiv := sec_div_le o hpos h4
  have hoff := sec_al2 hpos h4 ha
  have e2 : u32 (fs.sb.reserved_sectors + o / fs.sb.bytes_per_sector)
      = fs.sb.reserved_sectors + o / fs.sb.bytes_per_sector := by apply u32_id; omega
  rw [if_neg ht32, if_pos ht, if_neg ht32, if_pos ht, e2, hr]
  simp only [hmask]
  rw [rb_post_peek hp (by omega), rb_post_peek hp (by omega)]
  rw [fat_byte_at fs (k := o) rfl rfl, fat_byte_in fs (i := 1) (by omega),
    le16_eq _ _ (fat_byte_lt _ _), he]

/-- After two successful `fat_read_fatblock` calls for different sectors the first buffer
is still in the cache, untouched, and differs from the second. -/
theorem rb_post_two {S : Nat} {fs fs1 fs2 : fat_fs_t} {b b2 p1 p2 : Nat} (h1 : rb_post S fs b p1 fs1)
    (h2 : rb_post S fs1 b2 p2 fs2) (hne : b2 ≠ b) :
    fs2.mem p1 = fs1.mem p1 ∧ p1 ≠ p2 ∧
    (∃ k, k < fs2.fcache_size ∧ fs2.fcache k = p1) := by
  obtain ⟨j, hj0, hj, ej⟩ := h1.pos
  have h0 : 0 < fs1.fcache_size := by omega
  have hp1 : p1 ≠ fs1.fcache 0 := by
    intro e
    have := h1.inv.1.inj j 0 hj h0 (by rw [ej, e])
    omega
  have hm := h2.mem_frame p1 hp1
  refine ⟨hm, ?_, ?_⟩
  · intro e
    have hb1 := h1.blk
    have hb2 := h2.blk
    rw [← e, hm, hb1] at hb2
    exact hne hb2.symm
  · obtain ⟨k, hk, ek⟩ := h2.ptrs j hj
    exact ⟨k, by rw [h2.frame.fcache_size]; exact hk, by rw [ek, ej]⟩

theorem fat12_type {fs : fat_fs_t} (ht : fs.sb.fs_type = FAT_FS_FAT12) :
    fs.sb.fs_type ≠ FAT_FS_FAT32 ∧ fs.sb.fs_type ≠ FAT_FS_FAT16 := by
  rw [ht]; decide

theorem fat_read_fat_fat12 {S : Nat} {fs : fat_fs_t} (h : fcache_inv S fs)
    (ht : fs.sb.fs_type = FAT_FS_FAT12)
    {N : Nat} (hs : u32 ((N >>> 1) + N) % fs.sb.bytes_per_sector ≠ fs.sb.bytes_per_sector - 1)
    {err : Int} {p : Nat} {e : Int} {fs1 : fat_fs_t}
    (hr : fat_read_fatblock fs
      (fs.sb.reserved_sectors + u32 ((N >>> 1) + N) / fs.sb.bytes_per_sector) err
      = (some p, e, fs1)) :
    fat_read_fat fs N err = (fat_entry fs N, err, fs1) := by
  obtain ⟨hp, he⟩ := fat_read_fatblock_spec h hr
  have hres := h.1.reserved_lt
  obtain ⟨ht32, ht16⟩ := fat12_type ht
  obtain ⟨hpos, h4, hle, hmask, hu16⟩ := wf_sector h.1
  have hS := h.1.bps
  subst hS
  have ho := off12 N
  unfold fat_read_fat fat_entry
  generalize u32 ((N >>> 1) + N) = o at *
  have hdiv := sec_div_le o hpos h4
  have hlt := Nat.mod_lt o hpos
  have e2 : u32 (fs.sb.reserved_sectors + o / fs.sb.bytes_per_sector)
      = fs.sb.reserved_sectors + o / fs.sb.bytes_per_sector := by apply u32_id; omega
  rw [if_neg ht32, if_neg ht16, if_pos ht, if_neg ht32, if_neg ht16, e2, hr]
  simp only [hmask, hu16, Nat.and_one_is_mod]
  rw [if_neg hs, rb_post_peek hp (by omega), rb_post_peek hp (by omega),
    fat_byte_at fs (k := o) rfl rfl, fat_byte_in fs (i := 1) (by omega),
    le16_eq _ _ (fat_byte_lt _ _), he]
  by_cases hodd : N % 2 = 1
  · rw [if_pos (by omega), if_pos (Or.inr hodd)]
  · rw [if_neg (by omega), if_neg (by
      intro hh; rcases hh with hh | hh
      · exact hs hh
      · exact hodd hh)]

theorem fat_read_fat_fat12_span {S : Nat} {fs : fat_fs_t} (h : fcache_inv S fs)
    (ht : fs.sb.fs_type = FAT_FS_FAT12)
    {N : Nat} (hs : u32 ((N >>> 1) + N) % fs.sb.bytes_per_sector = fs.sb.bytes_per_sector - 1)
    {err : Int} {p1 p2 : Nat} {e1 e2 : Int} {fs1 fs2 : fat_fs_t}
    (hr1 : fat_read_fatblock fs
      (fs.sb.reserved_sectors + u32 ((N >>> 1) + N) / fs.sb.bytes_per_sector) err
      = (some p1, e1, fs1))
    (hr2 : fat_read_fatblock fs1
      (fs.sb.reserved_sectors + u32 ((N >>> 1) + N) / fs.sb.bytes_per_sector + 1) e1
      = (some p2, e2, fs2)) :
    fat_read_fat fs N err = (fat_entry fs N, err, fs2) := by
  obtain ⟨hp1, he1⟩ := fat_read_fatblock_spec h hr1
  obtain ⟨hp2, he2⟩ := fat_read_fatblock_spec hp1.inv hr2
  obtain ⟨hm, -, -⟩ := rb_post_two hp1 hp2 (by omega)
  have hres := h.1.reserved_lt
  obtain ⟨ht32, ht16⟩ := fat12_type ht
  obtain ⟨hpos, h4, hle, hmask, hu16⟩ := wf_sector h.1
  have hS := h.1.bps
  subst hS
  have ho := off12 N
  unfold fat_read_fat fat_entry
  generalize u32 ((N >>> 1) + N) = o at *
  have hdiv := sec_div_le o hpos h4
  have hlt := Nat.mod_lt o hpos
  obtain ⟨hnd, hnm⟩ := sec_next hpos hs
  have e2' : u32 (fs.sb.reserved_sectors + o / fs.sb.bytes_per_sector)
      = fs.sb.reserved_sectors + o / fs.sb.bytes_per_sector := by apply u32_id; omega
  have e3' : u32 (fs.sb.reserved_sectors + o / fs.sb.bytes_per_sector + 1)
      = fs.sb.reserved_sectors + o / fs.sb.bytes_per_sector + 1 := by apply u32_id; omega
  rw [if_neg ht32, if_neg ht16, if_pos ht, if_neg ht32, if_neg ht16, e2', hr1]
  simp only [hmask, hu16]
  rw [if_pos hs, e3', hr2]
  simp only
  have hpk1 : peek fs2 p1 (o % fs.sb.bytes_per_sector) = fat_byte fs o := by
    have : peek fs2 p1 (o % fs.sb.bytes_per_sector) = peek fs1 p1 (o % fs.sb.bytes_per_sector) := by
      unfold peek; rw [hm]
    rw [this, rb_post_peek hp1 hlt]
    rfl
  have hpk2 : peek fs2 p2 0 = fat_byte fs (o + 1) := by
    rw [rb_post_peek hp2 hpos, hp1.view _ _ hpos]
    exact fat_byte_at fs (by rw [hnd, Nat.add_assoc]) (by rw [hnm])
  rw [hpk1, hpk2, le16_eq _ _ (fat_byte_lt _ _), if_pos (Or.inl hs), he2, he1]

/-! ### Progress of `fat_read_fatblock` -/

theorem fat_read_fatblock_cached {S : Nat} {fs : fat_fs_t} (h : fcache_inv S fs) {b : Nat}
    (hc : sector_cached fs b) (err : Int) :
    ∃ p fs', fat_read_fatblock fs b err = (some p, err, fs') ∧
      ∀ b', sector_cached fs b' → sector_cached fs' b' := by
  obtain ⟨j, hj, hv, hb⟩ := hc
  refine ⟨_, _, fat_read_fatblock_hit h.1 hj hv hb err, ?_⟩
  intro b' ⟨i, hi, hvi, hbi⟩
  obtain ⟨-, hsurj, -, -⟩ := make_mru_src fs fs h.1 rfl (k := j) hj
  obtain ⟨k, hk, ek⟩ := hsurj i hi
  exact ⟨k, hk, by show (fs.mem (make_mru fs fs.fcache j k)).flags ≠ 0; rw [ek]; exact hvi,
    by show (fs.mem (make_mru fs fs.fcache j k)).block = b'; rw [ek]; exact hbi⟩

theorem fat_read_fatblock_ready {S : Nat} {fs : fat_fs_t} (h : fcache_inv S fs) {b1 b2 : Nat}
    (hr : sectors_ready fs b1 b2) (err : Int) :
    ∃ p1 fs1, fat_read_fatblock fs b1 err = (some p1, err, fs1) ∧
      ∃ p2 fs2, fat_read_fatblock fs1 b2 err = (some p2, err, fs2) := by
  rcases hr with ⟨hd, hb1, hb2⟩ | ⟨hc1, hc2⟩
  · obtain ⟨p1, fs1, h1⟩ := fat_read_fatblock_progress h hd hb1 err
    obtain ⟨hp1, -⟩ := fat_read_fatblock_spec h h1
    obtain ⟨p2, fs2, h2⟩ := fat_read_fatblock_progress hp1.inv (dev_ok_of_frame hp1.frame hd)
      (b := b2) (by rw [hp1.frame.sb]; exact hb2) err
    exact ⟨p1, fs1, h1, p2, fs2, h2⟩
  · obtain ⟨p1, fs1, h1, hk⟩ := fat_read_fatblock_cached h hc1 err
    obtain ⟨hp1, -⟩ := fat_read_fatblock_spec h h1
    obtain ⟨p2, fs2, h2, -⟩ := fat_read_fatblock_cached hp1.inv (hk b2 hc2) err
    exact ⟨p1, fs1, h1, p2, fs2, h2⟩

theorem fat_byte_of_view {S : Nat} {fs fs' : fat_fs_t} (hsb : fs'.sb = fs.sb)
    (hS : fs.sb.bytes_per_sector = S) (hpos : 0 < S)
    (hv : ∀ b off, off < S → fat_view fs' b off = fat_view fs b off) (k : Nat) :
    fat_byte fs' k = fat_byte fs k := by
  unfold fat_byte
  rw [hsb]
  exact hv _ _ (by rw [hS]; exact Nat.mod_lt _ hpos)

theorem fat_entry_congr {fs fs' : fat_fs_t} (hsb : fs'.sb = fs.sb)
    (hb : ∀ k, fat_byte fs' k = fat_byte fs k) (N : Nat) :
    fat_entry fs' N = fat_entry fs N := by
  unfold fat_entry
  simp only [hsb, hb]

/-- Reading an entry whose sectors can be brought into the cache: `fat_read_fat` returns
the decoded value, leaves `*err` alone, and changes neither the invariant nor the FAT
bytes. -/
theorem fat_read_fat_ready {S : Nat} {fs : fat_fs_t} (h : fcache_inv S fs)
    (ht : fat_type_ok fs) {N : Nat} (hr : entry_ready fs N) (err : Int) :
    ∃ fs', fat_read_fat fs N err = (fat_entry fs N, err, fs') ∧ fcache_inv S fs' ∧
      fs_frame fs fs' ∧ (∀ k, fat_byte fs' k = fat_byte fs k) := by
  unfold entry_ready fat_offset fat_last at hr
  obtain ⟨p1, fs1, h1, p2, fs2, h2⟩ := fat_read_fatblock_ready h hr err
  obtain ⟨hp1, -⟩ := fat_read_fatblock_spec h h1
  obtain ⟨hp2, -⟩ := fat_read_fatblock_spec hp1.inv h2
  obtain ⟨hpos, -, -, -, -⟩ := wf_sector h.1
  have hb1 : ∀ k, fat_byte fs1 k = fat_byte fs k :=
    fat_byte_of_view hp1.frame.sb h.1.bps hpos hp1.view
  have hb2 : ∀ k, fat_byte fs2 k = fat_byte fs k := fun k => by
    rw [fat_byte_of_view hp2.frame.sb hp1.inv.1.bps hpos hp2.view, hb1]
  rcases ht with ht | ht | ht
  · obtain ⟨ht32, ht16⟩ := fat12_type ht
    rw [if_neg ht32, if_neg ht16] at h1 h2
    by_cases hs : u32 ((N >>> 1) + N) % fs.sb.bytes_per_sector = fs.sb.bytes_per_sector - 1
    · rw [(sec_next (by rw [h.1.bps]; exact hpos) hs).1, ← Nat.add_assoc] at h2
      exact ⟨fs2, fat_read_fat_fat12_span h ht hs h1 h2, hp2.inv,
        fs_frame_trans hp1.frame hp2.frame, hb2⟩
    · exact ⟨fs1, fat_read_fat_fat12 h ht hs h1, hp1.inv, hp1.frame, hb1⟩
  · have ht32 : fs.sb.fs_type ≠ FAT_FS_FAT32 := by rw [ht]; decide
    rw [if_neg ht32, if_pos ht] at h1
    exact ⟨fs1, fat_read_fat_fat16 h ht h1, hp1.inv, hp1.frame, hb1⟩
  · rw [if_pos ht] at h1
    exact ⟨fs1, fat_read_fat_fat32 h ht h1, hp1.inv, hp1.frame, hb1⟩

/-! ### Modifying a cached sector -/

theorem modify_sector {S : Nat} {fs fs1 : fat_fs_t} {b p : Nat} (hp : rb_post S fs b p fs1)
    (d' : Nat → Nat) :
    fcache_inv S (fat_fatblock_mark_dirty (with_data fs1 p d') b).2 ∧
    fs_frame fs (fat_fatblock_mark_dirty (with_data fs1 p d') b).2 ∧
    (∀ b' off, off < S →
      fat_view (fat_fatblock_mark_dirty (with_data fs1 p d') b).2 b' off =
        if b' = b then ld8 d' off else fat_view fs b' off) ∧
    (∀ b', sector_cached fs1 b' →
      sector_cached (fat_fatblock_mark_dirty (with_data fs1 p d') b).2 b') := by
  obtain ⟨j, -, hj, ej⟩ := hp.pos
  have hv : (fs1.mem (fs1.fcache j)).flags ≠ 0 := by rw [ej]; exact hp.valid
  have hb : (fs1.mem (fs1.fcache j)).block = b := by rw [ej]; exact hp.blk
  have hwf := with_data_wf hp.inv.1 p d'
  have hcl : fcache_clean S (with_data fs1 p d') (fun q => q = p) :=
    with_data_clean (P := fun q => q = p)
      (fcache_clean_mono hp.inv.2 (fun _ hf => hf.elim)) rfl d'
  have hvW : ((with_data fs1 p d').mem ((with_data fs1 p d').fcache j)).flags ≠ 0 := by
    rw [(with_data_flags _ _ _ _).1]; exact hv
  have hbW : ((with_data fs1 p d').mem ((with_data fs1 p d').fcache j)).block = b := by
    rw [(with_data_flags _ _ _ _).2]; exact hb
  obtain ⟨hwf', hcl', hf', hview', hmem', hptr'⟩ :=
    mark_dirty_spec hwf hcl (j := j) (b := b) hj hvW hbW
  refine ⟨⟨hwf', fcache_clean_mono hcl' ?_⟩, fs_frame_trans hp.frame
    (fs_frame_trans (with_data_frame fs1 p d') hf'), ?_, ?_⟩
  · intro q hq
    exact hq.2 (by rw [hq.1]; exact ej.symm)
  · intro b' off hoff
    rw [hview', ← ej, with_data_view hp.inv.1 hj hv hb]
    by_cases hbb : b' = b
    · rw [if_pos hbb, if_pos hbb]
    · rw [if_neg hbb, if_neg hbb, hp.view b' off hoff]
  · intro b' ⟨i, hi, hvi, hbi⟩
    obtain ⟨k, hk, ek⟩ := hptr' i hi
    refine ⟨k, by rw [hf'.fcache_size]; exact hk, ?_, ?_⟩
    · rw [ek, (hmem' _).2.2, (with_data_flags _ _ _ _).1]; exact hvi
    · rw [ek, (hmem' _).2.1, (with_data_flags _ _ _ _).2]; exact hbi

theorem write_fat32_entry_eq (fs : fat_fs_t) (p o v : Nat) :
    write_fat32_entry fs p o v = with_data fs p (store_fat32 (fs.mem p).data o v) := by
  unfold write_fat32_entry store_fat32
  simp only [poke_eq, with_data_twice, with_data_data_self, peek_with_data]

theorem write_fat16_entry_eq (fs : fat_fs_t) (p o v : Nat) :
    write_fat16_entry fs p o v = with_data fs p (store_fat16 (fs.mem p).data o v) := by
  unfold write_fat16_entry store_fat16
  simp only [poke_eq, with_data_twice, with_data_data_self]

theorem write_fat12_odd_eq (fs : fat_fs_t) (p o v : Nat) :
    write_fat12_odd fs p o v = with_data fs p (store_fat12_odd (fs.mem p).data o v) := by
  unfold write_fat12_odd store_fat12_odd
  simp only [poke_eq, with_data_twice, with_data_data_self, peek]

theorem write_fat12_even_eq (fs : fat_fs_t) (p o v : Nat) :
    write_fat12_even fs p o v = with_data fs p (store_fat12_even (fs.mem p).data o v) := by
  unfold write_fat12_even store_fat12_even
  simp only [poke_eq, with_data_twice, with_data_data_self, peek]

/-- The FAT bytes after a sector has been replaced by a copy of itself that differs in
the `w` bytes from FAT byte `o` on. -/
theorem fat_byte_modified {fs fs' : fat_fs_t} {o w : Nat} {d d' : Nat → Nat}
    (hsb : fs'.sb = fs.sb) (hpos : 0 < fs.sb.bytes_per_sector)
    (hv : ∀ b' off, off < fs.sb.bytes_per_sector → fat_view fs' b' off =
      if b' = fs.sb.reserved_sectors + o / fs.sb.bytes_per_sector then ld8 d' off
      else fat_view fs b' off)
    (hd : ∀ off, off < fs.sb.bytes_per_sector →
      ld8 d off = fat_view fs (fs.sb.reserved_sectors + o / fs.sb.bytes_per_sector) off)
    (hd' : ∀ off, off < fs.sb.bytes_per_sector →
      (off < o % fs.sb.bytes_per_sector ∨ o % fs.sb.bytes_per_sector + w ≤ off) →
      ld8 d' off = ld8 d off)
    (hw : o % fs.sb.bytes_per_sector + w ≤ fs.sb.bytes_per_sector) (k : Nat) :
    fat_byte fs' k =
      if o ≤ k ∧ k < o + w then ld8 d' (o % fs.sb.bytes_per_sector + (k - o))
      else fat_byte fs k := by
  have hk : k % fs.sb.bytes_per_sector < fs.sb.bytes_per_sector := Nat.mod_lt _ hpos
  have ek := Nat.div_add_mod k fs.sb.bytes_per_sector
  have eo := Nat.div_add_mod o fs.sb.bytes_per_sector
  unfold fat_byte
  rw [hsb, hv _ _ hk]
  by_cases hsec : k / fs.sb.bytes_per_sector = o / fs.sb.bytes_per_sector
  · rw [if_pos (by rw [hsec])]
    rw [hsec] at ek
    by_cases hin : o ≤ k ∧ k < o + w
    · rw [if_pos hin]; congr 1; omega
    · rw [if_neg hin, hd' _ hk (by omega), hd _ hk, hsec]
  · rw [if_neg (by omega), if_neg ?_]
    intro hin
    apply hsec
    obtain ⟨j, rfl⟩ : ∃ j, k = o + j := ⟨k - o, by omega⟩
    exact (sec_add (by omega)).1

/-! ### Writing an entry that lies in one sector -/

theorem store_fat32_ld (d : Nat → Nat) (o v : Nat) :
    ld8 (store_fat32 d o v) o = v % 256 ∧
    ld8 (store_fat32 d o v) (o + 1) = (v >>> 8) % 256 ∧
    ld8 (store_fat32 d o v) (o + 2) = (v >>> 16) % 256 ∧
    ld8 (store_fat32 d o v) (o + 3) =
      ((ld8 d (o + 3) &&& 0xF0) ||| ((v >>> 24) &&& 0x0F)) % 256 ∧
    ∀ off, off ≠ o → off ≠ o + 1 → off ≠ o + 2 → off ≠ o + 3 →
      ld8 (store_fat32 d o v) off = ld8 d off := by
  unfold store_fat32
  refine ⟨?_, ?_, ?_, ?_, ?_⟩
  · simp [ld8_st8]
  · simp [ld8_st8]
  · simp [ld8_st8]
  · simp [ld8_st8]
  · intro off h0 h1 h2 h3
    simp [ld8_st8, h0, h1, h2, h3]

theorem store_fat16_ld (d : Nat → Nat) (o v : Nat) :
    ld8 (store_fat16 d o v) o = v % 256 ∧
    ld8 (store_fat16 d o v) (o + 1) = (v >>> 8) % 256 ∧
    ∀ off, off ≠ o → off ≠ o + 1 → ld8 (store_fat16 d o v) off = ld8 d off := by
  unfold store_fat16
  refine ⟨?_, ?_, ?_⟩
  · simp [ld8_st8]
  · simp [ld8_st8]
  · intro off h0 h1
    simp [ld8_st8, h0, h1]

theorem store_fat12_odd_ld (d : Nat → Nat) (o v : Nat) :
    ld8 (store_fat12_odd d o v) o = ((ld8 d o &&& 0x0F) ||| (u32 (v <<< 4) &&& 0xF0)) % 256 ∧
    ld8 (store_fat12_odd d o v) (o + 1) = (u32 (v <<< 4) >>> 8) % 256 ∧
    ∀ off, off ≠ o → off ≠ o + 1 → ld8 (store_fat12_odd d o v) off = ld8 d off := by
  unfold store_fat12_odd
  refine ⟨?_, ?_, ?_⟩
  · simp [ld8_st8]
  · simp [ld8_st8]
  · intro off h0 h1
    simp [ld8_st8, h0, h1]

theorem store_fat12_even_ld (d : Nat → Nat) (o v : Nat) :
    ld8 (store_fat12_even d o v) o = v % 256 ∧
    ld8 (store_fat12_even d o v) (o + 1) =
      ((ld8 d (o + 1) &&& 0xF0) ||| ((v >>> 8) &&& 0x0F)) % 256 ∧
    ∀ off, off ≠ o → off ≠ o + 1 → ld8 (store_fat12_even d o v) off = ld8 d off := by
  unfold store_fat12_even
  refine ⟨?_, ?_, ?_⟩
  · simp [ld8_st8]
  · simp [ld8_st8]
  · intro off h0 h1
    simp [ld8_st8, h0, h1]

theorem rb_post_cached {S : Nat} {fs fs1 : fat_fs_t} {b p : Nat} (hp : rb_post S fs b p fs1) :
    sector_cached fs1 b := by
  obtain ⟨j, -, hj, ej⟩ := hp.pos
  exact ⟨j, hj, by rw [ej]; exact hp.valid, by rw [ej]; exact hp.blk⟩

theorem rb_post_ld {S : Nat} {fs fs1 : fat_fs_t} {b p : Nat} (hp : rb_post S fs b p fs1)
    {off : Nat} (hoff : off < S) : ld8 (fs1.mem p).data off = fat_view fs b off :=
  rb_post_peek hp hoff

theorem fat_write_fat_fat32 {S : Nat} {fs : fat_fs_t} (h : fcache_inv S fs)
    (hrw : fs.mnt_flags &&& FAT_MNT_FLAG_RW ≠ 0) (ht : fs.sb.fs_type = FAT_FS_FAT32)
    {N : Nat} (v : Nat) {p : Nat} {e : Int} {fs1 : fat_fs_t}
    (hr : fat_read_fatblock fs (fs.sb.reserved_sectors + u32 (N <<< 2) / fs.sb.bytes_per_sector) 0
      = (some p, e, fs1)) :
    (fat_write_fat fs N v).1 = 0 ∧ write_post S fs N v (fat_write_fat fs N v).2 := by
  obtain ⟨hp, -⟩ := fat_read_fatblock_spec h hr
  have hres := h.1.reserved_lt
  obtain ⟨hpos, h4, hle, hmask, -⟩ := wf_sector h.1
  have hS := h.1.bps
  subst hS
  obtain ⟨ho, ha⟩ := off32 N
  have hdiv := sec_div_le (u32 (N <<< 2)) hpos h4
  have hoff := sec_al4 hpos h4 ha
  have e2 : u32 (fs.sb.reserved_sectors + u32 (N <<< 2) / fs.sb.bytes_per_sector)
      = fs.sb.reserved_sectors + u32 (N <<< 2) / fs.sb.bytes_per_sector := by apply u32_id; omega
  have hw : fat_write_fat fs N v = ((0 : Int), (fat_fatblock_mark_dirty
      (with_data fs1 p (store_fat32 (fs1.mem p).data (u32 (N <<< 2) % fs.sb.bytes_per_sector) v))
      (fs.sb.reserved_sectors + u32 (N <<< 2) / fs.sb.bytes_per_sector)).2) := by
    unfold fat_write_fat
    rw [if_neg hrw, if_pos ht, e2, hr]
    simp only [hmask, write_fat32_entry_eq]
  rw [hw]
  obtain ⟨hinv, hfr, hview, hcach⟩ :=
    modify_sector hp (store_fat32 (fs1.mem p).data (u32 (N <<< 2) % fs.sb.bytes_per_sector) v)
  obtain ⟨s0, s1, s2, s3, so⟩ := store_fat32_ld (fs1.mem p).data (u32 (N <<< 2) % fs.sb.bytes_per_sector) v
  have hc := hcach _ (rb_post_cached hp)
  refine ⟨rfl, ⟨hinv, hfr, ?_, ?_, ?_⟩⟩
  · intro k
    rw [fat_byte_modified (o := u32 (N <<< 2)) (w := 4) hfr.sb hpos hview
      (fun off hoff => rb_post_ld hp hoff)
      (fun off _ hh => so off (by omega) (by omega) (by omega) (by omega)) (by omega) k]
    unfold fat_written
    rw [if_pos ht]
    by_cases h0 : k = u32 (N <<< 2)
    · rw [if_pos (by omega), if_pos h0, h0, Nat.sub_self, Nat.add_zero, s0]
    · rw [if_neg h0]
      by_cases h1 : k = u32 (N <<< 2) + 1
      · rw [if_pos (by omega), if_pos h1, h1, Nat.add_sub_cancel_left, s1]
      · rw [if_neg h1]
        by_cases h2 : k = u32 (N <<< 2) + 2
        · rw [if_pos (by omega), if_pos h2, h2, Nat.add_sub_cancel_left, s2]
        · rw [if_neg h2]
          by_cases h3 : k = u32 (N <<< 2) + 3
          · rw [if_pos (by omega), if_pos h3, h3, Nat.add_sub_cancel_left, s3,
              rb_post_ld hp (by omega), fat_byte_in fs (i := 3) (by omega)]
          · rw [if_neg (by omega), if_neg h3]
  · unfold fat_offset; rw [if_pos ht]; exact hc
  · unfold fat_last; rw [if_pos ht, (sec_add (i := 3) (by omega)).1]; exact hc

theorem fat_write_fat_fat16 {S : Nat} {fs : fat_fs_t} (h : fcache_inv S fs)
    (hrw : fs.mnt_flags &&& FAT_MNT_FLAG_RW ≠ 0) (ht : fs.sb.fs_type = FAT_FS_FAT16)
    {N : Nat} (v : Nat) {p : Nat} {e : Int} {fs1 : fat_fs_t}
    (hr : fat_read_fatblock fs (fs.sb.reserved_sectors + u32 (N <<< 1) / fs.sb.bytes_per_sector) 0
      = (some p, e, fs1)) :
    (fat_write_fat fs N v).1 = 0 ∧ write_post S fs N v (fat_write_fat fs N v).2 := by
  obtain ⟨hp, -⟩ := fat_read_fatblock_spec h hr
  have hres := h.1.reserved_lt
  have ht32 : fs.sb.fs_type ≠ FAT_FS_FAT32 := by rw [ht]; decide
  obtain ⟨hpos, h4, hle, hmask, -⟩ := wf_sector h.1
  have hS := h.1.bps
  subst hS
  obtain ⟨ho, ha⟩ := off16 N
  have hdiv := sec_div_le (u32 (N <<< 1)) hpos h4
  have hoff := sec_al2 hpos h4 ha
  have e2 : u32 (fs.sb.reserved_sectors + u32 (N <<< 1) / fs.sb.bytes_per_sector)
      = fs.sb.reserved_sectors + u32 (N <<< 1) / fs.sb.bytes_per_sector := by apply u32_id; omega
  have hw : fat_write_fat fs N v = ((0 : Int), (fat_fatblock_mark_dirty
      (with_data fs1 p (store_fat16 (fs1.mem p).data (u32 (N <<< 1) % fs.sb.bytes_per_sector) v))
      (fs.sb.reserved_sectors + u32 (N <<< 1) / fs.sb.bytes_per_sector)).2) := by
    unfold fat_write_fat
    rw [if_neg hrw, if_neg ht32, if_pos ht, e2, hr]
    simp only [hmask, write_fat16_entry_eq]
  rw [hw]
  obtain ⟨hinv, hfr, hview, hcach⟩ :=
    modify_sector hp (store_fat16 (fs1.mem p).data (u32 (N <<< 1) % fs.sb.bytes_per_sector) v)
  obtain ⟨s0, s1, so⟩ := store_fat16_ld (fs1.mem p).data (u32 (N <<< 1) % fs.sb.bytes_per_sector) v
  have hc := hcach _ (rb_post_cached hp)
  refine ⟨rfl, ⟨hinv, hfr, ?_, ?_, ?_⟩⟩
  · intro k
    rw [fat_byte_modified (o := u32 (N <<< 1)) (w := 2) hfr.sb hpos hview
      (fun off hoff => rb_post_ld hp hoff)
      (fun off _ hh => so off (by omega) (by omega)) (by omega) k]
    unfold fat_written
    rw [if_neg ht32, if_pos ht]
    by_cases h0 : k = u32 (N <<< 1)
    · rw [if_pos (by omega), if_pos h0, h0, Nat.sub_self, Nat.add_zero, s0]
    · rw [if_neg h0]
      by_cases h1 : k = u32 (N <<< 1) + 1
      · rw [if_pos (by omega), if_pos h1, h1, Nat.add_sub_cancel_left, s1]
      · rw [if_neg (by omega), if_neg h1]
  · unfold fat_offset; rw [if_neg ht32, if_pos ht]; exact hc
  · unfold fat_last
    rw [if_neg ht32, if_pos ht, (sec_add (i := 1) (by omega)).1]; exact hc

/-! ### Writing a FAT12 entry -/

theorem fat_write_fat_fat12 {S : Nat} {fs : fat_fs_t} (h : fcache_inv S fs)
    (hrw : fs.mnt_flags &&& FAT_MNT_FLAG_RW ≠ 0) (ht : fs.sb.fs_type = FAT_FS_FAT12)
    {N : Nat}
    (hs : u32 ((N >>> 1) + N) % fs.sb.bytes_per_sector ≠ fs.sb.bytes_per_sector - 1) (v : Nat)
    {p : Nat} {e : Int} {fs1 : fat_fs_t}
    (hr : fat_read_fatblock fs
      (fs.sb.reserved_sectors + u32 ((N >>> 1) + N) / fs.sb.bytes_per_sector) 0
      = (some p, e, fs1)) :
    (fat_write_fat fs N v).1 = 0 ∧ write_post S fs N v (fat_write_fat fs N v).2 := by
  obtain ⟨hp, -⟩ := fat_read_fatblock_spec h hr
  have hres := h.1.reserved_lt
  obtain ⟨ht32, ht16⟩ := fat12_type ht
  obtain ⟨hpos, h4, hle, hmask, hu16⟩ := wf_sector h.1
  have hS := h.1.bps
  subst hS
  have ho := off12 N
  have hdiv := sec_div_le (u32 ((N >>> 1) + N)) hpos h4
  have hlt := Nat.mod_lt (u32 ((N >>> 1) + N)) hpos
  have hin : u32 ((N >>> 1) + N) % fs.sb.bytes_per_sector + 1 < fs.sb.bytes_per_sector := by
    omega
  have e2 : u32 (fs.sb.reserved_sectors + u32 ((N >>> 1) + N) / fs.sb.bytes_per_sector)
      = fs.sb.reserved_sectors + u32 ((N >>> 1) + N) / fs.sb.bytes_per_sector := by apply u32_id; omega
  have hc1 : ∀ fs', (∀ b', sector_cached fs1 b' → sector_cached fs' b') →
      sector_cached fs' (fs.sb.reserved_sectors + fat_offset fs N / fs.sb.bytes_per_sector) ∧
      sector_cached fs' (fs.sb.reserved_sectors + fat_last fs N / fs.sb.bytes_per_sector) := by
    intro fs' hcach
    have hc := hcach _ (rb_post_cached hp)
    unfold fat_offset fat_last
    rw [if_neg ht32, if_neg ht16, if_neg ht32, if_neg ht16,
      (sec_add hin).1]
    exact ⟨hc, hc⟩
  by_cases hodd : N % 2 = 1
  · have hw : fat_write_fat fs N v = ((0 : Int), (fat_fatblock_mark_dirty
        (with_data fs1 p (store_fat12_odd (fs1.mem p).data (u32 ((N >>> 1) + N) % fs.sb.bytes_per_sector) v))
        (fs.sb.reserved_sectors + u32 ((N >>> 1) + N) / fs.sb.bytes_per_sector)).2) := by
      unfold fat_write_fat
      rw [if_neg hrw, if_neg ht32, if_neg ht16, if_pos ht, e2, hr]
      simp only [hmask, hu16, Nat.and_one_is_mod, write_fat12_odd_eq]
      rw [if_neg hs, if_pos (by omega)]
    rw [hw]
    obtain ⟨hinv, hfr, hview, hcach⟩ :=
      modify_sector hp (store_fat12_odd (fs1.mem p).data (u32 ((N >>> 1) + N) % fs.sb.bytes_per_sector) v)
    obtain ⟨s0, s1, so⟩ := store_fat12_odd_ld (fs1.mem p).data (u32 ((N >>> 1) + N) % fs.sb.bytes_per_sector) v
    refine ⟨rfl, ⟨hinv, hfr, ?_, (hc1 _ hcach).1, (hc1 _ hcach).2⟩⟩
    intro k
    rw [fat_byte_modified (o := u32 ((N >>> 1) + N)) (w := 2) hfr.sb hpos hview
      (fun off hoff => rb_post_ld hp hoff)
      (fun off _ hh => so off (by omega) (by omega)) (by omega) k]
    unfold fat_written
    rw [if_neg ht32, if_neg ht16, if_pos (Or.inr hodd)]
    by_cases h0 : k = u32 ((N >>> 1) + N)
    · rw [if_pos (by omega), if_pos h0, h0, Nat.sub_self, Nat.add_zero, s0,
        rb_post_ld hp (by omega)]
      rfl
    · rw [if_neg h0]
      by_cases h1 : k = u32 ((N >>> 1) + N) + 1
      · rw [if_pos (by omega), if_pos h1, h1, Nat.add_sub_cancel_left, s1]
      · rw [if_neg (by omega), if_neg h1]
  · have hw : fat_write_fat fs N v = ((0 : Int), (fat_fatblock_mark_dirty
        (with_data fs1 p (store_fat12_even (fs1.mem p).data (u32 ((N >>> 1) + N) % fs.sb.bytes_per_sector) v))
        (fs.sb.reserved_sectors + u32 ((N >>> 1) + N) / fs.sb.bytes_per_sector)).2) := by
      unfold fat_write_fat
      rw [if_neg hrw, if_neg ht32, if_neg ht16, if_pos ht, e2, hr]
      simp only [hmask, hu16, Nat.and_one_is_mod, write_fat12_even_eq]
      rw [if_neg hs, if_neg (by omega)]
    rw [hw]
    obtain ⟨hinv, hfr, hview, hcach⟩ :=
      modify_sector hp (store_fat12_even (fs1.mem p).data (u32 ((N >>> 1) + N) % fs.sb.bytes_per_sector) v)
    obtain ⟨s0, s1, so⟩ := store_fat12_even_ld (fs1.mem p).data (u32 ((N >>> 1) + N) % fs.sb.bytes_per_sector) v
    refine ⟨rfl, ⟨hinv, hfr, ?_, (hc1 _ hcach).1, (hc1 _ hcach).2⟩⟩
    intro k
    rw [fat_byte_modified (o := u32 ((N >>> 1) + N)) (w := 2) hfr.sb hpos hview
      (fun off hoff => rb_post_ld hp hoff)
      (fun off _ hh => so off (by omega) (by omega)) (by omega) k]
    have hnb : ¬ (u32 ((N >>> 1) + N) % fs.sb.bytes_per_sector = fs.sb.bytes_per_sector - 1 ∨
        N % 2 = 1) := fun hh => hh.elim hs hodd
    unfold fat_written
    rw [if_neg ht32, if_neg ht16, if_neg hnb]
    by_cases h0 : k = u32 ((N >>> 1) + N)
    · rw [if_pos (by omega), if_pos h0, h0, Nat.sub_self, Nat.add_zero, s0]
    · rw [if_neg h0]
      by_cases h1 : k = u32 ((N >>> 1) + N) + 1
      · rw [if_pos (by omega), if_pos h1, h1, Nat.add_sub_cancel_left, s1,
          rb_post_ld hp (by omega),
          fat_byte_in fs hin]
      · rw [if_neg (by omega), if_neg h1]

/-! ### Writing a FAT12 entry that spans two sectors -/

theorem modify_two_sectors {S : Nat} {fs fs1 fs2 : fat_fs_t} {b p1 p2 : Nat}
    (hp1 : rb_post S fs b p1 fs1) (hp2 : rb_post S fs1 (b + 1) p2 fs2) (d1 d2 : Nat → Nat) :
    fcache_inv S (fat_fatblock_mark_dirty (fat_fatblock_mark_dirty
      (with_data (with_data fs2 p1 d1) p2 d2) b).2 (b + 1)).2 ∧
    fs_frame fs (fat_fatblock_mark_dirty (fat_fatblock_mark_dirty
      (with_data (with_data fs2 p1 d1) p2 d2) b).2 (b + 1)).2 ∧
    (∀ b' off, off < S →
      fat_view (fat_fatblock_mark_dirty (fat_fatblock_mark_dirty
        (with_data (with_data fs2 p1 d1) p2 d2) b).2 (b + 1)).2 b' off =
        if b' = b then ld8 d1 off else if b' = b + 1 then ld8 d2 off else fat_view fs b' off) ∧
    sector_cached (fat_fatblock_mark_dirty (fat_fatblock_mark_dirty
      (with_data (with_data fs2 p1 d1) p2 d2) b).2 (b + 1)).2 b ∧
    sector_cached (fat_fatblock_mark_dirty (fat_fatblock_mark_dirty
      (with_data (with_data fs2 p1 d1) p2 d2) b).2 (b + 1)).2 (b + 1) := by
  obtain ⟨hm, hne, k1, hk1, ek1⟩ := rb_post_two hp1 hp2 (by omega)
  obtain ⟨j2, -, hj2, ej2⟩ := hp2.pos
  have hv1 : (fs2.mem (fs2.fcache k1)).flags ≠ 0 := by rw [ek1, hm]; exact hp1.valid
  have hb1 : (fs2.mem (fs2.fcache k1)).block = b := by rw [ek1, hm]; exact hp1.blk
  have hv2 : (fs2.mem (fs2.fcache j2)).flags ≠ 0 := by rw [ej2]; exact hp2.valid
  have hb2 : (fs2.mem (fs2.fcache j2)).block = b + 1 := by rw [ej2]; exact hp2.blk
  -- the two stores
  set fsA := with_data fs2 p1 d1 with hfsA
  set fsW := with_data fsA p2 d2 with hfsW
  have hwfA : fcache_wf S fsA := with_data_wf hp2.inv.1 p1 d1
  have hwfW : fcache_wf S fsW := with_data_wf hwfA p2 d2
  have hclA : fcache_clean S fsA (fun q => q = p1 ∨ q = p2) :=
    with_data_clean (P := fun q => q = p1 ∨ q = p2)
      (fcache_clean_mono hp2.inv.2 (fun _ hf => hf.elim)) (Or.inl rfl) d1
  have hclW : fcache_clean S fsW (fun q => q = p1 ∨ q = p2) :=
    with_data_clean (P := fun q => q = p1 ∨ q = p2) hclA (Or.inr rfl) d2
  have hflW : ∀ q, (fsW.mem q).flags = (fs2.mem q).flags ∧ (fsW.mem q).block = (fs2.mem q).block :=
    fun q => ⟨((with_data_flags fsA p2 d2 q).1).trans (with_data_flags fs2 p1 d1 q).1,
      ((with_data_flags fsA p2 d2 q).2).trans (with_data_flags fs2 p1 d1 q).2⟩
  have hviewW : ∀ b' off, off < S → fat_view fsW b' off =
      if b' = b then ld8 d1 off else if b' = b + 1 then ld8 d2 off else fat_view fs b' off := by
    intro b' off hoff
    have hA : ∀ b' off, fat_view fsA b' off =
        if b' = b then ld8 d1 off else fat_view fs2 b' off := by
      intro b' off
      rw [hfsA, ← ek1]
      exact with_data_view hp2.inv.1 hk1 hv1 hb1 d1 b' off
    have hW : fat_view fsW b' off = if b' = b + 1 then ld8 d2 off else fat_view fsA b' off := by
      rw [hfsW, ← ej2]
      exact with_data_view hwfA (j := j2) (b := b + 1) hj2
        (by rw [(with_data_flags _ _ _ _).1]; exact hv2)
        (by rw [(with_data_flags _ _ _ _).2]; exact hb2) d2 b' off
    rw [hW, hA]
    by_cases h1 : b' = b
    · have h2 : ¬ b' = b + 1 := by omega
      simp only [if_pos h1, if_neg h2]
    · by_cases h2 : b' = b + 1
      · simp only [if_neg h1, if_pos h2]
      · simp only [if_neg h1, if_neg h2]
        rw [hp2.view b' off hoff, hp1.view b' off hoff]
  -- the first `fat_fatblock_mark_dirty`
  obtain ⟨hwf3, hcl3, hf3, hview3, hmem3, hptr3⟩ :=
    mark_dirty_spec hwfW hclW (j := k1) (b := b) hk1 (by rw [(hflW _).1]; exact hv1)
      (by rw [(hflW _).2]; exact hb1)
  -- the second one
  obtain ⟨k2, hk2, ek2⟩ := hptr3 j2 hj2
  have hk2' : k2 < (fat_fatblock_mark_dirty fsW b).2.fcache_size := by
    rw [hf3.fcache_size]; exact hk2
  have hv3 : ((fat_fatblock_mark_dirty fsW b).2.mem
      ((fat_fatblock_mark_dirty fsW b).2.fcache k2)).flags ≠ 0 := by
    rw [ek2, (hmem3 _).2.2, (hflW _).1]; exact hv2
  have hb3 : ((fat_fatblock_mark_dirty fsW b).2.mem
      ((fat_fatblock_mark_dirty fsW b).2.fcache k2)).block = b + 1 := by
    rw [ek2, (hmem3 _).2.1, (hflW _).2]; exact hb2
  obtain ⟨hwf4, hcl4, hf4, hview4, hmem4, hptr4⟩ :=
    mark_dirty_spec hwf3 hcl3 (j := k2) (b := b + 1) hk2' hv3 hb3
  have hcached : ∀ i, i < fs2.fcache_size → (fs2.mem (fs2.fcache i)).flags ≠ 0 →
      sector_cached (fat_fatblock_mark_dirty (fat_fatblock_mark_dirty fsW b).2 (b + 1)).2
        (fs2.mem (fs2.fcache i)).block := by
    intro i hi hvi
    obtain ⟨a, ha, ea⟩ := hptr3 i hi
    obtain ⟨c, hc, ec⟩ := hptr4 a (by rw [hf3.fcache_size]; exact ha)
    refine ⟨c, by rw [hf4.fcache_size]; exact hc, ?_, ?_⟩
    · rw [ec, (hmem4 _).2.2, ea, (hmem3 _).2.2, (hflW _).1]; exact hvi
    · rw [ec, (hmem4 _).2.1, ea, (hmem3 _).2.1, (hflW _).2]; rfl
  refine ⟨⟨hwf4, fcache_clean_mono hcl4 ?_⟩, ?_, ?_, ?_, ?_⟩
  · intro q hq
    obtain ⟨⟨hq12, hq1⟩, hq2⟩ := hq
    rcases hq12 with e | e
    · exact hq1 (by rw [e]; exact ek1.symm)
    · exact hq2 (by rw [e, ek2]; exact ej2.symm)
  · exact fs_frame_trans hp1.frame (fs_frame_trans hp2.frame
      (fs_frame_trans (with_data_frame fs2 p1 d1)
        (fs_frame_trans (with_data_frame fsA p2 d2) (fs_frame_trans hf3 hf4))))
  · intro b' off hoff
    rw [hview4, hview3, hviewW b' off hoff]
  · have := hcached k1 hk1 hv1
    rwa [hb1] at this
  · have := hcached j2 hj2 hv2
    rwa [hb2] at this

theorem write_fat12_span_eq (fs : fat_fs_t) {p1 p2 : Nat} (hne : p1 ≠ p2) (o v : Nat) :
    write_fat12_span fs p1 p2 o v =
      with_data (with_data fs p1 (st8 (fs.mem p1).data o
        ((ld8 (fs.mem p1).data o &&& 0x0F) ||| (u32 (v <<< 4) &&& 0xF0))))
        p2 (st8 (fs.mem p2).data 0 (u32 (v <<< 4) >>> 8)) := by
  unfold write_fat12_span
  simp only [poke_eq, peek]
  rw [with_data_data_ne fs _ (Ne.symm hne)]

theorem fat_write_fat_fat12_span {S : Nat} {fs : fat_fs_t} (h : fcache_inv S fs)
    (hrw : fs.mnt_flags &&& FAT_MNT_FLAG_RW ≠ 0) (ht : fs.sb.fs_type = FAT_FS_FAT12)
    {N : Nat}
    (hs : u32 ((N >>> 1) + N) % fs.sb.bytes_per_sector = fs.sb.bytes_per_sector - 1) (v : Nat)
    {p1 p2 : Nat} {e1 e2 : Int} {fs1 fs2 : fat_fs_t}
    (hr1 : fat_read_fatblock fs
      (fs.sb.reserved_sectors + u32 ((N >>> 1) + N) / fs.sb.bytes_per_sector) 0
      = (some p1, e1, fs1))
    (hr2 : fat_read_fatblock fs1
      (fs.sb.reserved_sectors + u32 ((N >>> 1) + N) / fs.sb.bytes_per_sector + 1) e1
      = (some p2, e2, fs2)) :
    (fat_write_fat fs N v).1 = 0 ∧ write_post S fs N v (fat_write_fat fs N v).2 := by
  obtain ⟨hp1, -⟩ := fat_read_fatblock_spec h hr1
  obtain ⟨hp2, -⟩ := fat_read_fatblock_spec hp1.inv hr2
  obtain ⟨hm, hne, -⟩ := rb_post_two hp1 hp2 (by omega)
  have hres := h.1.reserved_lt
  obtain ⟨ht32, ht16⟩ := fat12_type ht
  obtain ⟨hpos, h4, hle, hmask, hu16⟩ := wf_sector h.1
  have hS := h.1.bps
  subst hS
  have ho := off12 N
  have hdiv := sec_div_le (u32 ((N >>> 1) + N)) hpos h4
  obtain ⟨hnd, hnm⟩ := sec_next hpos hs
  have e2' : u32 (fs.sb.reserved_sectors + u32 ((N >>> 1) + N) / fs.sb.bytes_per_sector)
      = fs.sb.reserved_sectors + u32 ((N >>> 1) + N) / fs.sb.bytes_per_sector := by
    apply u32_id; omega
  have e3' : u32 (fs.sb.reserved_sectors + u32 ((N >>> 1) + N) / fs.sb.bytes_per_sector + 1)
      = fs.sb.reserved_sectors + u32 ((N >>> 1) + N) / fs.sb.bytes_per_sector + 1 := by
    apply u32_id; omega
  have hw : fat_write_fat fs N v = ((0 : Int), (fat_fatblock_mark_dirty (fat_fatblock_mark_dirty
      (with_data (with_data fs2 p1 (st8 (fs2.mem p1).data (fs.sb.bytes_per_sector - 1)
        ((ld8 (fs2.mem p1).data (fs.sb.bytes_per_sector - 1) &&& 0x0F) |||
          (u32 (v <<< 4) &&& 0xF0))))
        p2 (st8 (fs2.mem p2).data 0 (u32 (v <<< 4) >>> 8)))
      (fs.sb.reserved_sectors + u32 ((N >>> 1) + N) / fs.sb.bytes_per_sector)).2
      (fs.sb.reserved_sectors + u32 ((N >>> 1) + N) / fs.sb.bytes_per_sector + 1)).2) := by
    unfold fat_write_fat
    rw [if_neg hrw, if_neg ht32, if_neg ht16, if_pos ht, e2', hr1]
    simp only [hmask, hu16]
    rw [if_pos hs, e3', hr2]
    simp only [write_fat12_span_eq fs2 hne, hs]
  rw [hw]
  obtain ⟨hinv, hfr, hview, hc1, hc2⟩ := modify_two_sectors hp1 hp2
    (st8 (fs2.mem p1).data (fs.sb.bytes_per_sector - 1)
      ((ld8 (fs2.mem p1).data (fs.sb.bytes_per_sector - 1) &&& 0x0F) |||
        (u32 (v <<< 4) &&& 0xF0)))
    (st8 (fs2.mem p2).data 0 (u32 (v <<< 4) >>> 8))
  have hl1 : ∀ off, off < fs.sb.bytes_per_sector → ld8 (fs2.mem p1).data off =
      fat_view fs (fs.sb.reserved_sectors + u32 ((N >>> 1) + N) / fs.sb.bytes_per_sector)
        off := by
    intro off hoff
    rw [hm]; exact rb_post_ld hp1 hoff
  have hl2 : ∀ off, off < fs.sb.bytes_per_sector → ld8 (fs2.mem p2).data off =
      fat_view fs (fs.sb.reserved_sectors + u32 ((N >>> 1) + N) / fs.sb.bytes_per_sector + 1)
        off := by
    intro off hoff
    rw [rb_post_ld hp2 hoff, hp1.view _ _ hoff]
  refine ⟨rfl, ⟨hinv, hfr, ?_, ?_, ?_⟩⟩
  · intro k
    have hk : k % fs.sb.bytes_per_sector < fs.sb.bytes_per_sector := Nat.mod_lt _ hpos
    unfold fat_written
    rw [if_neg ht32, if_neg ht16, if_pos (Or.inl hs)]
    show fat_view _ _ _ = _
    rw [hfr.sb, hview _ _ hk]
    by_cases h0 : k = u32 ((N >>> 1) + N)
    · rw [if_pos (by rw [h0]), if_pos h0, ld8_st8, if_pos (by rw [h0, hs]),
        hl1 _ (by omega)]
      exact congrArg (fun x => (x &&& 15 ||| u32 (v <<< 4) &&& 240) % 256)
        (fat_byte_at fs rfl hs.symm)
    · rw [if_neg h0]
      by_cases h1 : k = u32 ((N >>> 1) + N) + 1
      · rw [if_neg (by rw [h1, hnd]; omega), if_pos (by rw [h1, hnd, Nat.add_assoc]),
          if_pos h1, ld8_st8, if_pos (by rw [h1, hnm])]
      · rw [if_neg h1]
        by_cases hb : k / fs.sb.bytes_per_sector
            = u32 ((N >>> 1) + N) / fs.sb.bytes_per_sector
        · have hmne : ¬ k % fs.sb.bytes_per_sector = fs.sb.bytes_per_sector - 1 :=
            fun hh => h0 (sec_inj hb (hh.trans hs.symm))
          rw [if_pos (by rw [hb]), ld8_st8, if_neg hmne, hl1 _ hk]
          exact fat_byte_at fs (by rw [hb]) rfl
        · rw [if_neg (by omega)]
          by_cases hb2 : k / fs.sb.bytes_per_sector
              = u32 ((N >>> 1) + N) / fs.sb.bytes_per_sector + 1
          · have hmne : ¬ k % fs.sb.bytes_per_sector = 0 :=
              fun hh => h1 (sec_inj (hb2.trans hnd.symm) (hh.trans hnm.symm))
            rw [if_pos (by rw [hb2, Nat.add_assoc]), ld8_st8, if_neg hmne, hl2 _ hk]
            exact fat_byte_at fs (by rw [hb2, Nat.add_assoc]) rfl
          · rw [if_neg (by omega)]
            rfl
  · unfold fat_offset; rw [if_neg ht32, if_neg ht16]; exact hc1
  · unfold fat_last
    rw [if_neg ht32, if_neg ht16, hnd, ← Nat.add_assoc]
    exact hc2

/-! ### `fat_write_fat`: what a call does -/

theorem fat_read_fatblock_none {fs : fat_fs_t} {b : Nat} {err e : Int} {fs1 : fat_fs_t}
    (h : fat_read_fatblock fs b err = (none, e, fs1)) : e = EIO := by
  unfold fat_read_fatblock at h
  cases hs : fcache_scan fs b fs.fcache_size with
  | some i => rw [hs] at h; simp at h
  | none =>
    rw [hs] at h
    simp only at h
    by_cases hw : (evict_writeback fs).1 ≠ 0
    · rw [if_pos hw] at h
      simp only [Prod.mk.injEq] at h
      exact h.2.1.symm
    · rw [if_neg hw] at h
      unfold fcache_fill at h
      split at h
      · simp only [Prod.mk.injEq] at h
        exact h.2.1.symm
      · simp at h

/-- Whether `fat_read_fatblock` finds the sector does not depend on the value of `*err`
on entry. -/
theorem fat_read_fatblock_any_err {fs : fat_fs_t} {b : Nat} {err e : Int} {p : Nat}
    {fs1 : fat_fs_t} (h : fat_read_fatblock fs b err = (some p, e, fs1)) (err' : Int) :
    fat_read_fatblock fs b err' = (some p, err', fs1) := by
  unfold fat_read_fatblock at h ⊢
  cases hs : fcache_scan fs b fs.fcache_size with
  | some i =>
    rw [hs] at h
    simp only [Prod.mk.injEq] at h ⊢
    exact ⟨h.1, trivial, h.2.2⟩
  | none =>
    rw [hs] at h
    simp only at h ⊢
    by_cases hw : (evict_writeback fs).1 ≠ 0
    · rw [if_pos hw] at h
      simp at h
    · rw [if_neg hw] at h ⊢
      unfold fcache_fill at h ⊢
      split at h
      · simp at h
      · rename_i hc
        rw [if_neg hc]
        simp only [Prod.mk.injEq] at h ⊢
        exact ⟨h.1, trivial, h.2.2⟩

theorem EIO_ne_zero : EIO ≠ 0 := by decide

/-- A successful `fat_write_fat` leaves the invariant in place and changes exactly the
bytes of the entry, as `fat_written` says; and a read of the entry before the write
would have succeeded. -/
theorem fat_write_fat_spec {S : Nat} {fs : fat_fs_t} (h : fcache_inv S fs)
    (ht : fat_type_ok fs) {N v : Nat} (hok : (fat_write_fat fs N v).1 = 0) :
    write_post S fs N v (fat_write_fat fs N v).2 ∧
    ∀ err, ∃ fs0, fat_read_fat fs N err = (fat_entry fs N, err, fs0) := by
  have hres := h.1.reserved_lt
  obtain ⟨hpos, h4, hle, hmask, hu16⟩ := wf_sector h.1
  have hS := h.1.bps
  subst hS
  have hrw : fs.mnt_flags &&& FAT_MNT_FLAG_RW ≠ 0 := by
    intro hro
    unfold fat_write_fat at hok
    rw [if_pos hro] at hok
    simp [EROFS] at hok
  rcases ht with ht | ht | ht
  · obtain ⟨ht32, ht16⟩ := fat12_type ht
    have ho := off12 N
    have hdiv := sec_div_le (u32 ((N >>> 1) + N)) hpos h4
    have e2 : u32 (fs.sb.reserved_sectors + u32 ((N >>> 1) + N) / fs.sb.bytes_per_sector)
        = fs.sb.reserved_sectors + u32 ((N >>> 1) + N) / fs.sb.bytes_per_sector := by
      apply u32_id; omega
    have e3 : u32 (fs.sb.reserved_sectors + u32 ((N >>> 1) + N) / fs.sb.bytes_per_sector + 1)
        = fs.sb.reserved_sectors + u32 ((N >>> 1) + N) / fs.sb.bytes_per_sector + 1 := by
      apply u32_id; omega
    rcases hr1 : fat_read_fatblock fs
        (fs.sb.reserved_sectors + u32 ((N >>> 1) + N) / fs.sb.bytes_per_sector) 0
      with ⟨_ | p1, e1', fs1⟩
    · exfalso
      unfold fat_write_fat at hok
      rw [if_neg hrw, if_neg ht32, if_neg ht16, if_pos ht, e2, hr1] at hok
      exact EIO_ne_zero ((fat_read_fatblock_none hr1).symm.trans hok)
    · by_cases hs : u32 ((N >>> 1) + N) % fs.sb.bytes_per_sector = fs.sb.bytes_per_sector - 1
      · rcases hr2 : fat_read_fatblock fs1
            (fs.sb.reserved_sectors + u32 ((N >>> 1) + N) / fs.sb.bytes_per_sector + 1) e1'
          with ⟨_ | p2, e2', fs2⟩
        · exfalso
          unfold fat_write_fat at hok
          rw [if_neg hrw, if_neg ht32, if_neg ht16, if_pos ht, e2, hr1] at hok
          simp only [hmask, hu16] at hok
          rw [if_pos hs, e3, hr2] at hok
          exact EIO_ne_zero ((fat_read_fatblock_none hr2).symm.trans hok)
        · exact ⟨(fat_write_fat_fat12_span h hrw ht hs v hr1 hr2).2, fun err =>
            ⟨fs2, fat_read_fat_fat12_span h ht hs (fat_read_fatblock_any_err hr1 err)
              (fat_read_fatblock_any_err hr2 err)⟩⟩
      · exact ⟨(fat_write_fat_fat12 h hrw ht hs v hr1).2, fun err =>
          ⟨fs1, fat_read_fat_fat12 h ht hs (fat_read_fatblock_any_err hr1 err)⟩⟩
  · have ht32 : fs.sb.fs_type ≠ FAT_FS_FAT32 := by rw [ht]; decide
    obtain ⟨ho, ha⟩ := off16 N
    have hdiv := sec_div_le (u32 (N <<< 1)) hpos h4
    have e2 : u32 (fs.sb.reserved_sectors + u32 (N <<< 1) / fs.sb.bytes_per_sector)
        = fs.sb.reserved_sectors + u32 (N <<< 1) / fs.sb.bytes_per_sector := by
      apply u32_id; omega
    rcases hr1 : fat_read_fatblock fs
        (fs.sb.reserved_sectors + u32 (N <<< 1) / fs.sb.bytes_per_sector) 0
      with ⟨_ | p1, e1', fs1⟩
    · exfalso
      unfold fat_write_fat at hok
      rw [if_neg hrw, if_neg ht32, if_pos ht, e2, hr1] at hok
      exact EIO_ne_zero ((fat_read_fatblock_none hr1).symm.trans hok)
    · exact ⟨(fat_write_fat_fat16 h hrw ht v hr1).2, fun err =>
        ⟨fs1, fat_read_fat_fat16 h ht (fat_read_fatblock_any_err hr1 err)⟩⟩
  · obtain ⟨ho, ha⟩ := off32 N
    have hdiv := sec_div_le (u32 (N <<< 2)) hpos h4
    have e2 : u32 (fs.sb.reserved_sectors + u32 (N <<< 2) / fs.sb.bytes_per_sector)
        = fs.sb.reserved_sectors + u32 (N <<< 2) / fs.sb.bytes_per_sector := by
      apply u32_id; omega
    rcases hr1 : fat_read_fatblock fs
        (fs.sb.reserved_sectors + u32 (N <<< 2) / fs.sb.bytes_per_sector) 0
      with ⟨_ | p1, e1', fs1⟩
    · exfalso
      unfold fat_write_fat at hok
      rw [if_neg hrw, if_pos ht, e2, hr1] at hok
      exact EIO_ne_zero ((fat_read_fatblock_none hr1).symm.trans hok)
    · exact ⟨(fat_write_fat_fat32 h hrw ht v hr1).2, fun err =>
        ⟨fs1, fat_read_fat_fat32 h ht (fat_read_fatblock_any_err hr1 err)⟩⟩

/-- Writing an entry whose sectors can be brought into the cache succeeds. -/
theorem fat_write_fat_ready {S : Nat} {fs : fat_fs_t} (h : fcache_inv S fs)
    (hrw : fs.mnt_flags &&& FAT_MNT_FLAG_RW ≠ 0) (ht : fat_type_ok fs)
    {N : Nat} (hr : entry_ready fs N) (v : Nat) :
    (fat_write_fat fs N v).1 = 0 := by
  unfold entry_ready fat_offset fat_last at hr
  obtain ⟨p1, fs1, h1, p2, fs2, h2⟩ := fat_read_fatblock_ready h hr 0
  obtain ⟨hpos, -, -, -, -⟩ := wf_sector h.1
  rcases ht with ht | ht | ht
  · obtain ⟨ht32, ht16⟩ := fat12_type ht
    rw [if_neg ht32, if_neg ht16] at h1 h2
    by_cases hs : u32 ((N >>> 1) + N) % fs.sb.bytes_per_sector = fs.sb.bytes_per_sector - 1
    · rw [(sec_next (by rw [h.1.bps]; exact hpos) hs).1, ← Nat.add_assoc] at h2
      exact (fat_write_fat_fat12_span h hrw ht hs v h1 h2).1
    · exact (fat_write_fat_fat12 h hrw ht hs v h1).1
  · have ht32 : fs.sb.fs_type ≠ FAT_FS_FAT32 := by rw [ht]; decide
    rw [if_neg ht32, if_pos ht] at h1
    exact (fat_write_fat_fat16 h hrw ht v h1).1
  · rw [if_pos ht] at h1
    exact (fat_write_fat_fat32 h hrw ht v h1).1

/-! ### Entries after a write -/

theorem off_ne (a : Nat) :
    ¬ (a = a + 1) ∧ ¬ (a = a + 2) ∧ ¬ (a = a + 3) ∧ ¬ (a + 1 = a) ∧ ¬ (a + 2 = a) ∧
    ¬ (a + 3 = a) ∧ ¬ (a + 1 = a + 2) ∧ ¬ (a + 1 = a + 3) ∧ ¬ (a + 2 = a + 1) ∧
    ¬ (a + 2 = a + 3) ∧ ¬ (a + 3 = a + 1) ∧ ¬ (a + 3 = a + 2) := by omega

theorem fat_entry_written_same {fs fs' : fat_fs_t} {N v : Nat} (hsb : fs'.sb = fs.sb)
    (hb : ∀ k, fat_byte fs' k = fat_written fs N v k) :
    fat_entry fs' N = written_entry fs N v := by
  unfold fat_entry written_entry
  simp only [hsb, hb]
  unfold fat_written fat_entry
  by_cases t32 : fs.sb.fs_type = FAT_FS_FAT32
  · simp only [if_pos t32]
    obtain ⟨c1, c2, c3, c4, c5, c6, c7, c8, c9, c10, c11, c12⟩ := off_ne (u32 (N <<< 2))
    simp only [if_true, if_neg c4, if_neg c5, if_neg c6, if_neg c9, if_neg c11, if_neg c12]
    have h0 := fat_byte_lt fs (u32 (N <<< 2))
    have h1 := fat_byte_lt fs (u32 (N <<< 2) + 1)
    have h2 := fat_byte_lt fs (u32 (N <<< 2) + 2)
    have h3 := fat_byte_lt fs (u32 (N <<< 2) + 3)
    generalize fat_byte fs (u32 (N <<< 2)) = b0 at *
    generalize fat_byte fs (u32 (N <<< 2) + 1) = b1 at *
    generalize fat_byte fs (u32 (N <<< 2) + 2) = b2 at *
    generalize fat_byte fs (u32 (N <<< 2) + 3) = b3 at *
    rw [and_240, and_15, and_high4, and_low28,
      lor_eq_add' _ _ 4 (by omega) (by omega),
      lor_eq_add' _ _ 28 (by unfold le32; omega) (by omega)]
    simp only [Nat.shiftRight_eq_div_pow]
    unfold le32
    omega
  · simp only [if_neg t32]
    by_cases t16 : fs.sb.fs_type = FAT_FS_FAT16
    · simp only [if_pos t16]
      obtain ⟨c1, c2, c3, c4, c5, c6, c7, c8, c9, c10, c11, c12⟩ := off_ne (u32 (N <<< 1))
      simp only [if_true, if_neg c4]
      rw [and_65535]
      simp only [Nat.shiftRight_eq_div_pow]
      unfold le16
      omega
    · simp only [if_neg t16]
      have h0 := fat_byte_lt fs (u32 ((N >>> 1) + N))
      have h1 := fat_byte_lt fs (u32 ((N >>> 1) + N) + 1)
      generalize fat_byte fs (u32 ((N >>> 1) + N)) = b0 at *
      generalize fat_byte fs (u32 ((N >>> 1) + N) + 1) = b1 at *
      obtain ⟨c1, c2, c3, c4, c5, c6, c7, c8, c9, c10, c11, c12⟩ := off_ne (u32 ((N >>> 1) + N))
      by_cases hodd : u32 ((N >>> 1) + N) % fs.sb.bytes_per_sector = fs.sb.bytes_per_sector - 1 ∨
          N % 2 = 1
      · simp only [if_pos hodd]
        simp only [if_true, if_neg c4]
        rw [and_15, and_240, and_4095, lor_eq_add _ _ 4 (by omega) (by omega)]
        simp only [Nat.shiftRight_eq_div_pow, Nat.shiftLeft_eq]
        unfold le16 u32
        omega
      · simp only [if_neg hodd]
        simp only [if_true, if_neg c4]
        rw [and_15, and_240, and_4095, and_4095, lor_eq_add' _ _ 4 (by omega) (by omega)]
        simp only [Nat.shiftRight_eq_div_pow]
        unfold le16
        omega

theorem fat12_off_ne {M N : Nat} (hne : M ≠ N) :
    ¬ (M + M / 2 = N + N / 2) ∧ ¬ (M + M / 2 + 1 = N + N / 2 + 1) := by omega

theorem fat12_even_even {M N : Nat} (hM : M % 2 = 0) (hN : N % 2 = 0) :
    ¬ (M + M / 2 = N + N / 2 + 1) ∧ ¬ (M + M / 2 + 1 = N + N / 2) := by omega

theorem fat12_odd_odd {M N : Nat} (hM : M % 2 = 1) (hN : N % 2 = 1) :
    ¬ (M + M / 2 = N + N / 2 + 1) ∧ ¬ (M + M / 2 + 1 = N + N / 2) := by omega

theorem fat12_even_odd {M N : Nat} (hM : M % 2 = 0) (hN : N % 2 = 1) :
    ¬ (M + M / 2 = N + N / 2 + 1) := by omega

theorem fat12_odd_even {M N : Nat} (hM : M % 2 = 1) (hN : N % 2 = 0) :
    ¬ (M + M / 2 + 1 = N + N / 2) := by omega

theorem fat32_off_ne {M N : Nat} (hne : M ≠ N) (i j : Nat) (hi : i < 4) (hj : j < 4) :
    ¬ (4 * M + i = 4 * N + j) := by omega

theorem fat16_off_ne {M N : Nat} (hne : M ≠ N) (i j : Nat) (hi : i < 2) (hj : j < 2) :
    ¬ (2 * M + i = 2 * N + j) := by omega

/-- Storing the high nibble of a byte leaves a 12-bit entry that ends in its low nibble. -/
theorem keep_low (a b x : Nat) :
    le16 a (((b &&& 0x0F) ||| (x &&& 0xF0)) % 256) &&& 0x0FFF = le16 a b &&& 0x0FFF := by
  rw [and_15, and_240, and_4095, and_4095, lor_eq_add _ _ 4 (by omega) (by omega)]
  unfold le16
  omega

/-- Storing the low nibble of a byte leaves a 12-bit entry that starts in its high nibble. -/
theorem keep_high (a b x : Nat) (ha : a < 256) :
    le16 (((a &&& 0xF0) ||| (x &&& 0x0F)) % 256) b >>> 4 = le16 a b >>> 4 := by
  rw [and_15, and_240, lor_eq_add' _ _ 4 (by omega) (by omega)]
  simp only [Nat.shiftRight_eq_div_pow]
  unfold le16
  omega

theorem off_small {N : Nat} (h : N < 2 ^ 30) :
    u32 (N <<< 2) = 4 * N ∧ u32 (N <<< 1) = 2 * N ∧ u32 ((N >>> 1) + N) = N + N / 2 := by
  simp only [Nat.shiftLeft_eq, Nat.shiftRight_eq_div_pow]
  unfold u32
  omega

theorem fat_entry_written_other {fs fs' : fat_fs_t} {N v M : Nat} (hsb : fs'.sb = fs.sb)
    (hb : ∀ k, fat_byte fs' k = fat_written fs N v k) (hne : M ≠ N)
    (hN : ¬ fat12_even_span fs N) (hM : ¬ fat12_even_span fs M) (ht : fat_type_ok fs)
    (hNlt : N < 2 ^ 30) (hMlt : M < 2 ^ 30) :
    fat_entry fs' M = fat_entry fs M := by
  unfold fat12_even_span at hN hM
  unfold fat_entry
  simp only [hsb, hb]
  unfold fat_written
  obtain ⟨n4, n2, n1⟩ := off_small hNlt
  obtain ⟨m4, m2, m1⟩ := off_small hMlt
  simp only [n4, n2, n1, m4, m2, m1] at hN hM ⊢
  by_cases t32 : fs.sb.fs_type = FAT_FS_FAT32
  · simp only [if_pos t32]
    have q := fat32_off_ne hne
    have q00 := q 0 0 (by decide) (by decide)
    have q01 := q 0 1 (by decide) (by decide)
    have q02 := q 0 2 (by decide) (by decide)
    have q03 := q 0 3 (by decide) (by decide)
    have q10 := q 1 0 (by decide) (by decide)
    have q20 := q 2 0 (by decide) (by decide)
    have q30 := q 3 0 (by decide) (by decide)
    simp only [Nat.add_zero] at q00 q01 q02 q03 q10 q20 q30
    simp only [q00, q01, q02, q03, q10, q20, q30,
      q 1 1 (by decide) (by decide), q 1 2 (by decide) (by decide),
      q 1 3 (by decide) (by decide), q 2 1 (by decide) (by decide),
      q 2 2 (by decide) (by decide), q 2 3 (by decide) (by decide),
      q 3 1 (by decide) (by decide), q 3 2 (by decide) (by decide),
      q 3 3 (by decide) (by decide), if_false]
  · simp only [if_neg t32]
    by_cases t16 : fs.sb.fs_type = FAT_FS_FAT16
    · simp only [if_pos t16]
      have q := fat16_off_ne hne
      have q00 := q 0 0 (by decide) (by decide)
      have q01 := q 0 1 (by decide) (by decide)
      have q10 := q 1 0 (by decide) (by decide)
      simp only [Nat.add_zero] at q00 q01 q10
      simp only [q00, q01, q10, q 1 1 (by decide) (by decide), if_false]
    · simp only [if_neg t16]
      have t12 : fs.sb.fs_type = FAT_FS_FAT12 := by
        rcases ht with h | h | h
        · exact h
        · exact absurd h t16
        · exact absurd h t32
      have hN' : ¬ (N % 2 = 0 ∧ (N + N / 2) % fs.sb.bytes_per_sector = fs.sb.bytes_per_sector - 1) := fun h => hN ⟨t12, h⟩
      have hM' : ¬ (M % 2 = 0 ∧ (M + M / 2) % fs.sb.bytes_per_sector = fs.sb.bytes_per_sector - 1) := fun h => hM ⟨t12, h⟩
      obtain ⟨hd, hd'⟩ := fat12_off_ne hne
      by_cases pN : N % 2 = 1
      · have cN : (N + N / 2) % fs.sb.bytes_per_sector = fs.sb.bytes_per_sector - 1 ∨ N % 2 = 1 := Or.inr pN
        simp only [if_pos cN, if_neg hd, if_neg hd']
        by_cases pM : M % 2 = 1
        · have cM : (M + M / 2) % fs.sb.bytes_per_sector = fs.sb.bytes_per_sector - 1 ∨ M % 2 = 1 := Or.inr pM
          obtain ⟨q1, q2⟩ := fat12_odd_odd pM pN
          simp only [if_pos cM, if_neg q1, if_neg q2]
        · have pM0 : M % 2 = 0 := (Nat.mod_two_eq_zero_or_one M).resolve_right pM
          have cM : ¬ ((M + M / 2) % fs.sb.bytes_per_sector = fs.sb.bytes_per_sector - 1 ∨ M % 2 = 1) :=
            fun h => h.elim (fun h1 => hM' ⟨pM0, h1⟩) pM
          simp only [if_neg cM, if_neg (fat12_even_odd pM0 pN)]
          by_cases hadj : M + M / 2 + 1 = N + N / 2
          · simp only [if_pos hadj]
            rw [← hadj, keep_low]
          · simp only [if_neg hadj]
      · have pN0 : N % 2 = 0 := (Nat.mod_two_eq_zero_or_one N).resolve_right pN
        have cN : ¬ ((N + N / 2) % fs.sb.bytes_per_sector = fs.sb.bytes_per_sector - 1 ∨ N % 2 = 1) :=
          fun h => h.elim (fun h1 => hN' ⟨pN0, h1⟩) pN
        simp only [if_neg cN, if_neg hd, if_neg hd']
        by_cases pM : M % 2 = 1
        · have cM : (M + M / 2) % fs.sb.bytes_per_sector = fs.sb.bytes_per_sector - 1 ∨ M % 2 = 1 := Or.inr pM
          simp only [if_pos cM, if_neg (fat12_odd_even pM pN0)]
          by_cases hadj : M + M / 2 = N + N / 2 + 1
          · simp only [if_pos hadj]
            rw [← hadj, keep_high _ _ _ (fat_byte_lt _ _)]
          · simp only [if_neg hadj]
        · have pM0 : M % 2 = 0 := (Nat.mod_two_eq_zero_or_one M).resolve_right pM
          have cM : ¬ ((M + M / 2) % fs.sb.bytes_per_sector = fs.sb.bytes_per_sector - 1 ∨ M % 2 = 1) :=
            fun h => h.elim (fun h1 => hM' ⟨pM0, h1⟩) pM
          obtain ⟨q1, q2⟩ := fat12_even_even pM0 pN0
          simp only [if_neg cM, if_neg q1, if_neg q2]

/-! ### The state after a mount -/

theorem parse_fsz_lt (bb : Nat → Nat) : parse_fsz bb < 2 ^ 32 := by
  unfold parse_fsz
  have h0 := ld8_lt bb (22 + 0)
  have h1 := ld8_lt bb (22 + 1)
  have g0 := ld8_lt bb (36 + 0)
  have g1 := ld8_lt bb (36 + 1)
  have g2 := ld8_lt bb (36 + 2)
  have g3 := ld8_lt bb (36 + 3)
  unfold bpb_fat_size fat32_fat_size
  rw [le16_eq _ _ h0, le32_eq _ _ _ _ g0 g1 g2]
  unfold le16 le32
  split <;> omega

theorem fat_parse_boot_sizes (bb : Nat → Nat) (sb : fat_superblock_t) :
    (fat_parse_boot bb sb).2.fat_size < 2 ^ 32 ∧
    (fat_parse_boot bb sb).2.reserved_sectors < 2 ^ 16 := by
  have hr : u16 (parse_rs bb) < 2 ^ 16 := Nat.mod_lt _ (by decide)
  have hf := parse_fsz_lt bb
  by_cases h1 : (parse_geometry bb sb).fs_type = FAT_FS_FAT32
  · by_cases h2 : fat32_fs_version bb 0 ≠ 0 ∨ fat32_fs_version bb 1 ≠ 0
    · unfold fat_parse_boot; rw [if_pos h1, if_pos h2]
      exact ⟨hf, hr⟩
    · unfold fat_parse_boot; rw [if_pos h1, if_neg h2]
      exact ⟨hf, hr⟩
  · unfold fat_parse_boot; rw [if_neg h1]
    exact ⟨hf, hr⟩

/-- The checks that `fat_read_boot` makes on the outcome of its three calls: when the
result `r` is a success, the sector size is that of the device, and the sizes are those
that `fat_parse_boot` stored. -/
theorem fat_read_boot_checks (l : Nat) (raw : Int × (Nat → Nat))
    (parsed : Int × fat_superblock_t) (fi : Int × (Nat → Nat))
    (r : Int × fat_superblock_t)
    (hr : r =
      if raw.1 < 0 then (raw.1, zero_superblock)
      else if fat16_boot_sig raw.2 0 ≠ 0x55 ∨ fat16_boot_sig raw.2 1 ≠ 0xAA then
        (-EINVAL, zero_superblock)
      else
        if parsed.1 < 0 then parsed
        else if parsed.2.bytes_per_sector ≠ 1 <<< l then (-EINVAL, parsed.2)
        else if parsed.2.fsinfo_sector ≠ 0 then
          if fi.1 < 0 then (fi.1, parsed.2)
          else if fsinfo_sig1 fi.2 ≠ FAT32_FSINFO_SIG1 ∨ fsinfo_sig2 fi.2 ≠ FAT32_FSINFO_SIG2 ∨
              fsinfo_sig3 fi.2 ≠ FAT32_FSINFO_SIG3 then
            (0, parsed.2)
          else
            (0, { parsed.2 with
                  free_clusters := fsinfo_free_clusters fi.2
                  last_alloc_cluster := fsinfo_last_alloc_cluster fi.2 })
        else (0, { parsed.2 with last_alloc_cluster := 2 }))
    (h : r.1 = 0) :
    r.2.bytes_per_sector = 2 ^ l ∧ r.2.fat_size = parsed.2.fat_size ∧
    r.2.reserved_sectors = parsed.2.reserved_sectors ∧ r.2.fs_type = parsed.2.fs_type ∧
    r.2.num_clusters = parsed.2.num_clusters := by
  by_cases c1 : raw.1 < 0
  · rw [if_pos c1] at hr
    rw [hr] at h
    exact absurd h (by simp only; omega)
  · rw [if_neg c1] at hr
    by_cases c2 : fat16_boot_sig raw.2 0 ≠ 0x55 ∨ fat16_boot_sig raw.2 1 ≠ 0xAA
    · rw [if_pos c2] at hr
      rw [hr] at h
      exact absurd h (show ¬ (-EINVAL : Int) = 0 by decide)
    · rw [if_neg c2] at hr
      by_cases c3 : parsed.1 < 0
      · rw [if_pos c3] at hr
        rw [hr] at h
        omega
      · rw [if_neg c3] at hr
        by_cases c4 : parsed.2.bytes_per_sector ≠ 1 <<< l
        · rw [if_pos c4] at hr
          rw [hr] at h
          exact absurd h (show ¬ (-EINVAL : Int) = 0 by decide)
        · rw [if_neg c4] at hr
          have hb : parsed.2.bytes_per_sector = 2 ^ l := by
            have := not_not.mp c4
            rw [this, Nat.shiftLeft_eq, Nat.one_mul]
          by_cases c5 : parsed.2.fsinfo_sector ≠ 0
          · rw [if_pos c5] at hr
            by_cases c6 : fi.1 < 0
            · rw [if_pos c6] at hr
              rw [hr] at h
              exact absurd h (by simp only; omega)
            · rw [if_neg c6] at hr
              by_cases c7 : fsinfo_sig1 fi.2 ≠ FAT32_FSINFO_SIG1 ∨
                  fsinfo_sig2 fi.2 ≠ FAT32_FSINFO_SIG2 ∨ fsinfo_sig3 fi.2 ≠ FAT32_FSINFO_SIG3
              · rw [if_pos c7] at hr
                rw [hr]
                exact ⟨hb, rfl, rfl, rfl, rfl⟩
              · rw [if_neg c7] at hr
                rw [hr]
                exact ⟨hb, rfl, rfl, rfl, rfl⟩
          · rw [if_neg c5] at hr
            rw [hr]
            exact ⟨hb, rfl, rfl, rfl, rfl⟩

/-- A boot sector that `fat_read_boot` accepts has the sector size of the device. -/
theorem fat_read_boot_ok {bd : kos_blockdev_t} (h : (fat_read_boot bd).1 = 0) :
    (fat_read_boot bd).2.bytes_per_sector = 2 ^ bd.l_block_size ∧
    (fat_read_boot bd).2.fat_size < 2 ^ 32 ∧
    (fat_read_boot bd).2.reserved_sectors < 2 ^ 16 := by
  have hsz := fat_parse_boot_sizes (fat_read_raw_boot (fun _ => 0) bd).2 zero_superblock
  obtain ⟨h1, h2, h3, -, -⟩ := fat_read_boot_checks bd.l_block_size
    (fat_read_raw_boot (fun _ => 0) bd)
    (fat_parse_boot (fat_read_raw_boot (fun _ => 0) bd).2 zero_superblock)
    (fat_read_fsinfo (fun _ => 0)
      (fat_parse_boot (fat_read_raw_boot (fun _ => 0) bd).2 zero_superblock).2.fsinfo_sector bd)
    (fat_read_boot bd) rfl h
  rw [h2, h3]
  exact ⟨h1, hsz⟩
/-- A state whose FAT cache holds no valid record satisfies the invariant. -/
theorem fcache_inv_of_empty {S : Nat} {fs : fat_fs_t}
    (hbps : fs.sb.bytes_per_sector = S) (hlbs : 2 ^ fs.dev.l_block_size = S)
    (hrng : 2 ≤ fs.dev.l_block_size ∧ fs.dev.l_block_size ≤ 15)
    (hfat : fs.sb.fat_size < 2 ^ 32) (hres : fs.sb.reserved_sectors < 2 ^ 16)
    (hge : 2 ≤ fs.cache_size) (hle : fs.cache_size ≤ fs.fcache_size)
    (hinj : ∀ i j, i < fs.fcache_size → j < fs.fcache_size → fs.fcache i = fs.fcache j → i = j)
    (hempty : ∀ i, i < fs.fcache_size → (fs.mem (fs.fcache i)).flags = 0) :
    fcache_inv S fs :=
  ⟨⟨hbps, hlbs, hrng, hfat, hres, hge, hle, hinj,
      fun i _ hi _ hv _ _ => absurd (hempty i hi) hv,
      fun i hi hv => absurd (hempty i hi) hv⟩,
    fun i hi hv _ _ _ _ => absurd (hempty i hi) hv⟩

/-- Mounting establishes the invariant of the FAT cache: on a device with blocks of 4
to 32768 bytes, with at least two cluster-cache records and at least as many FAT-cache
records. -/
theorem fat_fs_init_ex_inv {bd : kos_blockdev_t} {flags cache_sz fcache_sz : Nat}
    {fs : fat_fs_t} (h : fat_fs_init_ex bd flags cache_sz fcache_sz = some fs)
    (hrng : 2 ≤ bd.l_block_size ∧ bd.l_block_size ≤ 15)
    (hge : 2 ≤ cache_sz) (hle : cache_sz ≤ fcache_sz) :
    fcache_inv (2 ^ bd.l_block_size) fs := by
  unfold fat_fs_init_ex at h
  by_cases c1 : bd.init_rc ≠ 0
  · rw [if_pos c1] at h; cases h
  · rw [if_neg c1] at h
    by_cases c2 : (fat_read_boot bd).1 ≠ 0
    · rw [if_pos c2] at h; cases h
    · rw [if_neg c2] at h
      obtain ⟨hb, hf, hr⟩ := fat_read_boot_ok (not_not.mp c2)
      cases h
      exact fcache_inv_of_empty hb rfl hrng hf hr hge hle
        (fun i j _ _ (e : cache_sz + i = cache_sz + j) => by omega) (fun _ _ => rfl)

/-! ## C2: read after write -/

theorem fat_offset_congr {fs fs' : fat_fs_t} (hsb : fs'.sb = fs.sb) (N : Nat) :
    fat_offset fs' N = fat_offset fs N ∧ fat_last fs' N = fat_last fs N := by
  unfold fat_offset fat_last
  rw [hsb]
  exact ⟨rfl, rfl⟩

theorem write_post_ready {S : Nat} {fs fs' : fat_fs_t} {N v : Nat}
    (h : write_post S fs N v fs') : entry_ready fs' N := by
  unfold entry_ready
  rw [(fat_offset_congr h.frame.sb N).1, (fat_offset_congr h.frame.sb N).2, h.frame.sb]
  exact Or.inr ⟨h.cached1, h.cached2⟩

theorem mount_rw_some {bd : kos_blockdev_t}
    (h : (fat_fs_init bd FAT_MNT_FLAG_RW).isSome = true) :
    fat_fs_init_ex bd FAT_MNT_FLAG_RW FAT_CACHE_BLOCKS FAT_FCACHE_BLOCKS = some (mount_rw bd) := by
  unfold mount_rw
  unfold fat_fs_init at h ⊢
  cases hx : fat_fs_init_ex bd FAT_MNT_FLAG_RW FAT_CACHE_BLOCKS FAT_FCACHE_BLOCKS with
  | none => rw [hx] at h; cases h
  | some x => rfl

/-- A volume mounted with the default cache sizes satisfies the cache invariant. -/
theorem mount_rw_inv {bd : kos_blockdev_t}
    (h : (fat_fs_init bd FAT_MNT_FLAG_RW).isSome = true)
    (hrng : 2 ≤ bd.l_block_size ∧ bd.l_block_size ≤ 15) :
    fcache_inv (2 ^ bd.l_block_size) (mount_rw bd) :=
  fat_fs_init_ex_inv (mount_rw_some h) hrng (by decide) (by decide)

/-- C2: on a mounted volume of any of the three FAT variants (cache invariant `fcache_inv`,
sectors of `S` bytes), for every cluster number `N` and value `v`: when
`fat_write_fat fs N v` returns 0 (which it does on a read-write mount only), a following
`fat_read_fat` of `N` leaves `*err` alone and returns `v & 0x0FFF` on FAT12, `v & 0xFFFF`
on FAT16, and `(old & 0xF0000000) | (v & 0x0FFFFFFF)` on FAT32, where `old` is what
`fat_read_fat` returned for `N` before the write. -/
theorem fat_read_fat_after_write (S : Nat) (fs : fat_fs_t) (N v : Nat) (err : Int)
    (h : fcache_inv S fs) (ht : fat_type_ok fs) (hok : (fat_write_fat fs N v).1 = 0) :
    fs.mnt_flags &&& FAT_MNT_FLAG_RW ≠ 0 ∧
    (fat_read_fat (fat_write_fat fs N v).2 N err).1 =
      (if fs.sb.fs_type = FAT_FS_FAT32 then
        ((fat_read_fat fs N err).1 &&& 0xF0000000) ||| (v &&& 0x0FFFFFFF)
      else if fs.sb.fs_type = FAT_FS_FAT16 then v &&& 0xFFFF
      else v &&& 0x0FFF) ∧
    (fat_read_fat (fat_write_fat fs N v).2 N err).2.1 = err := by
  obtain ⟨hwp, hold⟩ := fat_write_fat_spec h ht hok
  have ht' : fat_type_ok (fat_write_fat fs N v).2 := by
    unfold fat_type_ok
    rw [hwp.frame.sb]
    exact ht
  obtain ⟨fs2, hrd, -⟩ := fat_read_fat_ready hwp.inv ht' (write_post_ready hwp) err
  obtain ⟨fs0, h0⟩ := hold err
  refine ⟨?_, ?_, ?_⟩
  · intro hro
    unfold fat_write_fat at hok
    rw [if_pos hro] at hok
    simp [EROFS] at hok
  · rw [hrd, h0, fat_entry_written_same hwp.frame.sb hwp.bytes]
    rfl
  · rw [hrd]

theorem vol_floppy_inv : fcache_inv 512 vol_floppy :=
  @mount_rw_inv dev_floppy (by decide) (by decide)

set_option maxRecDepth 100000 in
theorem fat_read_fat_after_write_witness :
    (fat_read_fat (fat_write_fat vol_floppy 682 0xABC).2 682 0).1 = 0xABC := by
  have h := (fat_read_fat_after_write 512 vol_floppy 682 0xABC 0 vol_floppy_inv
    (Or.inl (by decide)) (by decide!)).2.1
  rw [h]
  decide

/-! ## Chains and one iteration of `fat_erase_chain` -/

theorem sb_same_refl (fs : fat_fs_t) : sb_same fs fs := ⟨rfl, rfl, rfl, rfl⟩

theorem sb_same_trans {a b c : fat_fs_t} (h1 : sb_same a b) (h2 : sb_same b c) : sb_same a c :=
  ⟨h2.fs_type.trans h1.fs_type, h2.bps.trans h1.bps, h2.reserved.trans h1.reserved,
    h2.fat_size.trans h1.fat_size⟩

theorem sb_same_of_frame {fs fs' : fat_fs_t} (h : fs_frame fs fs') : sb_same fs fs' :=
  ⟨by rw [h.sb], by rw [h.sb], by rw [h.sb], by rw [h.sb]⟩

theorem sb_same_bump (fs : fat_fs_t) : sb_same fs (bump_free fs) := ⟨rfl, rfl, rfl, rfl⟩

theorem bump_inv {S : Nat} {fs : fat_fs_t} (h : fcache_inv S fs) : fcache_inv S (bump_free fs) :=
  ⟨⟨h.1.bps, h.1.lbs, h.1.lbs_rng, h.1.fat_size_lt, h.1.reserved_lt, h.1.size_ge, h.1.size_le,
    h.1.inj, h.1.uniq, h.1.bound⟩, h.2⟩

theorem bump_view (fs : fat_fs_t) (b off : Nat) :
    fat_view (bump_free fs) b off = fat_view fs b off := by
  unfold fat_view
  rw [show (bump_free fs).fcache_size = fs.fcache_size from rfl,
    @fcache_scan_congr fs (bump_free fs) rfl (fun _ => ⟨rfl, rfl⟩)]
  rfl

theorem bump_byte (fs : fat_fs_t) (k : Nat) : fat_byte (bump_free fs) k = fat_byte fs k :=
  bump_view fs _ _

theorem fat_entry_same {fs fs' : fat_fs_t} (hs : sb_same fs fs')
    (hb : ∀ k, fat_byte fs' k = fat_byte fs k) (N : Nat) : fat_entry fs' N = fat_entry fs N := by
  unfold fat_entry
  simp only [hs.fs_type, hs.bps, hb]

theorem fat_offset_same {fs fs' : fat_fs_t} (hs : sb_same fs fs') (N : Nat) :
    fat_offset fs' N = fat_offset fs N ∧ fat_last fs' N = fat_last fs N := by
  unfold fat_offset fat_last
  rw [hs.fs_type]
  exact ⟨rfl, rfl⟩

theorem fat_accepts_same {fs fs' : fat_fs_t} (hs : sb_same fs fs') {N : Nat}
    (h : fat_accepts fs N) : fat_accepts fs' N := by
  unfold fat_accepts at h ⊢
  rw [hs.reserved, hs.bps, hs.fat_size, (fat_offset_same hs N).2]
  exact h

theorem fat_is_eof_same {fs fs' : fat_fs_t} (hs : sb_same fs fs') (c : Nat) :
    fat_is_eof fs' c = fat_is_eof fs c := by
  unfold fat_is_eof
  rw [hs.fs_type]

theorem even_span_same {fs fs' : fat_fs_t} (hs : sb_same fs fs') (N : Nat) :
    fat12_even_span fs' N ↔ fat12_even_span fs N := by
  unfold fat12_even_span
  rw [hs.fs_type, hs.bps]

theorem fat_type_ok_same {fs fs' : fat_fs_t} (hs : sb_same fs fs') (h : fat_type_ok fs) :
    fat_type_ok fs' := by
  unfold fat_type_ok at h ⊢
  rw [hs.fs_type]
  exact h

theorem chain_link_same {fs fs' : fat_fs_t} (hs : sb_same fs fs') {c : Nat}
    (he : fat_entry fs' c = fat_entry fs c) (h : chain_link fs c) : chain_link fs' c := by
  obtain ⟨h1, h2, h3, h4, h5⟩ := h
  exact ⟨by rw [fat_is_eof_same hs]; exact h1, h2, fat_accepts_same hs h3,
    fun hh => h4 ((even_span_same hs c).mp hh), by rw [he]; exact h5⟩

theorem chain_from_links {fs : fat_fs_t} : ∀ (l : List Nat) (c : Nat), chain_from fs c l →
    ∀ y, y ∈ l → chain_link fs y
  | [], _, _, y, hy => by cases hy
  | x :: rest, c, h, y, hy => by
    obtain ⟨hx, hl, hr⟩ := h
    rcases List.mem_cons.mp hy with e | hm
    · rw [e, hx]; exact hl
    · exact chain_from_links rest _ hr y hm

theorem chain_from_same {fs fs' : fat_fs_t} (hs : sb_same fs fs') :
    ∀ (l : List Nat) (c : Nat), (∀ y, y ∈ l → fat_entry fs' y = fat_entry fs y) →
      chain_from fs c l → chain_from fs' c l
  | [], c, _, h => by
    unfold chain_from at h ⊢
    rw [fat_is_eof_same hs]; exact h
  | x :: rest, c, he, h => by
    obtain ⟨hx, hl, hr⟩ := h
    have hc : fat_entry fs' c = fat_entry fs c := he c (by rw [← hx]; exact List.mem_cons_self _ _)
    refine ⟨hx, chain_link_same hs hc hl, ?_⟩
    rw [hc]
    exact chain_from_same hs rest _ (fun y hy => he y (List.mem_cons_of_mem _ hy)) hr

/-- A chain is determined by its first cluster. -/
theorem chain_from_unique {fs : fat_fs_t} : ∀ (l l' : List Nat) (c : Nat),
    chain_from fs c l → chain_from fs c l' → l = l'
  | [], [], _, _, _ => rfl
  | [], _ :: _, _, h, h' => absurd h'.2.1.1 h
  | _ :: _, [], _, h, h' => absurd h.2.1.1 h'
  | x :: r, x' :: r', c, h, h' => by
    rw [h.1, h'.1, chain_from_unique r r' _ h.2.2 h'.2.2]

theorem chain_from_suffix {fs : fat_fs_t} : ∀ (l : List Nat) (c : Nat), chain_from fs c l →
    ∀ y, y ∈ l → ∃ suf, suf.length < l.length ∧ chain_from fs y (y :: suf)
  | [], _, _, y, hy => by cases hy
  | x :: rest, c, h, y, hy => by
    rcases List.mem_cons.mp hy with e | hm
    · refine ⟨rest, Nat.lt_succ_self _, ?_⟩
      have hx := h.1
      rw [e, hx]
      exact ⟨rfl, h.2⟩
    · obtain ⟨suf, hlen, hc⟩ := chain_from_suffix rest _ h.2.2 y hm
      exact ⟨suf, Nat.lt_succ_of_lt hlen, hc⟩

/-- A chain that ends has no cluster twice. -/
theorem chain_from_nodup {fs : fat_fs_t} : ∀ (l : List Nat) (c : Nat), chain_from fs c l →
    l.Nodup
  | [], _, _ => List.nodup_nil
  | x :: rest, c, h => by
    refine List.nodup_cons.mpr ⟨?_, chain_from_nodup rest _ h.2.2⟩
    intro hm
    obtain ⟨suf, hlen, hc⟩ := chain_from_suffix rest _ h.2.2 x hm
    have hx : chain_from fs x (x :: rest) := by
      have := h.1
      rw [this]
      exact ⟨rfl, h.2⟩
    have := chain_from_unique _ _ _ hc hx
    injection this with _ e
    rw [e] at hlen
    exact Nat.lt_irrefl _ hlen

theorem fat_offset_le_last (fs : fat_fs_t) (N : Nat) : fat_offset fs N ≤ fat_last fs N := by
  unfold fat_offset fat_last
  split
  · omega
  · split <;> omega

theorem accepts_ready {fs : fat_fs_t} {N : Nat} (hd : dev_ok fs) (ha : fat_accepts fs N) :
    entry_ready fs N := by
  unfold fat_accepts at ha
  have := Nat.div_le_div_right (c := fs.sb.bytes_per_sector) (fat_offset_le_last fs N)
  exact Or.inl ⟨hd, by omega, ha⟩

theorem erased_entry (fs : fat_fs_t) (N : Nat) :
    written_entry fs N FAT_FREE_CLUSTER =
      if fs.sb.fs_type = FAT_FS_FAT32 then fat_entry fs N &&& 0xF0000000 else 0 := by
  unfold written_entry FAT_FREE_CLUSTER
  split
  · rw [Nat.zero_and, Nat.or_zero]
  · split <;> exact Nat.zero_and _

theorem erase_step {S : Nat} {fs : fat_fs_t} (h : fcache_inv S fs) (ht : fat_type_ok fs)
    (hrw : fs.mnt_flags &&& FAT_MNT_FLAG_RW ≠ 0) (hd : dev_ok fs) {c : Nat}
    (hl : chain_link fs c) (err : Int) :
    ∃ fs1, fat_read_fat fs c err = (fat_entry fs c, err, fs1) ∧
      (fat_write_fat fs1 c FAT_FREE_CLUSTER).1 = 0 ∧
      fcache_inv S (bump_free (fat_write_fat fs1 c FAT_FREE_CLUSTER).2) ∧
      sb_same fs (bump_free (fat_write_fat fs1 c FAT_FREE_CLUSTER).2) ∧
      (bump_free (fat_write_fat fs1 c FAT_FREE_CLUSTER).2).mnt_flags = fs.mnt_flags ∧
      dev_ok (bump_free (fat_write_fat fs1 c FAT_FREE_CLUSTER).2) ∧
      (bump_free (fat_write_fat fs1 c FAT_FREE_CLUSTER).2).sb.free_clusters =
        u32 (fs.sb.free_clusters + 1) ∧
      fat_entry (bump_free (fat_write_fat fs1 c FAT_FREE_CLUSTER).2) c =
        written_entry fs c FAT_FREE_CLUSTER ∧
      ∀ M, M ≠ c → M < 2 ^ 28 → ¬ fat12_even_span fs M →
        fat_entry (bump_free (fat_write_fat fs1 c FAT_FREE_CLUSTER).2) M = fat_entry fs M := by
  obtain ⟨he, hc28, hacc, hspan, hinv⟩ := hl
  obtain ⟨fs1, hr, hinv1, hf1, hb1⟩ := fat_read_fat_ready h ht (accepts_ready hd hacc) err
  have hs1 := sb_same_of_frame hf1
  have ht1 := fat_type_ok_same hs1 ht
  have hrw1 : fs1.mnt_flags &&& FAT_MNT_FLAG_RW ≠ 0 := by rw [hf1.mnt_flags]; exact hrw
  have hd1 := dev_ok_of_frame hf1 hd
  have hw := fat_write_fat_ready hinv1 hrw1 ht1
    (accepts_ready hd1 (fat_accepts_same hs1 hacc)) FAT_FREE_CLUSTER
  obtain ⟨hwp, -⟩ := fat_write_fat_spec hinv1 ht1 hw
  have hs2 := sb_same_of_frame hwp.frame
  have hs3 := sb_same_bump (fat_write_fat fs1 c FAT_FREE_CLUSTER).2
  have hent : ∀ N, fat_entry (bump_free (fat_write_fat fs1 c FAT_FREE_CLUSTER).2) N =
      fat_entry (fat_write_fat fs1 c FAT_FREE_CLUSTER).2 N :=
    fun N => fat_entry_same hs3 (bump_byte _) N
  have hent1 : ∀ N, fat_entry fs1 N = fat_entry fs N := fat_entry_congr hf1.sb hb1
  refine ⟨fs1, hr, hw, bump_inv hwp.inv, sb_same_trans hs1 (sb_same_trans hs2 hs3), ?_, ?_, ?_,
    ?_, ?_⟩
  · show (fat_write_fat fs1 c FAT_FREE_CLUSTER).2.mnt_flags = _
    rw [hwp.frame.mnt_flags, hf1.mnt_flags]
  · exact fun b c => dev_ok_of_frame hwp.frame hd1 b c
  · show u32 ((fat_write_fat fs1 c FAT_FREE_CLUSTER).2.sb.free_clusters + 1) = _
    rw [hwp.frame.sb, hf1.sb]
  · rw [hent, fat_entry_written_same hwp.frame.sb hwp.bytes]
    unfold written_entry
    rw [hf1.sb, hent1]
  · intro M hne hM hMs
    rw [hent, fat_entry_written_other hwp.frame.sb hwp.bytes hne
      (fun hh => hspan ((even_span_same hs1 c).mp hh))
      (fun hh => hMs ((even_span_same hs1 M).mp hh)) ht1
      (Nat.lt_trans hc28 (by decide)) (Nat.lt_trans hM (by decide)), hent1]

theorem erase_loop_step (n : Nat) (fs : fat_fs_t) (c : Nat) (err : Int)
    (he : fat_is_eof fs c = 0) {fs1 : fat_fs_t} {next : Nat} {e : Int}
    (hr : fat_read_fat fs c err = (next, e, fs1)) (hn : next ≠ FAT_INVALID_CLUSTER) :
    fat_erase_chain_loop (n + 1) fs c err =
      fat_erase_chain_loop n (bump_free (fat_write_fat fs1 c FAT_FREE_CLUSTER).2) next
        (fat_write_fat fs1 c FAT_FREE_CLUSTER).1 := by
  rw [fat_erase_chain_loop, if_neg (fun hh => hh he), hr]
  simp only
  rw [if_neg hn]
  rfl

theorem iterate_bump (n x : Nat) (hn : 0 < n) :
    (fun y => u32 (y + 1))^[n] x = (x + n) % 2 ^ 32 := by
  induction n generalizing x with
  | zero => omega
  | succ n ih =>
    rw [Function.iterate_succ_apply]
    rcases Nat.eq_zero_or_pos n with rfl | hp
    · rfl
    · rw [ih _ hp]
      unfold u32
      omega

/-- The loop of `fat_erase_chain` on a chain `l` that starts at `c`. -/
theorem erase_loop_spec {S : Nat} : ∀ (l : List Nat) (fs : fat_fs_t) (c : Nat) (err : Int)
    (fuel : Nat), fcache_inv S fs → fat_type_ok fs → fs.mnt_flags &&& FAT_MNT_FLAG_RW ≠ 0 →
    dev_ok fs → chain_from fs c l → l.length < fuel →
    ∃ fs', fat_erase_chain_loop fuel fs c err = some (0, fs') ∧ fcache_inv S fs' ∧
      sb_same fs fs' ∧ dev_ok fs' ∧
      fs'.sb.free_clusters = (fun y => u32 (y + 1))^[l.length] fs.sb.free_clusters ∧
      (∀ x, x ∈ l → fat_entry fs' x = written_entry fs x FAT_FREE_CLUSTER) ∧
      (∀ M, M ∉ l → M < 2 ^ 28 → ¬ fat12_even_span fs M → fat_entry fs' M = fat_entry fs M)
  | [], fs, c, err, fuel, h, _, _, hd, hc, hfuel => by
    obtain ⟨n, rfl⟩ : ∃ n, fuel = n + 1 := ⟨fuel - 1, by simp at hfuel; omega⟩
    refine ⟨fs, ?_, h, sb_same_refl fs, hd, rfl, fun x hx => absurd hx (List.not_mem_nil x),
      fun _ _ _ _ => rfl⟩
    rw [fat_erase_chain_loop, if_pos (show fat_is_eof fs c ≠ 0 from hc)]
  | x :: rest, fs, c, err, fuel, h, ht, hrw, hd, hc, hfuel => by
    obtain ⟨n, rfl⟩ : ∃ n, fuel = n + 1 := ⟨fuel - 1, by simp at hfuel; omega⟩
    have hnd := chain_from_nodup _ _ hc
    obtain ⟨hx, hl, hrest⟩ := hc
    subst hx
    obtain ⟨hxr, -⟩ := List.nodup_cons.mp hnd
    obtain ⟨fs1, hr, hw, hinv3, hs3, hm3, hd3, hfree3, hsame3, hother3⟩ :=
      erase_step h ht hrw hd hl err
    have hlinks := chain_from_links rest _ hrest
    have hrest3 : chain_from (bump_free (fat_write_fat fs1 x FAT_FREE_CLUSTER).2)
        (fat_entry fs x) rest :=
      chain_from_same hs3 rest _ (fun y hy =>
        hother3 y (fun e => hxr (e ▸ hy)) (hlinks y hy).2.1 (hlinks y hy).2.2.2.1) hrest
    obtain ⟨fs', hrun, hinv', hs', hd', hfree', hin', hout'⟩ :=
      erase_loop_spec rest (bump_free (fat_write_fat fs1 x FAT_FREE_CLUSTER).2) (fat_entry fs x)
        (fat_write_fat fs1 x FAT_FREE_CLUSTER).1 n hinv3 (fat_type_ok_same hs3 ht)
        (by rw [hm3]; exact hrw) hd3 hrest3 (by simp at hfuel ⊢; omega)
    refine ⟨fs', ?_, hinv', sb_same_trans hs3 hs', hd', ?_, ?_, ?_⟩
    · rw [erase_loop_step n fs x err hl.1 hr hl.2.2.2.2]
      exact hrun
    · rw [hfree', hfree3]
      rfl
    · intro y hy
      rcases List.mem_cons.mp hy with e | hm
      · rw [e, hout' x hxr hl.2.1 (fun hh => hl.2.2.2.1 ((even_span_same hs3 x).mp hh)), hsame3]
      · rw [hin' y hm]
        unfold written_entry
        rw [hs3.fs_type, hother3 y (fun e => hxr (e ▸ hm)) (hlinks y hm).2.1
          (hlinks y hm).2.2.2.1]
    · intro M hM hM28 hMs
      have hne : M ≠ x := fun e => hM (e ▸ List.mem_cons_self _ _)
      have hnr : M ∉ rest := fun hm => hM (List.mem_cons_of_mem _ hm)
      rw [hout' M hnr hM28 (fun hh => hMs ((even_span_same hs3 M).mp hh)),
        hother3 M hne hM28 hMs]

/-! ## C1: FAT12 entries that span two sectors -/

set_option maxRecDepth 100000 in
/-- C1: on the FAT12 floppy volume `vol_floppy_span` (512-byte sectors) the entry of the
even cluster 682 starts at FAT byte offset 1023, the last byte of a sector.  The
reference decoding of the on-disk table is `w & 0x0FFF = 0xABC`, but `fat_read_fat`
takes the branch for an entry that spans two sectors, which shifts as for an odd
cluster, and returns `w >> 4 = 0x3AB` without reporting an error. -/
theorem fat_read_fat_even_cluster_spanning :
    vol_floppy_span.sb.fs_type = FAT_FS_FAT12 ∧
    vol_floppy_span.sb.bytes_per_sector = 512 ∧
    (682 + 682 / 2) % 512 = 511 ∧
    fat12_reference vol_floppy_span 682 = 0xABC ∧
    (fat_read_fat vol_floppy_span 682 0).1 = 0x3AB ∧
    (fat_read_fat vol_floppy_span 682 0).2.1 = 0 := by
  decide!

/-! ## C7: `fat_erase_chain` -/

set_option maxRecDepth 100000 in
/-- C7, counterexample: on the FAT32 volume `vol32_chain` cluster 3 is a chain of one
valid data cluster whose entry reads `0x1FFFFFFF`, an end-of-chain marker.  After
`fat_erase_chain` on cluster 3 has returned 0, the entry of cluster 3 reads
`0x10000000`, not 0: the write keeps the top four bits. -/
theorem fat_erase_chain_keeps_top_bits :
    vol32_chain.sb.fs_type = FAT_FS_FAT32 ∧
    3 < vol32_chain.sb.num_clusters + 2 ∧
    fat_is_eof vol32_chain 3 = 0 ∧
    (fat_read_fat vol32_chain 3 0).1 = 0x1FFFFFFF ∧
    fat_is_eof vol32_chain 0x1FFFFFFF = 1 ∧
    (fat_erase_chain 2 vol32_chain 3).map (fun r => (r.1, (fat_read_fat r.2 3 0).1)) =
      some (0, 0x10000000) := by
  decide!

/-- C7, amended: on a read-write mount whose device answers every request, let
`c :: rest` be the chain that starts at `c` (`chain_from`: 28-bit cluster numbers whose
entries the FAT-block reader accepts, each entry reading exactly the number of the next
cluster and the last one an end-of-chain marker other than `0xFFFFFFFF`, none of them an
even FAT12 cluster whose entry spans two sectors).  Then with any iteration limit above
the length of the chain `fat_erase_chain` returns 0; afterwards `free_clusters` has grown
by the length of the chain (modulo 2^32); every entry of the chain reads 0 on FAT12 and
FAT16 and its old top four bits on FAT32; and every other entry `M` (28-bit, not an even
FAT12 cluster spanning two sectors; this includes the reserved entries 0 and 1) is
unchanged in the table and reads as before. -/
theorem fat_erase_chain_frees (S : Nat) (fs : fat_fs_t) (c : Nat) (rest : List Nat)
    (fuel : Nat) (err : Int) (h : fcache_inv S fs) (ht : fat_type_ok fs)
    (hrw : fs.mnt_flags &&& FAT_MNT_FLAG_RW ≠ 0) (hd : dev_ok fs)
    (hc : chain_from fs c (c :: rest)) (hfuel : rest.length + 1 < fuel) :
    ∃ fs', fat_erase_chain fuel fs c = some (0, fs') ∧
      fs'.sb.free_clusters = (fs.sb.free_clusters + (rest.length + 1)) % 2 ^ 32 ∧
      (∀ x, x ∈ c :: rest →
        (fat_read_fat fs' x err).1 =
          (if fs.sb.fs_type = FAT_FS_FAT32 then (fat_read_fat fs x err).1 &&& 0xF0000000
          else 0) ∧
        (fat_read_fat fs' x err).2.1 = err) ∧
      (∀ M, M ∉ c :: rest → M < 2 ^ 28 → ¬ fat12_even_span fs M →
        fat_entry fs' M = fat_entry fs M ∧
        (fat_accepts fs M → (fat_read_fat fs' M err).1 = (fat_read_fat fs M err).1)) := by
  obtain ⟨fs', hrun, hinv', hs', hd', hfree', hin', hout'⟩ :=
    erase_loop_spec (c :: rest) fs c 0 fuel h ht hrw hd hc hfuel
  have ht' := fat_type_ok_same hs' ht
  have hlinks := chain_from_links _ _ hc
  have hread : ∀ x, fat_accepts fs x →
      (fat_read_fat fs x err).1 = fat_entry fs x ∧
      (fat_read_fat fs' x err).1 = fat_entry fs' x ∧ (fat_read_fat fs' x err).2.1 = err := by
    intro x hx
    obtain ⟨_, h1, -⟩ := fat_read_fat_ready h ht (accepts_ready hd hx) err
    obtain ⟨_, h2, -⟩ :=
      fat_read_fat_ready hinv' ht' (accepts_ready hd' (fat_accepts_same hs' hx)) err
    rw [h1, h2]
    exact ⟨rfl, rfl, rfl⟩
  refine ⟨fs', ?_, ?_, ?_, ?_⟩
  · unfold fat_erase_chain
    rw [if_neg hrw]
    exact hrun
  · rw [hfree']
    exact iterate_bump _ _ (Nat.succ_pos _)
  · intro x hx
    obtain ⟨r1, r2, r3⟩ := hread x (hlinks x hx).2.2.1
    rw [r1, r2, hin' x hx, erased_entry]
    exact ⟨rfl, r3⟩
  · intro M hM hM28 hMs
    refine ⟨hout' M hM hM28 hMs, fun ha => ?_⟩
    obtain ⟨r1, r2, -⟩ := hread M ha
    rw [r1, r2, hout' M hM hM28 hMs]

theorem vol12_inv : fcache_inv 512 vol12 :=
  @mount_rw_inv dev12 (by decide) (by decide)

set_option maxRecDepth 100000 in
theorem fat_erase_chain_frees_witness :
    ∃ fs', fat_erase_chain 3 vol12 2 = some (0, fs') ∧
      fs'.sb.free_clusters = (vol12.sb.free_clusters + 2) % 2 ^ 32 ∧
      (fat_read_fat fs' 2 0).1 = 0 ∧ (fat_read_fat fs' 3 0).1 = 0 ∧
      fat_entry fs' 5 = fat_entry vol12 5 := by
  obtain ⟨fs', h1, h2, h3, h4⟩ := fat_erase_chain_frees 512 vol12 2 [3] 3 0 vol12_inv
    (Or.inl (by decide)) (by decide) (fun _ _ => ⟨rfl, rfl⟩) (by decide!) (by decide)
  refine ⟨fs', h1, h2, ?_, ?_, (h4 5 (by decide) (by decide) (by decide)).1⟩
  · rw [(h3 2 (by decide)).1]; decide
  · rw [(h3 3 (by decide)).1]; decide

/-! ## C11: the FSInfo and backup boot sector fields -/

/-- C11 fails on the code: the boot sector `boot32_far` parses as FAT32 with return
code 0; its FSInfo sector field holds the bytes `00 01`, little-endian 256, and its
backup boot sector field the bytes `06 01`, little-endian 262, yet `fat_parse_boot`
stores `fsinfo_sector = 1` and `backup_bpb = 7`: it combines the two bytes of each field
with `|` without shifting the second one. -/
theorem fat_parse_boot_fsinfo_backup_unshifted :
    (fat_parse_boot boot32_far zero_superblock).1 = 0 ∧
    (fat_parse_boot boot32_far zero_superblock).2.fs_type = FAT_FS_FAT32 ∧
    le16 (fat32_fsinfo_sector boot32_far 0) (fat32_fsinfo_sector boot32_far 1) = 256 ∧
    (fat_parse_boot boot32_far zero_superblock).2.fsinfo_sector = 1 ∧
    le16 (fat32_backup_bpb boot32_far 0) (fat32_backup_bpb boot32_far 1) = 262 ∧
    (fat_parse_boot boot32_far zero_superblock).2.backup_bpb = 7 := by
  decide

/-! ## C12: reserved mount flags -/

theorem reserved_flags_masked {flags : Nat} (h : flags &&& 0xFFFFFFFE ≠ 0) :
    flags &&& FAT_MNT_VALID_FLAGS_MASK ≠ flags := by
  intro e
  have hle : flags ≤ 1 := by
    have := @Nat.and_le_right flags FAT_MNT_VALID_FLAGS_MASK
    rw [e] at this
    exact this
  have : flags = 0 ∨ flags = 1 := by omega
  rcases this with rfl | rfl <;> exact h (by decide)

/-- C12 as stated fails (by design: the code logs "mounting read-only"): with the
reserved bit 1 set, `flags = 2`, `fat_fs_init` on the FAT12 device `dev12` returns an
instance, mounted read-only, and `fs_fat_mount` returns 0. -/
theorem fat_fs_init_accepts_reserved_flag :
    2 &&& 0xFFFFFFFE ≠ 0 ∧ (fat_fs_init dev12 2).isSome = true ∧
    (fat_fs_init dev12 2).map (fun fs => fs.mnt_flags) = some FAT_MNT_FLAG_RO ∧
    (fs_fat_mount true true 0 dev12 2).1 = 0 ∧
    (fs_fat_mount true true 0 dev12 2).2.isSome = true := by
  decide

/-- C12 (amended): with any reserved mount-flag bit set, `fat_fs_init` does what it does
for `flags = 0`: it returns the same result, so every instance it returns is mounted
read-only; and `fs_fat_mount` returns 0 or -1, 0 exactly when the module is initialised,
the device can write if bit 0 of the flags is set, the read-only `fat_fs_init` yields an
instance and `nmmgr_handler_add` succeeds. -/
theorem fat_fs_init_reserved_flags_read_only (bd : kos_blockdev_t) (flags : Nat)
    (h : flags &&& 0xFFFFFFFE ≠ 0) :
    fat_fs_init bd flags = fat_fs_init bd FAT_MNT_FLAG_RO ∧
    (∀ fs, fat_fs_init bd flags = some fs → fs.mnt_flags = FAT_MNT_FLAG_RO) ∧
    ∀ (initted has_write_blocks : Bool) (add_rc : Int),
      ((fs_fat_mount initted has_write_blocks add_rc bd flags).1 = 0 ∨
        (fs_fat_mount initted has_write_blocks add_rc bd flags).1 = -1) ∧
      ((fs_fat_mount initted has_write_blocks add_rc bd flags).1 = 0 ↔
        initted = true ∧ (flags &&& FS_FAT_MOUNT_READWRITE ≠ 0 → has_write_blocks = true) ∧
        (fat_fs_init bd FAT_MNT_FLAG_RO).isSome = true ∧ add_rc = 0) := by
  have hm := reserved_flags_masked h
  have e : fat_fs_init bd flags = fat_fs_init bd FAT_MNT_FLAG_RO := by
    unfold fat_fs_init fat_fs_init_ex
    rw [if_pos hm]
    rfl
  refine ⟨e, ?_, ?_⟩
  · intro fs hfs
    unfold fat_fs_init fat_fs_init_ex at hfs
    rw [if_pos hm] at hfs
    split_ifs at hfs
    cases hfs
    rfl
  · intro initted wb add_rc
    unfold fs_fat_mount
    rw [e]
    cases initted
    · simp
    · by_cases hw : flags &&& FS_FAT_MOUNT_READWRITE ≠ 0 ∧ wb = false
      · rw [if_neg (by simp), if_pos hw]
        obtain ⟨h1, h2⟩ := hw
        simp [h1, h2]
      · rw [if_neg (by simp), if_neg hw]
        have hw' : flags &&& FS_FAT_MOUNT_READWRITE ≠ 0 → wb = true := by
          intro h1
          cases wb
          · exact absurd ⟨h1, rfl⟩ hw
          · rfl
        cases fat_fs_init bd FAT_MNT_FLAG_RO with
        | none => simp
        | some fs =>
          by_cases ha : add_rc = 0
          · simp only [ha, ne_eq, not_true_eq_false, if_false, true_or, true_and,
              Option.isSome_some, and_true, true_iff]
            exact hw'
          · simp [ha]

theorem fat_fs_init_reserved_flags_read_only_witness :
    fat_fs_init dev12 6 = fat_fs_init dev12 FAT_MNT_FLAG_RO ∧
    (fs_fat_mount true false 0 dev12 6).1 = 0 :=
  ⟨(fat_fs_init_reserved_flags_read_only dev12 6 (by decide)).1,
    ((fat_fs_init_reserved_flags_read_only dev12 6 (by decide)).2.2 true false 0).2.mpr
      ⟨rfl, fun h => absurd h (by decide), by decide, rfl⟩⟩

/-! ## C16: `fat_cluster_clear` of a cached cluster -/

/-- C16 fails on the code: on the volume `vol_file`, after `fat_cluster_read` has
brought cluster 5 into the cache (valid, not dirty, first byte `0x68`),
`fat_cluster_clear` of cluster 5 succeeds and zeroes the buffer but leaves the record's
flags at `FAT_CACHE_FLAG_VALID`: the record is not dirty, a following
`fat_cluster_cache_wb` issues no device request, and the device still holds the old
byte. -/
theorem fat_cluster_clear_cached_not_dirty :
    vol_file.mnt_flags = FAT_MNT_FLAG_RW ∧
    (fat_cluster_read vol_file 5 0).1 = some 0 ∧
    ((fat_cluster_read vol_file 5 0).2.2.1.mem 0).flags = FAT_CACHE_FLAG_VALID ∧
    ((fat_cluster_read vol_file 5 0).2.2.1.mem 0).block = 5 ∧
    ((fat_cluster_read vol_file 5 0).2.2.1.mem 0).data 0 = 0x68 ∧
    (fat_cluster_clear (fat_cluster_read vol_file 5 0).2.2.1 5 0).1 = some 0 ∧
    ((fat_cluster_clear (fat_cluster_read vol_file 5 0).2.2.1 5 0).2.2.1.mem 0).block = 5 ∧
    ((fat_cluster_clear (fat_cluster_read vol_file 5 0).2.2.1 5 0).2.2.1.mem 0).data 0 = 0 ∧
    ((fat_cluster_clear (fat_cluster_read vol_file 5 0).2.2.1 5 0).2.2.1.mem 0).flags =
      FAT_CACHE_FLAG_VALID ∧
    ((fat_cluster_clear (fat_cluster_read vol_file 5 0).2.2.1 5 0).2.2.1.mem 0).flags &&&
      FAT_CACHE_FLAG_DIRTY = 0 ∧
    (fat_cluster_cache_wb
      (fat_cluster_clear (fat_cluster_read vol_file 5 0).2.2.1 5 0).2.2.1).2.2 = [] ∧
    (fat_cluster_cache_wb
      (fat_cluster_clear (fat_cluster_read vol_file 5 0).2.2.1 5 0).2.2.1).2.1.dev.dev_data
        9 0 = 0x68 := by
  decide

/-! ## C19: the position of the most recently used FAT sector -/

/-- C19 fails on the code, whose `make_mru` moves the record to index `cache_size - 1`
also in the FAT cache.  With `(cache_sz, fcache_sz) = (2, 8)` a successful
`fat_read_fatblock` of sector 1 leaves its record (address 2) at index 1, not at index
7; with `(4, 2)` the record (address 4) ends at index 3, outside the two slots of the FAT
cache, where the next search does not find it. -/
theorem fat_read_fatblock_mru_index :
    (vol12_sized 2 8).cache_size = 2 ∧ (vol12_sized 2 8).fcache_size = 8 ∧
    (fat_read_fatblock (vol12_sized 2 8) 1 0).1 = some 2 ∧
    ((fat_read_fatblock (vol12_sized 2 8) 1 0).2.2.mem 2).block = 1 ∧
    (fat_read_fatblock (vol12_sized 2 8) 1 0).2.2.fcache 1 = 2 ∧
    (fat_read_fatblock (vol12_sized 2 8) 1 0).2.2.fcache 7 ≠ 2 ∧
    (vol12_sized 4 2).cache_size = 4 ∧ (vol12_sized 4 2).fcache_size = 2 ∧
    (fat_read_fatblock (vol12_sized 4 2) 1 0).1 = some 4 ∧
    (fat_read_fatblock (vol12_sized 4 2) 1 0).2.2.fcache 3 = 4 ∧
    (fat_read_fatblock (vol12_sized 4 2) 1 0).2.2.fcache 0 ≠ 4 ∧
    (fat_read_fatblock (vol12_sized 4 2) 1 0).2.2.fcache 1 ≠ 4 ∧
    fcache_scan (fat_read_fatblock (vol12_sized 4 2) 1 0).2.2 1 2 = none := by
  decide

/-! ## C13: a read-only engine under a read-write mount structure -/

set_option maxRecDepth 100000 in
/-- C13 fails on the code: `fs_fat_mount` with flags 3 on `dev_file` returns 0 and leaves
an engine mounted read-only (`mnt_flags = 0`, on which `fat_write_fat`,
`fat_allocate_cluster` and `fat_erase_chain` fail with `EROFS`) under a mount structure
whose `mount_flags` has the read-write bit, which is what the guards of `fs_fat_open`,
`fs_fat_unlink`, `fs_fat_mkdir` and `fs_fat_rmdir` test.  After the truncating open of
the file `F` the records of cluster 5 and of the root directory sector are dirty, and
the seventh of seven further cluster reads writes cluster 5 (device block 9) back: the
device, which held `0x68` there, now holds 0. -/
theorem fs_fat_mount_read_only_engine_writes :
    (fs_fat_mount true true 0 dev_file 3).1 = 0 ∧
    mnt_file3.fs.mnt_flags = FAT_MNT_FLAG_RO ∧
    mnt_file3.mount_flags &&& FS_FAT_MOUNT_READWRITE ≠ 0 ∧
    (fat_write_fat mnt_file3.fs 5 0).1 = -EROFS ∧
    (fat_allocate_cluster mnt_file3.fs 0).2.1 = EROFS ∧
    (fat_erase_chain 1 mnt_file3.fs 5).map (fun r => r.1) = some (-EROFS) ∧
    (fat_read_fat (fat_cluster_read mnt_file3.fs 0x80000005 0).2.2.1 5 0).1 = 0xFFF ∧
    (bcache_scan file3_truncated 5 file3_truncated.cache_size).map
      (fun i => (file3_truncated.mem (file3_truncated.bcache i)).flags) =
      some (FAT_CACHE_FLAG_VALID ||| FAT_CACHE_FLAG_DIRTY) ∧
    (bcache_scan file3_truncated 0x80000005 file3_truncated.cache_size).map
      (fun i => (file3_truncated.mem (file3_truncated.bcache i)).flags) =
      some (FAT_CACHE_FLAG_VALID ||| FAT_CACHE_FLAG_DIRTY) ∧
    file3_read_on.2 =
      [[dev_req.read 10 1], [dev_req.read 11 1], [dev_req.read 12 1], [dev_req.read 13 1],
        [dev_req.read 14 1], [dev_req.read 15 1], [dev_req.write 9 1, dev_req.read 16 1]] ∧
    dev_file.dev_data 9 0 = 0x68 ∧ file3_read_on.1.dev.dev_data 9 0 = 0 := by
  decide

/-! ## C20: the short-name checksum -/

theorem char_val_mod (sg : Bool) (b : Nat) : Int.toNat (char_val sg b % 256) = b % 256 := by
  unfold char_val
  split <;> omega

theorem checksum_step_eq (sg : Bool) (rv c : Nat) (h : rv < 256) :
    checksum_step sg rv c = (rotate_right_8 rv + c % 256) % 256 := by
  unfold checksum_step rotate_right_8 char_val
  have e1 : rv <<< 7 ||| rv >>> 1 = rv / 2 + 128 * rv := by
    rw [Nat.lor_comm, Nat.shiftRight_eq_div_pow, Nat.shiftLeft_eq,
      lor_eq_add _ _ 7 (by omega) (by omega)]
    omega
  have e2 : (rv % 256) >>> 1 ||| (rv % 256) <<< 7 = rv / 2 + 128 * rv := by
    rw [Nat.mod_eq_of_lt h, Nat.lor_comm, e1]
  rw [e1, e2]
  split <;> omega

theorem checksum_step_lt (sg : Bool) (rv c : Nat) : checksum_step sg rv c < 256 := by
  unfold checksum_step
  omega

/-- C20: for every 11-byte short name, `fat_shortname_checksum` is the fold `h = 0`,
`h = (rotate_right_8 h + s[i]) mod 256` over the bytes `s[0]`, ..., `s[10]` in order,
whether `char` is signed on the target or not. -/
theorem fat_shortname_checksum_eq_fold (signed_char : Bool) (s : Nat → Nat) :
    fat_shortname_checksum signed_char s = checksum_fold s := by
  have h0 : Int.toNat (char_val signed_char (s 0) % 256) = (rotate_right_8 0 + s 0 % 256) % 256 := by
    rw [char_val_mod]
    have : rotate_right_8 0 = 0 := by decide
    rw [this]
    omega
  have hl : ∀ x : Nat, (rotate_right_8 x + 0) % 256 = (rotate_right_8 x + 0) % 256 := fun _ => rfl
  unfold fat_shortname_checksum checksum_fold
  simp only [show List.range 11 = [0, 1, 2, 3, 4, 5, 6, 7, 8, 9, 10] from by decide,
    List.foldl_cons, List.foldl_nil]
  rw [h0]
  have hlt : ∀ x : Nat, x % 256 < 256 := fun x => Nat.mod_lt _ (by decide)
  rw [checksum_step_eq _ _ _ (hlt _), checksum_step_eq _ _ _ (hlt _),
    checksum_step_eq _ _ _ (hlt _), checksum_step_eq _ _ _ (hlt _),
    checksum_step_eq _ _ _ (hlt _), checksum_step_eq _ _ _ (hlt _),
    checksum_step_eq _ _ _ (hlt _), checksum_step_eq _ _ _ (hlt _),
    checksum_step_eq _ _ _ (hlt _), checksum_step_eq _ _ _ (hlt _)]

/-! ## The cluster cache -/

theorem bcache_scan_some {fs : fat_fs_t} {b n i : Nat} (h : bcache_scan fs b n = some i) :
    i < n ∧ (fs.mem (fs.bcache i)).block = b ∧ (fs.mem (fs.bcache i)).flags ≠ 0 := by
  induction n with
  | zero => simp [bcache_scan] at h
  | succ n ih =>
    simp only [bcache_scan] at h
    split_ifs at h with hc
    · cases h
      exact ⟨Nat.lt_succ_self _, hc.1, hc.2⟩
    · obtain ⟨h1, h2⟩ := ih h
      exact ⟨Nat.lt_succ_of_lt h1, h2⟩

theorem bcache_scan_none {fs : fat_fs_t} {b n : Nat} (h : bcache_scan fs b n = none) :
    ∀ i, i < n → ¬ ((fs.mem (fs.bcache i)).block = b ∧ (fs.mem (fs.bcache i)).flags ≠ 0) := by
  induction n with
  | zero => intro i hi; omega
  | succ n ih =>
    simp only [bcache_scan] at h
    split_ifs at h with hc
    intro i hi
    rcases Nat.lt_succ_iff_lt_or_eq.mp hi with hlt | rfl
    · exact ih h i hlt
    · exact hc

/-- The search finds a record that sits in the top slot. -/
theorem bcache_scan_top {fs : fat_fs_t} {b n : Nat}
    (hb : (fs.mem (fs.bcache n)).block = b) (hv : (fs.mem (fs.bcache n)).flags ≠ 0) :
    bcache_scan fs b (n + 1) = some n := by
  simp only [bcache_scan]
  rw [if_pos ⟨hb, hv⟩]

/-- What a successful `read_blocks` leaves in the buffer. -/
theorem read_blocks_data (d : kos_blockdev_t) (block count : Nat) (buf : Nat → Nat)
    (h : (read_blocks d block count buf).1 = 0) (off : Nat)
    (hoff : off < count * 2 ^ d.l_block_size) :
    (read_blocks d block count buf).2 off =
      d.dev_data (block + off / 2 ^ d.l_block_size) (off % 2 ^ d.l_block_size) := by
  unfold read_blocks at h ⊢
  by_cases hr : d.read_rc block count = 0
  · rw [if_pos hr]
    simp only
    rw [if_pos hoff]
  · rw [if_neg hr] at h
    exact absurd h hr

/-- What a successful `write_blocks` leaves on the device. -/
theorem write_blocks_data (d : kos_blockdev_t) (block count : Nat) (buf : Nat → Nat)
    (h : (write_blocks d block count buf).1 = 0) (off : Nat)
    (hoff : off < count * 2 ^ d.l_block_size) :
    (write_blocks d block count buf).2.dev_data (block + off / 2 ^ d.l_block_size)
      (off % 2 ^ d.l_block_size) = buf off := by
  have hS : 0 < 2 ^ d.l_block_size := Nat.two_pow_pos _
  unfold write_blocks at h ⊢
  by_cases hr : d.write_rc block count = 0
  · rw [if_pos hr]
    simp only
    have h1 : off / 2 ^ d.l_block_size < count := by
      rw [Nat.div_lt_iff_lt_mul hS]
      exact hoff
    rw [if_pos ⟨Nat.le_add_right _ _, Nat.add_lt_add_left h1 _, Nat.mod_lt _ hS⟩]
    congr 1
    rw [Nat.add_sub_cancel_left]
    exact Nat.div_add_mod' off _
  · rw [if_neg hr] at h
    exact absurd h hr

theorem write_blocks_frame (d : kos_blockdev_t) (block count : Nat) (buf : Nat → Nat) :
    (write_blocks d block count buf).2.l_block_size = d.l_block_size ∧
    (write_blocks d block count buf).2.read_rc = d.read_rc ∧
    (write_blocks d block count buf).2.write_rc = d.write_rc ∧
    ((write_blocks d block count buf).1 ≠ 0 → (write_blocks d block count buf).2 = d) := by
  unfold write_blocks
  split_ifs with h
  · exact ⟨rfl, rfl, rfl, fun h' => absurd rfl h'⟩
  · exact ⟨rfl, rfl, rfl, fun _ => rfl⟩

/-- The cases of `fat_cluster_write_nc`: it refuses the id without touching the device,
or issues the one write request for the extent of the id. -/
theorem fat_cluster_write_nc_cases (fs : fat_fs_t) (cl : Nat) (blk : Nat → Nat) :
    (¬ cluster_id_ok fs cl ∧ (fat_cluster_write_nc fs cl blk).1 = -EINVAL ∧
      (fat_cluster_write_nc fs cl blk).2.1 = fs.dev ∧
      (fat_cluster_write_nc fs cl blk).2.2 = []) ∨
    (cluster_id_ok fs cl ∧
      (fat_cluster_write_nc fs cl blk).2.1 =
        (write_blocks fs.dev (cluster_extent fs cl).1 (cluster_extent fs cl).2 blk).2 ∧
      (fat_cluster_write_nc fs cl blk).2.2 =
        [dev_req.write (cluster_extent fs cl).1 (cluster_extent fs cl).2] ∧
      ((fat_cluster_write_nc fs cl blk).1 = 0 ∨ (fat_cluster_write_nc fs cl blk).1 = - EIO) ∧
      ((fat_cluster_write_nc fs cl blk).1 = 0 ↔
        (write_blocks fs.dev (cluster_extent fs cl).1 (cluster_extent fs cl).2 blk).1 = 0)) := by
  unfold fat_cluster_write_nc cluster_id_ok cluster_extent
  by_cases hraw : cl &&& 0x80000000 ≠ 0 ∧ fs.sb.fs_type ≠ FAT_FS_FAT32
  · simp only [if_pos hraw]
    right
    by_cases hw : (write_blocks fs.dev (cl &&& 0x7FFFFFFF) 1 blk).1 ≠ 0
    · rw [if_pos hw]
      exact ⟨Or.inl hraw, rfl, rfl, Or.inr rfl,
        ⟨fun h => absurd h (by simp [ EIO]), fun h => absurd h hw⟩⟩
    · rw [if_neg hw]
      exact ⟨Or.inl hraw, rfl, rfl, Or.inl rfl, ⟨fun _ => not_not.mp hw, fun _ => rfl⟩⟩
  · simp only [if_neg hraw]
    by_cases hrng : u32 (fs.sb.num_clusters + 2) ≤ cl ∨ cl < 2
    · rw [if_pos hrng]
      left
      exact ⟨fun h => h.elim hraw (fun h' => h' hrng), rfl, rfl, rfl⟩
    · rw [if_neg hrng]
      right
      by_cases hw : (write_blocks fs.dev (cluster_block fs cl) fs.sb.sectors_per_cluster blk).1 ≠ 0
      · rw [if_pos hw]
        exact ⟨Or.inr hrng, rfl, rfl, Or.inr rfl,
          ⟨fun h => absurd h (by simp [ EIO]), fun h => absurd h hw⟩⟩
      · rw [if_neg hw]
        exact ⟨Or.inr hrng, rfl, rfl, Or.inl rfl, ⟨fun _ => not_not.mp hw, fun _ => rfl⟩⟩

/-- The cases of `fat_cluster_read_nc`. -/
theorem fat_cluster_read_nc_cases (fs : fat_fs_t) (cl : Nat) (rv : Nat → Nat) :
    (¬ cluster_id_ok fs cl ∧ (fat_cluster_read_nc fs cl rv).1 = -EINVAL ∧
      (fat_cluster_read_nc fs cl rv).2.1 = rv ∧
      (fat_cluster_read_nc fs cl rv).2.2 = []) ∨
    (cluster_id_ok fs cl ∧
      (fat_cluster_read_nc fs cl rv).2.1 =
        (read_blocks fs.dev (cluster_extent fs cl).1 (cluster_extent fs cl).2 rv).2 ∧
      (fat_cluster_read_nc fs cl rv).2.2 =
        [dev_req.read (cluster_extent fs cl).1 (cluster_extent fs cl).2] ∧
      ((fat_cluster_read_nc fs cl rv).1 = 0 ∨ (fat_cluster_read_nc fs cl rv).1 = - EIO) ∧
      ((fat_cluster_read_nc fs cl rv).1 = 0 ↔
        (read_blocks fs.dev (cluster_extent fs cl).1 (cluster_extent fs cl).2 rv).1 = 0)) := by
  unfold fat_cluster_read_nc cluster_id_ok cluster_extent
  by_cases hraw : cl &&& 0x80000000 ≠ 0 ∧ fs.sb.fs_type ≠ FAT_FS_FAT32
  · simp only [if_pos hraw]
    right
    by_cases hw : (read_blocks fs.dev (cl &&& 0x7FFFFFFF) 1 rv).1 ≠ 0
    · rw [if_pos hw]
      exact ⟨Or.inl hraw, rfl, rfl, Or.inr rfl,
        ⟨fun h => absurd h (by simp [ EIO]), fun h => absurd h hw⟩⟩
    · rw [if_neg hw]
      exact ⟨Or.inl hraw, rfl, rfl, Or.inl rfl, ⟨fun _ => not_not.mp hw, fun _ => rfl⟩⟩
  · simp only [if_neg hraw]
    by_cases hrng : u32 (fs.sb.num_clusters + 2) ≤ cl ∨ cl < 2
    · rw [if_pos hrng]
      left
      exact ⟨fun h => h.elim hraw (fun h' => h' hrng), rfl, rfl, rfl⟩
    · rw [if_neg hrng]
      right
      by_cases hw : (read_blocks fs.dev (cluster_block fs cl) fs.sb.sectors_per_cluster rv).1 ≠ 0
      · rw [if_pos hw]
        exact ⟨Or.inr hrng, rfl, rfl, Or.inr rfl,
          ⟨fun h => absurd h (by simp [ EIO]), fun h => absurd h hw⟩⟩
      · rw [if_neg hw]
        exact ⟨Or.inr hrng, rfl, rfl, Or.inl rfl, ⟨fun _ => not_not.mp hw, fun _ => rfl⟩⟩

theorem mru_src_top {cs k : Nat} (hk : k < cs) : mru_src cs k (cs - 1) = k := by
  unfold mru_src
  split_ifs <;> omega

theorem bcache_evict_frame (fs : fat_fs_t) :
    (bcache_evict fs).2.1.mem = fs.mem ∧ (bcache_evict fs).2.1.bcache = fs.bcache ∧
    (bcache_evict fs).2.1.cache_size = fs.cache_size ∧ (bcache_evict fs).2.1.sb = fs.sb ∧
    (bcache_evict fs).2.1.fcache = fs.fcache ∧
    (bcache_evict fs).2.1.fcache_size = fs.fcache_size ∧
    (bcache_evict fs).2.1.mnt_flags = fs.mnt_flags ∧
    (bcache_evict fs).2.1.dev.l_block_size = fs.dev.l_block_size ∧
    (bcache_evict fs).2.1.dev.read_rc = fs.dev.read_rc ∧
    (bcache_evict fs).2.1.dev.write_rc = fs.dev.write_rc := by
  unfold bcache_evict
  split_ifs with h
  · refine ⟨rfl, rfl, rfl, rfl, rfl, rfl, rfl, ?_, ?_, ?_⟩
    all_goals
      simp only
      rcases fat_cluster_write_nc_cases fs (fs.mem (fs.bcache 0)).block
        (fs.mem (fs.bcache 0)).data with ⟨-, -, e, -⟩ | ⟨-, e, -⟩
      · rw [e]
      · rw [e]
        first
          | exact (write_blocks_frame _ _ _ _).1
          | exact (write_blocks_frame _ _ _ _).2.1
          | exact (write_blocks_frame _ _ _ _).2.2.1
  · exact ⟨rfl, rfl, rfl, rfl, rfl, rfl, rfl, rfl, rfl, rfl⟩

theorem cluster_extent_congr {fs fs' : fat_fs_t} (h : fs'.sb = fs.sb) (cl : Nat) :
    cluster_extent fs' cl = cluster_extent fs cl := by
  unfold cluster_extent cluster_block
  rw [h]

/-! ## C14: `fat_cluster_read` -/

/-- C14: the contract of `fat_cluster_read` on a cluster cache with at least one slot.
On a hit it returns the buffer of the cached record of `cl`, issues no device request
and leaves device, records and `*err` alone.  On a miss with a dirty record in slot 0 it
first calls `fat_cluster_write_nc` on that record: if this fails, the result is `NULL`
with `EIO`, no read is issued and every record (id, flags, data) and slot is unchanged;
if it succeeds, the first request is the write of the extent of the old id, only reads
follow, and the device holds the old buffer there.  After a miss that returns a buffer,
its record has the id `cl`, is valid and not dirty, sits in the top slot, and its buffer
holds the device contents of the extent of `cl`. -/
theorem fat_cluster_read_contract (fs : fat_fs_t) (cl : Nat) (err : Int)
    (h1 : 1 ≤ fs.cache_size) :
    (∀ i, bcache_scan fs cl fs.cache_size = some i →
      (fat_cluster_read fs cl err).1 = some (fs.bcache i) ∧
      (fs.mem (fs.bcache i)).block = cl ∧ (fs.mem (fs.bcache i)).flags ≠ 0 ∧
      (fat_cluster_read fs cl err).2.1 = err ∧
      (fat_cluster_read fs cl err).2.2.2 = [] ∧
      (fat_cluster_read fs cl err).2.2.1.dev = fs.dev ∧
      (fat_cluster_read fs cl err).2.2.1.mem = fs.mem) ∧
    (bcache_scan fs cl fs.cache_size = none →
      (fs.mem (fs.bcache 0)).flags &&& FAT_CACHE_FLAG_DIRTY ≠ 0 →
      ((fat_cluster_write_nc fs (fs.mem (fs.bcache 0)).block
          (fs.mem (fs.bcache 0)).data).1 ≠ 0 →
        (fat_cluster_read fs cl err).1 = none ∧
        (fat_cluster_read fs cl err).2.1 = EIO ∧
        (fat_cluster_read fs cl err).2.2.1.mem = fs.mem ∧
        (fat_cluster_read fs cl err).2.2.1.bcache = fs.bcache ∧
        ∀ r ∈ (fat_cluster_read fs cl err).2.2.2, ∀ b c, r ≠ dev_req.read b c) ∧
      ((fat_cluster_write_nc fs (fs.mem (fs.bcache 0)).block
          (fs.mem (fs.bcache 0)).data).1 = 0 →
        (∃ rest, (fat_cluster_read fs cl err).2.2.2 =
            dev_req.write (cluster_extent fs (fs.mem (fs.bcache 0)).block).1
              (cluster_extent fs (fs.mem (fs.bcache 0)).block).2 :: rest ∧
          ∀ r ∈ rest, ∀ b c, r ≠ dev_req.write b c) ∧
        ∀ off, off < (cluster_extent fs (fs.mem (fs.bcache 0)).block).2 *
            2 ^ fs.dev.l_block_size →
          (fat_cluster_read fs cl err).2.2.1.dev.dev_data
            ((cluster_extent fs (fs.mem (fs.bcache 0)).block).1 +
              off / 2 ^ fs.dev.l_block_size) (off % 2 ^ fs.dev.l_block_size) =
            (fs.mem (fs.bcache 0)).data off)) ∧
    (bcache_scan fs cl fs.cache_size = none →
      ∀ p, (fat_cluster_read fs cl err).1 = some p →
        ((fat_cluster_read fs cl err).2.2.1.mem p).block = cl ∧
        ((fat_cluster_read fs cl err).2.2.1.mem p).flags = FAT_CACHE_FLAG_VALID ∧
        ((fat_cluster_read fs cl err).2.2.1.mem p).flags &&& FAT_CACHE_FLAG_DIRTY = 0 ∧
        (fat_cluster_read fs cl err).2.1 = err ∧
        (fat_cluster_read fs cl err).2.2.1.bcache (fs.cache_size - 1) = p ∧
        bcache_scan (fat_cluster_read fs cl err).2.2.1 cl
          (fat_cluster_read fs cl err).2.2.1.cache_size = some (fs.cache_size - 1) ∧
        ∀ off, off < (cluster_extent fs cl).2 * 2 ^ fs.dev.l_block_size →
          ((fat_cluster_read fs cl err).2.2.1.mem p).data off =
            (fat_cluster_read fs cl err).2.2.1.dev.dev_data
              ((cluster_extent fs cl).1 + off / 2 ^ fs.dev.l_block_size)
              (off % 2 ^ fs.dev.l_block_size)) := by
  refine ⟨?_, ?_, ?_⟩
  · intro i hs
    obtain ⟨-, hb, hv⟩ := bcache_scan_some hs
    simp only [fat_cluster_read, hs]
    refine ⟨?_, hb, hv, ?_, ?_, ?_, ?_⟩ <;> trivial
  · intro hs hd
    have hev : bcache_evict fs =
        ((fat_cluster_write_nc fs (fs.mem (fs.bcache 0)).block (fs.mem (fs.bcache 0)).data).1,
          { fs with
            dev := (fat_cluster_write_nc fs (fs.mem (fs.bcache 0)).block
              (fs.mem (fs.bcache 0)).data).2.1 },
          (fat_cluster_write_nc fs (fs.mem (fs.bcache 0)).block
            (fs.mem (fs.bcache 0)).data).2.2) := by
      unfold bcache_evict
      rw [if_pos hd]
    refine ⟨?_, ?_⟩
    · intro hw
      simp only [fat_cluster_read, hs]
      rw [if_pos (by rw [hev]; exact hw)]
      refine ⟨rfl, rfl, (bcache_evict_frame fs).1, (bcache_evict_frame fs).2.1, ?_⟩
      intro r hr b c
      simp only [hev] at hr
      rcases fat_cluster_write_nc_cases fs (fs.mem (fs.bcache 0)).block
        (fs.mem (fs.bcache 0)).data with ⟨-, -, -, e⟩ | ⟨-, -, e, -⟩
      · rw [e] at hr
        cases hr
      · rw [e] at hr
        rw [List.mem_singleton] at hr
        rw [hr]
        exact fun h => dev_req.noConfusion h
    · intro hw
      rcases fat_cluster_write_nc_cases fs (fs.mem (fs.bcache 0)).block
        (fs.mem (fs.bcache 0)).data with ⟨-, e, -⟩ | ⟨-, edev, ereq, -, eok⟩
      · rw [e] at hw
        exact absurd hw (by simp [EINVAL])
      · have hwb := eok.mp hw
        have hfill_dev : ∀ s : fat_fs_t, (bcache_fill s cl err).2.2.1.dev = s.dev := by
          intro s
          unfold bcache_fill
          split_ifs <;> rfl
        have hfill_req : ∀ s : fat_fs_t, ∀ r ∈ (bcache_fill s cl err).2.2.2,
            ∀ b c, r ≠ dev_req.write b c := by
          intro s r hr b c
          have hr' : r ∈ (fat_cluster_read_nc s cl (s.mem (s.bcache 0)).data).2.2 := by
            unfold bcache_fill at hr
            split_ifs at hr <;> exact hr
          rcases fat_cluster_read_nc_cases s cl (s.mem (s.bcache 0)).data with
            ⟨-, -, -, e⟩ | ⟨-, -, e, -⟩
          · rw [e] at hr'
            cases hr'
          · rw [e, List.mem_singleton] at hr'
            rw [hr']
            exact fun h => dev_req.noConfusion h
        simp only [fat_cluster_read, hs]
        rw [if_neg (by rw [hev]; exact not_not.mpr hw)]
        refine ⟨⟨(bcache_fill (bcache_evict fs).2.1 cl err).2.2.2, ?_, hfill_req _⟩, ?_⟩
        · simp only [hev, ereq, List.singleton_append]
        · intro off hoff
          simp only [hfill_dev, hev, edev]
          exact write_blocks_data _ _ _ _ hwb off hoff
  · intro hs p hp
    obtain ⟨fm, fb, fc, fsb, -, -, -, fl, -, -⟩ := bcache_evict_frame fs
    simp only [fat_cluster_read, hs] at hp ⊢
    by_cases hev : (bcache_evict fs).1 ≠ 0
    · rw [if_pos hev] at hp
      cases hp
    · rw [if_neg hev] at hp ⊢
      simp only at hp ⊢
      by_cases hrd : (fat_cluster_read_nc (bcache_evict fs).2.1 cl
          ((bcache_evict fs).2.1.mem ((bcache_evict fs).2.1.bcache 0)).data).1 ≠ 0
      · unfold bcache_fill at hp
        rw [if_pos hrd] at hp
        cases hp
      · have hfill : bcache_fill (bcache_evict fs).2.1 cl err =
            (some ((bcache_evict fs).2.1.bcache 0), err,
              { (bcache_evict fs).2.1 with
                mem := mem_set (bcache_evict fs).2.1.mem ((bcache_evict fs).2.1.bcache 0)
                  { flags := FAT_CACHE_FLAG_VALID, block := cl,
                    data := (fat_cluster_read_nc (bcache_evict fs).2.1 cl
                      ((bcache_evict fs).2.1.mem ((bcache_evict fs).2.1.bcache 0)).data).2.1 }
                bcache := make_mru (bcache_evict fs).2.1 (bcache_evict fs).2.1.bcache 0 },
              (fat_cluster_read_nc (bcache_evict fs).2.1 cl
                ((bcache_evict fs).2.1.mem ((bcache_evict fs).2.1.bcache 0)).data).2.2) := by
          unfold bcache_fill
          rw [if_neg hrd]
        rw [hfill] at hp ⊢
        simp only at hp ⊢
        have hp' : (bcache_evict fs).2.1.bcache 0 = p := Option.some.inj hp
        have htop : make_mru (bcache_evict fs).2.1 (bcache_evict fs).2.1.bcache 0
            (fs.cache_size - 1) = p := by
          rw [make_mru_apply, fc, mru_src_top (by omega), hp']
        have hrec : mem_set (bcache_evict fs).2.1.mem ((bcache_evict fs).2.1.bcache 0)
            { flags := FAT_CACHE_FLAG_VALID, block := cl,
              data := (fat_cluster_read_nc (bcache_evict fs).2.1 cl
                ((bcache_evict fs).2.1.mem ((bcache_evict fs).2.1.bcache 0)).data).2.1 } p =
            { flags := FAT_CACHE_FLAG_VALID, block := cl,
              data := (fat_cluster_read_nc (bcache_evict fs).2.1 cl
                ((bcache_evict fs).2.1.mem ((bcache_evict fs).2.1.bcache 0)).data).2.1 } := by
          unfold mem_set
          rw [if_pos hp'.symm]
        rw [hrec]
        refine ⟨?_, ?_, ?_, ?_, htop, ?_, ?_⟩
        · trivial
        · trivial
        · show FAT_CACHE_FLAG_VALID &&& FAT_CACHE_FLAG_DIRTY = 0
          decide
        · trivial
        · rw [fc]
          obtain ⟨n, hn⟩ : ∃ n, fs.cache_size = n + 1 := ⟨fs.cache_size - 1, by omega⟩
          rw [hn] at htop ⊢
          simp only [Nat.add_sub_cancel] at htop ⊢
          apply bcache_scan_top
          · simp only [htop, hrec]
          · simp only [htop, hrec]
            decide
        · intro off hoff
          simp only
          rcases fat_cluster_read_nc_cases (bcache_evict fs).2.1 cl
            ((bcache_evict fs).2.1.mem ((bcache_evict fs).2.1.bcache 0)).data with
            ⟨-, e, -⟩ | ⟨-, edata, -, -, eok⟩
          · rw [e] at hrd
            exact absurd hrd (by simp [EINVAL])
          · have hok := eok.mp (not_not.mp hrd)
            rw [edata]
            rw [cluster_extent_congr fsb] at hok ⊢
            have := read_blocks_data _ _ _ _ hok off (by rw [fl]; exact hoff)
            rw [this, fl]

theorem fat_cluster_read_contract_witness :
    (fat_cluster_read (fat_cluster_read vol_file 5 0).2.2.1 5 0).2.2.2 = [] ∧
    ((fat_cluster_read vol_two_dirty_wfail 7 0).1 = none ∧
      (fat_cluster_read vol_two_dirty_wfail 7 0).2.1 = EIO ∧
      (fat_cluster_read vol_two_dirty_wfail 7 0).2.2.1.mem = vol_two_dirty_wfail.mem) ∧
    (∃ rest, (fat_cluster_read vol_two_dirty 7 0).2.2.2 =
        dev_req.write (cluster_extent vol_two_dirty
          (vol_two_dirty.mem (vol_two_dirty.bcache 0)).block).1
          (cluster_extent vol_two_dirty
            (vol_two_dirty.mem (vol_two_dirty.bcache 0)).block).2 :: rest ∧
      ∀ r ∈ rest, ∀ b c, r ≠ dev_req.write b c) ∧
    ((fat_cluster_read vol_two_dirty 7 0).2.2.1.mem 0).flags = FAT_CACHE_FLAG_VALID ∧
    (vol_two_dirty.mem (vol_two_dirty.bcache 0)).block = 5 ∧
    cluster_extent vol_two_dirty 5 = (9, 1) :=
  ⟨((fat_cluster_read_contract (fat_cluster_read vol_file 5 0).2.2.1 5 0 (by decide)).1 7
      (by decide)).2.2.2.2.1,
    ⟨(((fat_cluster_read_contract vol_two_dirty_wfail 7 0 (by decide)).2.1 (by decide)
        (by decide)).1 (by decide)).1,
      (((fat_cluster_read_contract vol_two_dirty_wfail 7 0 (by decide)).2.1 (by decide)
        (by decide)).1 (by decide)).2.1,
      (((fat_cluster_read_contract vol_two_dirty_wfail 7 0 (by decide)).2.1 (by decide)
        (by decide)).1 (by decide)).2.2.1⟩,
    (((fat_cluster_read_contract vol_two_dirty 7 0 (by decide)).2.1 (by decide)
      (by decide)).2 (by decide)).1,
    ((fat_cluster_read_contract vol_two_dirty 7 0 (by decide)).2.2 (by decide) 0
      (by decide)).2.1,
    by decide, by decide⟩

/-! ## Write-back passes -/

theorem clear_dirty_bit (f : Nat) : (f &&& 0xFFFFFFFD) &&& FAT_CACHE_FLAG_DIRTY = 0 := by
  rw [Nat.and_assoc]
  have : (0xFFFFFFFD : Nat) &&& FAT_CACHE_FLAG_DIRTY = 0 := by decide
  rw [this, Nat.and_zero]

theorem dirty_slots_lt (fs : fat_fs_t) (c : Nat → Nat) (n : Nat) :
    ∀ i, i ∈ dirty_slots fs c n → i < n ∧ slot_dirty fs c i := by
  induction n with
  | zero => intro i hi; cases hi
  | succ n ih =>
    intro i hi
    simp only [dirty_slots] at hi
    split_ifs at hi with hd
    · rcases List.mem_cons.mp hi with rfl | h
      · exact ⟨Nat.lt_succ_self _, hd⟩
      · exact ⟨Nat.lt_succ_of_lt (ih i h).1, (ih i h).2⟩
    · exact ⟨Nat.lt_succ_of_lt (ih i hi).1, (ih i hi).2⟩

theorem dirty_slots_mem (fs : fat_fs_t) (c : Nat → Nat) (n i : Nat) (hi : i < n)
    (hd : slot_dirty fs c i) : i ∈ dirty_slots fs c n := by
  induction n with
  | zero => omega
  | succ n ih =>
    simp only [dirty_slots]
    rcases Nat.lt_succ_iff_lt_or_eq.mp hi with hlt | rfl
    · split_ifs
      · exact List.mem_cons_of_mem _ (ih hlt)
      · exact ih hlt
    · rw [if_pos hd]
      exact List.mem_cons_self _ _

theorem dirty_slots_nodup (fs : fat_fs_t) (c : Nat → Nat) (n : Nat) :
    (dirty_slots fs c n).Nodup := by
  induction n with
  | zero => exact List.nodup_nil
  | succ n ih =>
    simp only [dirty_slots]
    split_ifs
    · refine List.nodup_cons.mpr ⟨fun h => ?_, ih⟩
      exact absurd (dirty_slots_lt fs c n n h).1 (Nat.lt_irrefl _)
    · exact ih

theorem dirty_slots_congr (fs fs' : fat_fs_t) (c : Nat → Nat) (n : Nat)
    (h : ∀ i, i < n → (fs'.mem (c i)).flags = (fs.mem (c i)).flags) :
    dirty_slots fs' c n = dirty_slots fs c n := by
  induction n with
  | zero => rfl
  | succ n ih =>
    simp only [dirty_slots, slot_dirty, h n (Nat.lt_succ_self _),
      ih (fun i hi => h i (Nat.lt_succ_of_lt hi))]

theorem dirty_slots_filter_top (fs : fat_fs_t) (c : Nat → Nat) (n : Nat) :
    (dirty_slots fs c (n + 1)).filter (fun j => decide (n < j)) = [] := by
  rw [List.filter_eq_nil_iff]
  intro j hj
  have := (dirty_slots_lt fs c (n + 1) j hj).1
  simp only [decide_eq_true_eq]
  omega

theorem wb_loop_spec (wr : fat_fs_t → Nat → (Nat → Nat) → Int × kos_blockdev_t × List dev_req)
    (ext : fat_fs_t → Nat → Nat × Nat) (hw : writer_ok wr ext) (c : Nat → Nat) (n : Nat) :
    ∀ fs : fat_fs_t, slots_distinct c n →
      wb_post wr ext c n fs (wb_loop wr c n fs) ∧
      (wb_loop wr c n fs).2.1.sb = fs.sb ∧
      (wb_loop wr c n fs).2.1.dev.write_rc = fs.dev.write_rc := by
  induction n with
  | zero =>
    intro fs _
    refine ⟨⟨fun p => ⟨rfl, rfl⟩, fun p _ => rfl, fun i hi => absurd hi (Nat.not_lt_zero _),
      fun _ => ⟨rfl, fun i hi => absurd hi (Nat.not_lt_zero _),
        fun i hi => absurd hi (Nat.not_lt_zero _), rfl⟩,
      fun k hk => absurd hk (Nat.not_lt_zero _), fun p => Or.inl rfl,
      ⟨rfl, rfl, rfl, rfl, rfl, rfl⟩⟩, rfl, rfl⟩
  | succ n ih =>
    intro fs hinj
    have hinj' : slots_distinct c n :=
      fun i hi j hj => hinj i (Nat.lt_succ_of_lt hi) j (Nat.lt_succ_of_lt hj)
    have hne : ∀ i, i < n → c i ≠ c n := by
      intro i hi e
      have := hinj i (Nat.lt_succ_of_lt hi) n (Nat.lt_succ_self _) e
      omega
    by_cases hd : (fs.mem (c n)).flags &&& FAT_CACHE_FLAG_DIRTY ≠ 0
    · by_cases hrc : (wr fs (fs.mem (c n)).block (fs.mem (c n)).data).1 ≠ 0
      · -- the write of slot `n` fails
        have e : wb_loop wr c (n + 1) fs =
            ((wr fs (fs.mem (c n)).block (fs.mem (c n)).data).1,
              { fs with dev := (wr fs (fs.mem (c n)).block (fs.mem (c n)).data).2.1 },
              (wr fs (fs.mem (c n)).block (fs.mem (c n)).data).2.2) := by
          simp only [wb_loop]
          rw [if_pos hd, if_pos hrc]
        rw [e]
        refine ⟨⟨fun p => ⟨rfl, rfl⟩, fun p _ => rfl, fun i _ _ => rfl, ?_, ?_,
          fun p => Or.inl rfl, ⟨rfl, rfl, rfl, rfl, rfl, rfl⟩⟩, rfl, hw.keeps_rc _ _ _⟩
        · intro hall
          exact absurd (hall n (Nat.lt_succ_self _) hd) hrc
        · intro k hk hkd hkrc hab
          have hkn : k = n := by
            by_contra hne'
            exact hrc (hab n (by omega) (Nat.lt_succ_self _) hd)
          subst hkn
          refine ⟨rfl, fun j _ => rfl, fun j h1 h2 => absurd h2 (by omega), ?_⟩
          rw [dirty_slots_filter_top]
          rfl
      · -- the write of slot `n` succeeds
        have hrc0 := not_not.mp hrc
        obtain ⟨hp, hsb, hwrc⟩ := ih
          { fs with
            dev := (wr fs (fs.mem (c n)).block (fs.mem (c n)).data).2.1
            mem := mem_set fs.mem (c n)
              { fs.mem (c n) with flags := (fs.mem (c n)).flags &&& 0xFFFFFFFD } } hinj'
        have e : wb_loop wr c (n + 1) fs =
            ((wb_loop wr c n
                { fs with
                  dev := (wr fs (fs.mem (c n)).block (fs.mem (c n)).data).2.1
                  mem := mem_set fs.mem (c n)
                    { fs.mem (c n) with flags := (fs.mem (c n)).flags &&& 0xFFFFFFFD } }).1,
              (wb_loop wr c n
                { fs with
                  dev := (wr fs (fs.mem (c n)).block (fs.mem (c n)).data).2.1
                  mem := mem_set fs.mem (c n)
                    { fs.mem (c n) with flags := (fs.mem (c n)).flags &&& 0xFFFFFFFD } }).2.1,
              (wr fs (fs.mem (c n)).block (fs.mem (c n)).data).2.2 ++
              (wb_loop wr c n
                { fs with
                  dev := (wr fs (fs.mem (c n)).block (fs.mem (c n)).data).2.1
                  mem := mem_set fs.mem (c n)
                    { fs.mem (c n) with flags := (fs.mem (c n)).flags &&& 0xFFFFFFFD } }).2.2) := by
          simp only [wb_loop]
          rw [if_pos hd, if_neg hrc]
        generalize hfs1 : ({ fs with
            dev := (wr fs (fs.mem (c n)).block (fs.mem (c n)).data).2.1
            mem := mem_set fs.mem (c n)
              { fs.mem (c n) with flags := (fs.mem (c n)).flags &&& 0xFFFFFFFD } } : fat_fs_t)
          = fs1 at hp hsb hwrc e
        have m1 : ∀ p, p ≠ c n → fs1.mem p = fs.mem p := by
          intro p hpn
          rw [← hfs1]
          simp only [mem_set]
          rw [if_neg hpn]
        have m1n : fs1.mem (c n) =
            { fs.mem (c n) with flags := (fs.mem (c n)).flags &&& 0xFFFFFFFD } := by
          rw [← hfs1]
          simp only [mem_set, if_true]
        have sb1 : fs1.sb = fs.sb := by rw [← hfs1]
        have rc1 : fs1.dev.write_rc = fs.dev.write_rc := by
          rw [← hfs1]
          exact hw.keeps_rc _ _ _
        have mb : ∀ p, (fs1.mem p).block = (fs.mem p).block ∧
            (fs1.mem p).data = (fs.mem p).data := by
          intro p
          by_cases hpn : p = c n
          · rw [hpn, m1n]
            exact ⟨rfl, rfl⟩
          · rw [m1 p hpn]
            exact ⟨rfl, rfl⟩
        have hdirty : ∀ i, i < n → (slot_dirty fs1 c i ↔ slot_dirty fs c i) := by
          intro i hi
          unfold slot_dirty
          rw [m1 _ (hne i hi)]
        have hwr : ∀ i, i < n →
            (wr fs1 (fs1.mem (c i)).block (fs1.mem (c i)).data).1 =
              (wr fs (fs.mem (c i)).block (fs.mem (c i)).data).1 ∧
            (wr fs1 (fs1.mem (c i)).block (fs1.mem (c i)).data).2.2 =
              (wr fs (fs.mem (c i)).block (fs.mem (c i)).data).2.2 := by
          intro i hi
          rw [m1 _ (hne i hi)]
          exact ⟨hw.rc_congr _ _ _ _ _ sb1 rc1, hw.reqs_congr _ _ _ _ _ sb1 rc1⟩
        have hds : dirty_slots fs1 c n = dirty_slots fs c n :=
          dirty_slots_congr _ _ _ _ (fun i hi => by rw [m1 _ (hne i hi)])
        have hmap : (dirty_slots fs c n).map
            (fun i => dev_req.write (ext fs1 (fs1.mem (c i)).block).1
              (ext fs1 (fs1.mem (c i)).block).2) =
            (dirty_slots fs c n).map
              (fun i => dev_req.write (ext fs (fs.mem (c i)).block).1
                (ext fs (fs.mem (c i)).block).2) := by
          apply List.map_congr_left
          intro i hi
          rw [m1 _ (hne i (dirty_slots_lt fs c n i hi).1), hw.ext_congr _ _ _ sb1]
        have hfmap : ∀ k, ((dirty_slots fs c n).filter (fun j => decide (k < j))).map
            (fun i => dev_req.write (ext fs1 (fs1.mem (c i)).block).1
              (ext fs1 (fs1.mem (c i)).block).2) =
            ((dirty_slots fs c n).filter (fun j => decide (k < j))).map
              (fun i => dev_req.write (ext fs (fs.mem (c i)).block).1
                (ext fs (fs.mem (c i)).block).2) := by
          intro k
          apply List.map_congr_left
          intro i hi
          rw [m1 _ (hne i (dirty_slots_lt fs c n i (List.mem_of_mem_filter hi)).1),
            hw.ext_congr _ _ _ sb1]
        have htop : (wb_loop wr c n fs1).2.1.mem (c n) = fs1.mem (c n) :=
          hp.other (c n) hne
        have htop_clean : ¬ slot_dirty (wb_loop wr c n fs1).2.1 c n := by
          unfold slot_dirty
          rw [htop, m1n]
          exact not_not.mpr (clear_dirty_bit _)
        rw [e]
        refine ⟨⟨?_, ?_, ?_, ?_, ?_, ?_, ?_⟩, hsb.trans sb1, hwrc.trans rc1⟩
        rotate_left 5
        · intro p
          by_cases hpn : p = c n
          · rcases hp.flags_cases p with e1 | e1
            · right
              simp only at e1 ⊢
              rw [e1, hpn, m1n]
            · right
              simp only at e1 ⊢
              rw [e1, hpn, m1n]
              show ((fs.mem (c n)).flags &&& 0xFFFFFFFD) &&& 0xFFFFFFFD = _
              have hdd : (0xFFFFFFFD : Nat) &&& 0xFFFFFFFD = 0xFFFFFFFD := by decide
              rw [Nat.and_assoc, hdd]
          · rcases hp.flags_cases p with e1 | e1
            · left
              simp only at e1 ⊢
              rw [e1, m1 p hpn]
            · right
              simp only at e1 ⊢
              rw [e1, m1 p hpn]
        · obtain ⟨g1, g2, g3, g4, g5, g6⟩ := hp.frame
          have fr1 : fs1.sb = fs.sb ∧ fs1.bcache = fs.bcache ∧
              fs1.cache_size = fs.cache_size ∧ fs1.fcache = fs.fcache ∧
              fs1.fcache_size = fs.fcache_size ∧ fs1.mnt_flags = fs.mnt_flags := by
            rw [← hfs1]
            exact ⟨rfl, rfl, rfl, rfl, rfl, rfl⟩
          exact ⟨g1.trans fr1.1, g2.trans fr1.2.1, g3.trans fr1.2.2.1, g4.trans fr1.2.2.2.1,
            g5.trans fr1.2.2.2.2.1, g6.trans fr1.2.2.2.2.2⟩
        · intro p
          exact ⟨(hp.bufs p).1.trans (mb p).1, (hp.bufs p).2.trans (mb p).2⟩
        · intro p hpo
          have := hp.other p (fun i hi => hpo i (Nat.lt_succ_of_lt hi))
          simp only at this ⊢
          rw [this]
          exact m1 p (fun h => hpo n (Nat.lt_succ_self _) h.symm)
        · intro i hi hnd
          have hin : i < n := by
            rcases Nat.lt_succ_iff_lt_or_eq.mp hi with h | h
            · exact h
            · subst h
              exact absurd hd hnd
          have := hp.clean i hin (fun h => hnd ((hdirty i hin).mp h))
          simp only at this ⊢
          rw [this, m1 _ (hne i hin)]
        · intro hall
          obtain ⟨o1, o2, o3, o4⟩ := hp.ok (by
            intro i hi hdi
            rw [(hwr i hi).1]
            exact hall i (Nat.lt_succ_of_lt hi) ((hdirty i hi).mp hdi))
          refine ⟨o1, ?_, ?_, ?_⟩
          · intro i hi
            rcases Nat.lt_succ_iff_lt_or_eq.mp hi with h | h
            · exact o2 i h
            · subst h
              exact htop_clean
          · intro i hi hdi
            rcases Nat.lt_succ_iff_lt_or_eq.mp hi with h | h
            · have := o3 i h ((hdirty i h).mpr hdi)
              simp only at this ⊢
              rw [this, m1 _ (hne i h)]
            · subst h
              simp only
              rw [htop, m1n]
          · simp only at o4 ⊢
            rw [o4, hds, hmap, hw.ok_reqs _ _ _ hrc0]
            simp only [dirty_slots]
            rw [if_pos (show slot_dirty fs c n from hd)]
            rfl
        · intro k hk hkd hkrc hab
          have hkn : k < n := by
            rcases Nat.lt_succ_iff_lt_or_eq.mp hk with h | h
            · exact h
            · subst h
              exact absurd hrc0 hkrc
          obtain ⟨f1, f2, f3, f4⟩ := hp.fail k hkn ((hdirty k hkn).mpr hkd)
            (by rw [(hwr k hkn).1]; exact hkrc)
            (by
              intro j hkj hjn hdj
              rw [(hwr j hjn).1]
              exact hab j hkj (Nat.lt_succ_of_lt hjn) ((hdirty j hjn).mp hdj))
          refine ⟨f1.trans (hwr k hkn).1, ?_, ?_, ?_⟩
          · intro j hj
            have := f2 j hj
            simp only at this ⊢
            rw [this, m1 _ (hne j (by omega))]
          · intro j hkj hjn
            rcases Nat.lt_succ_iff_lt_or_eq.mp hjn with h | h
            · exact f3 j hkj h
            · subst h
              exact htop_clean
          · simp only at f4 ⊢
            rw [f4, hds, hfmap, (hwr k hkn).2, hw.ok_reqs _ _ _ hrc0]
            simp only [dirty_slots]
            rw [if_pos (show slot_dirty fs c n from hd),
              List.filter_cons_of_pos (by simpa using hkn)]
            rfl
    · -- slot `n` is not dirty
      obtain ⟨hp, hsb, hwrc⟩ := ih fs hinj'
      have e : wb_loop wr c (n + 1) fs = wb_loop wr c n fs := by
        simp only [wb_loop]
        rw [if_neg hd]
      have hds : dirty_slots fs c (n + 1) = dirty_slots fs c n := by
        simp only [dirty_slots]
        rw [if_neg (show ¬ slot_dirty fs c n from hd)]
      have htop : (wb_loop wr c n fs).2.1.mem (c n) = fs.mem (c n) := hp.other (c n) hne
      rw [e]
      refine ⟨⟨hp.bufs, ?_, ?_, ?_, ?_, hp.flags_cases, hp.frame⟩, hsb, hwrc⟩
      · intro p hpo
        exact hp.other p (fun i hi => hpo i (Nat.lt_succ_of_lt hi))
      · intro i hi hnd
        rcases Nat.lt_succ_iff_lt_or_eq.mp hi with h | h
        · exact hp.clean i h hnd
        · subst h
          rw [htop]
      · intro hall
        obtain ⟨o1, o2, o3, o4⟩ := hp.ok (fun i hi => hall i (Nat.lt_succ_of_lt hi))
        refine ⟨o1, ?_, ?_, ?_⟩
        · intro i hi
          rcases Nat.lt_succ_iff_lt_or_eq.mp hi with h | h
          · exact o2 i h
          · subst h
            unfold slot_dirty
            rw [htop]
            exact hd
        · intro i hi hdi
          rcases Nat.lt_succ_iff_lt_or_eq.mp hi with h | h
          · exact o3 i h hdi
          · subst h
            exact absurd hdi hd
        · rw [hds]
          exact o4
      · intro k hk hkd hkrc hab
        have hkn : k < n := by
          rcases Nat.lt_succ_iff_lt_or_eq.mp hk with h | h
          · exact h
          · subst h
            exact absurd hkd hd
        obtain ⟨f1, f2, f3, f4⟩ := hp.fail k hkn hkd hkrc
          (fun j hkj hjn => hab j hkj (Nat.lt_succ_of_lt hjn))
        refine ⟨f1, f2, ?_, ?_⟩
        · intro j hkj hjn
          rcases Nat.lt_succ_iff_lt_or_eq.mp hjn with h | h
          · exact f3 j hkj h
          · subst h
            unfold slot_dirty
            rw [htop]
            exact hd
        · rw [hds]
          exact f4

theorem fat_cluster_cache_wb_loop_eq (n : Nat) : ∀ fs : fat_fs_t,
    fat_cluster_cache_wb_loop n fs = wb_loop fat_cluster_write_nc fs.bcache n fs := by
  induction n with
  | zero => intro fs; rfl
  | succ n ih =>
    intro fs
    simp only [fat_cluster_cache_wb_loop, wb_loop, ih]

theorem fat_fatblock_cache_wb_loop_eq (n : Nat) : ∀ fs : fat_fs_t,
    fat_fatblock_cache_wb_loop n fs = wb_loop fatblock_writer fs.fcache n fs := by
  induction n with
  | zero => intro fs; rfl
  | succ n ih =>
    intro fs
    simp only [fat_fatblock_cache_wb_loop, wb_loop, ih, fatblock_writer]

theorem write_blocks_rc (d d' : kos_blockdev_t) (block count : Nat) (buf buf' : Nat → Nat)
    (h : d'.write_rc = d.write_rc) :
    (write_blocks d' block count buf').1 = (write_blocks d block count buf).1 := by
  unfold write_blocks
  rw [h]
  split_ifs <;> rfl

theorem cluster_writer_ok : writer_ok fat_cluster_write_nc cluster_extent where
  rc_congr := by
    intro fs fs' bn blk blk' hsb hrc
    have := write_blocks_rc fs.dev fs'.dev
    unfold fat_cluster_write_nc cluster_block
    rw [hsb]
    simp only [write_blocks_rc fs.dev fs'.dev _ _ blk blk' hrc]
    split_ifs <;> rfl
  reqs_congr := by
    intro fs fs' bn blk blk' hsb hrc
    unfold fat_cluster_write_nc cluster_block
    rw [hsb]
    simp only [write_blocks_rc fs.dev fs'.dev _ _ blk blk' hrc]
    split_ifs <;> rfl
  keeps_rc := by
    intro fs bn blk
    rcases fat_cluster_write_nc_cases fs bn blk with ⟨-, -, e, -⟩ | ⟨-, e, -⟩
    · rw [e]
    · rw [e]
      exact (write_blocks_frame _ _ _ _).2.2.1
  ok_reqs := by
    intro fs bn blk h
    rcases fat_cluster_write_nc_cases fs bn blk with ⟨-, e, -⟩ | ⟨-, -, e, -⟩
    · rw [e] at h
      exact absurd h (by simp [EINVAL])
    · exact e
  ext_congr := fun fs fs' bn h => cluster_extent_congr h bn

theorem fatblock_writer_ok : writer_ok fatblock_writer fatblock_extent where
  rc_congr := by
    intro fs fs' bn blk blk' hsb hrc
    unfold fatblock_writer fat_fatblock_write_nc
    rw [hsb]
    simp only [write_blocks_rc fs.dev fs'.dev _ _ blk blk' hrc]
    split_ifs <;> rfl
  reqs_congr := by
    intro fs fs' bn blk blk' hsb _
    unfold fatblock_writer fat_fatblock_write_nc_reqs
    rw [hsb]
  keeps_rc := by
    intro fs bn blk
    unfold fatblock_writer fat_fatblock_write_nc
    split_ifs
    · rfl
    · exact (write_blocks_frame _ _ _ _).2.2.1
    · exact (write_blocks_frame _ _ _ _).2.2.1
  ok_reqs := by
    intro fs bn blk h
    unfold fatblock_writer fat_fatblock_write_nc at h
    unfold fatblock_writer fat_fatblock_write_nc_reqs fatblock_extent
    by_cases hb : fs.sb.fat_size ≤ bn
    · rw [if_pos hb] at h
      exact absurd h (by simp [EINVAL])
    · simp only [if_neg hb]
  ext_congr := fun _ _ _ _ => rfl

/-! ## C17: `fat_cluster_cache_wb` and `fat_fatblock_cache_wb` -/

theorem write_blocks_rc_zero (d : kos_blockdev_t) (block count : Nat) (buf : Nat → Nat) :
    (write_blocks d block count buf).1 = 0 ↔ d.write_rc block count = 0 := by
  unfold write_blocks
  split_ifs with h
  · exact ⟨fun _ => h, fun _ => rfl⟩
  · exact ⟨fun h2 => h2, fun h2 => absurd h2 h⟩

theorem write_blocks_stored (d : kos_blockdev_t) (block count : Nat) (buf : Nat → Nat)
    (h : d.write_rc block count = 0) (b off : Nat) :
    (write_blocks d block count buf).2.dev_data b off =
      if in_extent (block, count) b ∧ off < 2 ^ d.l_block_size then
        buf ((b - block) * 2 ^ d.l_block_size + off)
      else d.dev_data b off := by
  unfold write_blocks in_extent
  rw [if_pos h]
  simp only [and_assoc]

theorem cluster_writer_dev : writer_dev fat_cluster_write_nc cluster_extent where
  dev_ok := by
    intro fs bn blk h
    rcases fat_cluster_write_nc_cases fs bn blk with ⟨-, e, -⟩ | ⟨-, e, -, -, hiff⟩
    · rw [e] at h
      exact absurd h (by simp [EINVAL])
    · exact ⟨e, (write_blocks_rc_zero _ _ _ _).mp (hiff.mp h)⟩
  dev_fail := by
    intro fs bn blk h
    rcases fat_cluster_write_nc_cases fs bn blk with ⟨-, -, e, -⟩ | ⟨-, e, -, -, hiff⟩
    · exact e
    · rw [e]
      exact (write_blocks_frame _ _ _ _).2.2.2 (fun h0 => h (hiff.mpr h0))

theorem fatblock_writer_dev : writer_dev fatblock_writer fatblock_extent where
  dev_ok := by
    intro fs bn blk h
    unfold fatblock_writer fat_fatblock_write_nc at h ⊢
    unfold fatblock_extent
    by_cases hb : fs.sb.fat_size ≤ bn
    · rw [if_pos hb] at h
      exact absurd h (by simp [EINVAL])
    · simp only [if_neg hb] at h ⊢
      by_cases hw : (write_blocks fs.dev bn 1 blk).1 ≠ 0
      · rw [if_pos hw] at h
        exact absurd h (by simp [ EIO])
      · rw [if_neg hw]
        exact ⟨rfl, (write_blocks_rc_zero _ _ _ _).mp (not_not.mp hw)⟩
  dev_fail := by
    intro fs bn blk h
    unfold fatblock_writer fat_fatblock_write_nc at h ⊢
    by_cases hb : fs.sb.fat_size ≤ bn
    · simp only [if_pos hb]
    · simp only [if_neg hb] at h ⊢
      by_cases hw : (write_blocks fs.dev bn 1 blk).1 ≠ 0
      · simp only [if_pos hw]
        exact (write_blocks_frame _ _ _ _).2.2.2 hw
      · rw [if_neg hw] at h
        exact absurd rfl h

/-- The device after the loop of a write-back pass: the dirty records in the slots from
`lo` on, whose writes succeed, are on the device; the pass stops below `lo` because
`lo = 0` or because the write of slot `lo - 1` fails. -/
theorem wb_loop_dev (wr : fat_fs_t → Nat → (Nat → Nat) → Int × kos_blockdev_t × List dev_req)
    (ext : fat_fs_t → Nat → Nat × Nat) (hw : writer_ok wr ext) (hv : writer_dev wr ext)
    (c : Nat → Nat) (n : Nat) :
    ∀ (fs : fat_fs_t) (lo : Nat), slots_distinct c n → lo ≤ n →
      (∀ i, lo ≤ i → i < n → slot_dirty fs c i →
        (wr fs (fs.mem (c i)).block (fs.mem (c i)).data).1 = 0) →
      (lo = 0 ∨ (slot_dirty fs c (lo - 1) ∧
        (wr fs (fs.mem (c (lo - 1))).block (fs.mem (c (lo - 1))).data).1 ≠ 0)) →
      wb_dev_post ext c n fs lo (wb_loop wr c n fs).2.1.dev := by
  induction n with
  | zero =>
    intro fs lo _ _ _ _
    exact ⟨⟨rfl, rfl, rfl⟩, fun i _ hi => absurd hi (Nat.not_lt_zero _), fun _ _ _ => rfl⟩
  | succ n ih =>
    intro fs lo hinj hlo hok hstop
    have hinj' : slots_distinct c n :=
      fun i hi j hj => hinj i (Nat.lt_succ_of_lt hi) j (Nat.lt_succ_of_lt hj)
    have hne : ∀ i, i < n → c i ≠ c n := by
      intro i hi e
      have := hinj i (Nat.lt_succ_of_lt hi) n (Nat.lt_succ_self _) e
      omega
    by_cases htop : lo = n + 1
    · -- the write of slot `n` fails
      subst htop
      rcases hstop with h0 | ⟨hd, hrc⟩
      · omega
      · simp only [Nat.add_sub_cancel] at hd hrc
        have e : (wb_loop wr c (n + 1) fs).2.1.dev = fs.dev := by
          simp only [wb_loop]
          rw [if_pos (show (fs.mem (c n)).flags &&& FAT_CACHE_FLAG_DIRTY ≠ 0 from hd),
            if_pos hrc]
          exact hv.dev_fail _ _ _ hrc
        rw [e]
        exact ⟨⟨rfl, rfl, rfl⟩, fun i h1 h2 => absurd h2 (by omega), fun _ _ _ => rfl⟩
    · have hlo' : lo ≤ n := by omega
      by_cases hd : (fs.mem (c n)).flags &&& FAT_CACHE_FLAG_DIRTY ≠ 0
      · -- the write of slot `n` succeeds
        have hrc0 := hok n hlo' (Nat.lt_succ_self _) hd
        have hrc : ¬ (wr fs (fs.mem (c n)).block (fs.mem (c n)).data).1 ≠ 0 :=
          not_not.mpr hrc0
        have e : (wb_loop wr c (n + 1) fs).2.1 =
            (wb_loop wr c n
              { fs with
                dev := (wr fs (fs.mem (c n)).block (fs.mem (c n)).data).2.1
                mem := mem_set fs.mem (c n)
                  { fs.mem (c n) with flags := (fs.mem (c n)).flags &&& 0xFFFFFFFD } }).2.1 := by
          simp only [wb_loop]
          rw [if_pos hd, if_neg hrc]
        rw [e]
        generalize hfs1 : ({ fs with
            dev := (wr fs (fs.mem (c n)).block (fs.mem (c n)).data).2.1
            mem := mem_set fs.mem (c n)
              { fs.mem (c n) with flags := (fs.mem (c n)).flags &&& 0xFFFFFFFD } } : fat_fs_t)
          = fs1
        have m1 : ∀ p, p ≠ c n → fs1.mem p = fs.mem p := by
          intro p hpn
          rw [← hfs1]
          simp only [mem_set]
          rw [if_neg hpn]
        have sb1 : fs1.sb = fs.sb := by rw [← hfs1]
        have dv1 : fs1.dev =
            (write_blocks fs.dev (ext fs (fs.mem (c n)).block).1 (ext fs (fs.mem (c n)).block).2
              (fs.mem (c n)).data).2 := by
          rw [← hfs1]
          exact (hv.dev_ok _ _ _ hrc0).1
        have wrc := (hv.dev_ok _ _ _ hrc0).2
        have fr := write_blocks_frame fs.dev (ext fs (fs.mem (c n)).block).1
          (ext fs (fs.mem (c n)).block).2 (fs.mem (c n)).data
        have rc1 : fs1.dev.write_rc = fs.dev.write_rc := by rw [dv1]; exact fr.2.2.1
        have bs1 : fs1.dev.l_block_size = fs.dev.l_block_size := by rw [dv1]; exact fr.1
        have rd1 : fs1.dev.read_rc = fs.dev.read_rc := by rw [dv1]; exact fr.2.1
        have hdirty : ∀ i, i < n → (slot_dirty fs1 c i ↔ slot_dirty fs c i) := by
          intro i hi
          unfold slot_dirty
          rw [m1 _ (hne i hi)]
        have hwr : ∀ i, i < n →
            (wr fs1 (fs1.mem (c i)).block (fs1.mem (c i)).data).1 =
              (wr fs (fs.mem (c i)).block (fs.mem (c i)).data).1 := by
          intro i hi
          rw [m1 _ (hne i hi)]
          exact hw.rc_congr _ _ _ _ _ sb1 rc1
        have hext : ∀ i, i < n →
            ext fs1 (fs1.mem (c i)).block = ext fs (fs.mem (c i)).block := by
          intro i hi
          rw [m1 _ (hne i hi), hw.ext_congr _ _ _ sb1]
        have hp := ih fs1 lo hinj' hlo'
          (fun i h1 h2 h3 => by
            rw [hwr i h2]
            exact hok i h1 (Nat.lt_succ_of_lt h2) ((hdirty i h2).mp h3))
          (by
            rcases hstop with h0 | ⟨h1, h2⟩
            · exact Or.inl h0
            · by_cases hz : lo = 0
              · exact Or.inl hz
              · have hl : lo - 1 < n := by omega
                exact Or.inr ⟨(hdirty _ hl).mpr h1, by rw [hwr _ hl]; exact h2⟩)
        have hdata : ∀ b off, fs1.dev.dev_data b off =
            if in_extent (ext fs (fs.mem (c n)).block) b ∧ off < 2 ^ fs.dev.l_block_size then
              (fs.mem (c n)).data
                ((b - (ext fs (fs.mem (c n)).block).1) * 2 ^ fs.dev.l_block_size + off)
            else fs.dev.dev_data b off := by
          intro b off
          rw [dv1]
          exact write_blocks_stored _ _ _ _ wrc b off
        refine ⟨⟨hp.geom.1.trans bs1, hp.geom.2.1.trans rd1, hp.geom.2.2.trans rc1⟩, ?_, ?_⟩
        · intro i h1 h2 h3 b off hb hoff hlater
          rcases Nat.lt_succ_iff_lt_or_eq.mp h2 with hi | hi
          · have := hp.stored i h1 hi ((hdirty i hi).mpr h3) b off
              (by rw [hext i hi]; exact hb) (by rw [bs1]; exact hoff)
              (fun j g1 g2 g3 => by
                rw [hext j (by omega)]
                exact hlater j g1 g2 ((hdirty j (by omega)).mp g3))
            rw [this, hext i hi, bs1, m1 _ (hne i hi)]
          · subst hi
            have := hp.kept b off (fun j g1 g2 g3 => by
              rw [hext j g2]
              exact fun hh => hlater j g1 g2 ((hdirty j g2).mp g3) hh.1)
            rw [this, hdata b off, if_pos ⟨hb, hoff⟩]
        · intro b off hnone
          have := hp.kept b off (fun j g1 g2 g3 => by
            rw [hext j g2, bs1]
            exact hnone j g1 (Nat.lt_succ_of_lt g2) ((hdirty j g2).mp g3))
          rw [this, hdata b off, if_neg (hnone n hlo' (Nat.lt_succ_self _) hd)]
      · -- slot `n` is not dirty
        have e : wb_loop wr c (n + 1) fs = wb_loop wr c n fs := by
          simp only [wb_loop]
          rw [if_neg hd]
        rw [e]
        have hp := ih fs lo hinj' hlo'
          (fun i h1 h2 h3 => hok i h1 (Nat.lt_succ_of_lt h2) h3) hstop
        refine ⟨hp.geom, ?_, ?_⟩
        · intro i h1 h2 h3 b off hb hoff hlater
          rcases Nat.lt_succ_iff_lt_or_eq.mp h2 with hi | hi
          · exact hp.stored i h1 hi h3 b off hb hoff hlater
          · subst hi
            exact absurd h3 hd
        · intro b off hnone
          exact hp.kept b off (fun j g1 g2 g3 => hnone j g1 (Nat.lt_succ_of_lt g2) g3)

theorem wb_loop_dev_contract
    (wr : fat_fs_t → Nat → (Nat → Nat) → Int × kos_blockdev_t × List dev_req)
    (ext : fat_fs_t → Nat → Nat × Nat) (hw : writer_ok wr ext) (hv : writer_dev wr ext)
    (c : Nat → Nat) (n : Nat) (fs : fat_fs_t) (hinj : slots_distinct c n) :
    wb_dev wr ext c n fs (wb_loop wr c n fs) where
  ok := fun hall =>
    wb_loop_dev wr ext hw hv c n fs 0 hinj (Nat.zero_le _) (fun i _ h2 h3 => hall i h2 h3)
      (Or.inl rfl)
  fail := fun k hk hkd hkrc hab =>
    wb_loop_dev wr ext hw hv c n fs (k + 1) hinj hk
      (fun i h1 h2 h3 => hab i h1 h2 h3) (Or.inr ⟨hkd, hkrc⟩)

/-- C17: on a state whose cache slots point to distinct records, the two write-back
functions do the following.  On a read-only mount both return 0, issue no device request
and leave the state, the device included, alone.  On a read-write mount
`fat_cluster_cache_wb` satisfies `wb_post` and `wb_dev` over the cluster cache and
`fat_fatblock_cache_wb` over the FAT block cache.  `wb_post`: no id or buffer changes; if
the raw write of every dirty record succeeds the result is 0, no record is dirty, and the
device requests are exactly one write per dirty record (`dirty_slots` has each dirty slot
once); if the first failing write is that of slot `k`, the result is its error, the
failing record and the records not yet visited keep their flags, and no request follows
the failing call.  `wb_dev`: after the pass the device holds, in the blocks of the extent
of each record that was written, the bytes of that record's buffer in order (where two
written extents share a block, the bytes of the record written last), and every other
byte of the device is the one from before the pass; a failing write leaves the device
alone. -/
theorem cache_wb_contract (fs : fat_fs_t) (hb : slots_distinct fs.bcache fs.cache_size)
    (hf : slots_distinct fs.fcache fs.fcache_size) :
    (fs.mnt_flags &&& FAT_MNT_FLAG_RW = 0 →
      fat_cluster_cache_wb fs = (0, fs, []) ∧ fat_fatblock_cache_wb fs = (0, fs, [])) ∧
    (fs.mnt_flags &&& FAT_MNT_FLAG_RW ≠ 0 →
      (wb_post fat_cluster_write_nc cluster_extent fs.bcache fs.cache_size fs
          (fat_cluster_cache_wb fs) ∧
        wb_dev fat_cluster_write_nc cluster_extent fs.bcache fs.cache_size fs
          (fat_cluster_cache_wb fs)) ∧
      (wb_post fatblock_writer fatblock_extent fs.fcache fs.fcache_size fs
          (fat_fatblock_cache_wb fs) ∧
        wb_dev fatblock_writer fatblock_extent fs.fcache fs.fcache_size fs
          (fat_fatblock_cache_wb fs))) ∧
    (dirty_slots fs fs.bcache fs.cache_size).Nodup ∧
    (dirty_slots fs fs.fcache fs.fcache_size).Nodup ∧
    (∀ i, i ∈ dirty_slots fs fs.bcache fs.cache_size ↔
      i < fs.cache_size ∧ slot_dirty fs fs.bcache i) ∧
    (∀ i, i ∈ dirty_slots fs fs.fcache fs.fcache_size ↔
      i < fs.fcache_size ∧ slot_dirty fs fs.fcache i) := by
  refine ⟨?_, ?_, dirty_slots_nodup _ _ _, dirty_slots_nodup _ _ _,
    fun i => ⟨dirty_slots_lt _ _ _ i, fun h => dirty_slots_mem _ _ _ i h.1 h.2⟩,
    fun i => ⟨dirty_slots_lt _ _ _ i, fun h => dirty_slots_mem _ _ _ i h.1 h.2⟩⟩
  · intro hro
    unfold fat_cluster_cache_wb fat_fatblock_cache_wb
    rw [if_pos hro, if_pos hro]
    exact ⟨rfl, rfl⟩
  · intro hrw
    unfold fat_cluster_cache_wb fat_fatblock_cache_wb
    rw [if_neg hrw, if_neg hrw, fat_cluster_cache_wb_loop_eq, fat_fatblock_cache_wb_loop_eq]
    exact ⟨⟨(wb_loop_spec _ _ cluster_writer_ok _ _ fs hb).1,
        wb_loop_dev_contract _ _ cluster_writer_ok cluster_writer_dev _ _ fs hb⟩,
      ⟨(wb_loop_spec _ _ fatblock_writer_ok _ _ fs hf).1,
        wb_loop_dev_contract _ _ fatblock_writer_ok fatblock_writer_dev _ _ fs hf⟩⟩

set_option maxRecDepth 100000 in
theorem cache_wb_contract_witness :
    fat_cluster_cache_wb file3_truncated = (0, file3_truncated, []) ∧
    (fat_cluster_cache_wb vol_two_dirty).1 = 0 ∧
    (fat_cluster_cache_wb vol_two_dirty_wfail).1 =
      (fat_cluster_write_nc vol_two_dirty_wfail
        (vol_two_dirty_wfail.mem (vol_two_dirty_wfail.bcache 1)).block
        (vol_two_dirty_wfail.mem (vol_two_dirty_wfail.bcache 1)).data).1 ∧
    (fat_fatblock_cache_wb vol_two_dirty).1 = 0 ∧
    vol_poked.dev.dev_data 9 3 = 0 ∧
    (fat_cluster_cache_wb vol_poked).2.1.dev.dev_data 9 3 = 0xAB :=
  ⟨((cache_wb_contract file3_truncated (by decide) (by decide)).1 (by decide)).1,
    ((((cache_wb_contract vol_two_dirty (by decide) (by decide)).2.1 (by decide)).1.1).ok
      (by decide)).1,
    ((((cache_wb_contract vol_two_dirty_wfail (by decide) (by decide)).2.1
      (by decide)).1.1).fail
      1 (by decide) (by decide) (by decide) (fun j h1 h2 => absurd h2 (by
        have e : vol_two_dirty_wfail.cache_size = 2 := by decide
        omega))).1,
    ((((cache_wb_contract vol_two_dirty (by decide) (by decide)).2.1 (by decide)).2.1).ok
      (by decide)).1,
    by decide,
    (((((cache_wb_contract vol_poked (by decide) (by decide)).2.1 (by decide)).1.2).ok
      (by decide)).stored 1 (by decide) (by decide) (by decide) 9 3 (by decide) (by decide)
      (fun j _ h2 h3 => by
        have e : j = 0 := by omega
        subst e
        exact absurd h3 (by decide))).trans (by decide)⟩

/-! ## The cache invariant -/

theorem make_mru_congr {fs fs' : fat_fs_t} (h : fs'.cache_size = fs.cache_size)
    (c : Nat → Nat) (k : Nat) : make_mru fs' c k = make_mru fs c k := by
  funext j
  rw [make_mru_apply, make_mru_apply, h]

theorem slots_uniq_step {mem mem' : Nat → fat_cache_t} {c : Nat → Nat} {n : Nat}
    (h : slots_uniq mem c n)
    (hm : ∀ i, i < n → (mem' (c i)).flags ≠ 0 →
      ((mem (c i)).flags ≠ 0 ∧ (mem' (c i)).block = (mem (c i)).block) ∨
      (i = 0 ∧ ∀ j, j < n →
        ¬ ((mem (c j)).block = (mem' (c 0)).block ∧ (mem (c j)).flags ≠ 0))) :
    slots_uniq mem' c n := by
  intro i hi j hj hvi hvj hb
  rcases hm i hi hvi with ⟨oi, bi⟩ | ⟨i0, mi⟩
  · rcases hm j hj hvj with ⟨oj, bj⟩ | ⟨j0, mj⟩
    · exact h i hi j hj oi oj (by rw [← bi, ← bj, hb])
    · subst j0
      exact absurd ⟨by rw [← bi, hb], oi⟩ (mj i hi)
  · subst i0
    rcases hm j hj hvj with ⟨oj, bj⟩ | ⟨j0, _⟩
    · exact absurd ⟨by rw [← bj, hb], oj⟩ (mi j hj)
    · exact j0.symm

theorem slots_reorder {mem : Nat → fat_cache_t} {c : Nat → Nat} {n cs k : Nat}
    (fs0 : fat_fs_t) (hcs : fs0.cache_size = cs) (hle : cs ≤ n) (hk : k < n)
    (hd : slots_distinct c n) (hu : slots_uniq mem c n) :
    slots_distinct (make_mru fs0 c k) n ∧ slots_uniq mem (make_mru fs0 c k) n ∧
    ∀ P : Nat → Prop, (∀ i, i < n → P (c i)) → ∀ i, i < n → P (make_mru fs0 c k i) := by
  refine ⟨?_, ?_, ?_⟩
  · intro i hi j hj e
    rw [make_mru_apply, make_mru_apply, hcs] at e
    exact mru_src_inj (hd _ (mru_src_lt hle hk hi) _ (mru_src_lt hle hk hj) e)
  · intro i hi j hj hvi hvj hb
    rw [make_mru_apply, hcs] at hvi hvj hb
    rw [make_mru_apply, hcs] at hb
    exact mru_src_inj (hu _ (mru_src_lt hle hk hi) _ (mru_src_lt hle hk hj) hvi hvj hb)
  · intro P hP i hi
    rw [make_mru_apply, hcs]
    exact hP _ (mru_src_lt hle hk hi)

/-- A step of the cache keeps the invariant. -/
theorem caches_wf_step {fs fs' : fat_fs_t} (h : caches_wf fs) (hs : cache_step fs fs') :
    caches_wf fs' := by
  have hbu : slots_uniq fs'.mem fs.bcache fs.cache_size := slots_uniq_step h.buniq hs.bmem
  have hfu : slots_uniq fs'.mem fs.fcache fs.fcache_size := slots_uniq_step h.funiq hs.fmem
  have hb : slots_distinct fs'.bcache fs.cache_size ∧
      slots_uniq fs'.mem fs'.bcache fs.cache_size ∧
      ∀ i, i < fs.cache_size → fs'.bcache i < fs.cache_size := by
    rcases hs.bcache with e | ⟨k, hk, e⟩
    · rw [e]
      exact ⟨h.bdistinct, hbu, h.bptr⟩
    · rw [e]
      obtain ⟨r1, r2, r3⟩ := slots_reorder fs rfl (Nat.le_refl _) hk h.bdistinct hbu
      exact ⟨r1, r2, r3 (fun p => p < fs.cache_size) h.bptr⟩
  have hf : slots_distinct fs'.fcache fs.fcache_size ∧
      slots_uniq fs'.mem fs'.fcache fs.fcache_size ∧
      ∀ i, i < fs.fcache_size → fs.cache_size ≤ fs'.fcache i := by
    rcases hs.fcache with e | ⟨k, hk, e⟩
    · rw [e]
      exact ⟨h.fdistinct, hfu, h.fptr⟩
    · rw [e]
      obtain ⟨r1, r2, r3⟩ := slots_reorder fs rfl h.size_le hk h.fdistinct hfu
      exact ⟨r1, r2, r3 (fun p => fs.cache_size ≤ p) h.fptr⟩
  exact
    { size_ge := by rw [hs.cache_size]; exact h.size_ge
      size_le := by rw [hs.cache_size, hs.fcache_size]; exact h.size_le
      bptr := by rw [hs.cache_size]; exact hb.2.2
      fptr := by rw [hs.cache_size, hs.fcache_size]; exact hf.2.2
      bdistinct := by rw [hs.cache_size]; exact hb.1
      fdistinct := by rw [hs.fcache_size]; exact hf.1
      flags := hs.flags
      buniq := by rw [hs.cache_size]; exact hb.2.1
      funiq := by rw [hs.fcache_size]; exact hf.2.1 }

/-- The invariant gives the invariant in the words of the specification. -/
theorem caches_wf_coherent {fs : fat_fs_t} (h : caches_wf fs) :
    cache_coherent fs fs.bcache fs.cache_size ∧ cache_coherent fs fs.fcache fs.fcache_size := by
  have hv : ∀ p, (fs.mem p).flags &&& FAT_CACHE_FLAG_VALID ≠ 0 → (fs.mem p).flags ≠ 0 := by
    intro p hp e
    rw [e] at hp
    exact hp (by decide)
  have hdv : ∀ p, (fs.mem p).flags &&& FAT_CACHE_FLAG_DIRTY ≠ 0 →
      (fs.mem p).flags &&& FAT_CACHE_FLAG_VALID ≠ 0 := by
    intro p hp
    rcases h.flags p with e | e | e <;> rw [e] at hp ⊢
    · exact absurd (by decide) hp
    · exact absurd (by decide) hp
    · decide
  exact ⟨⟨fun i hi j hj vi vj hb => h.buniq i hi j hj (hv _ vi) (hv _ vj) hb,
      fun i _ hd => hdv _ hd⟩,
    ⟨fun i hi j hj vi vj hb => h.funiq i hi j hj (hv _ vi) (hv _ vj) hb,
      fun i _ hd => hdv _ hd⟩⟩

/-- A freshly mounted volume satisfies the invariant. -/
theorem fat_fs_init_ex_caches_wf {bd : kos_blockdev_t} {flags cache_sz fcache_sz : Nat}
    {fs : fat_fs_t} (hm : fat_fs_init_ex bd flags cache_sz fcache_sz = some fs)
    (h1 : 1 ≤ cache_sz) (h2 : cache_sz ≤ fcache_sz) :
    caches_wf fs ∧ fs.cache_size = cache_sz ∧ fs.fcache_size = fcache_sz := by
  unfold fat_fs_init_ex at hm
  split_ifs at hm
  all_goals
    cases hm
    exact ⟨⟨h1, h2, fun i hi => hi, fun i _ => Nat.le_add_right _ _, fun i _ j _ e => e,
      fun i _ j _ e => Nat.add_left_cancel e, fun p => Or.inl rfl,
      fun i _ j _ hv => absurd rfl hv, fun i _ j _ hv => absurd rfl hv⟩, rfl, rfl⟩

/-- A change of the records that is a step of the cache, described record by record. -/
theorem cache_step_of_mem {fs fs' : fat_fs_t} (h : caches_wf fs)
    (hcs : fs'.cache_size = fs.cache_size) (hfcs : fs'.fcache_size = fs.fcache_size)
    (hb : fs'.bcache = fs.bcache ∨
      ∃ k, k < fs.cache_size ∧ fs'.bcache = make_mru fs fs.bcache k)
    (hf : fs'.fcache = fs.fcache ∨
      ∃ k, k < fs.fcache_size ∧ fs'.fcache = make_mru fs fs.fcache k)
    (hflags : ∀ p, (fs'.mem p).flags = 0 ∨ (fs'.mem p).flags = 1 ∨ (fs'.mem p).flags = 3)
    (hmem : ∀ p, (fs'.mem p).flags ≠ 0 →
      ((fs.mem p).flags ≠ 0 ∧ (fs'.mem p).block = (fs.mem p).block) ∨
      (p = fs.bcache 0 ∧ ∀ j, j < fs.cache_size →
        ¬ ((fs.mem (fs.bcache j)).block = (fs'.mem p).block ∧
          (fs.mem (fs.bcache j)).flags ≠ 0)) ∨
      (p = fs.fcache 0 ∧ ∀ j, j < fs.fcache_size →
        ¬ ((fs.mem (fs.fcache j)).block = (fs'.mem p).block ∧
          (fs.mem (fs.fcache j)).flags ≠ 0))) :
    cache_step fs fs' := by
  have hc0 : 0 < fs.cache_size := h.size_ge
  have hf0 : 0 < fs.fcache_size := Nat.lt_of_lt_of_le h.size_ge h.size_le
  refine ⟨hcs, hfcs, hb, hf, hflags, ?_, ?_⟩
  · intro i hi hv
    rcases hmem _ hv with l | ⟨e, m⟩ | ⟨e, _⟩
    · exact Or.inl l
    · have := h.bdistinct i hi 0 hc0 e
      subst this
      exact Or.inr ⟨rfl, m⟩
    · have h1 := h.bptr i hi
      have h2 := h.fptr 0 hf0
      omega
  · intro i hi hv
    rcases hmem _ hv with l | ⟨e, _⟩ | ⟨e, m⟩
    · exact Or.inl l
    · have h1 := h.bptr 0 hc0
      have h2 := h.fptr i hi
      omega
    · have := h.fdistinct i hi 0 hf0 e
      subst this
      exact Or.inr ⟨rfl, m⟩

/-- A step that changes the flags and the id of one record only. -/
theorem cache_step_record {fs fs' : fat_fs_t} (h : caches_wf fs) (q : Nat)
    (hcs : fs'.cache_size = fs.cache_size) (hfcs : fs'.fcache_size = fs.fcache_size)
    (hb : fs'.bcache = fs.bcache ∨
      ∃ k, k < fs.cache_size ∧ fs'.bcache = make_mru fs fs.bcache k)
    (hf : fs'.fcache = fs.fcache ∨
      ∃ k, k < fs.fcache_size ∧ fs'.fcache = make_mru fs fs.fcache k)
    (hother : ∀ p, p ≠ q → (fs'.mem p).flags = (fs.mem p).flags ∧
      (fs'.mem p).block = (fs.mem p).block)
    (hfl : (fs'.mem q).flags = 0 ∨ (fs'.mem q).flags = 1 ∨ (fs'.mem q).flags = 3)
    (hq : (fs'.mem q).flags ≠ 0 →
      ((fs.mem q).flags ≠ 0 ∧ (fs'.mem q).block = (fs.mem q).block) ∨
      (q = fs.bcache 0 ∧ ∀ j, j < fs.cache_size →
        ¬ ((fs.mem (fs.bcache j)).block = (fs'.mem q).block ∧
          (fs.mem (fs.bcache j)).flags ≠ 0)) ∨
      (q = fs.fcache 0 ∧ ∀ j, j < fs.fcache_size →
        ¬ ((fs.mem (fs.fcache j)).block = (fs'.mem q).block ∧
          (fs.mem (fs.fcache j)).flags ≠ 0))) :
    cache_step fs fs' := by
  apply cache_step_of_mem h hcs hfcs hb hf
  · intro p
    by_cases hp : p = q
    · rw [hp]
      exact hfl
    · rw [(hother p hp).1]
      exact h.flags p
  · intro p hv
    by_cases hp : p = q
    · subst hp
      exact hq hv
    · rw [(hother p hp).1] at hv
      exact Or.inl ⟨hv, (hother p hp).2⟩

/-- A step that leaves flags and ids alone. -/
theorem cache_step_same {fs fs' : fat_fs_t} (h : caches_wf fs)
    (hcs : fs'.cache_size = fs.cache_size) (hfcs : fs'.fcache_size = fs.fcache_size)
    (hb : fs'.bcache = fs.bcache ∨
      ∃ k, k < fs.cache_size ∧ fs'.bcache = make_mru fs fs.bcache k)
    (hf : fs'.fcache = fs.fcache ∨
      ∃ k, k < fs.fcache_size ∧ fs'.fcache = make_mru fs fs.fcache k)
    (hm : ∀ p, (fs'.mem p).flags = (fs.mem p).flags ∧ (fs'.mem p).block = (fs.mem p).block) :
    cache_step fs fs' := by
  apply cache_step_of_mem h hcs hfcs hb hf
  · intro p
    rw [(hm p).1]
    exact h.flags p
  · intro p hv
    rw [(hm p).1] at hv
    exact Or.inl ⟨hv, (hm p).2⟩

theorem mem_set_same (mem : Nat → fat_cache_t) (q : Nat) (r : fat_cache_t) :
    mem_set mem q r q = r := by
  unfold mem_set
  rw [if_pos rfl]

theorem mem_set_other (mem : Nat → fat_cache_t) (q : Nat) (r : fat_cache_t) {p : Nat}
    (h : p ≠ q) : mem_set mem q r p = mem p := by
  unfold mem_set
  rw [if_neg h]

theorem flags_or_dirty {f : Nat} (h : f = 0 ∨ f = 1 ∨ f = 3) (hv : f ≠ 0) :
    f ||| FAT_CACHE_FLAG_DIRTY = 3 := by
  rcases h with e | e | e
  · exact absurd e hv
  · rw [e]; decide
  · rw [e]; decide

theorem flags_and_clean {f : Nat} (h : f = 0 ∨ f = 1 ∨ f = 3) :
    (f &&& 0xFFFFFFFD = 0 ∨ f &&& 0xFFFFFFFD = 1 ∨ f &&& 0xFFFFFFFD = 3) ∧
    (f &&& 0xFFFFFFFD ≠ 0 → f ≠ 0) := by
  rcases h with e | e | e <;> rw [e] <;> decide

/-! ### The calls on the cluster cache -/

theorem step_cluster_read {fs : fat_fs_t} (h : caches_wf fs) (cl : Nat) (err : Int) :
    cache_step fs (fat_cluster_read fs cl err).2.2.1 := by
  obtain ⟨em, eb, ec, -, ef, efs, -, -, -, -⟩ := bcache_evict_frame fs
  cases hs : bcache_scan fs cl fs.cache_size with
  | some i =>
    simp only [fat_cluster_read, hs]
    exact cache_step_same h rfl rfl (Or.inr ⟨i, (bcache_scan_some hs).1, rfl⟩) (Or.inl rfl)
      (fun p => ⟨rfl, rfl⟩)
  | none =>
    have hmiss := bcache_scan_none hs
    simp only [fat_cluster_read, hs]
    by_cases hev : (bcache_evict fs).1 ≠ 0
    · rw [if_pos hev]
      exact cache_step_same h ec efs (Or.inl eb) (Or.inl ef) (fun p => by rw [em]; exact ⟨rfl, rfl⟩)
    · rw [if_neg hev]
      simp only
      unfold bcache_fill
      by_cases hrd : (fat_cluster_read_nc (bcache_evict fs).2.1 cl
          ((bcache_evict fs).2.1.mem ((bcache_evict fs).2.1.bcache 0)).data).1 ≠ 0
      · rw [if_pos hrd]
        refine cache_step_record h (fs.bcache 0) ?_ ?_ ?_ ?_ ?_ ?_ ?_
        · exact ec
        · exact efs
        · exact Or.inl eb
        · exact Or.inl ef
        · intro p hp
          constructor <;> simp only [eb, em, mem_set_other _ _ _ hp]
        · simp only [eb, mem_set_same]
          exact Or.inl trivial
        · intro hv
          simp only [eb, mem_set_same] at hv
          exact absurd rfl hv
      · rw [if_neg hrd]
        refine cache_step_record h (fs.bcache 0) ?_ ?_ ?_ ?_ ?_ ?_ ?_
        · exact ec
        · exact efs
        · refine Or.inr ⟨0, h.size_ge, ?_⟩
          show make_mru (bcache_evict fs).2.1 (bcache_evict fs).2.1.bcache 0 = _
          rw [eb, make_mru_congr ec]
        · exact Or.inl ef
        · intro p hp
          constructor <;> simp only [eb, em, mem_set_other _ _ _ hp]
        · simp only [eb, mem_set_same]
          exact Or.inr (Or.inl rfl)
        · intro _
          simp only [eb, mem_set_same]
          exact Or.inr (Or.inl ⟨trivial, hmiss⟩)

theorem cluster_memset_frame (fs : fat_fs_t) (q : Nat) :
    (cluster_memset fs q).cache_size = fs.cache_size ∧
    (cluster_memset fs q).fcache_size = fs.fcache_size ∧
    (cluster_memset fs q).bcache = fs.bcache ∧ (cluster_memset fs q).fcache = fs.fcache ∧
    ∀ p, ((cluster_memset fs q).mem p).flags = (fs.mem p).flags ∧
      ((cluster_memset fs q).mem p).block = (fs.mem p).block := by
  refine ⟨rfl, rfl, rfl, rfl, fun p => ?_⟩
  unfold cluster_memset
  by_cases hp : p = q
  · subst hp
    constructor <;> simp only [mem_set_same]
  · constructor <;> simp only [mem_set_other _ _ _ hp]

theorem step_cluster_clear {fs : fat_fs_t} (h : caches_wf fs) (cl : Nat) (err : Int) :
    cache_step fs (fat_cluster_clear fs cl err).2.2.1 := by
  obtain ⟨em, eb, ec, -, ef, efs, -, -, -, -⟩ := bcache_evict_frame fs
  cases hs : bcache_scan fs cl fs.cache_size with
  | some i =>
    simp only [fat_cluster_clear, hs]
    obtain ⟨c1, c2, c3, c4, c5⟩ :=
      cluster_memset_frame { fs with bcache := make_mru fs fs.bcache i } (fs.bcache i)
    exact cache_step_same h c1 c2 (Or.inr ⟨i, (bcache_scan_some hs).1, c3⟩) (Or.inl c4) c5
  | none =>
    have hmiss := bcache_scan_none hs
    simp only [fat_cluster_clear, hs]
    by_cases hev : (bcache_evict fs).1 ≠ 0
    · rw [if_pos hev]
      exact cache_step_same h ec efs (Or.inl eb) (Or.inl ef) (fun p => by rw [em]; exact ⟨rfl, rfl⟩)
    · rw [if_neg hev]
      simp only
      generalize hS : ({ (bcache_evict fs).2.1 with
          mem := mem_set (bcache_evict fs).2.1.mem (fs.bcache 0)
            { flags := FAT_CACHE_FLAG_VALID ||| FAT_CACHE_FLAG_DIRTY, block := cl,
              data := ((bcache_evict fs).2.1.mem (fs.bcache 0)).data }
          bcache := make_mru fs fs.bcache 0 } : fat_fs_t) = S
      obtain ⟨c1, c2, c3, c4, c5⟩ := cluster_memset_frame S (fs.bcache 0)
      have s1 : S.cache_size = fs.cache_size := by rw [← hS]; exact ec
      have s2 : S.fcache_size = fs.fcache_size := by rw [← hS]; exact efs
      have s3 : S.bcache = make_mru fs fs.bcache 0 := by rw [← hS]
      have s4 : S.fcache = fs.fcache := by rw [← hS]; exact ef
      have s5 : S.mem = mem_set fs.mem (fs.bcache 0)
          { flags := FAT_CACHE_FLAG_VALID ||| FAT_CACHE_FLAG_DIRTY, block := cl,
            data := (fs.mem (fs.bcache 0)).data } := by
        rw [← hS]
        simp only [em]
      apply cache_step_record h (fs.bcache 0) (c1.trans s1) (c2.trans s2)
        (Or.inr ⟨0, h.size_ge, c3.trans s3⟩) (Or.inl (c4.trans s4))
      · intro p hp
        rw [(c5 p).1, (c5 p).2, s5, mem_set_other _ _ _ hp]
        exact ⟨rfl, rfl⟩
      · rw [(c5 _).1, s5, mem_set_same]
        exact Or.inr (Or.inr rfl)
      · intro _
        rw [(c5 _).2, s5, mem_set_same]
        exact Or.inr (Or.inl ⟨rfl, hmiss⟩)

theorem step_cluster_mark_dirty {fs : fat_fs_t} (h : caches_wf fs) (cl : Nat) :
    cache_step fs (fat_cluster_mark_dirty fs cl).2 := by
  cases hs : bcache_scan fs cl fs.cache_size with
  | some i =>
    obtain ⟨hi, -, hv⟩ := bcache_scan_some hs
    simp only [fat_cluster_mark_dirty, hs]
    refine cache_step_record h (fs.bcache i) ?_ ?_ ?_ ?_ ?_ ?_ ?_
    · rfl
    · rfl
    · exact Or.inr ⟨i, hi, rfl⟩
    · exact Or.inl rfl
    · intro p hp
      constructor <;> simp only [mem_set_other _ _ _ hp]
    · simp only [mem_set_same]
      exact Or.inr (Or.inr (flags_or_dirty (h.flags _) hv))
    · intro _
      simp only [mem_set_same]
      exact Or.inl ⟨hv, trivial⟩
  | none =>
    simp only [fat_cluster_mark_dirty, hs]
    exact cache_step_same h rfl rfl (Or.inl rfl) (Or.inl rfl) (fun p => ⟨rfl, rfl⟩)

theorem step_of_wb_post {fs : fat_fs_t} (h : caches_wf fs)
    {wr : fat_fs_t → Nat → (Nat → Nat) → Int × kos_blockdev_t × List dev_req}
    {ext : fat_fs_t → Nat → Nat × Nat} {c : Nat → Nat} {n : Nat}
    {r : Int × fat_fs_t × List dev_req} (hp : wb_post wr ext c n fs r) :
    cache_step fs r.2.1 := by
  obtain ⟨-, g2, g3, g4, g5, -⟩ := hp.frame
  apply cache_step_of_mem h g3 g5 (Or.inl g2) (Or.inl g4)
  · intro p
    rcases hp.flags_cases p with e | e
    · rw [e]
      exact h.flags p
    · rw [e]
      exact (flags_and_clean (h.flags p)).1
  · intro p hv
    refine Or.inl ⟨?_, (hp.bufs p).1⟩
    rcases hp.flags_cases p with e | e
    · rw [e] at hv
      exact hv
    · rw [e] at hv
      exact (flags_and_clean (h.flags p)).2 hv

theorem step_cluster_cache_wb {fs : fat_fs_t} (h : caches_wf fs) :
    cache_step fs (fat_cluster_cache_wb fs).2.1 := by
  unfold fat_cluster_cache_wb
  split_ifs
  · exact cache_step_same h rfl rfl (Or.inl rfl) (Or.inl rfl) (fun p => ⟨rfl, rfl⟩)
  · rw [fat_cluster_cache_wb_loop_eq]
    exact step_of_wb_post h (wb_loop_spec _ _ cluster_writer_ok _ _ fs h.bdistinct).1

/-! ### The calls on the FAT block cache -/

theorem step_fatblock_cache_wb {fs : fat_fs_t} (h : caches_wf fs) :
    cache_step fs (fat_fatblock_cache_wb fs).2.1 := by
  unfold fat_fatblock_cache_wb
  split_ifs
  · exact cache_step_same h rfl rfl (Or.inl rfl) (Or.inl rfl) (fun p => ⟨rfl, rfl⟩)
  · rw [fat_fatblock_cache_wb_loop_eq]
    exact step_of_wb_post h (wb_loop_spec _ _ fatblock_writer_ok _ _ fs h.fdistinct).1

theorem step_fatblock_mark_dirty {fs : fat_fs_t} (h : caches_wf fs) (bn : Nat) :
    cache_step fs (fat_fatblock_mark_dirty fs bn).2 := by
  cases hs : fcache_scan fs bn fs.fcache_size with
  | some i =>
    obtain ⟨hi, -, hv⟩ := fcache_scan_some hs
    simp only [fat_fatblock_mark_dirty, hs]
    refine cache_step_record h (fs.fcache i) ?_ ?_ ?_ ?_ ?_ ?_ ?_
    · rfl
    · rfl
    · exact Or.inl rfl
    · exact Or.inr ⟨i, hi, rfl⟩
    · intro p hp
      constructor <;> simp only [mem_set_other _ _ _ hp]
    · simp only [mem_set_same]
      exact Or.inr (Or.inr (flags_or_dirty (h.flags _) hv))
    · intro _
      simp only [mem_set_same]
      exact Or.inl ⟨hv, trivial⟩
  | none =>
    simp only [fat_fatblock_mark_dirty, hs]
    exact cache_step_same h rfl rfl (Or.inl rfl) (Or.inl rfl) (fun p => ⟨rfl, rfl⟩)

theorem evict_writeback_frame (fs : fat_fs_t) :
    (evict_writeback fs).2.mem = fs.mem ∧ (evict_writeback fs).2.bcache = fs.bcache ∧
    (evict_writeback fs).2.cache_size = fs.cache_size ∧
    (evict_writeback fs).2.fcache = fs.fcache ∧
    (evict_writeback fs).2.fcache_size = fs.fcache_size := by
  unfold evict_writeback
  split_ifs <;> exact ⟨rfl, rfl, rfl, rfl, rfl⟩

theorem step_read_fatblock {fs : fat_fs_t} (h : caches_wf fs) (block : Nat) (err : Int) :
    cache_step fs (fat_read_fatblock fs block err).2.2 := by
  obtain ⟨em, eb, ec, ef, efs⟩ := evict_writeback_frame fs
  have hf0 : 0 < fs.fcache_size := Nat.lt_of_lt_of_le h.size_ge h.size_le
  cases hs : fcache_scan fs block fs.fcache_size with
  | some i =>
    simp only [fat_read_fatblock, hs]
    exact cache_step_same h rfl rfl (Or.inl rfl) (Or.inr ⟨i, (fcache_scan_some hs).1, rfl⟩)
      (fun p => ⟨rfl, rfl⟩)
  | none =>
    have hmiss := fcache_scan_none hs
    simp only [fat_read_fatblock, hs]
    by_cases hev : (evict_writeback fs).1 ≠ 0
    · rw [if_pos hev]
      exact cache_step_same h ec efs (Or.inl eb) (Or.inl ef) (fun p => by rw [em]; exact ⟨rfl, rfl⟩)
    · rw [if_neg hev]
      unfold fcache_fill
      by_cases hrd : (fat_fatblock_read_nc (evict_writeback fs).2 block
          ((evict_writeback fs).2.mem ((evict_writeback fs).2.fcache 0)).data).1 ≠ 0
      · rw [if_pos hrd]
        refine cache_step_record h (fs.fcache 0) ?_ ?_ ?_ ?_ ?_ ?_ ?_
        · exact ec
        · exact efs
        · exact Or.inl eb
        · exact Or.inl ef
        · intro p hp
          constructor <;> simp only [ef, em, mem_set_other _ _ _ hp]
        · simp only [ef, mem_set_same]
          exact Or.inl trivial
        · intro hv
          simp only [ef, mem_set_same] at hv
          exact absurd rfl hv
      · rw [if_neg hrd]
        refine cache_step_record h (fs.fcache 0) ?_ ?_ ?_ ?_ ?_ ?_ ?_
        · exact ec
        · exact efs
        · exact Or.inl eb
        · refine Or.inr ⟨0, hf0, ?_⟩
          show make_mru (evict_writeback fs).2 (evict_writeback fs).2.fcache 0 = _
          rw [ef, make_mru_congr ec]
        · intro p hp
          constructor <;> simp only [ef, em, mem_set_other _ _ _ hp]
        · simp only [ef, mem_set_same]
          exact Or.inr (Or.inl rfl)
        · intro _
          simp only [ef, mem_set_same]
          exact Or.inr (Or.inr ⟨trivial, hmiss⟩)

theorem step_store {fs : fat_fs_t} (h : caches_wf fs) (p off v : Nat) :
    cache_step fs (poke fs p off v) := by
  refine cache_step_same h ?_ ?_ ?_ ?_ ?_
  · rfl
  · rfl
  · exact Or.inl rfl
  · exact Or.inl rfl
  intro q
  unfold poke
  by_cases hq : q = p
  · subst hq
    constructor <;> simp only [mem_set_same]
  · constructor <;> simp only [mem_set_other _ _ _ hq]

theorem run_call_step {fs : fat_fs_t} (h : caches_wf fs) (c : cache_call) :
    cache_step fs (run_call fs c) := by
  cases c with
  | cluster_read cl err => exact step_cluster_read h cl err
  | cluster_clear cl err => exact step_cluster_clear h cl err
  | cluster_mark_dirty cl => exact step_cluster_mark_dirty h cl
  | cluster_cache_wb => exact step_cluster_cache_wb h
  | read_fatblock b err => exact step_read_fatblock h b err
  | fatblock_mark_dirty b => exact step_fatblock_mark_dirty h b
  | fatblock_cache_wb => exact step_fatblock_cache_wb h
  | store p off v => exact step_store h p off v

theorem run_calls_wf (calls : List cache_call) : ∀ {fs : fat_fs_t}, caches_wf fs →
    caches_wf (run_calls fs calls) ∧
    (run_calls fs calls).cache_size = fs.cache_size ∧
    (run_calls fs calls).fcache_size = fs.fcache_size := by
  induction calls with
  | nil => intro fs h; exact ⟨h, rfl, rfl⟩
  | cons c cs ih =>
    intro fs h
    have hs := run_call_step h c
    obtain ⟨i1, i2, i3⟩ := @ih (run_call fs c) (caches_wf_step h hs)
    exact ⟨i1, i2.trans hs.cache_size, i3.trans hs.fcache_size⟩

/-! ## C15: the cache invariant after every call -/

/-- C15: after a mount by `fat_fs_init_ex` with cache sizes `1 ≤ cache_sz ≤ fcache_sz`
(`fat_fs_init` uses 8 and 8), and after every sequence of calls of `fat_cluster_read`,
`fat_cluster_clear`, `fat_cluster_mark_dirty`, `fat_cluster_cache_wb`,
`fat_read_fatblock`, `fat_fatblock_mark_dirty` and `fat_fatblock_cache_wb` (with any
arguments, any device errors, and any stores into the buffers in between), both caches
satisfy the invariant: every record id appears in at most one valid slot, and every
dirty slot is valid. -/
theorem caches_coherent_after_calls (bd : kos_blockdev_t) (flags cache_sz fcache_sz : Nat)
    (fs0 : fat_fs_t) (calls : List cache_call)
    (hm : fat_fs_init_ex bd flags cache_sz fcache_sz = some fs0)
    (h1 : 1 ≤ cache_sz) (h2 : cache_sz ≤ fcache_sz) :
    cache_coherent (run_calls fs0 calls) (run_calls fs0 calls).bcache cache_sz ∧
    cache_coherent (run_calls fs0 calls) (run_calls fs0 calls).fcache fcache_sz := by
  obtain ⟨hwf, e1, e2⟩ := fat_fs_init_ex_caches_wf hm h1 h2
  obtain ⟨hw, s1, s2⟩ := run_calls_wf calls hwf
  have := caches_wf_coherent hw
  rw [s1, s2, e1, e2] at this
  exact this

theorem caches_coherent_after_calls_witness :
    cache_coherent
      (run_calls vol12
        [cache_call.cluster_clear 5 0, cache_call.read_fatblock 1 0,
          cache_call.cluster_read 5 0, cache_call.fatblock_mark_dirty 1,
          cache_call.cluster_cache_wb])
      (run_calls vol12
        [cache_call.cluster_clear 5 0, cache_call.read_fatblock 1 0,
          cache_call.cluster_read 5 0, cache_call.fatblock_mark_dirty 1,
          cache_call.cluster_cache_wb]).bcache FAT_CACHE_BLOCKS ∧
    cache_coherent
      (run_calls vol12
        [cache_call.cluster_clear 5 0, cache_call.read_fatblock 1 0,
          cache_call.cluster_read 5 0, cache_call.fatblock_mark_dirty 1,
          cache_call.cluster_cache_wb])
      (run_calls vol12
        [cache_call.cluster_clear 5 0, cache_call.read_fatblock 1 0,
          cache_call.cluster_read 5 0, cache_call.fatblock_mark_dirty 1,
          cache_call.cluster_cache_wb]).fcache FAT_FCACHE_BLOCKS :=
  caches_coherent_after_calls dev12 FAT_MNT_FLAG_RW FAT_CACHE_BLOCKS FAT_FCACHE_BLOCKS vol12
    [cache_call.cluster_clear 5 0, cache_call.read_fatblock 1 0,
      cache_call.cluster_read 5 0, cache_call.fatblock_mark_dirty 1,
      cache_call.cluster_cache_wb]
    (mount_rw_some (by decide)) (by decide) (by decide)

/-! ## Working sets -/

theorem mru_src_upper {cs k i j : Nat} (hki : k ≤ i) :
    k ≤ mru_src cs i j ↔ k ≤ j := by
  unfold mru_src
  split_ifs <;> omega

/-- On a miss within the working set, slot 0 holds no record. -/
theorem ws_slot0_free {fs : fat_fs_t} {W : Finset Nat} {pre : List cluster_op}
    (h : ws_inv fs W pre) (hW : W.card ≤ fs.cache_size) {cl : Nat} (hcl : cl ∈ W)
    (hmiss : ∀ i, i < fs.cache_size →
      ¬ ((fs.mem (fs.bcache i)).block = cl ∧ (fs.mem (fs.bcache i)).flags ≠ 0)) :
    (fs.mem (fs.bcache 0)).flags = 0 := by
  obtain ⟨k, hk, hval⟩ := h.upper
  have hcard : (Finset.Ico k fs.cache_size).card ≤ (W.erase cl).card := by
    apply Finset.card_le_card_of_injOn (fun i => (fs.mem (fs.bcache i)).block)
    · intro i hi
      have hi' := Finset.mem_Ico.mp hi
      have hv := (hval i hi'.2).mpr hi'.1
      exact Finset.mem_erase.mpr ⟨fun e => hmiss i hi'.2 ⟨e, hv⟩, h.ids i hi'.2 hv⟩
    · intro i hi j hj e
      have hi' := Finset.mem_Ico.mp (Finset.mem_coe.mp hi)
      have hj' := Finset.mem_Ico.mp (Finset.mem_coe.mp hj)
      exact h.uniq i hi'.2 j hj'.2 ((hval i hi'.2).mpr hi'.1) ((hval j hj'.2).mpr hj'.1) e
  rw [Nat.card_Ico, Finset.card_erase_of_mem hcl] at hcard
  have hpos : 0 < W.card := Finset.card_pos.mpr ⟨cl, hcl⟩
  have hk0 : 1 ≤ k := by omega
  by_contra hne
  have := (hval 0 h.size_ge).mp hne
  omega

theorem cluster_id_ok_congr {fs fs' : fat_fs_t} (h : fs'.sb = fs.sb) (cl : Nat) :
    cluster_id_ok fs' cl ↔ cluster_id_ok fs cl := by
  unfold cluster_id_ok
  rw [h]

/-- The invariant survives a call that moves a cached record to the top and changes
neither ids nor which records have non-zero flags. -/
theorem ws_reorder {fs fs' : fat_fs_t} {W : Finset Nat} {pre : List cluster_op}
    (h : ws_inv fs W pre) {i : Nat} (hi : i < fs.cache_size)
    (hv : (fs.mem (fs.bcache i)).flags ≠ 0)
    (hcs : fs'.cache_size = fs.cache_size) (hb : fs'.bcache = make_mru fs fs.bcache i)
    (hm : ∀ j, j < fs.cache_size →
      ((fs'.mem (fs.bcache j)).flags ≠ 0 ↔ (fs.mem (fs.bcache j)).flags ≠ 0) ∧
      (fs'.mem (fs.bcache j)).block = (fs.mem (fs.bcache j)).block)
    (hsb : fs'.sb = fs.sb) (hdev : dev_ok fs') : ws_inv fs' W pre := by
  obtain ⟨k, hk, hval⟩ := h.upper
  have hki : k ≤ i := (hval i hi).mp hv
  have hu : slots_uniq fs'.mem fs.bcache fs.cache_size :=
    slots_uniq_step h.uniq (fun j hj hvj => Or.inl ⟨((hm j hj).1).mp hvj, (hm j hj).2⟩)
  obtain ⟨r1, r2, -⟩ := slots_reorder fs rfl (Nat.le_refl _) hi h.distinct hu
  have hsrc : ∀ j, j < fs.cache_size → mru_src fs.cache_size i j < fs.cache_size :=
    fun j hj => mru_src_lt (Nat.le_refl _) hi hj
  refine ⟨by rw [hcs]; exact h.size_ge, by rw [hcs, hb]; exact r1,
    by rw [hcs, hb]; exact r2, ⟨k, by rw [hcs]; exact hk, ?_⟩, ?_, ?_, hdev⟩
  · intro j hj
    rw [hcs] at hj
    rw [hb, make_mru_apply, (hm _ (hsrc j hj)).1, hval _ (hsrc j hj)]
    exact mru_src_upper hki
  · intro j hj hvj
    rw [hcs] at hj
    rw [hb, make_mru_apply] at hvj ⊢
    rw [(hm _ (hsrc j hj)).2]
    exact h.ids _ (hsrc j hj) (((hm _ (hsrc j hj)).1).mp hvj)
  · intro cl hcl hok
    obtain ⟨i0, hi0, hv0, hb0⟩ := h.cached cl hcl ((cluster_id_ok_congr hsb cl).mp hok)
    obtain ⟨j, hj, ej⟩ := @mru_src_surj fs.cache_size i fs.cache_size i0 (Nat.le_refl _) hi hi0
    refine ⟨j, by rw [hcs]; exact hj, ?_, ?_⟩
    · rw [hb, make_mru_apply, ej]
      exact ((hm i0 hi0).1).mpr hv0
    · rw [hb, make_mru_apply, ej, (hm i0 hi0).2]
      exact hb0

/-- The invariant survives a call that changes neither the slots, nor ids, nor which
records have non-zero flags. -/
theorem ws_same {fs fs' : fat_fs_t} {W : Finset Nat} {pre : List cluster_op}
    (h : ws_inv fs W pre)
    (hcs : fs'.cache_size = fs.cache_size) (hb : fs'.bcache = fs.bcache)
    (hm : ∀ j, j < fs.cache_size →
      ((fs'.mem (fs.bcache j)).flags ≠ 0 ↔ (fs.mem (fs.bcache j)).flags ≠ 0) ∧
      (fs'.mem (fs.bcache j)).block = (fs.mem (fs.bcache j)).block)
    (hsb : fs'.sb = fs.sb) (hdev : dev_ok fs') : ws_inv fs' W pre := by
  obtain ⟨k, hk, hval⟩ := h.upper
  have hu : slots_uniq fs'.mem fs.bcache fs.cache_size :=
    slots_uniq_step h.uniq (fun j hj hvj => Or.inl ⟨((hm j hj).1).mp hvj, (hm j hj).2⟩)
  refine ⟨by rw [hcs]; exact h.size_ge, by rw [hcs, hb]; exact h.distinct,
    by rw [hcs, hb]; exact hu, ⟨k, by rw [hcs]; exact hk, ?_⟩, ?_, ?_, hdev⟩
  · intro j hj
    rw [hcs] at hj
    rw [hb, (hm j hj).1]
    exact hval j hj
  · intro j hj hvj
    rw [hcs] at hj
    rw [hb] at hvj ⊢
    rw [(hm j hj).2]
    exact h.ids j hj (((hm j hj).1).mp hvj)
  · intro cl hcl hok
    obtain ⟨i0, hi0, hv0, hb0⟩ := h.cached cl hcl ((cluster_id_ok_congr hsb cl).mp hok)
    refine ⟨i0, by rw [hcs]; exact hi0, ?_, ?_⟩
    · rw [hb]
      exact ((hm i0 hi0).1).mpr hv0
    · rw [hb, (hm i0 hi0).2]
      exact hb0

/-- The invariant after one more call whose id, if the call is a read of an accepted
id, is cached. -/
theorem ws_extend {fs : fat_fs_t} {W : Finset Nat} {pre : List cluster_op}
    (h : ws_inv fs W pre) (op : cluster_op)
    (hop : ∀ cl, op = cluster_op.read cl → cluster_id_ok fs cl →
      ∃ i, i < fs.cache_size ∧ (fs.mem (fs.bcache i)).flags ≠ 0 ∧
        (fs.mem (fs.bcache i)).block = cl) :
    ws_inv fs W (pre ++ [op]) := by
  refine ⟨h.size_ge, h.distinct, h.uniq, h.upper, h.ids, ?_, h.dev⟩
  intro cl hcl hok
  rcases List.mem_append.mp hcl with h1 | h1
  · exact h.cached cl h1 hok
  · exact hop cl (List.mem_singleton.mp h1).symm hok

/-- The invariant survives the filling of the free slot 0 with an id of the working
set that was not cached. -/
theorem ws_fill {fs fs' : fat_fs_t} {W : Finset Nat} {pre : List cluster_op}
    (h : ws_inv fs W pre) {cl : Nat} (hcl : cl ∈ W)
    (hfree : (fs.mem (fs.bcache 0)).flags = 0)
    (hmiss : ∀ i, i < fs.cache_size →
      ¬ ((fs.mem (fs.bcache i)).block = cl ∧ (fs.mem (fs.bcache i)).flags ≠ 0))
    (hcs : fs'.cache_size = fs.cache_size) (hb : fs'.bcache = make_mru fs fs.bcache 0)
    (hq : (fs'.mem (fs.bcache 0)).flags ≠ 0 ∧ (fs'.mem (fs.bcache 0)).block = cl)
    (hother : ∀ p, p ≠ fs.bcache 0 → fs'.mem p = fs.mem p)
    (hsb : fs'.sb = fs.sb) (hdev : dev_ok fs') :
    ws_inv fs' W (pre ++ [cluster_op.read cl]) := by
  obtain ⟨k, hk, hval⟩ := h.upper
  have hc0 : 0 < fs.cache_size := h.size_ge
  have hk1 : 1 ≤ k := by
    by_contra hne
    exact ((hval 0 hc0).mpr (by omega)) hfree
  have hne0 : ∀ j, j < fs.cache_size → j ≠ 0 → fs.bcache j ≠ fs.bcache 0 :=
    fun j hj hj0 e => hj0 (h.distinct j hj 0 hc0 e)
  have hu : slots_uniq fs'.mem fs.bcache fs.cache_size := by
    apply slots_uniq_step h.uniq
    intro j hj hvj
    by_cases hj0 : j = 0
    · subst hj0
      right
      refine ⟨rfl, ?_⟩
      rw [hq.2]
      exact hmiss
    · left
      rw [hother _ (hne0 j hj hj0)] at hvj ⊢
      exact ⟨hvj, rfl⟩
  obtain ⟨r1, r2, -⟩ := slots_reorder fs rfl (Nat.le_refl _) hc0 h.distinct hu
  have hsrc : ∀ j, j < fs.cache_size → mru_src fs.cache_size 0 j < fs.cache_size :=
    fun j hj => mru_src_lt (Nat.le_refl _) hc0 hj
  have hvalid : ∀ s, s < fs.cache_size →
      ((fs'.mem (fs.bcache s)).flags ≠ 0 ↔ (s = 0 ∨ k ≤ s)) := by
    intro s hs
    by_cases hs0 : s = 0
    · subst hs0
      exact ⟨fun _ => Or.inl rfl, fun _ => hq.1⟩
    · rw [hother _ (hne0 s hs hs0), hval s hs]
      exact ⟨fun x => Or.inr x, fun x => x.resolve_left hs0⟩
  refine ⟨by rw [hcs]; exact h.size_ge, by rw [hcs, hb]; exact r1,
    by rw [hcs, hb]; exact r2, ⟨k - 1, by rw [hcs]; omega, ?_⟩, ?_, ?_, hdev⟩
  · intro j hj
    rw [hcs] at hj
    rw [hb, make_mru_apply, hvalid _ (hsrc j hj)]
    unfold mru_src
    split_ifs
    all_goals first
      | omega
      | (simp only [false_or, true_or, true_iff]; omega)
  · intro j hj hvj
    rw [hcs] at hj
    rw [hb, make_mru_apply] at hvj ⊢
    by_cases hs0 : mru_src fs.cache_size 0 j = 0
    · rw [hs0, hq.2]
      exact hcl
    · rw [hother _ (hne0 _ (hsrc j hj) hs0)] at hvj ⊢
      exact h.ids _ (hsrc j hj) hvj
  · intro cl' hcl' hok
    rcases List.mem_append.mp hcl' with h1 | h1
    · obtain ⟨i0, hi0, hv0, hb0⟩ := h.cached cl' h1 ((cluster_id_ok_congr hsb cl').mp hok)
      have hi00 : i0 ≠ 0 := by
        intro e
        rw [e] at hv0
        exact hv0 hfree
      obtain ⟨j, hj, ej⟩ := @mru_src_surj fs.cache_size 0 fs.cache_size i0 (Nat.le_refl _)
        hc0 hi0
      refine ⟨j, by rw [hcs]; exact hj, ?_, ?_⟩
      · rw [hb, make_mru_apply, ej, hother _ (hne0 i0 hi0 hi00)]
        exact hv0
      · rw [hb, make_mru_apply, ej, hother _ (hne0 i0 hi0 hi00)]
        exact hb0
    · have e : cl' = cl := by
        have := List.mem_singleton.mp h1
        cases this
        rfl
      subst e
      refine ⟨fs.cache_size - 1, by rw [hcs]; omega, ?_, ?_⟩
      · rw [hb, make_mru_apply, mru_src_top hc0]
        exact hq.1
      · rw [hb, make_mru_apply, mru_src_top hc0]
        exact hq.2

theorem dev_ok_read_nc {fs : fat_fs_t} (hd : dev_ok fs) (cl : Nat) (rv : Nat → Nat)
    (hok : cluster_id_ok fs cl) : (fat_cluster_read_nc fs cl rv).1 = 0 := by
  rcases fat_cluster_read_nc_cases fs cl rv with ⟨hn, -⟩ | ⟨-, -, -, -, e⟩
  · exact absurd hok hn
  · rw [e]
    unfold read_blocks
    rw [if_pos (hd _ _).1]

/-- One call within the working set: the invariant is kept, the call issues at most one
device request and no write, and it issues a request only if it is a read of an id that
no earlier call has read. -/
theorem ws_step {fs : fat_fs_t} {W : Finset Nat} {pre : List cluster_op}
    (h : ws_inv fs W pre) (hW : W.card ≤ fs.cache_size) (op : cluster_op)
    (hop : op.id ∈ W) :
    ws_inv (run_cluster_op fs op).1 W (pre ++ [op]) ∧
    (run_cluster_op fs op).1.cache_size = fs.cache_size ∧
    (∀ r, r ∈ (run_cluster_op fs op).2 → ∀ b c, r ≠ dev_req.write b c) ∧
    (run_cluster_op fs op).2.length ≤ 1 ∧
    ((run_cluster_op fs op).2 ≠ [] →
      ∃ cl, op = cluster_op.read cl ∧ cluster_op.read cl ∉ pre ∧
        (run_cluster_op fs op).2 =
          [dev_req.read (cluster_extent fs cl).1 (cluster_extent fs cl).2]) := by
  cases op with
  | mark_dirty cl =>
    have hnil : (run_cluster_op fs (cluster_op.mark_dirty cl)).2 = [] := rfl
    rw [hnil]
    refine ⟨?_, ?_, fun r hr => absurd hr (List.not_mem_nil r), Nat.zero_le _,
      fun hne => absurd rfl hne⟩
    · apply ws_extend _ _ (fun cl' e => cluster_op.noConfusion e)
      show ws_inv (fat_cluster_mark_dirty fs cl).2 W pre
      cases hs : bcache_scan fs cl fs.cache_size with
      | some i =>
        obtain ⟨hi, -, hv⟩ := bcache_scan_some hs
        simp only [fat_cluster_mark_dirty, hs]
        refine ws_reorder h hi hv ?_ ?_ ?_ ?_ ?_
        · rfl
        · rfl
        · intro j _
          by_cases hj : fs.bcache j = fs.bcache i
          · rw [hj]
            simp only [mem_set_same]
            exact ⟨⟨fun _ => hv, fun _ => or_dirty_ne_zero _⟩, trivial⟩
          · constructor <;> simp only [mem_set_other _ _ _ hj]
        · rfl
        · exact h.dev
      | none =>
        simp only [fat_cluster_mark_dirty, hs]
        exact h
    · show (fat_cluster_mark_dirty fs cl).2.cache_size = fs.cache_size
      unfold fat_cluster_mark_dirty
      cases bcache_scan fs cl fs.cache_size <;> rfl
  | read cl =>
    have hcl : cl ∈ W := hop
    show ws_inv (fat_cluster_read fs cl 0).2.2.1 W (pre ++ [cluster_op.read cl]) ∧
      (fat_cluster_read fs cl 0).2.2.1.cache_size = fs.cache_size ∧
      (∀ r, r ∈ (fat_cluster_read fs cl 0).2.2.2 → ∀ b c, r ≠ dev_req.write b c) ∧
      (fat_cluster_read fs cl 0).2.2.2.length ≤ 1 ∧
      ((fat_cluster_read fs cl 0).2.2.2 ≠ [] →
        ∃ cl', cluster_op.read cl = cluster_op.read cl' ∧ cluster_op.read cl' ∉ pre ∧
          (fat_cluster_read fs cl 0).2.2.2 =
            [dev_req.read (cluster_extent fs cl').1 (cluster_extent fs cl').2])
    cases hs : bcache_scan fs cl fs.cache_size with
    | some i =>
      obtain ⟨hi, hbi, hv⟩ := bcache_scan_some hs
      simp only [fat_cluster_read, hs]
      refine ⟨?_, trivial, fun r hr => absurd hr (List.not_mem_nil r), Nat.zero_le _,
        fun hne => absurd rfl hne⟩
      have h' : ws_inv { fs with bcache := make_mru fs fs.bcache i } W pre :=
        ws_reorder h hi hv rfl rfl (fun j _ => ⟨Iff.rfl, rfl⟩) rfl h.dev
      apply ws_extend h'
      intro cl' e _
      cases e
      obtain ⟨j, hj, ej⟩ := @mru_src_surj fs.cache_size i fs.cache_size i (Nat.le_refl _) hi hi
      refine ⟨j, hj, ?_, ?_⟩
      · show (fs.mem (make_mru fs fs.bcache i j)).flags ≠ 0
        rw [make_mru_apply, ej]
        exact hv
      · show (fs.mem (make_mru fs fs.bcache i j)).block = cl
        rw [make_mru_apply, ej]
        exact hbi
    | none =>
      have hmiss := bcache_scan_none hs
      have hfree := ws_slot0_free h hW hcl hmiss
      have hev : bcache_evict fs = (0, fs, []) := by
        unfold bcache_evict
        rw [hfree, if_neg (by decide)]
      have hfill_frame : (bcache_fill fs cl 0).2.2.1.cache_size = fs.cache_size ∧
          (bcache_fill fs cl 0).2.2.1.sb = fs.sb ∧ (bcache_fill fs cl 0).2.2.1.dev = fs.dev := by
        unfold bcache_fill
        split_ifs <;> exact ⟨rfl, rfl, rfl⟩
      have hdev' : dev_ok (bcache_fill fs cl 0).2.2.1 := by
        unfold dev_ok
        rw [hfill_frame.2.2]
        exact h.dev
      simp only [fat_cluster_read, hs, hev]
      rw [if_neg (by decide)]
      simp only [List.nil_append]
      by_cases hok : cluster_id_ok fs cl
      · -- the id is accepted: the device is read once and the record is cached
        have hnew : cluster_op.read cl ∉ pre := by
          intro hin
          obtain ⟨i0, hi0, hv0, hb0⟩ := h.cached cl hin hok
          exact hmiss i0 hi0 ⟨hb0, hv0⟩
        have hrd := dev_ok_read_nc h.dev cl (fs.mem (fs.bcache 0)).data hok
        have hreq : (fat_cluster_read_nc fs cl (fs.mem (fs.bcache 0)).data).2.2 =
            [dev_req.read (cluster_extent fs cl).1 (cluster_extent fs cl).2] := by
          rcases fat_cluster_read_nc_cases fs cl (fs.mem (fs.bcache 0)).data with
            ⟨hn, -⟩ | ⟨-, -, e, -⟩
          · exact absurd hok hn
          · exact e
        have hfill : bcache_fill fs cl 0 =
            (some (fs.bcache 0), 0,
              { fs with
                mem := mem_set fs.mem (fs.bcache 0)
                  { flags := FAT_CACHE_FLAG_VALID, block := cl,
                    data := (fat_cluster_read_nc fs cl (fs.mem (fs.bcache 0)).data).2.1 }
                bcache := make_mru fs fs.bcache 0 },
              (fat_cluster_read_nc fs cl (fs.mem (fs.bcache 0)).data).2.2) := by
          unfold bcache_fill
          rw [if_neg (not_not.mpr hrd)]
        rw [hfill] at hdev' ⊢
        simp only at hdev' ⊢
        rw [hreq]
        refine ⟨?_, trivial, ?_, Nat.le_refl _, fun _ => ⟨cl, rfl, hnew, rfl⟩⟩
        · refine ws_fill h hcl hfree hmiss ?_ ?_ ?_ ?_ ?_ hdev'
          · rfl
          · rfl
          · simp only [mem_set_same]
            exact ⟨by decide, trivial⟩
          · intro p hp
            simp only [mem_set_other _ _ _ hp]
          · rfl
        · intro r hr b c
          rw [List.mem_singleton.mp hr]
          exact fun e => dev_req.noConfusion e
      · -- the id is refused: no device request, and the cache is as before
        have hrd : (fat_cluster_read_nc fs cl (fs.mem (fs.bcache 0)).data).1 ≠ 0 ∧
            (fat_cluster_read_nc fs cl (fs.mem (fs.bcache 0)).data).2.2 = [] := by
          rcases fat_cluster_read_nc_cases fs cl (fs.mem (fs.bcache 0)).data with
            ⟨-, e1, -, e2⟩ | ⟨hy, -⟩
          · rw [e1]
            exact ⟨by simp [EINVAL], e2⟩
          · exact absurd hy hok
        have hfill : bcache_fill fs cl 0 =
            (none, EIO,
              { fs with
                mem := mem_set fs.mem (fs.bcache 0)
                  { flags := 0, block := (fs.mem (fs.bcache 0)).block,
                    data := (fat_cluster_read_nc fs cl (fs.mem (fs.bcache 0)).data).2.1 } },
              (fat_cluster_read_nc fs cl (fs.mem (fs.bcache 0)).data).2.2) := by
          unfold bcache_fill
          rw [if_pos hrd.1]
        rw [hfill] at hdev' ⊢
        simp only at hdev' ⊢
        rw [hrd.2]
        refine ⟨?_, trivial, fun r hr => absurd hr (List.not_mem_nil r), Nat.zero_le _,
          fun hne => absurd rfl hne⟩
        apply ws_extend _ _ (fun cl' e hok' => by cases e; exact absurd hok' hok)
        refine ws_same h ?_ ?_ ?_ ?_ hdev'
        · rfl
        · rfl
        · intro j _
          by_cases hj : fs.bcache j = fs.bcache 0
          · rw [hj]
            simp only [mem_set_same]
            rw [hfree]
            exact ⟨Iff.rfl, trivial⟩
          · constructor <;> simp only [mem_set_other _ _ _ hj]
        · rfl

/-- The invariant along a sequence of calls within the working set. -/
theorem ws_run {W : Finset Nat} (ops : List cluster_op) :
    ∀ {fs : fat_fs_t} {pre : List cluster_op}, ws_inv fs W pre → W.card ≤ fs.cache_size →
      (∀ op, op ∈ ops → op.id ∈ W) →
      ws_inv (run_cluster_ops fs ops).1 W (pre ++ ops) ∧
      (run_cluster_ops fs ops).1.cache_size = fs.cache_size ∧
      (run_cluster_ops fs ops).1.sb = fs.sb := by
  induction ops with
  | nil =>
    intro fs pre h _ _
    rw [List.append_nil]
    exact ⟨h, rfl, rfl⟩
  | cons x xs ih =>
    intro fs pre h hW hops
    obtain ⟨s1, s2, -⟩ := ws_step h hW x (hops x (List.mem_cons_self _ _))
    have hsb : (run_cluster_op fs x).1.sb = fs.sb := by
      cases x with
      | read cl =>
        show (fat_cluster_read fs cl 0).2.2.1.sb = fs.sb
        obtain ⟨-, -, -, e, -⟩ := bcache_evict_frame fs
        unfold fat_cluster_read bcache_fill
        cases bcache_scan fs cl fs.cache_size with
        | some i => rfl
        | none =>
          simp only
          split_ifs <;> exact e
      | mark_dirty cl =>
        show (fat_cluster_mark_dirty fs cl).2.sb = fs.sb
        unfold fat_cluster_mark_dirty
        cases bcache_scan fs cl fs.cache_size <;> rfl
    obtain ⟨i1, i2, i3⟩ := @ih (run_cluster_op fs x).1 (pre ++ [x]) s1 (by rw [s2]; exact hW)
      (fun op hop => hops op (List.mem_cons_of_mem _ hop))
    rw [List.append_assoc] at i1
    exact ⟨i1, i2.trans s2, i3.trans hsb⟩

/-- A freshly mounted volume satisfies the working-set invariant. -/
theorem fat_fs_init_ex_ws {bd : kos_blockdev_t} {flags cache_sz fcache_sz : Nat}
    {fs : fat_fs_t} (hm : fat_fs_init_ex bd flags cache_sz fcache_sz = some fs)
    (h1 : 1 ≤ cache_sz) (hdev : ∀ b c, bd.read_rc b c = 0 ∧ bd.write_rc b c = 0)
    (W : Finset Nat) :
    ws_inv fs W [] ∧ fs.cache_size = cache_sz := by
  unfold fat_fs_init_ex at hm
  split_ifs at hm
  all_goals
    cases hm
    exact ⟨⟨h1, fun i _ j _ e => e, fun i _ j _ hv => absurd rfl hv,
      ⟨cache_sz, Nat.le_refl _, fun i hi => ⟨fun hv => absurd rfl hv,
        fun hle => absurd hi (Nat.not_lt.mpr hle)⟩⟩,
      fun i _ hv => absurd rfl hv, fun cl hcl => absurd hcl (List.not_mem_nil _), hdev⟩, rfl⟩

/-! ## C18: a working set that fits the cache -/

/-- C18: on a volume freshly mounted by `fat_fs_init_ex` with a cluster cache of
`cache_sz ≥ 1` slots, on a device none of whose requests fails, take any sequence `ops`
of calls of `fat_cluster_read` and `fat_cluster_mark_dirty` whose record ids all lie in
a set `W` of at most `cache_sz` ids.  Then every call of the sequence, made in the
state that the calls before it leave, issues no write request (nothing is written back
by eviction) and at most one request; and if it issues one, the call is a
`fat_cluster_read` of an id that no earlier call of the sequence has read, and the
request is the read of the extent of that id.  So each id is read from the device at
most once, by the first `fat_cluster_read` of it. -/
theorem working_set_never_evicts (bd : kos_blockdev_t) (flags cache_sz fcache_sz : Nat)
    (fs : fat_fs_t) (W : Finset Nat) (ops : List cluster_op)
    (hm : fat_fs_init_ex bd flags cache_sz fcache_sz = some fs) (h1 : 1 ≤ cache_sz)
    (hdev : ∀ b c, bd.read_rc b c = 0 ∧ bd.write_rc b c = 0)
    (hW : W.card ≤ cache_sz) (hops : ∀ op, op ∈ ops → op.id ∈ W) :
    ∀ (pre : List cluster_op) (op : cluster_op) (post : List cluster_op),
      ops = pre ++ op :: post →
      (∀ r, r ∈ (run_cluster_op (run_cluster_ops fs pre).1 op).2 →
        ∀ b c, r ≠ dev_req.write b c) ∧
      (run_cluster_op (run_cluster_ops fs pre).1 op).2.length ≤ 1 ∧
      ((run_cluster_op (run_cluster_ops fs pre).1 op).2 ≠ [] →
        ∃ cl, op = cluster_op.read cl ∧ cluster_op.read cl ∉ pre ∧
          (run_cluster_op (run_cluster_ops fs pre).1 op).2 =
            [dev_req.read (cluster_extent fs cl).1 (cluster_extent fs cl).2]) := by
  intro pre op post hsplit
  obtain ⟨h0, hcs⟩ := fat_fs_init_ex_ws hm h1 hdev W
  have hpre : ∀ o, o ∈ pre → o.id ∈ W := by
    intro o ho
    apply hops
    rw [hsplit]
    exact List.mem_append_left _ ho
  have hop : op.id ∈ W := by
    apply hops
    rw [hsplit]
    exact List.mem_append_right _ (List.mem_cons_self _ _)
  obtain ⟨i1, i2, i3⟩ := ws_run pre h0 (by rw [hcs]; exact hW) hpre
  rw [List.nil_append] at i1
  obtain ⟨-, -, t1, t2, t3⟩ := ws_step i1 (by rw [i2, hcs]; exact hW) op hop
  refine ⟨t1, t2, fun hne => ?_⟩
  obtain ⟨cl, e1, e2, e3⟩ := t3 hne
  rw [cluster_extent_congr i3] at e3
  exact ⟨cl, e1, e2, e3⟩

theorem vol12_sized_some {cache_sz fcache_sz : Nat}
    (h : (fat_fs_init_ex dev12 FAT_MNT_FLAG_RW cache_sz fcache_sz).isSome = true) :
    fat_fs_init_ex dev12 FAT_MNT_FLAG_RW cache_sz fcache_sz =
      some (vol12_sized cache_sz fcache_sz) := by
  unfold vol12_sized
  cases hx : fat_fs_init_ex dev12 FAT_MNT_FLAG_RW cache_sz fcache_sz with
  | none => rw [hx] at h; cases h
  | some x => rfl

theorem working_set_never_evicts_witness :
    (∀ r, r ∈ (run_cluster_op
        (run_cluster_ops (vol12_sized 2 2)
          [cluster_op.read 5, cluster_op.mark_dirty 5, cluster_op.read 6]).1
        (cluster_op.read 5)).2 → ∀ b c, r ≠ dev_req.write b c) ∧
    (run_cluster_op
      (run_cluster_ops (vol12_sized 2 2)
        [cluster_op.read 5, cluster_op.mark_dirty 5, cluster_op.read 6]).1
      (cluster_op.read 5)).2.length ≤ 1 ∧
    ((run_cluster_op
        (run_cluster_ops (vol12_sized 2 2)
          [cluster_op.read 5, cluster_op.mark_dirty 5, cluster_op.read 6]).1
        (cluster_op.read 5)).2 ≠ [] →
      ∃ cl, cluster_op.read 5 = cluster_op.read cl ∧
        cluster_op.read cl ∉ [cluster_op.read 5, cluster_op.mark_dirty 5, cluster_op.read 6] ∧
        (run_cluster_op
          (run_cluster_ops (vol12_sized 2 2)
            [cluster_op.read 5, cluster_op.mark_dirty 5, cluster_op.read 6]).1
          (cluster_op.read 5)).2 =
          [dev_req.read (cluster_extent (vol12_sized 2 2) cl).1
            (cluster_extent (vol12_sized 2 2) cl).2]) :=
  working_set_never_evicts dev12 FAT_MNT_FLAG_RW 2 2 (vol12_sized 2 2) {5, 6}
    [cluster_op.read 5, cluster_op.mark_dirty 5, cluster_op.read 6, cluster_op.read 5,
      cluster_op.read 6]
    (vol12_sized_some (by decide)) (by decide) (fun _ _ => ⟨rfl, rfl⟩) (by decide) (by decide)
    [cluster_op.read 5, cluster_op.mark_dirty 5, cluster_op.read 6] (cluster_op.read 5)
    [cluster_op.read 6] rfl

/-! ## `ucs.c` -/

theorem lead3_bits : ∀ a, a < 16 →
    ¬ (0xE0 ||| a) % 256 ≤ 0x7F ∧ ¬ (0xE0 ||| a) % 256 &&& 0xE0 = 0xC0 ∧
      (0xE0 ||| a) % 256 &&& 0xF0 = 0xE0 := by decide

theorem cont_bits : ∀ b, b < 64 → ¬ (0x80 ||| b) % 256 &&& 0xC0 ≠ 0x80 := by decide

theorem and_15_lt (x : Nat) : x &&& 0x0F < 16 :=
  Nat.lt_of_le_of_lt Nat.and_le_right (by decide)

theorem and_63_lt (x : Nat) : x &&& 0x3F < 64 :=
  Nat.lt_of_le_of_lt Nat.and_le_right (by decide)

/-- C21: the round trip through `fat_ucs2_to_utf8` and `fat_utf8_to_ucs2` loses every
code unit above 0x7FF.  For such a unit `u` the encoder succeeds on the one-unit sequence
and writes three bytes and the terminator, and the decoder succeeds on these three bytes,
but its three-byte branch does not advance `j`, so the terminator is stored over the
decoded unit: `out[0]` is 0 and `out[1]` is never written. -/
theorem fat_utf8_to_ucs2_drops_three_byte_unit (u olen : Nat) (o8 o16 : Nat → Nat)
    (hu : 0x0800 ≤ u) (hu2 : u ≤ 0xFFFF) (ho : 2 ≤ olen) (ho2 : olen < 2 ^ 32) :
    (fat_ucs2_to_utf8 o8 (arr_of [u]) 4 1).1 = 0 ∧
    (fat_ucs2_to_utf8 o8 (arr_of [u]) 4 1).2 3 = 0 ∧
    ∃ o, fat_utf8_to_ucs2 o16 (fat_ucs2_to_utf8 o8 (arr_of [u]) 4 1).2 olen 3 = some (0, o) ∧
      o 0 = 0 ∧ o 0 ≠ u ∧ o 1 = o16 1 := by
  have e0 : ld16 (arr_of [u]) 0 = u := by
    simp only [ld16, arr_of, List.getD_cons_zero]; omega
  have h1 : ¬ u ≤ 0x7F := by omega
  have h2 : ¬ u ≤ 0x7FF := by omega
  have enc : fat_ucs2_to_utf8 o8 (arr_of [u]) 4 1 =
      ((0 : Int), st8 (st8 (st8 (st8 o8 0 (0xE0 ||| ((u >>> 12) &&& 0x0F))) 1
        (0x80 ||| ((u >>> 6) &&& 0x3F))) 2 (0x80 ||| (u &&& 0x3F))) 3 0) := by
    simp only [fat_ucs2_to_utf8, fat_ucs2_to_utf8_loop, e0, if_neg h1, if_neg h2]
    rfl
  rw [enc]
  have b0 : ld8 (st8 (st8 (st8 (st8 o8 0 (0xE0 ||| ((u >>> 12) &&& 0x0F))) 1
        (0x80 ||| ((u >>> 6) &&& 0x3F))) 2 (0x80 ||| (u &&& 0x3F))) 3 0) 0 =
      (0xE0 ||| ((u >>> 12) &&& 0x0F)) % 256 := by simp [ld8, st8]
  have b1 : ld8 (st8 (st8 (st8 (st8 o8 0 (0xE0 ||| ((u >>> 12) &&& 0x0F))) 1
        (0x80 ||| ((u >>> 6) &&& 0x3F))) 2 (0x80 ||| (u &&& 0x3F))) 3 0) (0 + 1) =
      (0x80 ||| ((u >>> 6) &&& 0x3F)) % 256 := by simp [ld8, st8]
  have b2 : ld8 (st8 (st8 (st8 (st8 o8 0 (0xE0 ||| ((u >>> 12) &&& 0x0F))) 1
        (0x80 ||| ((u >>> 6) &&& 0x3F))) 2 (0x80 ||| (u &&& 0x3F))) 3 0) (0 + 2) =
      (0x80 ||| (u &&& 0x3F)) % 256 := by simp [ld8, st8]
  have c1 : (0 : Nat) < 3 ∧ 0 < u32 (olen + (2 ^ 32 - 1)) := by
    refine ⟨by decide, ?_⟩
    simp only [u32]; omega
  have c2 : ¬ ((0 : Nat) + 3 < 3 ∧ 0 < u32 (olen + (2 ^ 32 - 1))) := by
    intro h; exact absurd h.1 (by decide)
  have l := lead3_bits _ (and_15_lt (u >>> 12))
  have m1 := cont_bits _ (and_63_lt (u >>> 6))
  have m2 := cont_bits _ (and_63_lt u)
  refine ⟨rfl, by simp [st8],
    st16 (st16 o16 0 ((((0xE0 ||| ((u >>> 12) &&& 0x0F)) % 256 &&& 0x0F) <<< 12) |||
      (((0x80 ||| ((u >>> 6) &&& 0x3F)) % 256 &&& 0x3F) <<< 6) |||
      ((0x80 ||| (u &&& 0x3F)) % 256 &&& 0x3F))) 0 0, ?_, ?_, ?_, ?_⟩
  · simp only [fat_utf8_to_ucs2, fat_utf8_to_ucs2_loop, if_pos c1, b0, b1, b2, if_neg l.1,
      if_neg l.2.1, if_pos l.2.2, if_neg m1, if_neg m2, if_neg c2]
    simp
  · simp [st16]
  · simp only [st16, if_true, Nat.zero_mod]; omega
  · simp [st16]

theorem fat_utf8_to_ucs2_drops_three_byte_unit_witness :
    (fat_ucs2_to_utf8 (fun _ => 0xFF) (arr_of [0x20AC]) 4 1).1 = 0 ∧
    (fat_ucs2_to_utf8 (fun _ => 0xFF) (arr_of [0x20AC]) 4 1).2 3 = 0 ∧
    ∃ o, fat_utf8_to_ucs2 (fun _ => 0xFFFF)
        (fat_ucs2_to_utf8 (fun _ => 0xFF) (arr_of [0x20AC]) 4 1).2 2 3 = some (0, o) ∧
      o 0 = 0 ∧ o 0 ≠ 0x20AC ∧ o 1 = (fun _ => 0xFFFF) 1 :=
  fat_utf8_to_ucs2_drops_three_byte_unit 0x20AC 2 (fun _ => 0xFF) (fun _ => 0xFFFF)
    (by decide) (by decide) (by decide) (by decide)

theorem fat_utf8_to_ucs2_loop_returns : ∀ (fuel : Nat) (out inp : Nat → Nat)
    (olen ilen i j : Nat), i ≤ ilen → ilen < i + fuel →
    ∃ r, fat_utf8_to_ucs2_loop fuel out inp olen ilen i j = some r ∧ (r.1 = 0 ∨ r.1 = -1) := by
  intro fuel
  induction fuel with
  | zero => intro out inp olen ilen i j h0 h; omega
  | succ n ih =>
    intro out inp olen ilen i j h0 h
    simp only [fat_utf8_to_ucs2_loop]
    by_cases c : i < ilen ∧ j < u32 (olen + (2 ^ 32 - 1))
    · rw [if_pos c]
      split_ifs
      all_goals first
        | exact ⟨_, rfl, Or.inr rfl⟩
        | exact ih _ _ _ _ _ _ (by omega) (by omega)
    · rw [if_neg c]
      exact ⟨_, rfl, Or.inl rfl⟩

theorem fat_utf8_to_ucs2_loop_frame : ∀ (fuel : Nat) (out inp : Nat → Nat)
    (olen ilen i j : Nat) (r : Int × (Nat → Nat)), 1 ≤ olen → olen < 2 ^ 32 → j < olen →
    fat_utf8_to_ucs2_loop fuel out inp olen ilen i j = some r →
    ∀ k, olen ≤ k → r.2 k = out k := by
  intro fuel
  induction fuel with
  | zero => intro out inp olen ilen i j r _ _ _ h; simp [fat_utf8_to_ucs2_loop] at h
  | succ n ih =>
    intro out inp olen ilen i j r h1 h2 hj h k hk
    have e : u32 (olen + (2 ^ 32 - 1)) = olen - 1 := by simp only [u32]; omega
    have st : ∀ v, st16 out j v k = out k := by
      intro v; simp only [st16]; rw [if_neg (by omega)]
    simp only [fat_utf8_to_ucs2_loop, e] at h
    by_cases c : i < ilen ∧ j < olen - 1
    · rw [if_pos c] at h
      split_ifs at h
      all_goals first
        | (cases h; rfl)
        | (cases h; exact st _)
        | exact (ih _ _ _ _ _ _ _ h1 h2 (by omega) h k hk).trans (st _)
    · rw [if_neg c] at h
      cases h; exact st _

theorem fat_utf8_to_ucs2_loop_reads : ∀ (fuel : Nat) (out inp inp2 : Nat → Nat)
    (olen ilen i j : Nat), (∀ k, k < ilen → inp2 k = inp k) →
    fat_utf8_to_ucs2_loop fuel out inp2 olen ilen i j =
      fat_utf8_to_ucs2_loop fuel out inp olen ilen i j := by
  intro fuel
  induction fuel with
  | zero => intro out inp inp2 olen ilen i j _; rfl
  | succ n ih =>
    intro out inp inp2 olen ilen i j h
    simp only [fat_utf8_to_ucs2_loop]
    by_cases c : i < ilen ∧ j < u32 (olen + (2 ^ 32 - 1))
    · rw [if_pos c, if_pos c]
      have e0 : ld8 inp2 i = ld8 inp i := by simp only [ld8, h i c.1]
      rw [e0]
      by_cases a1 : ld8 inp i ≤ 0x7F
      · rw [if_pos a1, if_pos a1]; exact ih _ _ _ _ _ _ _ h
      · rw [if_neg a1, if_neg a1]
        by_cases a2 : ld8 inp i &&& 0xE0 = 0xC0
        · rw [if_pos a2, if_pos a2]
          by_cases a3 : ilen < i + 2
          · rw [if_pos a3, if_pos a3]
          · rw [if_neg a3, if_neg a3]
            have e1 : ld8 inp2 (i + 1) = ld8 inp (i + 1) := by
              simp only [ld8, h (i + 1) (by omega)]
            rw [e1, ih _ _ _ _ _ _ _ h]
        · rw [if_neg a2, if_neg a2]
          by_cases a4 : ld8 inp i &&& 0xF0 = 0xE0
          · rw [if_pos a4, if_pos a4]
            by_cases a5 : ilen < i + 3
            · rw [if_pos a5, if_pos a5]
            · rw [if_neg a5, if_neg a5]
              have e1 : ld8 inp2 (i + 1) = ld8 inp (i + 1) := by
                simp only [ld8, h (i + 1) (by omega)]
              have e2 : ld8 inp2 (i + 2) = ld8 inp (i + 2) := by
                simp only [ld8, h (i + 2) (by omega)]
              rw [e1, e2, ih _ _ _ _ _ _ _ h]
          · rw [if_neg a4, if_neg a4]
    · rw [if_neg c, if_neg c]

/-- For a buffer of at least one code unit `fat_utf8_to_ucs2` returns 0 or -1, leaves
`out[k]` alone for every `k ≥ olen`, and its result does not depend on `in[k]` for
`k ≥ ilen`. -/
theorem fat_utf8_to_ucs2_within_bounds (out inp : Nat → Nat) (olen ilen : Nat)
    (h1 : 1 ≤ olen) (h2 : olen < 2 ^ 32) :
    ∃ r, fat_utf8_to_ucs2 out inp olen ilen = some r ∧ (r.1 = 0 ∨ r.1 = -1) ∧
      (∀ k, olen ≤ k → r.2 k = out k) ∧
      ∀ inp2 : Nat → Nat, (∀ k, k < ilen → inp2 k = inp k) →
        fat_utf8_to_ucs2 out inp2 olen ilen = some r := by
  obtain ⟨r, hr, hrc⟩ := fat_utf8_to_ucs2_loop_returns (ilen + 1) out inp olen ilen 0 0 (by omega) (by omega)
  refine ⟨r, hr, hrc, fat_utf8_to_ucs2_loop_frame _ _ _ _ _ _ _ r h1 h2 (by omega) hr, ?_⟩
  intro inp2 h
  exact (fat_utf8_to_ucs2_loop_reads _ _ _ _ _ _ _ _ h).trans hr

/-- With `olen = 0`, a size that no caller passes, the bound `olen - 1` of the loop of
`fat_utf8_to_ucs2` wraps around to `2^32 - 1`: on the two bytes "AB" and a buffer of zero
code units the function returns 0 after storing three code units, `out[0]`, `out[1]` and
the terminator `out[2]`. -/
theorem fat_utf8_to_ucs2_olen_zero_writes :
    ∃ o, fat_utf8_to_ucs2 (fun _ => 0xFFFF) (arr_of [0x41, 0x42]) 0 2 = some (0, o) ∧
      o 0 = 0x41 ∧ o 1 = 0x42 ∧ o 2 = 0 ∧ (fun _ => 0xFFFF : Nat → Nat) 2 ≠ o 2 :=
  ⟨_, rfl, by decide, by decide, by decide, by decide⟩

/-- Sample calls of `fat_utf8_to_ucs2` with a buffer of 256 code units: "Aé" (bytes 41 C3
A9) gives 0 and the code units 0x41, 0xE9, 0; a three-byte sequence cut off by the end
of the input, a lead byte `0xF0`, a continuation byte in lead position and a two-byte
sequence with a bad trailing byte give -1. -/
theorem fat_utf8_to_ucs2_samples :
    (fat_utf8_to_ucs2 (fun _ => 0xFFFF) (arr_of [0x41, 0xC3, 0xA9]) 256 3).map
        (fun r => (r.1, r.2 0, r.2 1, r.2 2)) = some (0, 0x41, 0xE9, 0) ∧
    (fat_utf8_to_ucs2 (fun _ => 0xFFFF) (arr_of [0x41, 0xE2, 0x82]) 256 3).map
        (fun r => r.1) = some (-1) ∧
    (fat_utf8_to_ucs2 (fun _ => 0xFFFF) (arr_of [0xF0, 0x9F, 0x98, 0x80]) 256 4).map
        (fun r => r.1) = some (-1) ∧
    (fat_utf8_to_ucs2 (fun _ => 0xFFFF) (arr_of [0x41, 0x80]) 256 2).map
        (fun r => r.1) = some (-1) ∧
    (fat_utf8_to_ucs2 (fun _ => 0xFFFF) (arr_of [0xC3, 0x41]) 256 2).map
        (fun r => r.1) = some (-1) := by
  decide

/-- C28: `fs_ext2_rmdir` never asks whether the directory is empty.  Whenever the parent
and the directory are found, the directory is not open, and the removal of the entry and
the dereference of the inode succeed, `fs_ext2_rmdir` returns 0, having called
`ext2_dir_rm_entry` on the parent's entry and `ext2_inode_deref` on the inode; the
history holds no call of `ext2_dir_is_empty`, and the result is the same for every
behaviour of that function. -/
theorem fs_ext2_rmdir_no_emptiness_check (E : ext2_env) (mount_flags : Nat)
    (fh_inode_num : Nat → Nat) (fn cp ent : List Nat) (errno : Int) (h : List ext2_call)
    (pinode pnum n inode in_num : Nat)
    (hfn : ¬ (fn = [] ∨ fn = [47]))
    (hrw : mount_flags &&& FS_EXT2_MOUNT_READWRITE ≠ 0)
    (hs : strrchr_split 47 fn = some (cp, ent))
    (hp : ∀ h1, E.inode_by_path h1 cp = (0, pinode, pnum))
    (hpm : ∀ h1, E.i_mode h1 pinode &&& 0xF000 = EXT2_S_IFDIR)
    (hd : ∀ h1, E.dir_entry h1 pinode ent = some n)
    (hg : ∀ h1, (E.inode_get h1 n).1 = some inode)
    (hm : ∀ h1, E.i_mode h1 inode &&& 0xF000 = EXT2_S_IFDIR)
    (hfh : ext2_fh_scan fh_inode_num n MAX_EXT2_FILES = false)
    (hrm : ∀ h1, E.dir_rm_entry h1 pinode ent = (0, in_num))
    (hde : ∀ h1, E.inode_deref h1 in_num 1 = 0) :
    ∀ f : List ext2_call → Nat → Int,
      fs_ext2_rmdir { E with dir_is_empty := f } mount_flags fh_inode_num fn errno h =
        (0, errno, h ++ [ext2_call.inode_by_path cp, ext2_call.dir_entry pinode ent,
          ext2_call.inode_get n, ext2_call.dir_rm_entry pinode ent,
          ext2_call.inode_put inode, ext2_call.inode_deref in_num 1,
          ext2_call.times_store pinode,
          ext2_call.links_count_store pinode
            (u16 (E.i_links_count (h ++ [ext2_call.inode_by_path cp,
              ext2_call.dir_entry pinode ent, ext2_call.inode_get n,
              ext2_call.dir_rm_entry pinode ent, ext2_call.inode_put inode,
              ext2_call.inode_deref in_num 1, ext2_call.times_store pinode]) pinode + 65535)),
          ext2_call.inode_mark_dirty pinode, ext2_call.inode_put pinode]) := by
  intro f
  simp only [fs_ext2_rmdir, if_neg hfn, hrw, hs, hp, hpm, hd, hg, hm, hfh, hrm, hde,
    ne_eq, not_true_eq_false, not_false_eq_true, if_false, if_true, List.append_assoc,
    List.cons_append, List.nil_append, Bool.false_eq_true]

theorem fs_ext2_rmdir_no_emptiness_check_witness :
    (tree_env true).dir_entry [] 12 (cstr "b") = some 13 ∧
    fs_ext2_rmdir { tree_env true with dir_is_empty := fun _ _ => 0 } 1 (fun _ => 0)
        (cstr "/a") 0 [] =
      (0, 0, [] ++ [ext2_call.inode_by_path [], ext2_call.dir_entry 2 (cstr "a"),
        ext2_call.inode_get 12, ext2_call.dir_rm_entry 2 (cstr "a"),
        ext2_call.inode_put 12, ext2_call.inode_deref 12 1,
        ext2_call.times_store 2,
        ext2_call.links_count_store 2
          (u16 ((tree_env true).i_links_count ([] ++ [ext2_call.inode_by_path [],
            ext2_call.dir_entry 2 (cstr "a"), ext2_call.inode_get 12,
            ext2_call.dir_rm_entry 2 (cstr "a"), ext2_call.inode_put 12,
            ext2_call.inode_deref 12 1, ext2_call.times_store 2]) 2 + 65535)),
        ext2_call.inode_mark_dirty 2, ext2_call.inode_put 2]) :=
  ⟨by decide,
    fs_ext2_rmdir_no_emptiness_check (tree_env true) 1 (fun _ => 0) (cstr "/a") []
      (cstr "a") 0 [] 2 2 12 12 12 (by decide) (by decide) (by decide)
      (fun _ => rfl)
      (fun _ => (by decide : tree_mode (2 % 100) &&& 0xF000 = EXT2_S_IFDIR))
      (fun _ => rfl) (fun _ => rfl)
      (fun _ => (by decide : tree_mode (12 % 100) &&& 0xF000 = EXT2_S_IFDIR))
      (by decide) (fun _ => rfl) (fun _ => rfl) (fun _ _ => 0)⟩

theorem int_rename_puts_quiet (dpinode : Nat) (dinode : Option Nat) :
    ∀ c ∈ int_rename_puts dpinode dinode, ext2_call.modifies c = false := by
  cases dinode <;> simp [int_rename_puts, ext2_call.modifies]

theorem int_rename_dest_quiet (E : ext2_env) (fh_inode_num : Nat → Nat) (dpinode : Nat)
    (ent : List Nat) (h : List ext2_call) :
    ∃ t, (int_rename_dest E fh_inode_num 0 dpinode ent h).2 = h ++ t ∧
      (∀ c ∈ t, ext2_call.modifies c = false) ∧
      (∀ e, (int_rename_dest E fh_inode_num 0 dpinode ent h).1 = Sum.inl e →
        (e = -ENOTEMPTY ∨ e = - EIO ∨ e = -EBUSY) ∧ E.dir_entry h dpinode ent ≠ none) := by
  unfold int_rename_dest
  cases hd : E.dir_entry h dpinode ent with
  | none => exact ⟨_, rfl, by simp [ext2_call.modifies], by simp⟩
  | some n =>
    simp only []
    cases hg : (E.inode_get (h ++ [ext2_call.dir_entry dpinode ent]) n).1 with
    | none =>
      refine ⟨[ext2_call.dir_entry dpinode ent, ext2_call.inode_get n,
        ext2_call.inode_put dpinode], by simp, by simp [ext2_call.modifies], ?_⟩
      intro e he
      simp only [Sum.inl.injEq] at he
      exact ⟨Or.inr (Or.inl he.symm), by simp⟩
    | some dinode =>
      simp only [ne_eq, not_true_eq_false, if_false]
      split_ifs
      · refine ⟨[ext2_call.dir_entry dpinode ent, ext2_call.inode_get n,
          ext2_call.dir_is_empty dinode, ext2_call.inode_put dinode,
          ext2_call.inode_put dpinode], by simp, by simp [ext2_call.modifies], ?_⟩
        intro e he
        simp only [Sum.inl.injEq] at he
        exact ⟨Or.inl he.symm, by simp⟩
      · refine ⟨[ext2_call.dir_entry dpinode ent, ext2_call.inode_get n,
          ext2_call.dir_is_empty dinode, ext2_call.inode_put dinode,
          ext2_call.inode_put dpinode], by simp, by simp [ext2_call.modifies], ?_⟩
        intro e he
        simp only [Sum.inl.injEq] at he
        exact ⟨Or.inr (Or.inl he.symm), by simp⟩
      · refine ⟨[ext2_call.dir_entry dpinode ent, ext2_call.inode_get n,
          ext2_call.dir_is_empty dinode, ext2_call.inode_put dinode,
          ext2_call.inode_put dpinode], by simp, by simp [ext2_call.modifies], ?_⟩
        intro e he
        simp only [Sum.inl.injEq] at he
        exact ⟨Or.inr (Or.inr he.symm), by simp⟩
      · exact ⟨[ext2_call.dir_entry dpinode ent, ext2_call.inode_get n,
          ext2_call.dir_is_empty dinode], by simp, by simp [ext2_call.modifies], by simp⟩
      · refine ⟨[ext2_call.dir_entry dpinode ent, ext2_call.inode_get n,
          ext2_call.inode_put dinode,
          ext2_call.inode_put dpinode], by simp, by simp [ext2_call.modifies], ?_⟩
        intro e he
        simp only [Sum.inl.injEq] at he
        exact ⟨Or.inr (Or.inr he.symm), by simp⟩
      · exact ⟨[ext2_call.dir_entry dpinode ent, ext2_call.inode_get n],
          by simp, by simp [ext2_call.modifies], by simp⟩

theorem int_rename_walk_reaches (E : ext2_env) (finode dpinode dpinode_num : Nat)
    (dinode : Option Nat) : ∀ (k fuel : Nat) (h : List ext2_call) (p : Nat),
    walk_reaches E finode dpinode_num k p → k < fuel →
    ∃ t, int_rename_walk E finode dpinode dpinode_num dinode fuel h p =
        some (Sum.inl (-EINVAL), h ++ t) ∧
      ∀ c ∈ t, ext2_call.modifies c = false := by
  intro k
  induction k with
  | zero =>
    intro fuel h p hr hf
    obtain ⟨f, rfl⟩ : ∃ f, fuel = f + 1 := ⟨fuel - 1, by omega⟩
    simp only [walk_reaches] at hr
    refine ⟨ext2_call.inode_put p :: int_rename_puts dpinode dinode, ?_, ?_⟩
    · simp only [int_rename_walk, if_pos hr]
    · intro c hc
      rcases List.mem_cons.1 hc with rfl | hc
      · rfl
      · exact int_rename_puts_quiet _ _ c hc
  | succ k ih =>
    intro fuel h p hr hf
    obtain ⟨f, rfl⟩ : ∃ f, fuel = f + 1 := ⟨fuel - 1, by omega⟩
    obtain ⟨hne, n, q, hd, hn, hg, hq⟩ := hr
    obtain ⟨t, ht, hquiet⟩ := ih f
      (h ++ [ext2_call.dir_entry p (cstr ".."), ext2_call.inode_put p, ext2_call.inode_get n])
      q hq (by omega)
    refine ⟨[ext2_call.dir_entry p (cstr ".."), ext2_call.inode_put p,
      ext2_call.inode_get n] ++ t, ?_, ?_⟩
    · simp only [int_rename_walk, if_neg hne, hd, if_neg hn, hg, ht, List.append_assoc]
    · intro c hc
      rcases List.mem_append.1 hc with hc | hc
      · revert hc; simp only [List.mem_cons, List.mem_singleton, List.mem_nil_iff, or_false]
        rintro (rfl | rfl | rfl) <;> rfl
      · exact hquiet c hc

/-- C29 (amended): when the walk from the destination's parent directory through the
entries ".." arrives at the inode object of the source directory, `int_rename` of a
directory (`isfile = 0`) into a parent that is not the source's parent returns an error
and calls no function that changes a directory entry, an inode or a link count.  The
error is `EINVAL` when the destination entry does not exist; when it exists, the checks
of the destination come first and may return `ENOTEMPTY`, `EIO` or `EBUSY`. -/
theorem int_rename_into_descendant (fuel k : Nat) (E : ext2_env) (fh_inode_num : Nat → Nat)
    (fn1 fn2 cp ent : List Nat) (h : List ext2_call)
    (pinode finode finode_num dpinode dpinode_num : Nat)
    (hs : strrchr_split 47 fn2 = some (cp, ent))
    (hp : E.inode_by_path h cp = (0, dpinode, dpinode_num))
    (hm : E.i_mode (h ++ [ext2_call.inode_by_path cp]) dpinode &&& 0xF000 = EXT2_S_IFDIR)
    (hne : dpinode ≠ pinode)
    (hr : walk_reaches E finode dpinode_num k dpinode)
    (hf : k < fuel) :
    ∃ e t, int_rename fuel E fh_inode_num fn1 fn2 pinode finode finode_num 0 h =
        some (e, h ++ t) ∧
      (e = -EINVAL ∨ e = -ENOTEMPTY ∨ e = - EIO ∨ e = -EBUSY) ∧
      (E.dir_entry (h ++ [ext2_call.inode_by_path cp]) dpinode ent = none → e = -EINVAL) ∧
      ∀ c ∈ t, ext2_call.modifies c = false := by
  obtain ⟨t1, e1, q1, r1⟩ :=
    int_rename_dest_quiet E fh_inode_num dpinode ent (h ++ [ext2_call.inode_by_path cp])
  simp only [int_rename, hs, hp, hm, ne_eq, not_true_eq_false, if_false, int_rename_checked]
  rcases hres : int_rename_dest E fh_inode_num 0 dpinode ent
    (h ++ [ext2_call.inode_by_path cp]) with ⟨r, h2⟩
  rw [hres] at e1 r1
  simp only at e1
  subst e1
  cases r with
  | inl e =>
    refine ⟨e, ext2_call.inode_by_path cp :: t1, by simp, ?_, ?_, ?_⟩
    · have := (r1 e rfl).1; tauto
    · intro hnone; exact absurd hnone (r1 e rfl).2
    · intro c hc
      rcases List.mem_cons.1 hc with rfl | hc
      · rfl
      · exact q1 c hc
  | inr v =>
    obtain ⟨dent, dinode, isdir⟩ := v
    obtain ⟨t2, e2, q2⟩ := int_rename_walk_reaches E finode dpinode dpinode_num dinode k fuel
      (h ++ [ext2_call.inode_by_path cp] ++ t1 ++ [ext2_call.inode_retain dpinode])
      dpinode hr hf
    refine ⟨-EINVAL, ext2_call.inode_by_path cp :: (t1 ++ ext2_call.inode_retain dpinode :: t2),
      ?_, Or.inl rfl, fun _ => rfl, ?_⟩
    · simp only [true_and, hne, not_false_eq_true, if_true, e2]
      simp
    · intro c hc
      rcases List.mem_cons.1 hc with rfl | hc
      · rfl
      · rcases List.mem_append.1 hc with hc | hc
        · exact q1 c hc
        · rcases List.mem_cons.1 hc with rfl | hc
          · rfl
          · exact q2 c hc

theorem int_rename_into_descendant_witness :
    ∃ e t, int_rename 2 (tree_env true) (fun _ => 0) (cstr "a") (cstr "/a/b/x") 2 12 12 0 [] =
        some (e, [] ++ t) ∧
      (e = -EINVAL ∨ e = -ENOTEMPTY ∨ e = - EIO ∨ e = -EBUSY) ∧
      ((tree_env true).dir_entry ([] ++ [ext2_call.inode_by_path (cstr "/a/b")]) 13 (cstr "x")
        = none → e = -EINVAL) ∧
      ∀ c ∈ t, ext2_call.modifies c = false :=
  int_rename_into_descendant 2 1 (tree_env true) (fun _ => 0) (cstr "a") (cstr "/a/b/x")
    (cstr "/a/b") (cstr "x") [] 2 12 12 13 13 (by decide) rfl (by decide) (by decide)
    ⟨by decide, 12, 12, fun _ => rfl, by decide, fun _ => rfl, rfl⟩ (by decide)

theorem tree_walk_diverges : ∀ (fuel : Nat) (h : List ext2_call) (s : Nat),
    3 ≤ h.length → s ≠ 312 → (s % 100 = 2 ∨ s % 100 = 12 ∨ s % 100 = 13) →
    int_rename_walk (tree_env false) 312 413 13 none fuel h s = none := by
  intro fuel
  induction fuel with
  | zero => intro h s _ _ _; rfl
  | succ f ih =>
    intro h s hl hs hm
    have hd : ∃ n, (tree_env false).dir_entry h s (cstr "..") = some n ∧ (n = 2 ∨ n = 12) := by
      rcases hm with e | e | e
      · exact ⟨2, by simp only [tree_env, e]; decide, Or.inl rfl⟩
      · exact ⟨2, by simp only [tree_env, e]; decide, Or.inl rfl⟩
      · exact ⟨12, by simp only [tree_env, e]; decide, Or.inr rfl⟩
    obtain ⟨n, hn, hn2⟩ := hd
    have hn13 : n ≠ 13 := by omega
    have hg : ((tree_env false).inode_get
        (h ++ [ext2_call.dir_entry s (cstr ".."), ext2_call.inode_put s]) n).1 =
        some (n + 100 * (h.length + 2 + 1)) := by
      rcases hn2 with rfl | rfl <;>
        simp [tree_env, tree_mode, tree_ptr]
    simp only [int_rename_walk, if_neg hs, hn, if_neg hn13, hg]
    apply ih
    · simp only [List.length_append, List.length_cons, List.length_nil]; omega
    · omega
    · omega

theorem tree_rename_diverges (fuel : Nat) :
    fs_ext2_rename fuel (tree_env false) FS_EXT2_MOUNT_READWRITE (fun _ => 0)
      (cstr "/a") (cstr "/a/b/x") 0 [] = none := by
  have s1 : strrchr_split 47 (cstr "/a") = some ([], cstr "a") := by decide
  have s2 : strrchr_split 47 (cstr "/a/b/x") = some (cstr "/a/b", cstr "x") := by decide
  have w := tree_walk_diverges fuel
    [ext2_call.inode_by_path [], ext2_call.dir_entry 102 (cstr "a"), ext2_call.inode_get 12,
      ext2_call.inode_by_path (cstr "/a/b"), ext2_call.dir_entry 413 (cstr "x"),
      ext2_call.inode_retain 413] 413 (by decide) (by decide) (by decide)
  have e : fs_ext2_rename fuel (tree_env false) FS_EXT2_MOUNT_READWRITE (fun _ => 0)
      (cstr "/a") (cstr "/a/b/x") 0 [] =
      match int_rename fuel (tree_env false) (fun _ => 0) (cstr "a") (cstr "/a/b/x") 102 312 12
          0 [ext2_call.inode_by_path [], ext2_call.dir_entry 102 (cstr "a"),
            ext2_call.inode_get 12] with
      | none => none
      | some (irv, h4) =>
        if irv < 0 then
          some (-1, -irv, h4 ++ [ext2_call.inode_put 102, ext2_call.inode_put 312], true)
        else some (irv, 0, h4 ++ [ext2_call.inode_put 102, ext2_call.inode_put 312], true) := by
    rfl
  have e2 : int_rename fuel (tree_env false) (fun _ => 0) (cstr "a") (cstr "/a/b/x") 102 312 12
      0 [ext2_call.inode_by_path [], ext2_call.dir_entry 102 (cstr "a"),
        ext2_call.inode_get 12] = none := by
    simp only [int_rename, s2, int_rename_checked]
    have p1 : (tree_env false).inode_by_path
        [ext2_call.inode_by_path [], ext2_call.dir_entry 102 (cstr "a"),
          ext2_call.inode_get 12] (cstr "/a/b") = (0, 413, 13) := by decide
    have m1 : ∀ hh, (tree_env false).i_mode hh 413 &&& 0xF000 = EXT2_S_IFDIR :=
      fun _ => (by decide : tree_mode (413 % 100) &&& 0xF000 = EXT2_S_IFDIR)
    have d1 : ∀ hh, int_rename_dest (tree_env false) (fun _ => 0) 0 413 (cstr "x") hh =
        (Sum.inr (none, none, 0), hh ++ [ext2_call.dir_entry 413 (cstr "x")]) := by
      intro hh
      have : (tree_env false).dir_entry hh 413 (cstr "x") = none :=
        (by decide : tree_child (413 % 100) (cstr "x") = none)
      simp only [int_rename_dest, this]
    simp only [p1, m1, d1, ne_eq, not_true_eq_false, if_false, true_and,
      (by decide : (413 : Nat) ≠ 102), not_false_eq_true, if_true, List.cons_append,
      List.nil_append, List.append_assoc]
    rw [w]
  rw [e, e2]

/-- C29: with an engine that hands out a new inode object on every lookup,
`fs_ext2_rename` of the directory `/a` to `/a/b/x` does not fail with `EINVAL`: the walk
from `/a/b` towards the root compares inode pointers, never meets the object of `/a`
that the caller holds, and, as `sinode_num` keeps the number of `/a/b`, does not stop at
the root either.  No amount of fuel lets the call return. -/
theorem fs_ext2_rename_fresh_objects_no_einval :
    ¬ ∃ fuel r, fs_ext2_rename fuel (tree_env false) FS_EXT2_MOUNT_READWRITE (fun _ => 0)
      (cstr "/a") (cstr "/a/b/x") 0 [] = some r := by
  rintro ⟨fuel, r, h⟩
  rw [tree_rename_diverges fuel] at h
  cases h

/-- C30: `int_rename` does not reject a directory that is renamed over an existing
non-directory.  When the source is a directory (`isfile = 0`), the destination entry
exists in the source's parent directory and is not a directory, it is not open, and the
calls of the engine succeed, `int_rename` returns 0, and on the way it removes the
destination entry with `ext2_dir_rm_entry` and dereferences its inode with
`ext2_inode_deref`. -/
theorem int_rename_directory_over_file (fuel : Nat) (E : ext2_env)
    (fh_inode_num : Nat → Nat) (fn1 fn2 cp ent : List Nat) (h : List ext2_call)
    (pinode pnum finode finode_num n dinode tmp : Nat)
    (hs : strrchr_split 47 fn2 = some (cp, ent))
    (hp : ∀ h1, E.inode_by_path h1 cp = (0, pinode, pnum))
    (hpm : ∀ h1, E.i_mode h1 pinode &&& 0xF000 = EXT2_S_IFDIR)
    (hd : ∀ h1, E.dir_entry h1 pinode ent = some n)
    (hg : ∀ h1, (E.inode_get h1 n).1 = some dinode)
    (hm : ∀ h1, E.i_mode h1 dinode &&& 0xF000 ≠ EXT2_S_IFDIR)
    (hfh : ext2_fh_scan fh_inode_num n MAX_EXT2_FILES = false)
    (hrm : ∀ h1, E.dir_rm_entry h1 pinode ent = (0, tmp))
    (hde : ∀ h1, E.inode_deref h1 tmp 0 = 0)
    (had : ∀ h1, E.dir_add_entry h1 pinode ent finode_num finode = 0)
    (hrs : ∀ h1, (E.dir_rm_entry h1 pinode fn1).1 = 0)
    (hre : ∀ h1, E.dir_redir_entry h1 finode (cstr "..") pnum = 0) :
    ∃ t, int_rename fuel E fh_inode_num fn1 fn2 pinode finode finode_num 0 h =
      some (0, h ++ [ext2_call.inode_by_path cp, ext2_call.dir_entry pinode ent,
        ext2_call.inode_get n, ext2_call.dir_rm_entry pinode ent,
        ext2_call.inode_put dinode, ext2_call.inode_deref tmp 0] ++ t) := by
  simp only [int_rename, int_rename_checked, int_rename_dest, int_rename_overwrite,
    int_rename_move, hs, hp, hpm, hd, hg, hm, hfh, hrm, hde, had, hrs, hre,
    ne_eq, not_true_eq_false, not_false_eq_true, if_false, if_true, List.append_assoc,
    List.cons_append, List.nil_append, Bool.false_eq_true, and_false]
  exact ⟨_, rfl⟩

theorem int_rename_directory_over_file_witness :
    (tree_env true).i_mode [] 12 &&& 0xF000 = EXT2_S_IFDIR ∧
    ∃ t, int_rename 0 (tree_env true) (fun _ => 0) (cstr "a") (cstr "/f") 2 12 12 0 [] =
      some (0, [] ++ [ext2_call.inode_by_path [], ext2_call.dir_entry 2 (cstr "f"),
        ext2_call.inode_get 14, ext2_call.dir_rm_entry 2 (cstr "f"),
        ext2_call.inode_put 14, ext2_call.inode_deref 14 0] ++ t) :=
  ⟨by decide,
    int_rename_directory_over_file 0 (tree_env true) (fun _ => 0) (cstr "a") (cstr "/f") []
      (cstr "f") [] 2 2 12 12 14 14 14 (by decide) (fun _ => rfl)
      (fun _ => (by decide : tree_mode (2 % 100) &&& 0xF000 = EXT2_S_IFDIR))
      (fun _ => rfl) (fun _ => rfl)
      (fun _ => (by decide : tree_mode (14 % 100) &&& 0xF000 ≠ EXT2_S_IFDIR))
      (by decide) (fun _ => rfl) (fun _ => rfl) (fun _ => rfl) (fun _ => rfl)
      (fun _ => rfl)⟩

/-! ## `directory.c`: short names for long names -/

theorem list_len_11 (l : List Nat) (h : l.length = 11) :
    ∃ b0 b1 b2 b3 b4 b5 b6 b7 b8 b9 b10, l = [b0, b1, b2, b3, b4, b5, b6, b7, b8, b9, b10] := by
  match l, h with
  | [b0, b1, b2, b3, b4, b5, b6, b7, b8, b9, b10], _ => exact ⟨_, _, _, _, _, _, _, _, _, _, _, rfl⟩

theorem digits_1 (N : Nat) (h1 : 1 ≤ N) (h2 : N < 10) : Nat.digits 10 N = [N] := by
  rw [Nat.digits_def' (by decide) (by omega)]
  have e : N / 10 = 0 := by omega
  have e2 : N % 10 = N := by omega
  rw [e, e2, Nat.digits_zero]

theorem digits_2 (N : Nat) (h1 : 10 ≤ N) (h2 : N < 100) :
    Nat.digits 10 N = [N % 10, N / 10] := by
  rw [Nat.digits_def' (by decide) (by omega), digits_1 (N / 10) (by omega) (by omega)]

theorem digits_3 (N : Nat) (h1 : 100 ≤ N) (h2 : N < 1000) :
    Nat.digits 10 N = [N % 10, N / 10 % 10, N / 100] := by
  rw [Nat.digits_def' (by decide) (by omega), digits_2 (N / 10) (by omega) (by omega)]
  simp only [Nat.div_div_eq_div_mul]

theorem digits_4 (N : Nat) (h1 : 1000 ≤ N) (h2 : N < 10000) :
    Nat.digits 10 N = [N % 10, N / 10 % 10, N / 100 % 10, N / 1000] := by
  rw [Nat.digits_def' (by decide) (by omega), digits_3 (N / 10) (by omega) (by omega)]
  simp only [Nat.div_div_eq_div_mul]

theorem digits_5 (N : Nat) (h1 : 10000 ≤ N) (h2 : N < 100000) :
    Nat.digits 10 N = [N % 10, N / 10 % 10, N / 100 % 10, N / 1000 % 10, N / 10000] := by
  rw [Nat.digits_def' (by decide) (by omega), digits_4 (N / 10) (by omega) (by omega)]
  simp only [Nat.div_div_eq_div_mul]

theorem digits_6 (N : Nat) (h1 : 100000 ≤ N) (h2 : N < 1000000) :
    Nat.digits 10 N =
      [N % 10, N / 10 % 10, N / 100 % 10, N / 1000 % 10, N / 10000 % 10, N / 100000] := by
  rw [Nat.digits_def' (by decide) (by omega), digits_5 (N / 10) (by omega) (by omega)]
  simp only [Nat.div_div_eq_div_mul]

theorem create_shortname_tail_eq (basis : List Nat) (N : Nat) (hb : basis.length = 11)
    (h1 : 1 ≤ N) (h2 : N < 1000000) :
    create_shortname_tail basis N = shortname_numeric_tail basis N := by
  obtain ⟨b0, b1, b2, b3, b4, b5, b6, b7, b8, b9, b10, rfl⟩ := list_len_11 basis hb
  unfold create_shortname_tail shortname_numeric_tail
  by_cases c1 : N < 10
  · rw [if_pos c1, digits_1 N h1 c1]; rfl
  rw [if_neg c1]
  by_cases c2 : N < 100
  · rw [if_pos c2, digits_2 N (by omega) c2]; rfl
  rw [if_neg c2]
  by_cases c3 : N < 1000
  · rw [if_pos c3, digits_3 N (by omega) c3]; rfl
  rw [if_neg c3]
  by_cases c4 : N < 10000
  · rw [if_pos c4, digits_4 N (by omega) c4]; rfl
  rw [if_neg c4]
  by_cases c5 : N < 100000
  · rw [if_pos c5, digits_5 N (by omega) c5]; rfl
  rw [if_neg c5, digits_6 N (by omega) h2]; rfl

theorem create_shortname_tail_length (out : List Nat) (N : Nat) :
    (create_shortname_tail out N).length = out.length := by
  unfold create_shortname_tail
  split_ifs <;> simp only [List.length_set]

theorem tail_form_1 (b0 b1 b2 b3 b4 b5 b6 b7 b8 b9 b10 N : Nat) (h2 : N < 10) :
    create_shortname_tail [b0, b1, b2, b3, b4, b5, b6, b7, b8, b9, b10] N =
      [b0, b1, b2, b3, b4, b5, 126, 48 + N, b8, b9, b10] := by
  unfold create_shortname_tail
  rw [if_pos h2]
  rfl

theorem tail_form_2 (b0 b1 b2 b3 b4 b5 b6 b7 b8 b9 b10 N : Nat) (h1 : 10 ≤ N) (h2 : N < 100) :
    create_shortname_tail [b0, b1, b2, b3, b4, b5, b6, b7, b8, b9, b10] N =
      [b0, b1, b2, b3, b4, 126, 48 + N / 10, 48 + N % 10, b8, b9, b10] := by
  unfold create_shortname_tail
  rw [if_neg (by omega : ¬ N < 10)]
  rw [if_pos h2]
  rfl

theorem tail_form_3 (b0 b1 b2 b3 b4 b5 b6 b7 b8 b9 b10 N : Nat) (h1 : 100 ≤ N) (h2 : N < 1000) :
    create_shortname_tail [b0, b1, b2, b3, b4, b5, b6, b7, b8, b9, b10] N =
      [b0, b1, b2, b3, 126, 48 + N / 100, 48 + N / 10 % 10, 48 + N % 10, b8, b9, b10] := by
  unfold create_shortname_tail
  rw [if_neg (by omega : ¬ N < 10)]
  rw [if_neg (by omega : ¬ N < 100)]
  rw [if_pos h2]
  rfl

theorem tail_form_4 (b0 b1 b2 b3 b4 b5 b6 b7 b8 b9 b10 N : Nat) (h1 : 1000 ≤ N) (h2 : N < 10000) :
    create_shortname_tail [b0, b1, b2, b3, b4, b5, b6, b7, b8, b9, b10] N =
      [b0, b1, b2, 126, 48 + N / 1000, 48 + N / 100 % 10, 48 + N / 10 % 10, 48 + N % 10, b8, b9, b10] := by
  unfold create_shortname_tail
  rw [if_neg (by omega : ¬ N < 10)]
  rw [if_neg (by omega : ¬ N < 100)]
  rw [if_neg (by omega : ¬ N < 1000)]
  rw [if_pos h2]
  rfl

theorem tail_form_5 (b0 b1 b2 b3 b4 b5 b6 b7 b8 b9 b10 N : Nat) (h1 : 10000 ≤ N) (h2 : N < 100000) :
    create_shortname_tail [b0, b1, b2, b3, b4, b5, b6, b7, b8, b9, b10] N =
      [b0, b1, 126, 48 + N / 10000, 48 + N / 1000 % 10, 48 + N / 100 % 10, 48 + N / 10 % 10, 48 + N % 10, b8, b9, b10] := by
  unfold create_shortname_tail
  rw [if_neg (by omega : ¬ N < 10)]
  rw [if_neg (by omega : ¬ N < 100)]
  rw [if_neg (by omega : ¬ N < 1000)]
  rw [if_neg (by omega : ¬ N < 10000)]
  rw [if_pos h2]
  rfl

theorem tail_form_6 (b0 b1 b2 b3 b4 b5 b6 b7 b8 b9 b10 N : Nat) (h1 : 100000 ≤ N) :
    create_shortname_tail [b0, b1, b2, b3, b4, b5, b6, b7, b8, b9, b10] N =
      [b0, 126, 48 + N / 100000, 48 + N / 10000 % 10, 48 + N / 1000 % 10, 48 + N / 100 % 10, 48 + N / 10 % 10, 48 + N % 10, b8, b9, b10] := by
  unfold create_shortname_tail
  rw [if_neg (by omega : ¬ N < 10)]
  rw [if_neg (by omega : ¬ N < 100)]
  rw [if_neg (by omega : ¬ N < 1000)]
  rw [if_neg (by omega : ¬ N < 10000)]
  rw [if_neg (by omega : ¬ N < 100000)]
  rfl

theorem create_shortname_tail_absorb (basis : List Nat) (M N : Nat) (hb : basis.length = 11)
    (h1 : 1 ≤ M) (h2 : M ≤ N) :
    create_shortname_tail (create_shortname_tail basis M) N = create_shortname_tail basis N := by
  obtain ⟨b0, b1, b2, b3, b4, b5, b6, b7, b8, b9, b10, rfl⟩ := list_len_11 basis hb
  by_cases m1 : M < 10
  · rw [tail_form_1 _ _ _ _ _ _ _ _ _ _ _ M (by omega)]
    by_cases n1 : N < 10
    · rw [tail_form_1 _ _ _ _ _ _ _ _ _ _ _ N (by omega), tail_form_1 _ _ _ _ _ _ _ _ _ _ _ N (by omega)]
    by_cases n2 : N < 100
    · rw [tail_form_2 _ _ _ _ _ _ _ _ _ _ _ N (by omega) (by omega), tail_form_2 _ _ _ _ _ _ _ _ _ _ _ N (by omega) (by omega)]
    by_cases n3 : N < 1000
    · rw [tail_form_3 _ _ _ _ _ _ _ _ _ _ _ N (by omega) (by omega), tail_form_3 _ _ _ _ _ _ _ _ _ _ _ N (by omega) (by omega)]
    by_cases n4 : N < 10000
    · rw [tail_form_4 _ _ _ _ _ _ _ _ _ _ _ N (by omega) (by omega), tail_form_4 _ _ _ _ _ _ _ _ _ _ _ N (by omega) (by omega)]
    by_cases n5 : N < 100000
    · rw [tail_form_5 _ _ _ _ _ _ _ _ _ _ _ N (by omega) (by omega), tail_form_5 _ _ _ _ _ _ _ _ _ _ _ N (by omega) (by omega)]
    rw [tail_form_6 _ _ _ _ _ _ _ _ _ _ _ N (by omega), tail_form_6 _ _ _ _ _ _ _ _ _ _ _ N (by omega)]
  by_cases m2 : M < 100
  · rw [tail_form_2 _ _ _ _ _ _ _ _ _ _ _ M (by omega) (by omega)]
    by_cases n2 : N < 100
    · rw [tail_form_2 _ _ _ _ _ _ _ _ _ _ _ N (by omega) (by omega), tail_form_2 _ _ _ _ _ _ _ _ _ _ _ N (by omega) (by omega)]
    by_cases n3 : N < 1000
    · rw [tail_form_3 _ _ _ _ _ _ _ _ _ _ _ N (by omega) (by omega), tail_form_3 _ _ _ _ _ _ _ _ _ _ _ N (by omega) (by omega)]
    by_cases n4 : N < 10000
    · rw [tail_form_4 _ _ _ _ _ _ _ _ _ _ _ N (by omega) (by omega), tail_form_4 _ _ _ _ _ _ _ _ _ _ _ N (by omega) (by omega)]
    by_cases n5 : N < 100000
    · rw [tail_form_5 _ _ _ _ _ _ _ _ _ _ _ N (by omega) (by omega), tail_form_5 _ _ _ _ _ _ _ _ _ _ _ N (by omega) (by omega)]
    rw [tail_form_6 _ _ _ _ _ _ _ _ _ _ _ N (by omega), tail_form_6 _ _ _ _ _ _ _ _ _ _ _ N (by omega)]
  by_cases m3 : M < 1000
  · rw [tail_form_3 _ _ _ _ _ _ _ _ _ _ _ M (by omega) (by omega)]
    by_cases n3 : N < 1000
    · rw [tail_form_3 _ _ _ _ _ _ _ _ _ _ _ N (by omega) (by omega), tail_form_3 _ _ _ _ _ _ _ _ _ _ _ N (by omega) (by omega)]
    by_cases n4 : N < 10000
    · rw [tail_form_4 _ _ _ _ _ _ _ _ _ _ _ N (by omega) (by omega), tail_form_4 _ _ _ _ _ _ _ _ _ _ _ N (by omega) (by omega)]
    by_cases n5 : N < 100000
    · rw [tail_form_5 _ _ _ _ _ _ _ _ _ _ _ N (by omega) (by omega), tail_form_5 _ _ _ _ _ _ _ _ _ _ _ N (by omega) (by omega)]
    rw [tail_form_6 _ _ _ _ _ _ _ _ _ _ _ N (by omega), tail_form_6 _ _ _ _ _ _ _ _ _ _ _ N (by omega)]
  by_cases m4 : M < 10000
  · rw [tail_form_4 _ _ _ _ _ _ _ _ _ _ _ M (by omega) (by omega)]
    by_cases n4 : N < 10000
    · rw [tail_form_4 _ _ _ _ _ _ _ _ _ _ _ N (by omega) (by omega), tail_form_4 _ _ _ _ _ _ _ _ _ _ _ N (by omega) (by omega)]
    by_cases n5 : N < 100000
    · rw [tail_form_5 _ _ _ _ _ _ _ _ _ _ _ N (by omega) (by omega), tail_form_5 _ _ _ _ _ _ _ _ _ _ _ N (by omega) (by omega)]
    rw [tail_form_6 _ _ _ _ _ _ _ _ _ _ _ N (by omega), tail_form_6 _ _ _ _ _ _ _ _ _ _ _ N (by omega)]
  by_cases m5 : M < 100000
  · rw [tail_form_5 _ _ _ _ _ _ _ _ _ _ _ M (by omega) (by omega)]
    by_cases n5 : N < 100000
    · rw [tail_form_5 _ _ _ _ _ _ _ _ _ _ _ N (by omega) (by omega), tail_form_5 _ _ _ _ _ _ _ _ _ _ _ N (by omega) (by omega)]
    rw [tail_form_6 _ _ _ _ _ _ _ _ _ _ _ N (by omega), tail_form_6 _ _ _ _ _ _ _ _ _ _ _ N (by omega)]
  rw [tail_form_6 _ _ _ _ _ _ _ _ _ _ _ M (by omega)]
  rw [tail_form_6 _ _ _ _ _ _ _ _ _ _ _ N (by omega), tail_form_6 _ _ _ _ _ _ _ _ _ _ _ N (by omega)]

theorem normalize_shortname_length (fn : List Nat) : (normalize_shortname fn).length = 11 := by
  unfold normalize_shortname
  cases strrchr_idx 46 fn <;> simp

theorem create_shortname_loop_eq (fuel : Nat) (parent : fat_dentry_t) (err : Int)
    (basis : List Nat) (hb : basis.length = 11) :
    ∀ (n : Nat) (fs : fat_fs_t) (out : List Nat) (N : Nat),
      (N = 0 ∧ out = basis) ∨ (1 ≤ N ∧ out = create_shortname_tail basis N) →
      (create_shortname_loop fuel parent err n fs out N).map
          (fun r => (r.1, if r.1 = 0 then some r.2.1 else none, r.2.2)) =
        first_free_tail fuel parent err basis n (N + 1) fs := by
  intro n
  induction n with
  | zero => intro fs out N _; rfl
  | succ n ih =>
    intro fs out N h
    unfold create_shortname_loop first_free_tail
    by_cases c : N + 1 < 1000000
    · have e : create_shortname_tail out (N + 1) = shortname_numeric_tail basis (N + 1) := by
        rcases h with ⟨h0, rfl⟩ | ⟨h1, rfl⟩
        · exact create_shortname_tail_eq _ _ hb (by omega) c
        · rw [create_shortname_tail_absorb basis N (N + 1) hb h1 (by omega)]
          exact create_shortname_tail_eq _ _ hb (by omega) c
      simp only [c, not_true_eq_false, if_false, e]
      cases hs : fat_find_child2 fuel fs (shortname_numeric_tail basis (N + 1)) parent err with
      | none => rfl
      | some r =>
        obtain ⟨rc, fs1⟩ := r
        simp only []
        by_cases hr : rc = -ENOENT
        · simp only [hr, if_true, Option.map_some', if_pos]
        · simp only [hr, if_false]
          rw [← e]
          exact ih fs1 _ (N + 1) (Or.inr ⟨by omega, by
            rcases h with ⟨h0, rfl⟩ | ⟨h1, rfl⟩
            · rfl
            · exact create_shortname_tail_absorb basis N (N + 1) hb h1 (by omega)⟩)
    · simp only [c, not_false_eq_true, if_true, Option.map_some']
      rfl

set_option maxRecDepth 100000 in
/-- The function `create_shortname` as a search over candidates: it returns `-EILSEQ`
for a name that its first loop rejects, and otherwise the result of the search for the smallest `N` in 1..999999 for which
`fat_find_child2` reports `-ENOENT` for the basis name with the numeric tail for `N`
(the upper-cased, 8+3 truncated and space-padded name whose basename ends in '~' and the
decimal digits of `N`, the last digit in byte 7): 0 with that name, or `-ENOSPC` when no
such `N` exists.  "A very long filename.txt" in the empty root directory of `vol12`
gives "AVERYL~1TXT". -/
theorem create_shortname_numeric_tail :
    (∀ (fuel : Nat) (L : libc_t) (fs : fat_fs_t) (fn : List Nat) (parent : fat_dentry_t)
        (err : Int),
      (create_shortname fuel L fs fn parent err).map
          (fun r => (r.1, if r.1 = 0 then r.2.1 else none, r.2.2)) =
        match create_shortname_chars L.signed_char fn.length fn
          { fnc := [], has_ext := 0, last_period := -1, found_char := false } with
        | none => some (-EILSEQ, none, fs)
        | some b =>
          first_free_tail fuel parent err (normalize_shortname (create_shortname_denorm b))
            1000000 1 fs) ∧
    (create_shortname 8 libc_signed vol12 (cstr "A very long filename.txt")
        (root_dentry vol12) 0).map (fun r => (r.1, r.2.1)) =
      some (0, some (cstr "AVERYL~1TXT")) := by
  refine ⟨?_, by decide⟩
  intro fuel L fs fn parent err
  unfold create_shortname
  cases hc : create_shortname_chars L.signed_char fn.length fn
    { fnc := [], has_ext := 0, last_period := -1, found_char := false } with
  | none => rfl
  | some b =>
    simp only []
    rw [← create_shortname_loop_eq fuel parent err _ (normalize_shortname_length _) 1000000 fs
      _ 0 (Or.inl ⟨rfl, rfl⟩)]
    cases create_shortname_loop fuel parent err 1000000 fs
      (normalize_shortname (create_shortname_denorm b)) 0 with
    | none => rfl
    | some r =>
      obtain ⟨rc, out, fs1⟩ := r
      simp only [Option.map_some']

/-! ## `directory.c` and `fs_fat.c`: evaluations on concrete volumes -/

set_option maxRecDepth 100000 in
/-- C23: `fat_find_child` does not find every long name that `fat_add_dentry` has added.
(1) After "café au lait" (UTF-8, 13 bytes, 12 code units) is added to the empty root
directory of `vol12` with return value 0 (long name entry at offset 0, short entry
"CAFAUL~1" at offset 32), `fat_find_child` of the same name returns `-ENOENT`:
`fat_search_long` compares the number of bytes of the name with the number of code
units of the entry.  (2) After "A very long filename.txt" and then "abcdefghi.txt" (13
characters) are added, `fat_find_child` of "abcdefghi.txt" returns `-ENOENT`: the scan
leaves a code unit of the first name in `longname_buf[13]`, and the terminator is
stored at `longname_buf[14]`.  The same name is found when it is alone in the
directory, and "A very long filename.txt" is found, also in another case. -/
theorem fat_find_child_misses_added_long_name :
    (fat_add_dentry 8 libc_signed dir12 name_cafe (root_dentry vol12) FAT_ATTR_ARCHIVE 5 0).map
        (fun r => (r.1, r.2.1)) =
      some (0, added_t.mk (some 0x80000005) (some 32) (some 0x80000005) (some 0)) ∧
    (fat_get_dentry (dir_added dir12 name_cafe).fs 0x80000005 32 0).2.1.map
        (fun e => e.name) = some (cstr "CAFAUL~1   ") ∧
    is_component_short name_cafe = false ∧
    (fat_find_child 20 libc_signed (dir_added dir12 name_cafe) name_cafe (root_dentry vol12)
        0).map (fun r => (r.1, r.2.1)) = some (-ENOENT, none) ∧
    (fat_add_dentry 8 libc_signed (dir_added dir12 (cstr "A very long filename.txt"))
        (cstr "abcdefghi.txt") (root_dentry vol12) FAT_ATTR_ARCHIVE 6 0).map
        (fun r => (r.1, r.2.1)) =
      some (0, added_t.mk (some 0x80000005) (some 128) (some 0x80000005) (some 96)) ∧
    is_component_short (cstr "abcdefghi.txt") = false ∧
    (fat_find_child 20 libc_signed dir12_two_names (cstr "abcdefghi.txt") (root_dentry vol12)
        0).map (fun r => (r.1, r.2.1)) = some (-ENOENT, none) ∧
    (fat_find_child 20 libc_signed (dir_added dir12 (cstr "abcdefghi.txt"))
        (cstr "abcdefghi.txt") (root_dentry vol12) 0).map
        (fun r => (r.1, r.2.1.map (fun l => (l.rv.name, l.roff)))) =
      some (0, some (cstr "ABCDEF~1TXT", 32)) ∧
    (fat_find_child 20 libc_signed (dir_added dir12 (cstr "A very long filename.txt"))
        (cstr "a VERY long FILENAME.txt") (root_dentry vol12) 0).map
        (fun r => (r.1, r.2.1.map (fun l => (l.rv.name, l.roff)))) =
      some (0, some (cstr "AVERYL~1TXT", 64)) := by
  refine ⟨by decide, by decide, by decide, by decide, by decide, by decide, by decide,
    by decide, by decide⟩

set_option maxRecDepth 100000 in
/-- C25: `fs_fat_readdir` does not return a live entry in the second sector of a root
directory whose first sector holds only deleted entries.  On `dev_floppy_dir` the root
directory (224 entries) has 16 deleted entries in sector 19 and the entry of the file
`F` at the start of sector 20.  The first call on a fresh handle returns `NULL`: after
the last entry of the sector the code increments `fh[fd].cluster` but goes on reading
the buffer of sector 19, up to the 224 entries of the root directory, and then sets
`fh[fd].cluster = 0x0FFFFFFF`.  The second call returns `NULL` as well. -/
theorem fs_fat_readdir_misses_second_sector :
    (vfs_floppy_dir.fh 0).opened = 1 ∧ (vfs_floppy_dir.fh 0).ptr = 0 ∧
    (vfs_floppy_dir.fh 0).cluster = 0x80000013 ∧
    (fat_get_dentry vfs_floppy_dir.d.fs 0x80000014 0 0).2.1.map (fun e => (e.name, e.attr)) =
      some (cstr "F          ", FAT_ATTR_ARCHIVE) ∧
    (fs_fat_readdir 300 libc_signed vfs_floppy_dir 0).map Prod.fst = some false ∧
    (vfs_floppy_dir_read.fh 0).cluster = 0x0FFFFFFF ∧
    (vfs_floppy_dir_read.fh 0).ptr = 224 * 32 ∧
    (fs_fat_readdir 300 libc_signed vfs_floppy_dir_read 0).map Prod.fst = some false := by
  refine ⟨by decide, by decide, by decide, by decide, by decide, by decide, by decide,
    by decide⟩

set_option maxRecDepth 100000 in
/-- C26: `fs_fat_write` shrinks a file that is open write-only.  The file `F` of
`vol_file` has size 5.  After `fs_fat_open` with `O_WRONLY`, `fs_fat_write` of one byte
at the cursor 0 returns 1 and sets the size to 1, in the handle and in the directory
entry, where the maximum of the old size and the end of the write is 5.  With `O_RDWR`
the same write leaves the size 5. -/
theorem fs_fat_write_wronly_shrinks :
    ((vfs_file_open O_WRONLY).fh 0).opened = 1 ∧
    ((vfs_file_open O_WRONLY).fh 0).ptr = 0 ∧
    ((vfs_file_open O_WRONLY).fh 0).dentry.size = 5 ∧
    (fs_fat_write 8 libc_signed (vfs_file_open O_WRONLY) 0 (arr_of [0x58]) 1).map Prod.fst =
      some 1 ∧
    ((vfs_file_written O_WRONLY).fh 0).ptr = 1 ∧
    ((vfs_file_written O_WRONLY).fh 0).dentry.size = 1 ∧
    (fat_get_dentry (vfs_file_written O_WRONLY).d.fs 0x80000005 0 0).2.1.map
        (fun e => (e.name, e.size)) = some (cstr "F          ", 1) ∧
    (fs_fat_write 8 libc_signed (vfs_file_open O_RDWR) 0 (arr_of [0x58]) 1).map Prod.fst =
      some 1 ∧
    ((vfs_file_written O_RDWR).fh 0).dentry.size = 5 := by
  refine ⟨by decide, by decide, by decide, by decide, by decide, by decide, by decide,
    by decide, by decide⟩

set_option maxRecDepth 100000 in
/-- C27: `fs_fat_unlink` removes a file that is open.  After `fs_fat_open` of the file
`F` of `vol_file` (handle 1, first cluster 5), `fs_fat_unlink` of `/F` returns 0 and
leaves `errno` alone; the FAT entry of cluster 5 changes from the end-of-chain mark
`0xFFF` to 0, the first byte of the directory entry changes from "F" to `0xE5`, and the
handle is still open. -/
theorem fs_fat_unlink_open_file :
    (fs_fat_open 8 libc_signed (vfs_of vol_file) (cstr "/F") O_RDONLY).map Prod.fst =
      some (some 1) ∧
    ((vfs_file_open O_RDONLY).fh 0).opened = 1 ∧
    ((vfs_file_open O_RDONLY).fh 0).cluster = 5 ∧
    (fat_read_fat (vfs_file_open O_RDONLY).d.fs 5 0).1 = 0xFFF ∧
    (fat_get_dentry (vfs_file_open O_RDONLY).d.fs 0x80000005 0 0).2.1.map (fun e => e.name) =
      some (cstr "F          ") ∧
    (fs_fat_unlink 8 libc_signed (vfs_file_open O_RDONLY) (cstr "/F")).map Prod.fst = some 0 ∧
    vfs_file_unlinked.errno = 0 ∧
    (vfs_file_unlinked.fh 0).opened = 1 ∧
    (fat_read_fat vfs_file_unlinked.d.fs 5 0).1 = 0 ∧
    (fat_get_dentry vfs_file_unlinked.d.fs 0x80000005 0 0).2.1.map (fun e => e.name) =
      some (0xE5 :: cstr "          ") := by
  refine ⟨by decide, by decide, by decide, by decide, by decide, by decide, by decide,
    by decide, by decide, by decide⟩

set_option maxRecDepth 100000 in
theorem two_byte_bits_split : ∀ a, a < 32 → ∀ b, b < 64 → 0x80 ≤ 64 * a + b →
    (¬ (0xC0 ||| (((64 * a + b) >>> 6) &&& 0x1F)) % 256 ≤ 0x7F ∧
      (0xC0 ||| (((64 * a + b) >>> 6) &&& 0x1F)) % 256 &&& 0xE0 = 0xC0 ∧
      ¬ (0x80 ||| ((64 * a + b) &&& 0x3F)) % 256 &&& 0xC0 ≠ 0x80 ∧
      ((((0xC0 ||| (((64 * a + b) >>> 6) &&& 0x1F)) % 256 &&& 0x1F) <<< 6) |||
        ((0x80 ||| ((64 * a + b) &&& 0x3F)) % 256 &&& 0x3F)) % 65536 = 64 * a + b) := by
  decide

theorem two_byte_bits (u : Nat) (h1 : u < 0x0800) (h2 : 0x80 ≤ u) :
    (¬ (0xC0 ||| ((u >>> 6) &&& 0x1F)) % 256 ≤ 0x7F ∧
      (0xC0 ||| ((u >>> 6) &&& 0x1F)) % 256 &&& 0xE0 = 0xC0 ∧
      ¬ (0x80 ||| (u &&& 0x3F)) % 256 &&& 0xC0 ≠ 0x80 ∧
      ((((0xC0 ||| ((u >>> 6) &&& 0x1F)) % 256 &&& 0x1F) <<< 6) |||
        ((0x80 ||| (u &&& 0x3F)) % 256 &&& 0x3F)) % 65536 = u) := by
  have e : u = 64 * (u / 64) + u % 64 := by omega
  rw [e]
  exact two_byte_bits_split (u / 64) (by omega) (u % 64) (by omega) (by omega)

/-- The round trip of one code unit below 0x0800: `fat_ucs2_to_utf8` writes one byte for
a unit up to 0x7F and two bytes for a unit up to 0x7FF, each followed by the terminator,
and `fat_utf8_to_ucs2` on its output gives the unit back, followed by 0. -/
theorem fat_ucs2_round_trip_below_0x800 (u olen : Nat) (o8 o16 : Nat → Nat)
    (hu : 1 ≤ u) (hu2 : u < 0x0800) (ho : 2 ≤ olen) (ho2 : olen < 2 ^ 32) :
    (fat_ucs2_to_utf8 o8 (arr_of [u]) 4 1).1 = 0 ∧
    (fat_ucs2_to_utf8 o8 (arr_of [u]) 4 1).2 (if u ≤ 0x7F then 1 else 2) = 0 ∧
    ∃ o, fat_utf8_to_ucs2 o16 (fat_ucs2_to_utf8 o8 (arr_of [u]) 4 1).2 olen
        (if u ≤ 0x7F then 1 else 2) = some (0, o) ∧ o 0 = u ∧ o 1 = 0 := by
  have e0 : ld16 (arr_of [u]) 0 = u := by
    simp only [ld16, arr_of, List.getD_cons_zero]; omega
  have c1 : ∀ n, 0 < n → ((0 : Nat) < n ∧ 0 < u32 (olen + (2 ^ 32 - 1))) := by
    intro n hn
    refine ⟨hn, ?_⟩
    simp only [u32]; omega
  by_cases h1 : u ≤ 0x7F
  · have enc : fat_ucs2_to_utf8 o8 (arr_of [u]) 4 1 = ((0 : Int), st8 (st8 o8 0 u) 1 0) := by
      simp only [fat_ucs2_to_utf8, fat_ucs2_to_utf8_loop, e0, if_pos h1]
      rfl
    have b0 : ld8 (st8 (st8 o8 0 u) 1 0) 0 = u := by
      simp only [ld8, st8]; simp; omega
    have c2 : ¬ ((0 : Nat) + 1 < 1 ∧ 0 + 1 < u32 (olen + (2 ^ 32 - 1))) := by
      intro h; exact absurd h.1 (by decide)
    rw [enc, if_pos h1]
    refine ⟨rfl, by simp [st8], st16 (st16 o16 0 u) 1 0, ?_, ?_, ?_⟩
    · simp only [fat_utf8_to_ucs2, fat_utf8_to_ucs2_loop, if_pos (c1 1 (by decide)), b0,
        if_pos h1, if_neg c2]
    · simp only [st16]; simp; omega
    · simp [st16]
  · obtain ⟨t1, t2, t3, t4⟩ := two_byte_bits u hu2 (by omega)
    have h2 : u ≤ 0x7FF := by omega
    have enc : fat_ucs2_to_utf8 o8 (arr_of [u]) 4 1 =
        ((0 : Int), st8 (st8 (st8 o8 0 (0xC0 ||| ((u >>> 6) &&& 0x1F))) 1
          (0x80 ||| (u &&& 0x3F))) 2 0) := by
      simp only [fat_ucs2_to_utf8, fat_ucs2_to_utf8_loop, e0, if_neg h1, if_pos h2]
      rfl
    have b0 : ld8 (st8 (st8 (st8 o8 0 (0xC0 ||| ((u >>> 6) &&& 0x1F))) 1
          (0x80 ||| (u &&& 0x3F))) 2 0) 0 = (0xC0 ||| ((u >>> 6) &&& 0x1F)) % 256 := by
      simp [ld8, st8]
    have b1 : ld8 (st8 (st8 (st8 o8 0 (0xC0 ||| ((u >>> 6) &&& 0x1F))) 1
          (0x80 ||| (u &&& 0x3F))) 2 0) (0 + 1) = (0x80 ||| (u &&& 0x3F)) % 256 := by
      simp [ld8, st8]
    have c2 : ¬ ((0 : Nat) + 2 < 2 ∧ 0 + 1 < u32 (olen + (2 ^ 32 - 1))) := by
      intro h; exact absurd h.1 (by decide)
    have c3 : ¬ (2 : Nat) < 0 + 2 := by decide
    rw [enc, if_neg h1]
    refine ⟨rfl, by simp [st8],
      st16 (st16 o16 0 ((((0xC0 ||| ((u >>> 6) &&& 0x1F)) % 256 &&& 0x1F) <<< 6) |||
        ((0x80 ||| (u &&& 0x3F)) % 256 &&& 0x3F))) 1 0, ?_, ?_, ?_⟩
    · simp only [fat_utf8_to_ucs2, fat_utf8_to_ucs2_loop, if_pos (c1 2 (by decide)), b0, b1,
        if_neg t1, if_pos t2, if_neg c3, if_neg t3, if_neg c2]
    · simp only [st16]
      simp only [if_true]
      exact t4
    · simp [st16]

set_option maxRecDepth 100000 in
/-- The truncating `fs_fat_open` of `/F` on `mnt_file3` succeeds and leaves the cluster
cache and the FAT cache in the state `file3_truncated` that the sequence of engine calls
gives: the same pointer arrays, and the same flags, block numbers and first 32 bytes in
the records. -/
theorem fs_fat_open_trunc_engine_calls :
    (fs_fat_open 8 libc_signed vfs_mnt3 (cstr "/F") (O_WRONLY ||| O_TRUNC)).map Prod.fst =
      some (some 1) ∧
    ∀ i, i < 8 →
      vfs_mnt3_open.d.fs.bcache i = file3_truncated.bcache i ∧
      vfs_mnt3_open.d.fs.fcache i = file3_truncated.fcache i ∧
      (vfs_mnt3_open.d.fs.mem i).flags = (file3_truncated.mem i).flags ∧
      (vfs_mnt3_open.d.fs.mem i).block = (file3_truncated.mem i).block ∧
      (vfs_mnt3_open.d.fs.mem (8 + i)).flags = (file3_truncated.mem (8 + i)).flags ∧
      (vfs_mnt3_open.d.fs.mem (8 + i)).block = (file3_truncated.mem (8 + i)).block ∧
      ∀ k, k < 32 →
        (vfs_mnt3_open.d.fs.mem i).data k = (file3_truncated.mem i).data k ∧
        (vfs_mnt3_open.d.fs.mem (8 + i)).data k = (file3_truncated.mem (8 + i)).data k := by
  decide

/-! ## C34: `dirname` -/

/-- The test vectors of the unit test of `dirname` other than "/": each gives the POSIX
result. -/
theorem dirname_test_vectors :
    dirname none = cstr "." ∧
    dirname (some (cstr "usr")) = cstr "." ∧
    dirname (some (cstr "usr/")) = cstr "." ∧
    dirname (some (cstr "usr//")) = cstr "." ∧
    dirname (some (cstr "")) = cstr "." ∧
    dirname (some (cstr "//")) = cstr "/" ∧
    dirname (some (cstr "///")) = cstr "/" ∧
    dirname (some (cstr "/usr/")) = cstr "/" ∧
    dirname (some (cstr "usr/lib")) = cstr "usr" ∧
    dirname (some (cstr "/usr/lib")) = cstr "/usr" ∧
    dirname (some (cstr "/usr/lib/")) = cstr "/usr" ∧
    dirname (some (cstr "//usr//lib//")) = cstr "//usr" ∧
    dirname (some (cstr "//usr//lib///")) = cstr "//usr" ∧
    dirname (some (cstr "///usr///lib///")) = cstr "///usr" ∧
    dirname (some (cstr "//home//dwc//test")) = cstr "//home//dwc" := by
  decide

theorem replicate_slash_getD (n i : Nat) :
    (List.replicate n 47).getD i 0 = 47 ∨ (List.replicate n 47).getD i 0 = 0 := by
  by_cases h : i < n
  · left
    rw [List.getD_eq_getElem _ _ (by simpa using h)]
    simp
  · right
    rw [List.getD_eq_default _ _ (by simpa using h)]

theorem dirname_scan_slashes (n : Nat) : ∀ fuel i,
    dirname_scan (List.replicate n 47) fuel i 0 = 0
  | 0, _ => rfl
  | fuel + 1, i => by
    unfold dirname_scan
    split_ifs with h1 h2 h3 h4
    · rfl
    · rfl
    · rcases replicate_slash_getD n (i + 1) with e | e
      · exact absurd e h4
      · exact absurd e h3
    · exact dirname_scan_slashes n fuel (i + 1)
    · exact dirname_scan_slashes n fuel (i + 1)

/-- A path of two or more '/' characters and nothing else gives "/". -/
theorem dirname_all_slashes (n : Nat) (h : 2 ≤ n) :
    dirname (some (List.replicate n 47)) = cstr "/" := by
  obtain ⟨m, rfl⟩ : ∃ m, n = m + 2 := ⟨n - 2, by omega⟩
  unfold dirname
  simp only [dirname_scan_slashes]
  simp [List.replicate_succ]

/-- C34 fails on the code for the path "/": the scan leaves `last == path`, and the test
`path[1] == '/'` reads the terminator, so `dirname` returns "." where POSIX and the
unit test expect "/".  This is also the one path of only '/' characters that does not
give "/". -/
theorem dirname_root_gives_dot :
    dirname (some (cstr "/")) = cstr "." ∧ dirname (some (cstr "/")) ≠ cstr "/" ∧
    cstr "/" = List.replicate 1 47 ∧
    dirname (some (List.replicate 2 47)) = cstr "/" := by
  decide

/-! ## C35: `fat_write_fat` on a FAT12 entry that spans two sectors -/

set_option maxRecDepth 100000 in
/-- C35 fails on the code: on the FAT12 floppy volume `vol_floppy_span` (512-byte sectors)
the entry of the even cluster 682 starts at FAT byte offset 1023, the last byte of a
sector, so the assumption of the branch for an entry that spans two sectors, that the
cluster number is odd, does not hold.  Before the write the entries 681, 682 and 683
decode as 0, `0x3AB` and `0x123`.  `fat_write_fat` of `0xABC` to cluster 682 returns 0
and stores as for an odd cluster: it overwrites all of FAT byte 1024, whose high half
belongs to cluster 683, and afterwards the entry of cluster 683 decodes as `0x12A`. -/
theorem fat_write_fat_even_span_clobbers_neighbour :
    vol_floppy_span.sb.fs_type = FAT_FS_FAT12 ∧
    vol_floppy_span.sb.bytes_per_sector = 512 ∧
    682 % 2 = 0 ∧ (682 + 682 / 2) % 512 = 511 ∧
    (fat_read_fat vol_floppy_span 681 0).1 = 0 ∧
    (fat_read_fat vol_floppy_span 683 0).1 = 0x123 ∧
    fat12_reference vol_floppy_span 683 = 0x123 ∧
    (fat_write_fat vol_floppy_span 682 0xABC).1 = 0 ∧
    (fat_read_fat (fat_write_fat vol_floppy_span 682 0xABC).2 681 0).1 = 0 ∧
    (fat_read_fat (fat_write_fat vol_floppy_span 682 0xABC).2 683 0).1 = 0x12A := by
  decide!

/-! ## C36: `fat_get_free_dentry` growing a directory -/

set_option maxRecDepth 100000 in
/-- C36 fails on the code when the end-of-directory marker is found in a cluster other
than the first.  On the FAT16 volume `vol16_dir` the directory is the chain
2 -> 3 -> EOC, cluster 4 is free, and the marker is the last record of cluster 3
(offset 480), so a run of two records needs a new cluster.  `fat_get_free_dentry` for
two records returns 0 with the slot at cluster 3, offset 480.  It allocates cluster 4
and zero-fills it, but links it with `fat_write_fat(fs, old, j)` where `old` is still
cluster 2, the cluster before the one in which the marker was found: afterwards the
chain from cluster 2 is 2 -> 4 -> EOC, and cluster 3, which holds the returned slot, is
no longer reachable from cluster 2. -/
theorem fat_get_free_dentry_unlinks_last_cluster :
    vol16_dir.sb.fs_type = FAT_FS_FAT16 ∧
    chain_from vol16_dir 2 [2, 3] ∧
    (fat_read_fat vol16_dir 4 0).1 = FAT_FREE_CLUSTER ∧
    cluster_byte vol16_dir 3 448 = some 0x58 ∧
    cluster_byte vol16_dir 3 480 = some FAT_ENTRY_EOD ∧
    (fat_get_free_dentry 8 vol16_dir 2 2 0).map Prod.fst = some 0 ∧
    (fat_get_free_dentry 8 vol16_dir 2 2 0).map (fun r => r.2.1.map (fun o => (o.1, o.2.1))) =
      some (some (3, 480)) ∧
    (fat_get_free_dentry 8 vol16_dir 2 2 0).map
      (fun r => ((fat_read_fat r.2.2 2 0).1, (fat_read_fat r.2.2 3 0).1,
        (fat_read_fat r.2.2 4 0).1)) = some (4, 0xFFFF, 0xFFFF) ∧
    (fat_get_free_dentry 8 vol16_dir 2 2 0).map
      (fun r => (decide (chain_from r.2.2 2 [2, 4]), decide (chain_from r.2.2 2 [2, 3, 4]))) =
      some (true, false) ∧
    (fat_get_free_dentry 8 vol16_dir 2 2 0).map
      (fun r => (cluster_byte r.2.2 4 0, cluster_byte r.2.2 4 511)) = some (some 0, some 0) := by
  decide

/-! ## C37: `fat_erase_dentry` at the position reported by `fat_find_dentry` -/

set_option maxRecDepth 100000 in
/-- With the position of the short record, cluster 2 and offset 64, `fat_erase_dentry`
marks the record of `F` in the directory `D` of `dev_subdir` as free, leaves the rest of
the record, the records before it and the data of the file alone, and marks the cluster
as dirty. -/
theorem fat_erase_dentry_at_record :
    (fat_erase_dentry 8 dir_subdir.fs 2 64 0 0 0).map Prod.fst = some 0 ∧
    (fat_erase_dentry 8 dir_subdir.fs 2 64 0 0 0).map
      (fun r => (cluster_byte r.2 2 64, cluster_byte r.2 2 65)) = some (some 0xE5, some 0x20) ∧
    (fat_erase_dentry 8 dir_subdir.fs 2 64 0 0 0).map
      (fun r => (cluster_byte r.2 2 0, cluster_byte r.2 2 32)) = some (some 0x2E, some 0x2E) ∧
    (fat_erase_dentry 8 dir_subdir.fs 2 64 0 0 0).map
      (fun r => (cluster_byte r.2 5 64, cluster_dirty r.2 2)) = some (some 0, true) := by
  decide

set_option maxRecDepth 100000 in
/-- C37 fails on the code for an entry that `fat_find_dentry` locates through a path of
two components.  On `dev_subdir` the short record of `/D/F` is at offset 64 of
cluster 2, the first cluster of the directory `D`.  `fat_find_dentry` of "/D/F" returns 0
but reports cluster 5, the first data cluster of the file itself, with offset 64 (after
the search its loop assigns the start cluster of the entry found to `cl`).
`fat_erase_dentry` at that position returns 0, leaves the record of `F` as it was
(`name[0]` is still 'F'), and stores `0xE5` at offset 64 of the file's data cluster,
which is the cluster it marks as dirty.  For the path "/D" of one component the reported
position is that of the record, offset 0 of the root directory sector 5. -/
theorem fat_erase_dentry_misses_nested_record :
    cluster_byte dir_subdir.fs 2 64 = some 0x46 ∧
    cluster_byte dir_subdir.fs 5 64 = some 0 ∧
    (fat_find_dentry 8 libc_signed dir_subdir (cstr "/D/F") 0).map Prod.fst = some 0 ∧
    (fat_find_dentry 8 libc_signed dir_subdir (cstr "/D/F") 0).map
      (fun r => r.2.1.map (fun l => (l.rv.name, l.rcl, l.roff))) =
      some (some (cstr "F          ", 5, 64)) ∧
    (fat_find_dentry 8 libc_signed dir_subdir (cstr "/D/F") 0).map
      (fun r => r.2.1.map (fun l => (l.rlcl, l.rloff))) = some (some (0, 0)) ∧
    (find_and_erase 8 libc_signed dir_subdir (cstr "/D/F")).map Prod.fst = some 0 ∧
    (find_and_erase 8 libc_signed dir_subdir (cstr "/D/F")).map
      (fun r => (cluster_byte r.2 2 64, cluster_byte r.2 5 64)) = some (some 0x46, some 0xE5) ∧
    (find_and_erase 8 libc_signed dir_subdir (cstr "/D/F")).map
      (fun r => (cluster_dirty r.2 2, cluster_dirty r.2 5)) = some (false, true) ∧
    (fat_find_dentry 8 libc_signed dir_subdir (cstr "/D") 0).map
      (fun r => r.2.1.map (fun l => (l.rv.name, l.rcl, l.roff))) =
      some (some (cstr "D          ", 0x80000005, 0)) := by
  decide

/-! ## C38: `fs_fat_read` after a seek -/

set_option maxRecDepth 100000 in
/-- C38 fails on the code after a read that ends at the end of a file whose size is a
multiple of the cluster size.  The file `F` of `dev_file512` has 512 bytes, one cluster
of the volume, on the well-formed chain 5 -> EOC, and starts with "hello".  A read of 512
bytes through the open handle returns 512 with those bytes; as the read ends at the end
of the cluster, `fs_fat_read` stores the end-of-chain value `0xFFF` in `fh[fd].cluster`.
The seek to position 0 returns 0.  The following read of 5 bytes tests
`fat_is_eof(fs, fh[fd].cluster)` before it looks at the seek flag, and returns 0 without
copying anything, although the position 0 is below the size 512.  After a read of 100
bytes instead of 512, the same seek and read return the 5 bytes "hello". -/
theorem fs_fat_read_after_full_read_and_seek :
    (vfs_file512.fh 0).opened = 1 ∧ (vfs_file512.fh 0).dentry.size = 512 ∧
    u32 (vfs_file512.d.fs.sb.bytes_per_sector * vfs_file512.d.fs.sb.sectors_per_cluster) = 512 ∧
    chain_from vfs_file512.d.fs (dentry_cluster (vfs_file512.fh 0).dentry) [5] ∧
    (fs_fat_read 8 vfs_file512 0 (fun _ => 0) 512).map
      (fun r => (r.1, (List.range 5).map r.2.1)) = some (512, cstr "hello") ∧
    ((after_read vfs_file512 512).fh 0).cluster = 0xFFF ∧
    (fs_fat_seek64 (after_read vfs_file512 512) 0 0 SEEK_SET).1 = 0 ∧
    ((fs_fat_seek64 (after_read vfs_file512 512) 0 0 SEEK_SET).2.fh 0).ptr = 0 ∧
    (fs_fat_read 8 (fs_fat_seek64 (after_read vfs_file512 512) 0 0 SEEK_SET).2 0 (fun _ => 0)
      5).map (fun r => (r.1, (List.range 5).map r.2.1)) = some (0, [0, 0, 0, 0, 0]) ∧
    (fs_fat_read 8 (fs_fat_seek64 (after_read vfs_file512 100) 0 0 SEEK_SET).2 0 (fun _ => 0)
      5).map (fun r => (r.1, (List.range 5).map r.2.1)) = some (5, cstr "hello") := by
  decide

/-! ## `fs_ext2_symlink`: the blocks of a link target -/

theorem last_i_size_append (inode : Nat) (a b : List ext2_op) :
    last_i_size inode (a ++ b) = b.foldl (i_size_step inode) (last_i_size inode a) := by
  unfold last_i_size
  rw [List.foldl_append]

theorem alloc_indices_append (a b : List ext2_op) :
    alloc_indices (a ++ b) = alloc_indices a ++ alloc_indices b := by
  induction a with
  | nil => rfl
  | cons x xs ih => cases x <;> simp [alloc_indices, ih]

theorem block_bytes_append (a b : List ext2_op) :
    block_bytes (a ++ b) = block_bytes a ++ block_bytes b := by
  induction a with
  | nil => rfl
  | cons x xs ih => cases x <;> simp [block_bytes, ih]

theorem mutex_held_append (a b : List ext2_op) (f : Bool) :
    mutex_held (a ++ b) f = mutex_held b (mutex_held a f) := by
  induction a generalizing f with
  | nil => rfl
  | cons x xs ih => cases x <;> simp [mutex_held, ih]

theorem ceil_div_lt {n bs : Nat} (hn : 0 < n) (hlt : n < bs) : (n + bs - 1) / bs = 1 := by
  have h1 : (n + bs - 1) / bs < 2 := Nat.div_lt_of_lt_mul (by omega)
  have h2 : 1 ≤ (n + bs - 1) / bs := (Nat.one_le_div_iff (by omega)).mpr (by omega)
  omega

theorem ceil_div_step {n bs : Nat} (hbs : 0 < bs) (hge : bs ≤ n) :
    (n + bs - 1) / bs = (n - bs + bs - 1) / bs + 1 := by
  have e : n + bs - 1 = (n - bs + bs - 1) + bs := by omega
  rw [e, Nat.add_div_right _ hbs]

/-- The loop `while(len)` of `fs_ext2_symlink` when the engine keeps `i_size` as stored
and the block allocations succeed: entered with `i_size = k * block_size`, it calls
`ext2_inode_alloc_block` for the logical blocks `k`, `k + 1`, ... once each, one for
every started block of the remaining bytes, copies those bytes in order, and leaves
`i_size` increased by their number.  Only the allocations of the logical blocks below
`N` need to succeed. -/
theorem fs_ext2_symlink_loop_spec (E : ext2_io_env) (pinode inode inode_num : Nat)
    (h3 : List ext2_op) (hbs : E.block_size = 2 ^ E.log_block_size)
    (hsz : ∀ t, E.i_size (h3 ++ t) inode = last_i_size inode t)
    (N : Nat) (hblk : ∀ hh blk, blk < N → (E.inode_alloc_block hh inode blk).1.isSome = true) :
    ∀ (fuel : Nat) (rest : List Nat) (rv : Int) (t : List ext2_op) (k : Nat),
      rest.length < fuel → last_i_size inode t = k * E.block_size →
      k * E.block_size + rest.length < 2 ^ 32 →
      k + (rest.length + E.block_size - 1) / E.block_size ≤ N →
      ∃ t', fs_ext2_symlink_loop E pinode inode inode_num fuel rest rv (h3 ++ t) =
          some (Sum.inr (), h3 ++ (t ++ t')) ∧
        alloc_indices t' =
          List.range' k ((rest.length + E.block_size - 1) / E.block_size) ∧
        block_bytes t' = rest ∧
        last_i_size inode (t ++ t') = k * E.block_size + rest.length ∧
        ∀ b, mutex_held t' b = b := by
  have hpos : 0 < E.block_size := by rw [hbs]; exact Nat.pow_pos (by decide)
  intro fuel
  induction fuel with
  | zero => intro rest rv t k hf; exact absurd hf (Nat.not_lt_zero _)
  | succ fuel ih =>
    intro rest rv t k hf hk hlt hN
    unfold fs_ext2_symlink_loop
    by_cases hr : rest.length = 0
    · rw [if_pos hr]
      refine ⟨[], by simp, ?_, ?_, ?_, fun _ => rfl⟩
      · rw [hr, Nat.zero_add, Nat.div_eq_of_lt (by omega)]
        rfl
      · simp only [block_bytes]
        exact (List.length_eq_zero.mp hr).symm
      · simp [hk, hr]
    · rw [if_neg hr]
      have hklt : k < 2 ^ 32 := by
        have : k * 1 ≤ k * E.block_size := Nat.mul_le_mul_left k hpos
        omega
      have hidx : u32 (E.i_size (h3 ++ t) inode >>> E.log_block_size) = k := by
        rw [hsz, hk, hbs, Nat.shiftRight_eq_div_pow, Nat.mul_div_cancel _ (Nat.pow_pos (by decide))]
        exact Nat.mod_eq_of_lt hklt
      rw [hidx]
      have hkN : k < N := by
        have : 1 ≤ (rest.length + E.block_size - 1) / E.block_size :=
          (Nat.one_le_div_iff hpos).mpr (by omega)
        omega
      have hb := hblk (h3 ++ t) k hkN
      cases hres : E.inode_alloc_block (h3 ++ t) inode k with
      | mk o w =>
        rw [hres] at hb
        cases o with
        | none => cases hb
        | some block =>
          simp only
          by_cases hge : rest.length ≥ E.block_size
          · rw [if_pos hge]
            have e1 : E.i_size (h3 ++ t ++ [ext2_op.inode_alloc_block inode k,
                ext2_op.memcpy_block block 0 (List.take E.block_size rest)]) inode =
                k * E.block_size := by
              rw [List.append_assoc, hsz, last_i_size_append, hk]
              rfl
            rw [e1]
            have e2 : u32 (k * E.block_size + E.block_size) = (k + 1) * E.block_size := by
              rw [Nat.add_mul, Nat.one_mul]
              exact Nat.mod_eq_of_lt (by omega)
            rw [e2, List.append_assoc]
            have hlen : (List.drop E.block_size rest).length = rest.length - E.block_size :=
              List.length_drop _ _
            obtain ⟨t', hrun, ha, hbb, hl, hm⟩ := ih (List.drop E.block_size rest) (w.getD rv)
              (t ++ [ext2_op.inode_alloc_block inode k,
                ext2_op.memcpy_block block 0 (List.take E.block_size rest),
                ext2_op.i_size_store inode ((k + 1) * E.block_size)]) (k + 1)
              (by rw [hlen]; omega)
              (by rw [last_i_size_append]; simp [i_size_step])
              (by rw [hlen, Nat.add_mul, Nat.one_mul]; omega)
              (by rw [hlen]; rw [ceil_div_step hpos hge] at hN; omega)
            refine ⟨[ext2_op.inode_alloc_block inode k,
                ext2_op.memcpy_block block 0 (List.take E.block_size rest),
                ext2_op.i_size_store inode ((k + 1) * E.block_size)] ++ t', ?_, ?_, ?_, ?_, ?_⟩
            · rw [hrun]
              simp only [List.append_assoc]
            · rw [alloc_indices_append, ha, hlen, ceil_div_step hpos hge]
              simp only [alloc_indices, List.range'_succ, List.cons_append, List.nil_append]
            · rw [block_bytes_append, hbb]
              simp only [block_bytes, List.append_nil, List.take_append_drop]
            · rw [← List.append_assoc, hl, hlen, Nat.add_mul, Nat.one_mul]
              omega
            · intro b
              rw [mutex_held_append, hm]
              rfl
          · rw [if_neg hge]
            have hlt' : rest.length < E.block_size := Nat.lt_of_not_le hge
            have e1 : E.i_size (h3 ++ t ++ [ext2_op.inode_alloc_block inode k,
                ext2_op.memcpy_block block 0 rest,
                ext2_op.memset_block block rest.length (E.block_size - rest.length)]) inode =
                k * E.block_size := by
              rw [List.append_assoc, hsz, last_i_size_append, hk]
              rfl
            rw [e1]
            have e2 : u32 (k * E.block_size + rest.length) = k * E.block_size + rest.length :=
              Nat.mod_eq_of_lt hlt
            rw [e2, List.append_assoc]
            refine ⟨_, rfl, ?_, ?_, ?_, fun _ => rfl⟩
            · rw [ceil_div_lt (Nat.pos_of_ne_zero hr) hlt']
              rfl
            · simp [block_bytes]
            · rw [last_i_size_append]
              simp [i_size_step]

/-! ## C31: `fs_ext2_symlink` -/

theorem fs_ext2_symlink_fill_quiet (E : ext2_io_env) (pinode inode : Nat) (now : Int)
    (h : List ext2_op) :
    last_i_size inode (fs_ext2_symlink_fill E pinode inode now h) = 0 ∧
    alloc_indices (fs_ext2_symlink_fill E pinode inode now h) = [] ∧
    block_bytes (fs_ext2_symlink_fill E pinode inode now h) = [] ∧
    ∀ b, mutex_held (fs_ext2_symlink_fill E pinode inode now h) b = b :=
  ⟨rfl, rfl, rfl, fun _ => rfl⟩

/-- C31: the contract of `fs_ext2_symlink` on a read-write mount for a target `p1` of `L`
bytes.  For `L >= 4096` it fails with `ENAMETOOLONG` before it takes the mutex.  For
`L < 4096`, when the parent directory of the new name is found and is a directory, the
name is new, the inode allocation gives an inode whose `i_size` reads 0 and afterwards
reads as last stored, the allocations of the first `ceil(L / block_size)` logical blocks
succeed and the entry can be added, it
returns 0 with the mutex released and `i_size = L`.  In that case, for `L <= 59` it
calls `ext2_inode_alloc_block` not at all and stores the target, padded with zero bytes
to 60 bytes, in `i_block`; for `L >= 60` it calls `ext2_inode_alloc_block` for the
logical blocks 0, 1, ... in this order, `ceil(L / block_size)` times, and the bytes that
it copies into the blocks are, in order, the bytes of the target. -/
theorem fs_ext2_symlink_contract (E : ext2_io_env) (mount_flags : Nat) (now : Int)
    (p1 p2 cp nd : List Nat) (errno : Int) (h : List ext2_op)
    (pinode pinode_num inode inode_num : Nat) (w : Option Int)
    (hrw : mount_flags &&& FS_EXT2_MOUNT_READWRITE ≠ 0)
    (hbs : E.block_size = 2 ^ E.log_block_size)
    (hp2 : strrchr_split 47 p2 = some (cp, nd))
    (hpar : E.inode_by_path (h ++ [ext2_op.mutex_lock]) cp 1 = (0, pinode, pinode_num))
    (hdir : E.i_mode (h ++ [ext2_op.mutex_lock, ext2_op.inode_by_path cp 1]) pinode &&& 0xF000 =
      EXT2_S_IFDIR)
    (hnew : E.dir_entry (h ++ [ext2_op.mutex_lock, ext2_op.inode_by_path cp 1]) pinode nd = none)
    (halloc : E.inode_alloc
      (h ++ [ext2_op.mutex_lock, ext2_op.inode_by_path cp 1] ++ [ext2_op.dir_entry pinode nd])
      pinode_num = (some inode, w, inode_num))
    (hsz : ∀ t, E.i_size
      (h ++ [ext2_op.mutex_lock, ext2_op.inode_by_path cp 1] ++ [ext2_op.dir_entry pinode nd] ++
        [ext2_op.inode_alloc pinode_num] ++ t) inode = last_i_size inode t)
    (hblk : ∀ hh blk, blk < (p1.length + E.block_size - 1) / E.block_size →
      (E.inode_alloc_block hh inode blk).1.isSome = true)
    (hadd : ∀ hh, E.dir_add_entry hh pinode nd inode_num inode = 0) :
    (4096 ≤ p1.length →
      fs_ext2_symlink E mount_flags now (some p1) (some p2) errno h =
        some (-1, ENAMETOOLONG, h)) ∧
    (p1.length < 4096 →
      ∃ T, fs_ext2_symlink E mount_flags now (some p1) (some p2) errno h =
          some (0, errno, h ++ T) ∧
        mutex_held T false = false ∧
        last_i_size inode T = p1.length ∧
        (p1.length ≤ 59 → alloc_indices T = [] ∧
          ext2_op.i_block_store inode (p1 ++ List.replicate (60 - p1.length) 0) ∈ T) ∧
        (60 ≤ p1.length →
          alloc_indices T = List.range ((p1.length + E.block_size - 1) / E.block_size) ∧
          block_bytes T = p1)) := by
  have hp2ne : p2 ≠ [] := by
    intro e
    rw [e] at hp2
    cases hp2
  constructor
  · intro hlong
    unfold fs_ext2_symlink
    rw [if_neg (fun e => hrw e)]
    simp only
    rw [if_pos hlong]
  · intro hlen
    unfold fs_ext2_symlink
    rw [if_neg (fun e => hrw e)]
    simp only
    rw [if_neg (by omega), if_neg hp2ne, hp2]
    simp only [hpar, ne_eq, not_true_eq_false, if_false, hdir, hnew, Option.isSome_none,
      Bool.false_eq_true, halloc]
    obtain ⟨q0, q1, q2, q3⟩ := fs_ext2_symlink_fill_quiet E pinode inode now
      (h ++ [ext2_op.mutex_lock, ext2_op.inode_by_path cp 1] ++ [ext2_op.dir_entry pinode nd] ++
        [ext2_op.inode_alloc pinode_num])
    by_cases hfast : p1.length < 60
    · simp only [fs_ext2_symlink_store, if_pos hfast, hadd, ne_eq, not_true_eq_false, if_false]
      generalize fs_ext2_symlink_fill E pinode inode now
        (h ++ [ext2_op.mutex_lock, ext2_op.inode_by_path cp 1] ++
          [ext2_op.dir_entry pinode nd] ++ [ext2_op.inode_alloc pinode_num]) = F
        at q0 q1 q2 q3 ⊢
      refine ⟨[ext2_op.mutex_lock, ext2_op.inode_by_path cp 1, ext2_op.dir_entry pinode nd,
          ext2_op.inode_alloc pinode_num] ++ (F ++
          ([ext2_op.i_block_store inode (p1 ++ List.replicate (60 - p1.length) 0),
            ext2_op.i_size_store inode (u32 p1.length)] ++
          [ext2_op.dir_add_entry pinode nd inode_num inode, ext2_op.mtime_store pinode now,
            ext2_op.inode_mark_dirty pinode, ext2_op.inode_mark_dirty inode,
            ext2_op.inode_put pinode, ext2_op.inode_put inode, ext2_op.mutex_unlock])),
        by simp only [List.append_assoc, List.cons_append, List.nil_append], ?_, ?_, ?_, ?_⟩
      · rw [mutex_held_append, mutex_held_append, q3]
        rfl
      · unfold last_i_size at q0 ⊢
        rw [List.foldl_append, List.foldl_append]
        simp only [List.foldl_cons, List.foldl_nil, i_size_step, q0, List.cons_append,
          List.nil_append, if_true, u32]
        exact Nat.mod_eq_of_lt (by omega)
      · intro _
        constructor
        · rw [alloc_indices_append, alloc_indices_append, q1]
          rfl
        · simp
      · intro h60
        omega
    · have h60 : 60 ≤ p1.length := Nat.le_of_not_lt hfast
      simp only [fs_ext2_symlink_store, if_neg hfast]
      obtain ⟨t', hrun, ha, hbb, hl, hm⟩ := fs_ext2_symlink_loop_spec E pinode inode inode_num
        (h ++ [ext2_op.mutex_lock, ext2_op.inode_by_path cp 1] ++ [ext2_op.dir_entry pinode nd] ++
          [ext2_op.inode_alloc pinode_num]) hbs hsz _ hblk (p1.length + 1) p1 (w.getD 0)
        (fs_ext2_symlink_fill E pinode inode now
          (h ++ [ext2_op.mutex_lock, ext2_op.inode_by_path cp 1] ++
            [ext2_op.dir_entry pinode nd] ++ [ext2_op.inode_alloc pinode_num])) 0
        (Nat.lt_succ_self _) (by rw [q0, Nat.zero_mul]) (by omega) (by omega)
      rw [hrun]
      simp only [hadd, ne_eq, not_true_eq_false, if_false]
      rw [Nat.zero_mul, Nat.zero_add] at hl
      generalize fs_ext2_symlink_fill E pinode inode now
        (h ++ [ext2_op.mutex_lock, ext2_op.inode_by_path cp 1] ++
          [ext2_op.dir_entry pinode nd] ++ [ext2_op.inode_alloc pinode_num]) = F
        at q0 q1 q2 q3 hl ⊢
      refine ⟨[ext2_op.mutex_lock, ext2_op.inode_by_path cp 1, ext2_op.dir_entry pinode nd,
          ext2_op.inode_alloc pinode_num] ++ ((F ++ t') ++
          [ext2_op.dir_add_entry pinode nd inode_num inode, ext2_op.mtime_store pinode now,
            ext2_op.inode_mark_dirty pinode, ext2_op.inode_mark_dirty inode,
            ext2_op.inode_put pinode, ext2_op.inode_put inode, ext2_op.mutex_unlock]),
        by simp only [List.append_assoc, List.cons_append, List.nil_append], ?_, ?_, ?_, ?_⟩
      · rw [mutex_held_append, mutex_held_append, mutex_held_append, q3, hm]
        rfl
      · unfold last_i_size at hl ⊢
        rw [List.foldl_append, List.foldl_append]
        simp only [List.foldl_cons, List.foldl_nil, i_size_step, hl]
      · intro h59
        omega
      · intro _
        constructor
        · rw [alloc_indices_append, alloc_indices_append, alloc_indices_append, q1, ha,
            List.range_eq_range']
          simp [alloc_indices]
        · rw [block_bytes_append, block_bytes_append, block_bytes_append, q2, hbb]
          simp [block_bytes]

theorem io_env_alloc_first (hh : List ext2_op) (inode blk : Nat) (hb : blk < 1) :
    ((io_env 0 0 1).inode_alloc_block hh inode blk).1.isSome = true := by
  have e : blk = 0 := by omega
  subst e
  rfl

theorem fs_ext2_symlink_contract_witness :
    (∃ T, fs_ext2_symlink (io_env 0 0 1) 1 77 (some (List.replicate 100 65)) (some (cstr "/s1"))
        0 [] = some (0, 0, [] ++ T) ∧
      mutex_held T false = false ∧ last_i_size 200 T = 100 ∧
      alloc_indices T = List.range 1 ∧ block_bytes T = List.replicate 100 65) ∧
    (∃ T, fs_ext2_symlink (io_env 0 0 1) 1 77 (some (List.replicate 59 65)) (some (cstr "/s1"))
        0 [] = some (0, 0, [] ++ T) ∧
      last_i_size 200 T = 59 ∧ alloc_indices T = [] ∧
      ext2_op.i_block_store 200 (List.replicate 59 65 ++ [0]) ∈ T) := by
  have a := (fs_ext2_symlink_contract (io_env 0 0 1) 1 77 (List.replicate 100 65) (cstr "/s1")
    [] (cstr "s1") 0 [] 100 2 200 12 none (by decide) (by decide) (by decide) rfl (by decide)
    rfl rfl (fun _ => rfl) (fun hh blk hb => io_env_alloc_first hh 200 blk hb) (fun _ => rfl)).2
    (by decide)
  have b := (fs_ext2_symlink_contract (io_env 0 0 1) 1 77 (List.replicate 59 65) (cstr "/s1")
    [] (cstr "s1") 0 [] 100 2 200 12 none (by decide) (by decide) (by decide) rfl (by decide)
    rfl rfl (fun _ => rfl) (fun hh blk hb => io_env_alloc_first hh 200 blk hb) (fun _ => rfl)).2
    (by decide)
  obtain ⟨T, h1, h2, h3, -, h5⟩ := a
  obtain ⟨T2, g1, -, g3, g4, -⟩ := b
  exact ⟨⟨T, h1, h2, h3, (h5 (by decide)).1, (h5 (by decide)).2⟩,
    ⟨T2, g1, g3, (g4 (by decide)).1, (g4 (by decide)).2⟩⟩

/-! ## C32: the mutex at the return of the public operations -/

set_option maxRecDepth 100000 in
/-- C32 fails on the code, with `ext2_mutex` as a flag that is not set at entry.
`fs_ext2_symlink` of a target of 100 bytes on an engine whose block allocation fails
returns -1 with `ENOSPC` after `ext2_inode_put` and `ext2_inode_deref`, without
`mutex_unlock`: the flag is set at the return.  The same holds for its return after a
failure of `ext2_dir_add_entry`.  `fs_ext2_rename` of the file `/f` to `/g` on the tree
engine succeeds and returns 0 after a second `mutex_lock` in place of `mutex_unlock`, with
the flag set, and so does its return of -1 after a failure of `int_rename`; its error
return for a missing source releases the mutex.  The successful `fs_ext2_symlink` and
`fs_ext2_stat`, and the failing `fs_ext2_read` of a closed handle return with the flag
not set. -/
theorem fs_ext2_mutex_held_at_return :
    (fs_ext2_symlink (io_env 0 0 0) 1 77 (some (List.replicate 100 65)) (some (cstr "/s1")) 0
      []).map (fun r => (r.1, r.2.1, mutex_held r.2.2 false)) = some (-1, ENOSPC, true) ∧
    (fs_ext2_symlink { io_env 0 0 1 with dir_add_entry := fun _ _ _ _ _ => ENOSPC } 1 77
      (some (List.replicate 100 65)) (some (cstr "/s1")) 0 []).map
      (fun r => (r.1, r.2.1, mutex_held r.2.2 false)) = some (-1, ENOSPC, true) ∧
    (fs_ext2_rename 8 (tree_env true) FS_EXT2_MOUNT_READWRITE (fun _ => 0) (cstr "/f")
      (cstr "/g") 0 []).map (fun r => (r.1, r.2.2.2)) = some (0, true) ∧
    (fs_ext2_rename 8 (tree_env true) FS_EXT2_MOUNT_READWRITE (fun _ => 0) (cstr "/a")
      (cstr "/a/b/x") 0 []).map (fun r => (r.1, r.2.1, r.2.2.2)) = some (-1, EINVAL, true) ∧
    (fs_ext2_rename 8 (tree_env true) FS_EXT2_MOUNT_READWRITE (fun _ => 0) (cstr "/nope")
      (cstr "/g") 0 []).map (fun r => (r.1, r.2.1, r.2.2.2)) = some (-1, ENOENT, false) ∧
    (fs_ext2_symlink (io_env 0 0 1) 1 77 (some (List.replicate 100 65)) (some (cstr "/s1")) 0
      []).map (fun r => (r.1, mutex_held r.2.2 false)) = some (0, false) ∧
    mutex_held (fs_ext2_stat (io_env 0 0 0) (cstr "/s1") 0 0 []).2.2.2 false = false ∧
    (fs_ext2_read (io_env 0 0 0) { inode_num := 0, mode := 0, ptr := 0, inode := 0 } 0 1 0
      []).map (fun r => (r.1, r.2.1, mutex_held r.2.2.2 false)) = some (-1, EBADF, false) := by
  decide

/-! ## C33: the lookup of `fs_ext2_stat` -/

/-- C33, counterexample: `fs_ext2_stat` with the flag `AT_SYMLINK_NOFOLLOW` calls
`ext2_inode_by_path` with the argument `rlink = 2`, not 1, and without the flag with
`rlink = 1`, not a value of 2 or more. -/
theorem fs_ext2_stat_nofollow_passes_two :
    (fs_ext2_stat (io_env 0 0 0) (cstr "/l") AT_SYMLINK_NOFOLLOW 0 []).2.2.2 =
      [ext2_op.mutex_lock, ext2_op.inode_by_path (cstr "/l") 2, ext2_op.inode_put 100,
        ext2_op.mutex_unlock] ∧
    (fs_ext2_stat (io_env 0 0 0) (cstr "/l") 0 0 []).2.2.2 =
      [ext2_op.mutex_lock, ext2_op.inode_by_path (cstr "/l") 1, ext2_op.inode_put 100,
        ext2_op.mutex_unlock] := by
  decide

theorem fs_ext2_symlink_loop_extends (E : ext2_io_env) (pinode inode inode_num : Nat) :
    ∀ (fuel : Nat) (rest : List Nat) (rv : Int) (hh : List ext2_op)
      (r : Sum Int Unit × List ext2_op),
      fs_ext2_symlink_loop E pinode inode inode_num fuel rest rv hh = some r →
      ∃ t, r.2 = hh ++ t := by
  intro fuel
  induction fuel with
  | zero => intro rest rv hh r hr; cases hr
  | succ fuel ih =>
    intro rest rv hh r hr
    unfold fs_ext2_symlink_loop at hr
    split at hr
    · cases hr
      exact ⟨[], by simp⟩
    · split at hr
      · cases hr
        exact ⟨_, rfl⟩
      · split at hr
        · obtain ⟨t, ht⟩ := ih _ _ _ _ hr
          exact ⟨_, by rw [ht, List.append_assoc]⟩
        · cases hr
          exact ⟨_, rfl⟩

theorem fs_ext2_symlink_store_extends (E : ext2_io_env) (pinode inode inode_num : Nat)
    (p1 : List Nat) (rv : Int) (hh : List ext2_op) (r : Sum Int Unit × List ext2_op)
    (hr : fs_ext2_symlink_store E pinode inode inode_num p1 rv hh = some r) :
    ∃ t, r.2 = hh ++ t := by
  unfold fs_ext2_symlink_store at hr
  split at hr
  · cases hr
    exact ⟨_, rfl⟩
  · exact fs_ext2_symlink_loop_extends E pinode inode inode_num _ _ _ _ _ hr

/-- C33, amended: for every engine, path and flag, `fs_ext2_stat` makes one call of
`ext2_inode_by_path`, after `mutex_lock`, with `rlink = 2` when `AT_SYMLINK_NOFOLLOW` is
set and `rlink = 1` when it is not, and no other lookup; when the lookup succeeds it
reports the inode number that the lookup returns and the link count of the inode object
that it returns.  The value 2 is the one that
`fs_ext2_readlink` passes to get at a symbolic link itself, and 1 is the one that
`fs_ext2_symlink` passes for the parent directory of the new link. -/
theorem fs_ext2_stat_rlink (E : ext2_io_env) (path : List Nat) (flag : Nat) (errno : Int)
    (h : List ext2_op) :
    (∃ t, (fs_ext2_stat E path flag errno h).2.2.2 =
        h ++ ext2_op.mutex_lock ::
          ext2_op.inode_by_path path (if flag &&& AT_SYMLINK_NOFOLLOW ≠ 0 then 2 else 1) :: t ∧
      ∀ op ∈ t, ∀ p r, op ≠ ext2_op.inode_by_path p r) ∧
    ((E.inode_by_path (h ++ [ext2_op.mutex_lock]) path
        (if flag &&& AT_SYMLINK_NOFOLLOW ≠ 0 then 2 else 1)).1 = 0 →
      ∃ st, (fs_ext2_stat E path flag errno h).2.2.1 = some st ∧
        st.st_ino = (E.inode_by_path (h ++ [ext2_op.mutex_lock]) path
          (if flag &&& AT_SYMLINK_NOFOLLOW ≠ 0 then 2 else 1)).2.2 ∧
        st.st_nlink =
          E.i_links_count (h ++ [ext2_op.mutex_lock, ext2_op.inode_by_path path
              (if flag &&& AT_SYMLINK_NOFOLLOW ≠ 0 then 2 else 1)])
            (E.inode_by_path (h ++ [ext2_op.mutex_lock]) path
              (if flag &&& AT_SYMLINK_NOFOLLOW ≠ 0 then 2 else 1)).2.1) ∧
    (∃ t, (fs_ext2_readlink E path 64 errno h).2.2 =
      h ++ ext2_op.mutex_lock :: ext2_op.inode_by_path path 2 :: t) ∧
    (∀ now p1 cp nd, strrchr_split 47 path = some (cp, nd) → p1.length < 4096 →
      ∀ r, fs_ext2_symlink E 1 now (some p1) (some path) errno h = some r →
        ∃ t, r.2.2 = h ++ ext2_op.mutex_lock :: ext2_op.inode_by_path cp 1 :: t) := by
  refine ⟨?_, ?_, ?_, ?_⟩
  · unfold fs_ext2_stat
    simp only
    generalize E.inode_by_path (h ++ [ext2_op.mutex_lock]) path
      (if flag &&& AT_SYMLINK_NOFOLLOW ≠ 0 then 2 else 1) = q
    by_cases hok : q.1 = 0
    · refine ⟨[ext2_op.inode_put q.2.1, ext2_op.mutex_unlock], ?_, by simp⟩
      simp only [hok, ne_eq, not_true_eq_false, if_false, List.append_assoc, List.cons_append,
        List.nil_append]
    · refine ⟨[ext2_op.mutex_unlock], ?_, by simp⟩
      simp only [hok, ne_eq, not_false_eq_true, if_true, List.append_assoc, List.cons_append,
        List.nil_append]
  · intro hok
    unfold fs_ext2_stat
    simp only [hok, ne_eq, not_true_eq_false, if_false]
    exact ⟨_, rfl, rfl, rfl⟩
  · unfold fs_ext2_readlink
    simp only
    generalize E.inode_by_path (h ++ [ext2_op.mutex_lock]) path 2 = q
    by_cases hok : q.1 = 0
    · refine ⟨[ext2_op.resolve_symlink q.2.1 64, ext2_op.inode_put q.2.1,
        ext2_op.mutex_unlock], ?_⟩
      simp only [hok, ne_eq, not_true_eq_false, if_false, List.append_assoc, List.cons_append,
        List.nil_append]
      split <;> rfl
    · refine ⟨[ext2_op.mutex_unlock], ?_⟩
      simp only [hok, ne_eq, not_false_eq_true, if_true, List.append_assoc, List.cons_append,
        List.nil_append]
  · intro now p1 cp nd hs hl r hr
    have hne : path ≠ [] := by
      intro e
      rw [e] at hs
      cases hs
    unfold fs_ext2_symlink at hr
    rw [if_neg (by decide)] at hr
    simp only at hr
    rw [if_neg (by omega), if_neg hne, hs] at hr
    simp only at hr
    split at hr
    · cases hr
      simp only [List.append_assoc, List.cons_append, List.nil_append]
      exact ⟨_, rfl⟩
    · split at hr
      · cases hr
        simp only [List.append_assoc, List.cons_append, List.nil_append]
        exact ⟨_, rfl⟩
      · split at hr
        · cases hr
          simp only [List.append_assoc, List.cons_append, List.nil_append]
          exact ⟨_, rfl⟩
        · split at hr
          · cases hr
            simp only [List.append_assoc, List.cons_append, List.nil_append]
            exact ⟨_, rfl⟩
          · split at hr
            · cases hr
            · rename_i heq
              obtain ⟨t, ht⟩ := fs_ext2_symlink_store_extends _ _ _ _ _ _ _ _ heq
              cases hr
              simp only at ht ⊢
              rw [ht]
              simp only [List.append_assoc, List.cons_append, List.nil_append]
              exact ⟨_, rfl⟩
            · rename_i heq
              obtain ⟨t, ht⟩ := fs_ext2_symlink_store_extends _ _ _ _ _ _ _ _ heq
              simp only at ht
              split at hr
              · cases hr
                simp only
                rw [ht]
                simp only [List.append_assoc, List.cons_append, List.nil_append]
                exact ⟨_, rfl⟩
              · cases hr
                simp only
                rw [ht]
                simp only [List.append_assoc, List.cons_append, List.nil_append]
                exact ⟨_, rfl⟩

theorem fs_ext2_stat_rlink_witness :
    ∃ st, (fs_ext2_stat (io_env 0 0 0) (cstr "/l") AT_SYMLINK_NOFOLLOW 0 []).2.2.1 = some st ∧
      st.st_ino = 2 ∧ st.st_nlink = 1 :=
  (fs_ext2_stat_rlink (io_env 0 0 0) (cstr "/l") AT_SYMLINK_NOFOLLOW 0 []).2.1 rfl

theorem fs_ext2_read_loop_returns (E : ext2_io_env) (inode : Nat) (hbs : 0 < E.block_size) :
    ∀ (fuel ptr boff cnt : Nat) (errno : Int) (h : List ext2_op), cnt < fuel →
      ∃ r, fs_ext2_read_loop E inode fuel ptr boff cnt errno h = some r := by
  intro fuel
  induction fuel with
  | zero => intro ptr boff cnt errno h hf; exact absurd hf (Nat.not_lt_zero _)
  | succ fuel ih =>
    intro ptr boff cnt errno h hf
    unfold fs_ext2_read_loop
    split
    · exact ⟨_, rfl⟩
    · split
      · exact ⟨_, rfl⟩
      · split
        · exact ih _ _ _ _ _ (by omega)
        · exact ⟨_, rfl⟩

theorem fs_ext2_read_cnt_past_end (sz ptr cnt : Nat) (hcnt : cnt < 2 ^ 32) (hp : ptr < 2 ^ 63)
    (hpast : sz < ptr) (hnear : ptr - sz < 2 ^ 32) :
    fs_ext2_read_cnt sz ptr cnt = 2 ^ 32 - (ptr - sz) := by
  unfold fs_ext2_read_cnt
  have h1 : u64 (ptr + cnt) = ptr + cnt := Nat.mod_eq_of_lt (by omega)
  rw [h1, if_pos (by omega)]
  unfold sub64 u64 u32
  rw [Nat.mod_eq_of_lt (show ptr < 2 ^ 64 by omega),
    Nat.mod_eq_of_lt (show sz + (2 ^ 64 - ptr) < 2 ^ 64 by omega)]
  omega

theorem i32_ne_zero (x : Nat) (h0 : 0 < x) (h1 : x < 2 ^ 32) : i32 x ≠ 0 := by
  unfold i32
  omega

/-- For every engine with a non-zero block size: a read through a readable handle whose
cursor is past the end of the file, by less than `2 ^ 32` bytes, does not return 0, for
any requested count. -/
theorem fs_ext2_read_past_end_nonzero (E : ext2_io_env) (f : ext2_fh_t) (fd cnt : Nat)
    (errno : Int) (h : List ext2_op) (hfd : fd < MAX_EXT2_FILES) (hnum : f.inode_num ≠ 0)
    (hmode : f.mode &&& O_MODE_MASK = O_RDONLY ∨ f.mode &&& O_MODE_MASK = O_RDWR)
    (hdir : f.mode &&& O_DIR = 0) (hbs : 0 < E.block_size) (hcnt : cnt < 2 ^ 32)
    (hp : f.ptr < 2 ^ 63)
    (hpast : E.inode_size (h ++ [ext2_op.mutex_lock]) f.inode < f.ptr)
    (hnear : f.ptr - E.inode_size (h ++ [ext2_op.mutex_lock]) f.inode < 2 ^ 32) :
    ∃ r, fs_ext2_read E f fd cnt errno h = some r ∧ r.1 ≠ 0 := by
  have hc := fs_ext2_read_cnt_past_end _ _ cnt hcnt hp hpast hnear
  unfold fs_ext2_read
  have c1 : ¬ (fd ≥ MAX_EXT2_FILES ∨ f.inode_num = 0) := by
    intro hh
    rcases hh with hh | hh
    · exact absurd hfd (Nat.not_lt.mpr hh)
    · exact hnum hh
  have c2 : ¬ (f.mode &&& O_MODE_MASK ≠ O_RDONLY ∧ f.mode &&& O_MODE_MASK ≠ O_RDWR) := by
    intro hh
    rcases hmode with e | e
    · exact hh.1 e
    · exact hh.2 e
  rw [if_neg c1, if_neg c2, if_neg (fun hh => hh hdir)]
  simp only
  split
  · exact ⟨_, rfl, (by decide : (-1 : Int) ≠ 0)⟩
  · rename_i ptr1 boff cnt2 e1 h1 heq
    obtain ⟨r, hr⟩ := fs_ext2_read_loop_returns E f.inode hbs (cnt2 + 1) ptr1 boff cnt2 e1 h1
      (Nat.lt_succ_self _)
    rw [hr]
    obtain ⟨b, ptr2, e2, h2⟩ := r
    cases b
    · exact ⟨_, rfl, (by decide : (-1 : Int) ≠ 0)⟩
    · refine ⟨_, rfl, ?_⟩
      simp only
      rw [hc]
      exact i32_ne_zero _ (by omega) (by omega)

/-! ## C39: `fs_ext2_read` at and past the end of the file -/

set_option maxRecDepth 1000000 in
/-- C39 fails on the code for a cursor past the end of the file.  On the engine
`io_env 10 1 0` the file has 10 bytes and one block of 1024 bytes.  With the cursor at
20, a read of 5 bytes computes the count `sz - fh[fd].ptr` in unsigned arithmetic, which
is `2 ^ 32 - 10` as a `size_t`, copies the 1004 bytes from offset 20 to the end of the
first block into the buffer of the caller, moves the cursor to 1024, and returns -1 when
the read of the second block fails; the bound `max(0, S - p)` is 0.  With the cursor at
the size the read returns 0 and copies no byte, and with the cursor at 2 a read of 50
bytes copies and returns the 8 bytes that are left. -/
theorem fs_ext2_read_past_end_copies :
    fs_ext2_read_cnt 10 20 5 = 2 ^ 32 - 10 ∧
    (fs_ext2_read (io_env 10 1 0) { inode_num := 12, mode := O_RDONLY, ptr := 20, inode := 200 }
      0 5 0 []).map (fun r => (r.1, r.2.1, r.2.2.1.ptr)) = some (-1, EINVAL, 1024) ∧
    (fs_ext2_read (io_env 10 1 0) { inode_num := 12, mode := O_RDONLY, ptr := 20, inode := 200 }
      0 5 0 []).map (fun r => r.2.2.2) =
      some [ext2_op.mutex_lock, ext2_op.inode_read_block 200 0,
        ext2_op.memcpy_out 0 1000 20 1004, ext2_op.inode_read_block 200 1,
        ext2_op.mutex_unlock] ∧
    (fs_ext2_read (io_env 10 1 0) { inode_num := 12, mode := O_RDONLY, ptr := 20, inode := 200 }
      0 5 0 []).map (fun r => bytes_out r.2.2.2) = some 1004 ∧
    (fs_ext2_read (io_env 10 1 0) { inode_num := 12, mode := O_RDONLY, ptr := 10, inode := 200 }
      0 5 0 []).map (fun r => (r.1, bytes_out r.2.2.2)) = some (0, 0) ∧
    (fs_ext2_read (io_env 10 1 0) { inode_num := 12, mode := O_RDONLY, ptr := 2, inode := 200 }
      0 50 0 []).map (fun r => (r.1, bytes_out r.2.2.2)) = some (8, 8) := by
  decide

/-! ## C40: the hole fill of `fs_ext2_write` -/

set_option maxRecDepth 1000000 in
/-- C40 fails on the code when the size is not a multiple of the block size.  After the
tail of the last block has been zeroed, the code sets `sz` to `(sz & (bs - 1)) + bs`
and not to the next multiple of the block size.  On an engine with blocks of 1024 bytes:
for the size 2148 and the cursor 5000 the blocks from `ceil(2148 / 1024) = 3` to
`floor(4999 / 1024) = 4` are missing, and the hole fill calls `ext2_inode_alloc_block`
for the logical blocks 1, 2, 3 and 4, the first two of which are allocated already; for
the size 100 and the cursor 2098 the blocks 1 and 2 are missing, and it calls
`ext2_inode_alloc_block` for block 1 only.  For the sizes 1024 and 0 and the cursor
3000 the calls are those for the missing blocks.  In each case the new size is the
cursor. -/
theorem fs_ext2_write_hole_fill_indices :
    (fs_ext2_write_hole (io_env 2148 8 8) 200 5000 2148 0 []).map (fun r => r.2.2) =
      some [ext2_op.inode_read_block 200 2, ext2_op.memset_block 1002 100 924,
        ext2_op.block_mark_dirty 502, ext2_op.inode_alloc_block 200 1,
        ext2_op.inode_alloc_block 200 2, ext2_op.inode_alloc_block 200 3,
        ext2_op.inode_alloc_block 200 4, ext2_op.inode_set_size 200 5000] ∧
    (2148 + 1024 - 1) / 1024 = 3 ∧ (5000 - 1) / 1024 = 4 ∧
    (fs_ext2_write (io_env 2148 8 8) { inode_num := 12, mode := O_WRONLY, ptr := 5000, inode := 200 }
      0 (fun _ => 65) 1 77 0 0 []).map (fun r => (r.1, alloc_indices r.2.2.2)) =
      some (1, [1, 2, 3, 4]) ∧
    (fs_ext2_write_hole (io_env 100 8 8) 200 2098 100 0 []).map (fun r => r.2.2) =
      some [ext2_op.inode_read_block 200 0, ext2_op.memset_block 1000 100 924,
        ext2_op.block_mark_dirty 500, ext2_op.inode_alloc_block 200 1,
        ext2_op.inode_set_size 200 2098] ∧
    (100 + 1024 - 1) / 1024 = 1 ∧ (2098 - 1) / 1024 = 2 ∧
    (fs_ext2_write (io_env 100 8 8) { inode_num := 12, mode := O_WRONLY, ptr := 2098, inode := 200 }
      0 (fun _ => 65) 1 77 0 0 []).map (fun r => (r.1, alloc_indices r.2.2.2)) =
      some (1, [1]) ∧
    (fs_ext2_write_hole (io_env 1024 8 8) 200 3000 1024 0 []).map
      (fun r => alloc_indices r.2.2) = some [1, 2] ∧
    (fs_ext2_write_hole (io_env 0 8 8) 200 3000 0 0 []).map
      (fun r => alloc_indices r.2.2) = some [0, 1, 2] := by
  decide

set_option maxRecDepth 100000 in
/-- With the true positions, `fat_erase_dentry` also frees a long name: in the root
directory of `vol_floppy`, after `fat_add_dentry` of "A very long filename.txt", the two
long records are at offsets 0 and 32 of sector 19 and the short record at offset 64;
`fat_erase_dentry` returns 0, stores `0xE5` in `name[0]` of the three records, leaves
their second bytes and the end-of-directory marker after them alone, and marks the
sector as dirty.  On `vol12`, whose root directory has one sector, the stores are the
same but the return value is `-EIO`. -/
theorem fat_erase_dentry_long_chain :
    (List.range 4).map (fun k =>
      cluster_byte (dir_added { dir12 with fs := vol_floppy }
        (cstr "A very long filename.txt")).fs 0x80000013 (32 * k)) =
      [some 0x42, some 0x01, some 0x41, some 0] ∧
    (fat_erase_dentry 8 (dir_added { dir12 with fs := vol_floppy }
      (cstr "A very long filename.txt")).fs 0x80000013 64 0x80000013 0 0).map Prod.fst =
      some 0 ∧
    (fat_erase_dentry 8 (dir_added { dir12 with fs := vol_floppy }
      (cstr "A very long filename.txt")).fs 0x80000013 64 0x80000013 0 0).map
      (fun r => (List.range 4).map (fun k => cluster_byte r.2 0x80000013 (32 * k))) =
      some [some 0xE5, some 0xE5, some 0xE5, some 0] ∧
    (fat_erase_dentry 8 (dir_added { dir12 with fs := vol_floppy }
      (cstr "A very long filename.txt")).fs 0x80000013 64 0x80000013 0 0).map
      (fun r => (List.range 4).map (fun k => cluster_byte r.2 0x80000013 (32 * k + 1))) =
      some ((List.range 4).map (fun k =>
        cluster_byte (dir_added { dir12 with fs := vol_floppy }
          (cstr "A very long filename.txt")).fs 0x80000013 (32 * k + 1))) ∧
    (fat_erase_dentry 8 (dir_added { dir12 with fs := vol_floppy }
      (cstr "A very long filename.txt")).fs 0x80000013 64 0x80000013 0 0).map
      (fun r => cluster_dirty r.2 0x80000013) = some true ∧
    (fat_erase_dentry 8 (dir_added dir12 (cstr "A very long filename.txt")).fs 0x80000005 64
      0x80000005 0 0).map Prod.fst = some (- EIO) ∧
    (fat_erase_dentry 8 (dir_added dir12 (cstr "A very long filename.txt")).fs 0x80000005 64
      0x80000005 0 0).map
      (fun r => (List.range 4).map (fun k => cluster_byte r.2 0x80000005 (32 * k))) =
      some [some 0xE5, some 0xE5, some 0xE5, some 0] := by
  decide!

/-! ## `create_shortname` and a directory search that fails -/

theorem fat_cluster_read_err (fs : fat_fs_t) (cl : Nat) (err : Int) :
    (fat_cluster_read fs cl err).1 = (fat_cluster_read fs cl 0).1 ∧
    (fat_cluster_read fs cl err).2.2.1 = (fat_cluster_read fs cl 0).2.2.1 := by
  unfold fat_cluster_read
  cases bcache_scan fs cl fs.cache_size with
  | some i => exact ⟨rfl, rfl⟩
  | none =>
    simp only []
    by_cases h : (bcache_evict fs).1 ≠ 0
    · rw [if_pos h, if_pos h]
      exact ⟨rfl, rfl⟩
    · rw [if_neg h, if_neg h]
      unfold bcache_fill
      split_ifs <;> exact ⟨rfl, rfl⟩

theorem scan_skips_none (fs : fat_fs_t) (fn : List Nat) (p cluster : Nat) :
    ∀ n i, scan_skips fs p n i = true → fat_search_dir_scan fs fn p cluster n i = none := by
  intro n
  induction n with
  | zero => intro i _; rfl
  | succ n ih =>
    intro i h
    simp only [scan_skips] at h
    simp only [fat_search_dir_scan]
    by_cases c1 : peek fs p (i <<< 5) = FAT_ENTRY_EOD
    · rw [if_pos c1] at h; cases h
    · rw [if_neg c1] at h ⊢
      by_cases c2 : peek fs p (i <<< 5) = FAT_ENTRY_FREE
      · rw [if_pos c2] at h ⊢
        exact ih _ h
      · rw [if_neg c2] at h ⊢
        by_cases c3 : FAT_IS_LONG_NAME fs p (i <<< 5)
        · rw [if_pos c3] at h ⊢
          exact ih _ h
        · rw [if_neg c3] at h; cases h

/-- A search of the root directory that passes over `k` sectors and then fails to read
the next one returns `-EIO`, whatever the name, in the state after these reads. -/
theorem fat_search_dir_loop_read_fails (fn : List Nat) (max : Nat) :
    ∀ (k f : Nat) (t : fat_fs_t) (cl j : Nat) (err : Int),
      root_reads_fail max k t cl j = true →
      fat_search_dir_loop fn max (k + 1 + f) t cl j err =
        some (- EIO, none, root_reads_state k t cl) := by
  intro k
  induction k with
  | zero =>
    intro f t cl j err h
    simp only [root_reads_fail, decide_eq_true_eq] at h
    have e := fat_cluster_read_err t cl err
    rw [h] at e
    rw [show 0 + 1 + f = f + 1 by omega]
    simp only [fat_search_dir_loop, root_reads_state]
    rcases hr : fat_cluster_read t cl err with ⟨a, b, c, d⟩
    simp only [hr] at e
    obtain ⟨e1, e2⟩ := e
    subst e1
    simp only [e2]
  | succ k ih =>
    intro f t cl j err h
    simp only [root_reads_fail] at h
    have e := fat_cluster_read_err t cl err
    rw [show k + 1 + 1 + f = (k + 1 + f) + 1 by omega]
    simp only [fat_search_dir_loop, root_reads_state]
    cases hp : (fat_cluster_read t cl 0).1 with
    | none => rw [hp] at h; cases h
    | some p =>
      rw [hp] at h e
      simp only [Bool.and_eq_true, decide_eq_true_eq] at h
      obtain ⟨⟨⟨h1, h2⟩, h3⟩, h4⟩ := h
      rcases hr : fat_cluster_read t cl err with ⟨a, b, c, d⟩
      simp only [hr] at e
      obtain ⟨e1, e2⟩ := e
      subst e1
      subst e2
      simp only [scan_skips_none _ fn p cl max 0 h1]
      rw [if_neg h2, if_neg h3]
      exact ih f _ _ _ _ h4

theorem fat_cluster_read_hit (t : fat_fs_t) (cl : Nat) (err : Int) (i : Nat)
    (h : bcache_scan t cl t.cache_size = some i) :
    (fat_cluster_read t cl err).2.2.1 = { t with bcache := make_mru t t.bcache i } := by
  unfold fat_cluster_read
  rw [h]

theorem fat_cluster_read_evict_fails (t : fat_fs_t) (cl : Nat) (err : Int)
    (h : bcache_scan t cl t.cache_size = none) (h2 : (bcache_evict t).1 ≠ 0) :
    (fat_cluster_read t cl err).2.2.1 = t := by
  unfold fat_cluster_read
  rw [h]
  simp only []
  rw [if_pos h2]
  simp only []
  unfold bcache_evict at h2 ⊢
  by_cases hd : (t.mem (t.bcache 0)).flags &&& FAT_CACHE_FLAG_DIRTY ≠ 0
  · rw [if_pos hd] at h2 ⊢
    simp only [] at h2 ⊢
    rw [cluster_writer_dev.dev_fail _ _ _ h2]
  · rw [if_neg hd] at h2
    exact absurd rfl h2

theorem mru_src_8_1_cycle (j : Nat) :
    mru_src 8 1 (mru_src 8 1 (mru_src 8 1 (mru_src 8 1 (mru_src 8 1 (mru_src 8 1
      (mru_src 8 1 j)))))) = j := by
  by_cases hj : j < 8
  · interval_cases j <;> rfl
  · have e : mru_src 8 1 j = j := by
      unfold mru_src
      rw [if_neg (by omega), if_neg (by omega), if_neg (by omega), if_neg (by omega)]
    rw [e, e, e, e, e, e, e]

theorem fat_fs_t_ext (a b : fat_fs_t) (h1 : a.dev = b.dev) (h2 : a.sb = b.sb)
    (h3 : a.mem = b.mem) (h4 : a.bcache = b.bcache) (h5 : a.cache_size = b.cache_size)
    (h6 : a.fcache = b.fcache) (h7 : a.fcache_size = b.fcache_size) (h8 : a.flags = b.flags)
    (h9 : a.mnt_flags = b.mnt_flags) : a = b := by
  cases a
  cases b
  simp only at h1 h2 h3 h4 h5 h6 h7 h8 h9
  subst h1 h2 h3 h4 h5 h6 h7 h8 h9
  rfl

theorem mru1_seven (t : fat_fs_t) (h : t.cache_size = 8) :
    mru1 (mru1 (mru1 (mru1 (mru1 (mru1 (mru1 t)))))) = t := by
  apply fat_fs_t_ext
  case h4 =>
    funext j
    simp only [mru1, make_mru_apply, h]
    rw [mru_src_8_1_cycle]
  all_goals simp only [mru1]

set_option maxRecDepth 1000000 in
/-- The state after the first search of `create_shortname` is a fixed point of the
search: the reads of the sectors 21 to 27 are hits in slot 1, which rotate the slots 1
to 7 once around, and the read of sector 28 ends in the failed write of the record in
slot 0. -/
theorem deleted_stuck_fixed : root_reads_state 7 deleted_stuck 0x80000015 = deleted_stuck := by
  have c : deleted_stuck.cache_size = 8 := by decide
  have e1 : (fat_cluster_read deleted_stuck 0x80000015 0).2.2.1 = mru1 deleted_stuck :=
    fat_cluster_read_hit _ _ _ 1 (by decide)
  have e2 : (fat_cluster_read (mru1 deleted_stuck) 0x80000016 0).2.2.1 =
      mru1 (mru1 deleted_stuck) :=
    fat_cluster_read_hit _ _ _ 1 (by decide)
  have e3 : (fat_cluster_read (mru1 (mru1 deleted_stuck)) 0x80000017 0).2.2.1 =
      mru1 (mru1 (mru1 deleted_stuck)) :=
    fat_cluster_read_hit _ _ _ 1 (by decide)
  have e4 : (fat_cluster_read (mru1 (mru1 (mru1 deleted_stuck))) 0x80000018 0).2.2.1 =
      mru1 (mru1 (mru1 (mru1 deleted_stuck))) :=
    fat_cluster_read_hit _ _ _ 1 (by decide)
  have e5 : (fat_cluster_read (mru1 (mru1 (mru1 (mru1 deleted_stuck)))) 0x80000019 0).2.2.1 =
      mru1 (mru1 (mru1 (mru1 (mru1 deleted_stuck)))) :=
    fat_cluster_read_hit _ _ _ 1 (by decide)
  have e6 : (fat_cluster_read (mru1 (mru1 (mru1 (mru1 (mru1 deleted_stuck)))))
      0x8000001A 0).2.2.1 = mru1 (mru1 (mru1 (mru1 (mru1 (mru1 deleted_stuck))))) :=
    fat_cluster_read_hit _ _ _ 1 (by decide)
  have e7 : (fat_cluster_read (mru1 (mru1 (mru1 (mru1 (mru1 (mru1 deleted_stuck))))))
      0x8000001B 0).2.2.1 = mru1 (mru1 (mru1 (mru1 (mru1 (mru1 (mru1 deleted_stuck)))))) :=
    fat_cluster_read_hit _ _ _ 1 (by decide)
  have e8 : (fat_cluster_read deleted_stuck 0x8000001C 0).2.2.1 = deleted_stuck :=
    fat_cluster_read_evict_fails _ _ _ (by decide) (by decide)
  have u : ∀ k, k < 8 → u32 (0x80000015 + k + 1) = 0x80000015 + k + 1 := by decide
  show root_reads_state 0
    (fat_cluster_read (fat_cluster_read (fat_cluster_read (fat_cluster_read (fat_cluster_read
      (fat_cluster_read (fat_cluster_read deleted_stuck 0x80000015 0).2.2.1
        (u32 (0x80000015 + 1)) 0).2.2.1
        (u32 (u32 (0x80000015 + 1) + 1)) 0).2.2.1
        (u32 (u32 (u32 (0x80000015 + 1) + 1) + 1)) 0).2.2.1
        (u32 (u32 (u32 (u32 (0x80000015 + 1) + 1) + 1) + 1)) 0).2.2.1
        (u32 (u32 (u32 (u32 (u32 (0x80000015 + 1) + 1) + 1) + 1) + 1)) 0).2.2.1
        (u32 (u32 (u32 (u32 (u32 (u32 (0x80000015 + 1) + 1) + 1) + 1) + 1) + 1)) 0).2.2.1
    (u32 (u32 (u32 (u32 (u32 (u32 (u32 (0x80000015 + 1) + 1) + 1) + 1) + 1) + 1) + 1)) =
    deleted_stuck
  have v1 : u32 (0x80000015 + 1) = 0x80000016 := by decide
  have v2 : u32 (0x80000016 + 1) = 0x80000017 := by decide
  have v3 : u32 (0x80000017 + 1) = 0x80000018 := by decide
  have v4 : u32 (0x80000018 + 1) = 0x80000019 := by decide
  have v5 : u32 (0x80000019 + 1) = 0x8000001A := by decide
  have v6 : u32 (0x8000001A + 1) = 0x8000001B := by decide
  have v7 : u32 (0x8000001B + 1) = 0x8000001C := by decide
  rw [v1, v2, v3, v4, v5, v6, v7, e1, e2, e3, e4, e5, e6, e7, mru1_seven _ c]
  exact e8

/-- In a state in which every search fails with the same error and leaves the state
alone, the loop of `create_shortname` runs out of candidates and returns `-ENOSPC`. -/
theorem create_shortname_loop_stuck (fuel : Nat) (parent : fat_dentry_t) (err : Int)
    (s : fat_fs_t) (rc : Int) (hrc : rc ≠ -ENOENT)
    (hs : ∀ fn, fat_find_child2 fuel s fn parent err = some (rc, s)) :
    ∀ (n : Nat) (out : List Nat) (tail : Nat), 1 ≤ n → 1000000 ≤ tail + n →
      ∃ out2, create_shortname_loop fuel parent err n s out tail = some (-ENOSPC, out2, s) := by
  intro n
  induction n with
  | zero => intro out tail h; omega
  | succ n ih =>
    intro out tail _ h
    simp only [create_shortname_loop]
    by_cases c : tail + 1 < 1000000
    · rw [if_neg (not_not.mpr c), hs]
      simp only []
      rw [if_neg hrc]
      exact ih _ _ (by omega) (by omega)
    · rw [if_pos c]
      exact ⟨_, rfl⟩

/-- A search of the root directory by `fat_find_child2` that passes over `k` sectors and
then fails to read the next one returns `-EIO` for every name. -/
theorem fat_find_child2_read_fails (fuel k f : Nat) (t : fat_fs_t) (fn : List Nat)
    (parent : fat_dentry_t) (err : Int) (cl max : Nat) (hf : fuel = k + 1 + f)
    (hc : dentry_cluster parent = cl) (hm : dir_max t cl = max)
    (h : root_reads_fail max k t cl 0 = true) :
    fat_find_child2 fuel t fn parent err = some (- EIO, root_reads_state k t cl) := by
  unfold fat_find_child2 fat_search_dir
  rw [hf, hc, hm, fat_search_dir_loop_read_fails fn max k f t cl 0 err h]

set_option maxRecDepth 1000000 in
/-- The first search of `create_shortname` in the state `deleted_at_create` returns
`-EIO` for every name: it reads the sectors 21 to 27, which hold deleted entries only,
and the read of sector 28 has to write back the dirty record of cluster 3 first, which
the device rejects. -/
theorem deleted_first_search (fn : List Nat) (err : Int) :
    fat_find_child2 40 deleted_at_create fn (root_dentry deleted_lookup.fs) err =
      some (- EIO, deleted_stuck) :=
  fat_find_child2_read_fails 40 7 32 deleted_at_create fn (root_dentry deleted_lookup.fs) err
    0x80000015 16 rfl (by decide) (by decide) (by decide)

set_option maxRecDepth 1000000 in
/-- Every later search returns `-EIO` as well and leaves the state as it is. -/
theorem deleted_later_search (fn : List Nat) (err : Int) :
    fat_find_child2 40 deleted_stuck fn (root_dentry deleted_lookup.fs) err =
      some (- EIO, deleted_stuck) :=
  (fat_find_child2_read_fails 40 7 32 deleted_stuck fn (root_dentry deleted_lookup.fs) err
    0x80000015 16 rfl (by decide) (by decide) (by decide)).trans
    (congrArg (fun s => some (- EIO, s)) deleted_stuck_fixed)

/-- When the first search of `create_shortname` fails and leaves a state in which every
search fails, `create_shortname` returns `-ENOSPC` for every name that its first loop
accepts. -/
theorem create_shortname_stuck (fuel : Nat) (L : libc_t) (s0 s : fat_fs_t) (fn : List Nat)
    (parent : fat_dentry_t) (err : Int) (rc0 rc : Int) (hrc0 : rc0 ≠ -ENOENT)
    (hrc : rc ≠ -ENOENT)
    (h0 : ∀ name, fat_find_child2 fuel s0 name parent err = some (rc0, s))
    (hs : ∀ name, fat_find_child2 fuel s name parent err = some (rc, s))
    (hch : (create_shortname_chars L.signed_char fn.length fn
      { fnc := [], has_ext := 0, last_period := -1, found_char := false }).isSome = true) :
    ∃ out, create_shortname fuel L s0 fn parent err = some (-ENOSPC, some out, s) := by
  unfold create_shortname
  cases hb : create_shortname_chars L.signed_char fn.length fn
    { fnc := [], has_ext := 0, last_period := -1, found_char := false } with
  | none => rw [hb] at hch; cases hch
  | some b =>
    simp only []
    have e : ∀ n, create_shortname_loop fuel parent err (n + 1) s0
        (normalize_shortname (create_shortname_denorm b)) 0 =
        create_shortname_loop fuel parent err n s
          (create_shortname_tail (normalize_shortname (create_shortname_denorm b)) 1) 1 := by
      intro n
      simp only [create_shortname_loop]
      rw [if_neg (by decide), h0]
      simp only []
      rw [if_neg hrc0]
    obtain ⟨out, ho⟩ := create_shortname_loop_stuck fuel parent err s rc hrc hs 999999
      (create_shortname_tail (normalize_shortname (create_shortname_denorm b)) 1) 1
      (by decide) (by decide)
    have e2 := e 999999
    rw [show (999999 + 1 : Nat) = 1000000 from rfl] at e2
    rw [e2, ho]
    exact ⟨out, rfl⟩

theorem option_triple_eq {A B C : Type} (x : Option (A × B × C)) (a : A) (b : B) (c0 : C)
    (h : x.map (fun r => (r.1, r.2.1)) = some (a, b)) :
    x = some (a, b, (x.map (fun r => r.2.2)).getD c0) := by
  cases x with
  | none => cases h
  | some r =>
    obtain ⟨r1, r2, r3⟩ := r
    simp only [Option.map_some', Option.some.injEq, Prod.mk.injEq] at h
    obtain ⟨h1, h2⟩ := h
    subst h1 h2
    rfl

theorem prod3_eq {A B C : Type} (x : A × B × C) (a : A) (h : x.1 = a) :
    x = (a, x.2.1, x.2.2) := by
  obtain ⟨r1, r2, r3⟩ := x
  cases h
  rfl

theorem prod4_eq {A B C D : Type} (x : A × B × C × D) (a : A) (h : x.1 = a) :
    x = (a, x.2.1, x.2.2.1, x.2.2.2) := by
  obtain ⟨r1, r2, r3, r4⟩ := x
  cases h
  rfl

theorem utf8_converted (x : Option (Int × (Nat → Nat)))
    (h : (match x with
      | some (rc, lb2) => decide (rc = 0) && (fat_strlen_ucs2 lb2 0 257 0).isSome
      | none => false) = true) :
    ∃ lb2 len, x = some (0, lb2) ∧ fat_strlen_ucs2 lb2 0 257 0 = some len := by
  cases x with
  | none => cases h
  | some r =>
    obtain ⟨rc, lb2⟩ := r
    simp only [Bool.and_eq_true, decide_eq_true_eq] at h
    obtain ⟨h1, h2⟩ := h
    subst h1
    obtain ⟨len, hl⟩ := Option.isSome_iff_exists.mp h2
    exact ⟨lb2, len, rfl, hl⟩

/-- An error of `create_shortname` is the return value of `fat_add_dentry`. -/
theorem fat_add_dentry_shortname_error (fuel : Nat) (L : libc_t) (d : fat_dir_t)
    (fn : List Nat) (parent : fat_dentry_t) (attr cluster : Nat) (err : Int) (rc : Int)
    (comp : List Nat) (fs1 : fat_fs_t)
    (h1 : is_component_short fn = false) (h2 : ¬ fn.length > 255)
    (h3 : ∃ lb2 len, fat_utf8_to_ucs2 d.longname_buf2 (arr_of fn) 256 fn.length = some (0, lb2) ∧
      fat_strlen_ucs2 lb2 0 257 0 = some len)
    (h4 : create_shortname fuel L d.fs fn parent err = some (rc, some comp, fs1))
    (h5 : rc < 0) :
    ∃ d2, fat_add_dentry fuel L d fn parent attr cluster err =
      some (rc, added_t.mk none none none none, d2) ∧ d2.fs = fs1 := by
  obtain ⟨lb2, len, e1, e2⟩ := h3
  unfold fat_add_dentry
  rw [h1, if_neg (by decide), if_neg h2, e1]
  simp only []
  rw [if_neg (by decide), e2]
  simp only [h4]
  rw [if_pos h5]
  exact ⟨_, rfl, rfl⟩

/-- An error of `fat_add_dentry` is the return value of `fat_create_entry`. -/
theorem fat_create_entry_add_fails (fuel : Nat) (L : libc_t) (d : fat_dir_t) (fn : List Nat)
    (attr : Nat) (err : Int) (pfn nfn : List Nat) (p : lookup_t) (d1 : fat_dir_t)
    (x : Option lookup_t) (d2 : fat_dir_t) (cl : Nat) (err3 : Int) (fs3 : fat_fs_t) (pp : Nat)
    (err4 : Int) (fs4 : fat_fs_t) (rq : List dev_req) (rc5 : Int) (fs5 : fat_fs_t)
    (hs : strrchr_split 47 fn = some (pfn, nfn))
    (h1 : fat_find_dentry fuel L d pfn err = some (0, some p, d1))
    (hd : ¬ p.rv.attr &&& FAT_ATTR_DIRECTORY = 0)
    (h2 : fat_find_child fuel L d1 nfn p.rv err = some (-ENOENT, x, d2))
    (h3 : fat_allocate_cluster d2.fs (-ENOENT) = (cl, err3, fs3))
    (hcl : cl ≠ FAT_INVALID_CLUSTER)
    (h4 : fat_cluster_clear fs3 cl err3 = (some pp, err4, fs4, rq))
    (h5 : ∃ d5, fat_add_dentry fuel L { d2 with fs := fs4 } nfn p.rv attr cl err4 =
      some (rc5, added_t.mk none none none none, d5) ∧ d5.fs = fs5)
    (hrc : rc5 < 0) (h6 : (fat_erase_chain fuel fs5 cl).isSome = true) :
    ∃ d6, fat_create_entry fuel L d fn attr err =
      some (rc5, added_t.mk none none none none, d6) := by
  obtain ⟨d5, e5, e6⟩ := h5
  subst e6
  obtain ⟨r6, hr6⟩ := Option.isSome_iff_exists.mp h6
  obtain ⟨r61, r62⟩ := r6
  unfold fat_create_entry
  simp only [hs, h1]
  rw [if_neg (by decide), if_neg hd]
  simp only [h2]
  rw [if_neg (by simp)]
  simp only [h3]
  rw [if_neg hcl]
  simp only [h4, e5]
  rw [if_pos hrc]
  simp only [hr6]
  exact ⟨_, rfl⟩

/-- An error of `fat_create_entry` makes `fs_fat_open` return `NULL` with that error in
`errno`. -/
theorem fs_fat_open_create_fails (fuel : Nat) (L : libc_t) (v : fat_vfs_t) (fn : List Nat)
    (mode fd : Nat) (r : Option lookup_t) (d1 : fat_dir_t) (rv2 : Int)
    (hm : ¬ (mode &&& (O_TRUNC ||| O_WRONLY ||| O_RDWR) ≠ 0 ∧
      v.mount_flags &&& FS_FAT_MOUNT_READWRITE = 0))
    (hf : fh_find_free v.fh MAX_FAT_FILES 0 = some fd)
    (h1 : fat_find_dentry fuel L v.d fn 0 = some (-ENOENT, r, d1))
    (hc : mode &&& O_CREAT ≠ 0)
    (h2 : ∃ d2, fat_create_entry fuel L d1 fn FAT_ATTR_ARCHIVE (-ENOENT) =
      some (rv2, added_t.mk none none none none, d2))
    (hrv : rv2 < 0) :
    ∃ v2, fs_fat_open fuel L v fn mode = some (none, v2) ∧ v2.errno = -rv2 := by
  obtain ⟨d2, e2⟩ := h2
  unfold fs_fat_open
  rw [if_neg hm]
  simp only [hf, h1]
  rw [if_pos (by decide), if_pos ⟨trivial, hc⟩]
  simp only [e2]
  rw [if_pos hrv]
  exact ⟨_, rfl, rfl⟩

theorem fat_find_dentry_root (fuel : Nat) (L : libc_t) (d : fat_dir_t) (err : Int) :
    fat_find_dentry fuel L d [] err =
      some (0, some (lookup_t.mk (root_dentry d.fs) 0 0 0 0), d) := rfl

/-- The call of `create_shortname` in the state `deleted_at_create` returns `-ENOSPC`
for every name that its first loop accepts, in the state `deleted_stuck`. -/
theorem deleted_create_shortname (err : Int) :
    ∃ out, create_shortname 40 libc_signed deleted_at_create long_name
      (root_dentry deleted_lookup.fs) err = some (-ENOSPC, some out, deleted_stuck) :=
  create_shortname_stuck 40 libc_signed deleted_at_create deleted_stuck long_name
    (root_dentry deleted_lookup.fs) err (- EIO) (- EIO) (by decide) (by decide)
    (fun name => deleted_first_search name err) (fun name => deleted_later_search name err)
    (by decide)

set_option maxRecDepth 1000000 in
/-- The call `fs_fat_open("/A very long filename.txt", O_WRONLY | O_CREAT)` on
`vfs_deleted` returns `NULL` with `errno = ENOSPC`. -/
theorem deleted_open_enospc :
    ∃ v2, fs_fat_open 40 libc_signed vfs_deleted (cstr "/A very long filename.txt")
      (O_WRONLY ||| O_CREAT) = some (none, v2) ∧ v2.errno = ENOSPC := by
  obtain ⟨out, ho⟩ := deleted_create_shortname
    (fat_cluster_clear (fat_allocate_cluster deleted_lookup2.fs (-ENOENT)).2.2 3
      (fat_allocate_cluster deleted_lookup2.fs (-ENOENT)).2.1).2.1
  have a := fat_add_dentry_shortname_error 40 libc_signed
    { deleted_lookup2 with fs := deleted_at_create } long_name (root_dentry deleted_lookup.fs)
    FAT_ATTR_ARCHIVE 3 _ (-ENOSPC) out deleted_stuck (by decide) (by decide)
    (utf8_converted _ (by decide)) ho (by decide)
  have c := fat_create_entry_add_fails 40 libc_signed deleted_lookup
    (cstr "/A very long filename.txt") FAT_ATTR_ARCHIVE (-ENOENT) [] long_name
    (lookup_t.mk (root_dentry deleted_lookup.fs) 0 0 0 0) deleted_lookup none deleted_lookup2
    3 _ _ 0 _ deleted_at_create _ (-ENOSPC) deleted_stuck (by decide)
    (fat_find_dentry_root _ _ _ _) (by decide)
    (option_triple_eq _ _ _ deleted_lookup (by decide))
    (prod3_eq _ 3 (by decide)) (by decide)
    (prod4_eq _ (some 0) (by decide)) a (by decide) (by decide)
  obtain ⟨v2, h1, h2⟩ := fs_fat_open_create_fails 40 libc_signed vfs_deleted
    (cstr "/A very long filename.txt") (O_WRONLY ||| O_CREAT) 0 none deleted_lookup (-ENOSPC)
    (by decide) (by decide) (option_triple_eq _ _ _ vfs_deleted.d (by decide)) (by decide) c
    (by decide)
  exact ⟨v2, h1, h2.trans (by decide)⟩

set_option maxRecDepth 1000000 in
/-- C24: `create_shortname` takes a directory search that fails for a collision, so that
it does not return the name with the smallest free `N`.  The volume `dev16_deleted` is a
write-protected FAT16 card whose root directory (sectors 21 to 28) holds deleted entries
only; it is mounted read-write with the default caches, and "/A very long filename.txt"
is opened with `O_WRONLY | O_CREAT`.  Both lookups return `-ENOENT`, cluster 3 is
allocated and cleared, and `create_shortname` is called in the state `deleted_at_create`:
the cluster cache holds the sectors 22 to 28 and, most recently used, the dirty record
of cluster 3.  No short entry exists, so `N = 1` is free: the search for "AVERYL~1TXT"
on the mounted volume returns `-ENOENT`, and on a device that accepts writes
`create_shortname` returns 0 with "AVERYL~1TXT".  On the card, each search reads the
sectors 21 to 27 and has to write back the record of cluster 3 to read sector 28; the
write is rejected and the search returns `-EIO`, for every candidate; `create_shortname`
goes through all 999999 candidates and returns `-ENOSPC`, and `fs_fat_open` returns
`NULL` with `errno = ENOSPC`. -/
theorem create_shortname_search_error_enospc :
    (fat_find_dentry 40 libc_signed vfs_deleted.d (cstr "/A very long filename.txt") 0).map
        (fun r => r.1) = some (-ENOENT) ∧
    (fat_find_child 40 libc_signed deleted_lookup long_name (root_dentry deleted_lookup.fs)
        (-ENOENT)).map (fun r => r.1) = some (-ENOENT) ∧
    (fat_allocate_cluster deleted_lookup2.fs (-ENOENT)).1 = 3 ∧
    bcache_ids deleted_at_create =
      [(0x80000016, 1), (0x80000017, 1), (0x80000018, 1), (0x80000019, 1), (0x8000001A, 1),
        (0x8000001B, 1), (0x8000001C, 1), (3, 3)] ∧
    (fat_find_child2 40 (mount_rw dev16_deleted) (cstr "AVERYL~1TXT")
        (root_dentry deleted_lookup.fs) 0).map (fun r => r.1) = some (-ENOENT) ∧
    (create_shortname 40 libc_signed (writable deleted_at_create) long_name
        (root_dentry deleted_lookup.fs) 0).map (fun r => (r.1, r.2.1)) =
      some (0, some (cstr "AVERYL~1TXT")) ∧
    (∀ err, (fat_find_child2 40 deleted_at_create (cstr "AVERYL~1TXT")
        (root_dentry deleted_lookup.fs) err).map (fun r => r.1) = some (- EIO)) ∧
    bcache_ids deleted_stuck =
      [(3, 3), (0x80000015, 1), (0x80000016, 1), (0x80000017, 1), (0x80000018, 1),
        (0x80000019, 1), (0x8000001A, 1), (0x8000001B, 1)] ∧
    (∀ err, ∃ out, create_shortname 40 libc_signed deleted_at_create long_name
        (root_dentry deleted_lookup.fs) err = some (-ENOSPC, some out, deleted_stuck)) ∧
    ∃ v2, fs_fat_open 40 libc_signed vfs_deleted (cstr "/A very long filename.txt")
      (O_WRONLY ||| O_CREAT) = some (none, v2) ∧ v2.errno = ENOSPC :=
  ⟨by decide, by decide, by decide, by decide, by decide, by decide,
    fun err => by rw [deleted_first_search]; rfl, by decide, deleted_create_shortname,
    deleted_open_enospc⟩

end KosFat
